import Mathlib

/-!
# Pixhawk3DWidget: per-vehicle state tracking and pose resolution

A shallow embedding of `src/ui/map3D/Pixhawk3DWidget.cc`.

Conventions of the embedding:

* a C++ `double` or `float` is the rational number it holds (`double := ℚ`):
  no NaN, no infinities.  The single-precision literal `0.01f` is the number
  it denotes, `5368709 / 536870912`, which lies `2.2e-10` below `1 / 100`;
* rounding is modelled, to nearest with ties to even (`toDouble`, `toFloat`),
  where the widget decides on a rounded value or stores or sends one: the
  differences tested against `0.01f` in `localPositionChanged`; the camera
  position cached in the `float` vector `mCameraPos` and the camera deltas
  taken from it; the target kept in a `float` `QVector4D`, its heading and
  the conversion of the heading to degrees; the vertices of the trail and of
  the link, which an `osg::Vec3Array` holds as `float`, with the `double`
  subtractions, the `QVector3D` operations and the loop counter that produce
  them.  Each operation rounds to its own type (`FLT_EVAL_METHOD` 0), and
  `qreal` is `double`, as in Qt 4 on a desktop.  All other arithmetic is
  exact, and a `double` literal there is the decimal number it is written as;
* a `UASInterface*` argument is `Option UAS`: `none` is the null pointer and
  `some u` is the pointee as the getters see it during the call;
* `QMap<int, V>` is a key-sorted association list, `QVector<T>` is a list
  together with its allocated capacity;
* the scene graph owned by `Q3DWidget` is kept as data: which nodes are
  attached to which group and with which switch value;
* a call on a collaborator that the widget does not read back (the camera of
  the 3D widget, a command or a waypoint edit sent to a vehicle, an emitted
  signal) is appended to `Widget.calls`;
* the blocks under `QGC_PROTOBUF_ENABLED` and `QGC_USE_PIXHAWK_MESSAGES` run
  when `Widget.pixhawkMessages` is set, which no handler changes;
* where the source dereferences a null pointer or reads a container out of
  range, the embedded function returns the state reached so far; the
  statements exclude such inputs where the conclusion would depend on what
  follows.
-/

namespace Pixhawk3DWidget

/-! ## Numbers and small vectors -/

/-- C++ `double` and `float` values, as the rational numbers they hold.  The
result of an operation is rounded where the embedding says so (`toDouble`,
`toFloat`); elsewhere it is the exact result. -/
abbrev double := ℚ

/-! ### Binary floating point

Round to nearest, ties to even, as IEEE 754 prescribes for the formats
`binary64` (`double`) and `binary32` (`float`), with gradual underflow.  The
exponent has no upper limit here: a result beyond the largest finite number
of a format, an infinity in the source, is kept as the number it is. -/

/-- `⌊log₂ n⌋` for `0 < n`, found by halving at most `fuel` times. -/
def log2Aux : Nat → Nat → Nat
  | 0, _ => 0
  | fuel + 1, n => if n < 2 then 0 else log2Aux fuel (n / 2) + 1

/-- `⌊log₂ n⌋` for `0 < n`. -/
def floorLog2 (n : Nat) : Nat := log2Aux n n

/-- The power `2^k` of an integer exponent. -/
def pow2 (k : Int) : ℚ :=
  if 0 ≤ k then ((2 ^ k.toNat : Nat) : ℚ) else 1 / ((2 ^ (-k).toNat : Nat) : ℚ)

/-- The binary exponent of a positive number `q`: the integer `e` with
`2^e ≤ q < 2^(e+1)`. -/
def binaryExponent (q : ℚ) : Int :=
  let e0 : Int := (floorLog2 q.num.natAbs : Int) - (floorLog2 q.den : Int)
  if pow2 e0 ≤ q then e0 else e0 - 1

/-- The integer nearest to `r`; of two nearest integers, the even one. -/
def roundHalfEven (r : ℚ) : Int :=
  let f := ⌊r⌋
  if r - f < 1 / 2 then f
  else if 1 / 2 < r - f then f + 1
  else if f % 2 = 0 then f else f + 1

/-- The number nearest to `q` in the binary format with `p` significant bits
whose least normal exponent is `emin`; of two nearest numbers, the one with
the even significand. -/
def roundBinary (p : Nat) (emin : Int) (q : ℚ) : ℚ :=
  if q = 0 then 0
  else
    let k := max (binaryExponent |q|) emin - ((p : Int) - 1)
    (roundHalfEven (q / pow2 k) : ℚ) * pow2 k

/-- The `double` nearest to `q`: the value of a `double` literal written as
`q`, and the result of a `double` operation whose exact result is `q`. -/
def toDouble (q : ℚ) : double := roundBinary 53 (-1022) q

/-- The `float` nearest to `q`: the conversion of a `double` to `float`, and
the result of a `float` operation whose exact result is `q`. -/
def toFloat (q : ℚ) : double := roundBinary 24 (-126) q

/-- `a + b` on `double`. -/
def dadd (a b : double) : double := toDouble (a + b)

/-- `a - b` on `double`. -/
def dsub (a b : double) : double := toDouble (a - b)

/-- `a * b` on `double`. -/
def dmul (a b : double) : double := toDouble (a * b)

/-- `a / b` on `double`, for `b ≠ 0`. -/
def ddiv (a b : double) : double := toDouble (a / b)

/-- `a + b` on `float`. -/
def fadd (a b : double) : double := toFloat (a + b)

/-- `a * b` on `float`. -/
def fmul (a b : double) : double := toFloat (a * b)

/-- The greatest number `r + m` with `m < 2^b` whose square is at most `n`,
for `r * r ≤ n`: the bits of the root below bit `b` are tried from the highest
down. -/
def sqrtAux (n : Nat) : Nat → Nat → Nat
  | 0, r => r
  | b + 1, r =>
    if (r + 2 ^ b) * (r + 2 ^ b) ≤ n then sqrtAux n b (r + 2 ^ b) else sqrtAux n b r

/-- `⌊√n⌋`. -/
def floorSqrt (n : Nat) : Nat := sqrtAux n (floorLog2 n / 2 + 1) 0

/-- The number nearest to `√q` in the binary format with `p` significant bits
and least normal exponent `emin` (`0` for `q ≤ 0`).  The integer part `m` of
the root is taken of `q` scaled by a power of four, `4^t`, for which `m` has
more than `p + 2` bits; a root that is not `m` itself lies strictly between
`m` and `m + 1`, where no number of the format and no midpoint of two of them
lies, and rounds as `m + 1/2` does. -/
def sqrtBinary (p : Nat) (emin : Int) (q : ℚ) : ℚ :=
  if q ≤ 0 then 0
  else
    let t : Int := (p : Int) + 2 - binaryExponent q / 2
    let n : Nat := ⌊q * pow2 (2 * t)⌋.toNat
    let m : Nat := floorSqrt n
    let s : ℚ :=
      if m * m = n ∧ (n : ℚ) = q * pow2 (2 * t) then (m : ℚ) else (m : ℚ) + 1 / 2
    roundBinary p emin (s / pow2 t)

/-- `sqrt(a)` on `double`. -/
def dsqrt (a : double) : double := sqrtBinary 53 (-1022) a

/-- The literal `0.01f` of `localPositionChanged`: the single-precision number
nearest to one hundredth, `10737418 * 2^-30`, promoted exactly to `double` by
the comparison. -/
def kTrailEpsilon : double := 5368709 / 536870912

/-- Absolute value `fabs`. -/
def fabs (a : double) : double := if a < 0 then -a else a

/-- `osg::Vec3d`. -/
structure Vec3d where
  x : double
  y : double
  z : double
deriving DecidableEq, Repr

instance : Inhabited Vec3d := ⟨⟨0, 0, 0⟩⟩

/-- The conversion of an `osg::Vec3d` to the `osg::Vec3f` that an
`osg::Vec3Array` holds. -/
def Vec3d.toVec3f (v : Vec3d) : Vec3d := ⟨toFloat v.x, toFloat v.y, toFloat v.z⟩

/-- `QVector3D` of Qt 4, where `qreal` is `double`: the coordinates are kept
as `float` and read back through `x()`, `y()`, `z()` as `double`. -/
structure QVector3D where
  x : double
  y : double
  z : double
deriving DecidableEq, Repr

/-- `QVector3D(xpos, ypos, zpos)` of the Qt library, which narrows the three
`qreal` arguments to `float`. -/
def QVector3D.ofDoubles (x y z : double) : QVector3D := ⟨toFloat x, toFloat y, toFloat z⟩

/-- `QVector4D` of Qt 4; the coordinates are kept as `float`, and a
default-constructed one is all zero. -/
structure QVector4D where
  x : double
  y : double
  z : double
  w : double
deriving DecidableEq, Repr

/-- `QVector4D(xpos, ypos, zpos, wpos)` of the Qt library, which narrows the
four `qreal` arguments to `float`. -/
def QVector4D.ofDoubles (x y z w : double) : QVector4D :=
  ⟨toFloat x, toFloat y, toFloat z, toFloat w⟩

/-- `QVector4D::setW(w)` of the Qt library, which narrows `w` to `float`. -/
def QVector4D.setW (v : QVector4D) (w : double) : QVector4D := { v with w := toFloat w }

/-- `QVector4D::isNull()` of the Qt library: all four coordinates are zero. -/
def QVector4D.isNull (v : QVector4D) : Bool := v.x = 0 ∧ v.y = 0 ∧ v.z = 0 ∧ v.w = 0

/-- `qFuzzyIsNull(d)` of the Qt library on `double`: `qAbs(d) <= 0.000000000001`. -/
def qFuzzyIsNull (d : double) : Bool := fabs d ≤ toDouble (1 / 1000000000000)

/-- `QVector3D::length()` of Qt 4: `qSqrt(xp * xp + yp * yp + zp * zp)`, the
sum of squares formed in `float` and its root taken in `double`. -/
def QVector3D.length (p : QVector3D) : double :=
  dsqrt (fadd (fadd (fmul p.x p.x) (fmul p.y p.y)) (fmul p.z p.z))

/-- `QVector3D::normalize()` of Qt 4.  The squared length is formed in
`double`; when it is within `1e-12` of one or of zero the vector is left as it
is, otherwise each coordinate is divided in `double` by the root and narrowed
to `float`. -/
def QVector3D.normalize (p : QVector3D) : QVector3D :=
  let len := dadd (dadd (dmul p.x p.x) (dmul p.y p.y)) (dmul p.z p.z)
  if qFuzzyIsNull (dsub len 1) ∨ qFuzzyIsNull len then p
  else
    let len := dsqrt len
    ⟨toFloat (ddiv p.x len), toFloat (ddiv p.y len), toFloat (ddiv p.z len)⟩

/-- The product `p * i` of a vector and a `qreal` factor, of Qt 4: each
coordinate is multiplied in `double` and narrowed to `float`. -/
def QVector3D.scale (p : QVector3D) (i : double) : QVector3D :=
  ⟨toFloat (dmul p.x i), toFloat (dmul p.y i), toFloat (dmul p.z i)⟩

/-! ## QVector -/

/-- `QVector<T>`: the stored elements and the allocated capacity. -/
structure QVector (α : Type) where
  elems : List α
  alloc : Nat
deriving DecidableEq, Repr

namespace QVector

variable {α : Type}

/-- `QVector<T>()`: empty, nothing allocated. -/
def empty : QVector α := { elems := [], alloc := 0 }

/-- A default-constructed vector. -/
instance : Inhabited (QVector α) := ⟨empty⟩

/-- `size()`. -/
def size (v : QVector α) : Nat := v.elems.length

/-- `capacity()`. -/
def capacity (v : QVector α) : Nat := v.alloc

/-- `reserve(n)`: allocates room for `n` elements when fewer are allocated. -/
def reserve (v : QVector α) (n : Nat) : QVector α :=
  if n > v.alloc then { v with alloc := n } else v

/-- `append(p)`: stores `p` behind the last element; the allocation only
changes when it is too small for the new size.  (Qt then allocates at least
the new size, the model exactly the new size; `localPositionChanged` does not
append to a trail whose size is its capacity.) -/
def append (v : QVector α) (p : α) : QVector α :=
  { elems := v.elems ++ [p], alloc := if v.elems.length + 1 > v.alloc then v.elems.length + 1 else v.alloc }

/-- The `memcpy(data(), data() + 1, (size() - 1) * sizeof(T))` of
`localPositionChanged`: elements `1 .. size-1` are copied over elements
`0 .. size-2`; the last slot keeps its old content.  (Source and destination
overlap; the copy is taken front to back, as `memmove` makes it.) -/
def memcpyShift (v : QVector α) : QVector α :=
  { v with elems := v.elems.drop 1 ++ (v.elems.drop (v.elems.length - 1)) }

/-- The assignment `v[i] = p`. -/
def setAt (v : QVector α) (i : Nat) (p : α) : QVector α :=
  { v with elems := v.elems.set i p }

/-- `back()` as an option: the last element, when there is one. -/
def back? (v : QVector α) : Option α := v.elems.getLast?

/-- The read `v[i]`; the default only totalises the read of a slot that does
not exist. -/
def get [Inhabited α] (v : QVector α) (i : Nat) : α := v.elems.getD i default

end QVector

/-! ## QMap -/

/-- `QMap<int, V>`: entries sorted by key, one entry per key. -/
abbrev QMap (V : Type) := List (Int × V)

namespace QMap

variable {V : Type}

/-- `find`: the value stored under `k`, when there is one. -/
def find? : QMap V → Int → Option V
  | [], _ => none
  | (k', v) :: t, k => if k = k' then some v else find? t k

/-- `contains(k)`. -/
def contains (m : QMap V) (k : Int) : Bool := (find? m k).isSome

/-- `insert(k, v)`: replaces the value when `k` is present, otherwise adds the
entry at its place in key order. -/
def insert : QMap V → Int → V → QMap V
  | [], k, v => [(k, v)]
  | (k', v') :: t, k, v =>
    if k < k' then (k, v) :: (k', v') :: t
    else if k = k' then (k, v) :: t
    else (k', v') :: insert t k v

/-- `value(k)`: the stored value, or a default-constructed one. -/
def value [Inhabited V] (m : QMap V) (k : Int) : V := (find? m k).getD default

/-- The map after `operator[](k)` on a non-const map: a default-constructed
value is inserted when `k` is absent. -/
def touch [Inhabited V] (m : QMap V) (k : Int) : QMap V :=
  if contains m k then m else insert m k default

/-- `size()`. -/
def size (m : QMap V) : Nat := m.length

/-- The keys in iteration order. -/
def keys (m : QMap V) : List Int := m.map Prod.fst

/-- The map with the value under `k` replaced by `f` of it (a write through the
reference `operator[](k)` returned); `k` is inserted first when absent. -/
def modify [Inhabited V] (m : QMap V) (k : Int) (f : V → V) : QMap V :=
  insert m k (f (value m k))

end QMap

/-! ## Collaborators: vehicles, frames, projection -/

/-- `QPoint`: a position in widget pixels. -/
structure QPoint where
  x : Int := 0
  y : Int := 0
deriving DecidableEq, Repr

/-- `QPointF`. -/
structure QPointF where
  x : double := 0
  y : double := 0
deriving DecidableEq, Repr

/-- `kMessageTimeout`, which the constructor sets to `4.0`. -/
def kMessageTimeout : double := 4

/-- `osg::PI`, the `double` literal `3.14159265358979323846`. -/
def PI : double := toDouble (314159265358979323846 / 100000000000000000000)

/-- `osg::RadiansToDegrees(angle)` on `double`, which is `angle * 180.0 / PI`. -/
def RadiansToDegrees (angle : double) : double := ddiv (dmul angle 180) PI

/-- The conversion of a non-negative `float` or `double` to `int`, which drops
the fraction. -/
def toInt (a : double) : Int := if 0 ≤ a then ⌊a⌋ else ⌈a⌉

/-- `QColor`, as its three colour channels. -/
structure QColor where
  red : Nat := 0
  green : Nat := 0
  blue : Nat := 0
deriving DecidableEq, Repr, Inhabited

/-- Modelled from the spec: the enumeration `MAV_FRAME` is declared outside
this file.  The frame in use is geodetic (`MAV_FRAME_GLOBAL`) or local NED
(`MAV_FRAME_LOCAL_NED`), the two values the widget tests for; `other` stands
for every other value of the enumeration, by its number. -/
inductive MAV_FRAME where
  | MAV_FRAME_GLOBAL
  | MAV_FRAME_LOCAL_NED
  | other (value : Nat)
deriving DecidableEq, Repr

/-- Modelled from the spec: `Waypoint` is declared outside this file.  A
waypoint of the editable list has an id, a position `x`, `y`, `z` (longitude,
latitude, altitude in the geodetic frame), a yaw and a frame;
`new Waypoint(id, x, y, z, param1, param2)` is a waypoint with these six
values. -/
structure Waypoint where
  id : Int := 0
  x : double := 0
  y : double := 0
  z : double := 0
  param1 : double := 0
  param2 : double := 0
  yaw : double := 0
  frame : MAV_FRAME := MAV_FRAME.MAV_FRAME_GLOBAL
deriving DecidableEq, Repr

/-- A point of `px::PointCloudXYZRGB`; `rgb` is the bit pattern of the `float`
that packs the colour. -/
structure PointXYZRGB where
  x : double := 0
  y : double := 0
  z : double := 0
  rgb : Nat := 0
deriving DecidableEq, Repr

/-- The fields of `px::RGBDImage` that `updateRGBD` reads: the size, the bytes
of the first image and the depth values of the second image, row by row. -/
structure RGBDImage where
  rows : Nat := 0
  cols : Nat := 0
  imagedata1 : List Nat := []
  imagedata2 : List (List double) := []
deriving DecidableEq, Repr

/-- Modelled from the spec: `UASInterface` is declared outside this file.  A
vehicle has an integer system id and exposes a display colour and its current
pose (latitude, longitude, altitude; local x, y, z; roll, pitch, yaw); these
are the values its getters return. -/
structure UAS where
  uasId : Int := 0
  color : QColor := {}
  latitude : double := 0
  longitude : double := 0
  altitude : double := 0
  localX : double := 0
  localY : double := 0
  localZ : double := 0
  roll : double := 0
  pitch : double := 0
  yaw : double := 0
  /-- `getParamManager()` is not null. -/
  hasParamManager : Bool := false
  /-- The value `getParameterValue(MAV_COMP_ID_PATHPLANNER, "TARGET-ALT", ..)`
  finds, when it finds one. -/
  targetAlt : Option double := none
  /-- `getWaypointManager()->getWaypointEditableList()`. -/
  waypoints : List Waypoint := []
  /-- `getObstacleList(receivedTimestamp)`: the obstacles, as positions. -/
  obstacleList : List Vec3d := []
  obstacleListTimestamp : double := 0
  /-- `getPath(receivedTimestamp)`: the waypoints of the planned path. -/
  path : List Vec3d := []
  pathTimestamp : double := 0
  /-- `getPointCloud(receivedTimestamp)`. -/
  pointCloud : List PointXYZRGB := []
  pointCloudTimestamp : double := 0
  /-- `getRGBDImage(receivedTimestamp)`. -/
  rgbdImage : RGBDImage := {}
  rgbdImageTimestamp : double := 0
deriving DecidableEq, Repr

namespace UAS

def getUASID (u : UAS) : Int := u.uasId
def getColor (u : UAS) : QColor := u.color
def getLatitude (u : UAS) : double := u.latitude
def getLongitude (u : UAS) : double := u.longitude
def getAltitude (u : UAS) : double := u.altitude
def getLocalX (u : UAS) : double := u.localX
def getLocalY (u : UAS) : double := u.localY
def getLocalZ (u : UAS) : double := u.localZ
def getRoll (u : UAS) : double := u.roll
def getPitch (u : UAS) : double := u.pitch
def getYaw (u : UAS) : double := u.yaw

end UAS

/-- What `Imagery::LLtoUTM(latitude, longitude, x, y, utmZone)` writes into its
three reference arguments. -/
structure UTM where
  x : double
  y : double
  zone : String
deriving DecidableEq, Repr

/-- `Imagery::LLtoUTM` is defined outside this file; it is a parameter of every
definition that calls it. -/
abbrev Projection := double → double → UTM

/-! ## Pose and position resolver -/

/-- The reference arguments of `getPosition`. -/
structure Position where
  x : double
  y : double
  z : double
  utmZone : String
deriving DecidableEq, Repr

/-- The reference arguments of `getPose`. -/
structure Pose where
  x : double
  y : double
  z : double
  roll : double
  pitch : double
  yaw : double
  utmZone : String
deriving DecidableEq, Repr

/-- `Pixhawk3DWidget::getPose(uas, frame, x, y, z, roll, pitch, yaw, utmZone)`:
the values of the reference arguments after the call, from their values `o`
before it. -/
def getPose (LLtoUTM : Projection) (uas : Option UAS) (frame : MAV_FRAME) (o : Pose) : Pose :=
  match uas with
  | none => o
  | some uas =>
    let o1 : Pose :=
      if frame = MAV_FRAME.MAV_FRAME_GLOBAL then
        let latitude := uas.getLatitude
        let longitude := uas.getLongitude
        let altitude := uas.getAltitude
        let utm := LLtoUTM latitude longitude
        { o with x := utm.x, y := utm.y, utmZone := utm.zone, z := -altitude }
      else if frame = MAV_FRAME.MAV_FRAME_LOCAL_NED then
        { o with x := uas.getLocalX, y := uas.getLocalY, z := uas.getLocalZ }
      else o
    { o1 with roll := uas.getRoll, pitch := uas.getPitch, yaw := uas.getYaw }

/-- The overload of `getPose` without `utmZone`: the zone is a local, empty
string that is dropped on return. -/
def getPose6 (LLtoUTM : Projection) (uas : Option UAS) (frame : MAV_FRAME)
    (x y z roll pitch yaw : double) : double × double × double × double × double × double :=
  let o := getPose LLtoUTM uas frame
    { x := x, y := y, z := z, roll := roll, pitch := pitch, yaw := yaw, utmZone := "" }
  (o.x, o.y, o.z, o.roll, o.pitch, o.yaw)

/-- `Pixhawk3DWidget::getPosition(uas, frame, x, y, z, utmZone)`: the values of
the reference arguments after the call, from their values `o` before it. -/
def getPosition (LLtoUTM : Projection) (uas : Option UAS) (frame : MAV_FRAME) (o : Position) :
    Position :=
  match uas with
  | none => o
  | some uas =>
    if frame = MAV_FRAME.MAV_FRAME_GLOBAL then
      let latitude := uas.getLatitude
      let longitude := uas.getLongitude
      let altitude := uas.getAltitude
      let utm := LLtoUTM latitude longitude
      { o with x := utm.x, y := utm.y, utmZone := utm.zone, z := -altitude }
    else if frame = MAV_FRAME.MAV_FRAME_LOCAL_NED then
      { o with x := uas.getLocalX, y := uas.getLocalY, z := uas.getLocalZ }
    else o

/-- The overload of `getPosition` without `utmZone`. -/
def getPosition3 (LLtoUTM : Projection) (uas : Option UAS) (frame : MAV_FRAME)
    (x y z : double) : double × double × double :=
  let o := getPosition LLtoUTM uas frame { x := x, y := y, z := z, utmZone := "" }
  (o.x, o.y, o.z)

/-! ## Scene graph -/

/-- The nodes a vehicle owns, by the `SystemContainer` member that refers to
them; `model i` is entry `i` of the vehicle's model catalog. -/
inductive NodeRef where
  | localGridNode
  | pointCloudNode
  | targetNode
  | trailNode
  | waypointGroupNode
  | rgbImageNode
  | depthImageNode
  | model (i : Nat)
  | obstacleGroupNode
  | plannedPathNode
deriving DecidableEq, Repr

/-- `osg::Switch`: the children in the order they were added, each with its
on/off value. -/
abbrev Switch (κ : Type) := List (κ × Bool)

namespace Switch

variable {κ : Type} [DecidableEq κ]

/-- `addChild(child, value)`. -/
def addChild (sw : Switch κ) (child : κ) (value : Bool) : Switch κ := sw ++ [(child, value)]

/-- `setChildValue(child, value)`: the value of the first occurrence of `child`
is set; nothing happens when `child` is not a child. -/
def setChildValue : Switch κ → κ → Bool → Switch κ
  | [], _, _ => []
  | (c, b) :: t, child, value =>
    if c = child then (c, value) :: t else (c, b) :: setChildValue t child value

/-- `setChildValue` through a `ref_ptr` that may be null: a null pointer is
never a child. -/
def setChildValueRef (sw : Switch κ) (isSet : Bool) (child : κ) (value : Bool) : Switch κ :=
  if isSet then setChildValue sw child value else sw

end Switch

/-- `SystemGroupNode`: the transform of a vehicle and the two groups the
widget attaches nodes to. -/
structure SystemGroupNode where
  position : Vec3d := ⟨0, 0, 0⟩
  /-- The attitude, as the angles of the three rotations of its quaternion:
  about the axes z, x and y. -/
  attitude : double × double × double := (0, 0, 0)
  rollingMap : Switch NodeRef := []
  egocentricMap : List NodeRef := []
deriving DecidableEq, Repr

/-- A freshly created system group. -/
instance : Inhabited SystemGroupNode := ⟨{}⟩

/-- The part of `Q3DWidget` the widget writes to: the two switch values of the
world map (`mWorldGridNode`, `mImageryNode`), the per-vehicle groups, which
`systemGroup(id)` creates on first use, and the children the vehicles have in
the HUD group (the status text and the scale of `setupHUD` are not listed). -/
structure Q3DWidget where
  worldGridValue : Bool := false
  imageryValue : Bool := false
  systemGroups : QMap SystemGroupNode := []
  hudGroup : Switch (Int × NodeRef) := []
deriving DecidableEq, Repr

/-- A call the widget makes on a collaborator, or a signal it emits. -/
inductive Call where
  | moveCamera (dx dy dz : double)
  | recenterCamera (x y z : double)
  | rotateCamera (roll pitch yaw : double)
  | setCameraDistance (d : double)
  | setFollowCameraId (id : Int)
  | waypointGroupUpdate (systemId : Int) (uas : Option UAS) (frame : MAV_FRAME)
  | connectPosition (uas : UAS)
  | connectAttitude (uas : UAS)
  | connectModelChanged (systemId : Int)
  | systemCreatedSignal (uas : UAS)
  | setTargetPosition (uas : Nat) (x y z yaw : double)
  | addWaypointEditable (uas : Nat) (wp : Waypoint)
  | removeWaypoint (uas : Nat) (index : Int)
  | waypointSetX (uas : Nat) (index : Int) (x : double)
  | waypointSetY (uas : Nat) (index : Int) (y : double)
  | waypointSetZ (uas : Nat) (index : Int) (z : double)
  | waypointSetYaw (uas : Nat) (index : Int) (yaw : double)
  | handleMousePressEvent
  | handleMouseMoveEvent
deriving DecidableEq, Repr

/-! ## Per-vehicle state -/

/-- A drawable of the trail geode: `createTrail` makes the line strip of a
component, `createLink` the dashed link in the vehicle's colour. -/
inductive DrawableKind where
  | trail
  | link (color : QColor)
deriving DecidableEq, Repr

/-- An `osg::Geometry` with its vertex array. -/
structure Drawable where
  kind : DrawableKind
  vertices : List Vec3d := []
deriving DecidableEq, Repr

/-- The target marker: a `PositionAttitudeTransform`; the attitude is built
from the heading `w` of the target. -/
structure TargetNode where
  color : QColor
  position : Vec3d := ⟨0, 0, 0⟩
  heading : double := 0
deriving DecidableEq, Repr

/-- A colour with its four channels. -/
structure Vec4 where
  r : double := 0
  g : double := 0
  b : double := 0
  a : double := 0
deriving DecidableEq, Repr

/-- The geometry `createPointCloud` makes: a vertex and a colour array of
`752 * 480` entries each, kept here as the entries written so far by index,
and the primitive sets, each with its count. -/
structure PointCloudGeometry where
  vertices : List (Nat × Vec3d) := []
  colors : List (Nat × Vec4) := []
  primitiveSets : List Nat := []
deriving DecidableEq, Repr

/-- What `osg::Image::setImage` was given: the size, whether the pixels are
`GL_RGB` (else `GL_LUMINANCE`) and the bytes. -/
structure ImageData where
  cols : Nat
  rows : Nat
  rgb : Bool
  bytes : List Nat
deriving DecidableEq, Repr

/-- Modelled from the spec: `ObstacleGroupNode` is declared outside this file.
The node is rebuilt by `update(robotX, robotY, robotZ, obstacleList)` and
emptied by `clear()`; `content` is what it was last rebuilt from, `none` when
it is empty. -/
structure ObstacleGroupNode where
  content : Option (double × double × double × List Vec3d) := none
deriving DecidableEq, Repr

/-- The drawable of `plannedPathNode`: its vertex array and, per vertex, the
index into the colour map "autumn" its colour was taken from (`overall` is the
one colour `createTrail` gave it). -/
structure PathGeometry where
  vertices : List Vec3d := []
  colors : List Int := []
  overall : Bool := true
deriving DecidableEq, Repr

/-- `SystemContainer`.  A `ref_ptr` member is `none` (or `false`) while null. -/
structure SystemContainer where
  models : List String := []
  modelNode : Option NodeRef := none
  localGridNode : Bool := false
  pointCloudNode : Bool := false
  targetNode : Option TargetNode := none
  trailNode : Option (List Drawable) := none
  waypointGroupNode : Option QColor := none
  rgbImageNode : Bool := false
  depthImageNode : Bool := false
  target : QVector4D := ⟨0, 0, 0, 0⟩
  trailMap : QMap (QVector Vec3d) := []
  trailIndexMap : QMap Int := []
  /-- The geometry of `pointCloudNode`. -/
  pointCloud : PointCloudGeometry := {}
  /-- The image of `rgbImageNode`, once one has been set. -/
  rgbImage : Option ImageData := none
  /-- The image of `depthImageNode`, once one has been set. -/
  depthImage : Option ImageData := none
  obstacleGroupNode : Option ObstacleGroupNode := none
  plannedPathNode : Option PathGeometry := none
deriving DecidableEq, Repr

/-- Modelled from the spec: the constructor of `SystemContainer` is defined
outside this file.  A new container has null node references, an empty model
catalog, no trails and an unset (all zero) target. -/
instance : Inhabited SystemContainer := ⟨{}⟩

/-- Modelled from the spec: `SystemViewParams` is declared outside this file.
It holds the per-vehicle visibility toggles of the side panel and the names of
the vehicle's models. -/
structure SystemViewParams where
  systemId : Int := 0
  colorPointCloudByDistance : Bool := false
  displayLocalGrid : Bool := false
  displayObstacleList : Bool := false
  displayPlannedPath : Bool := false
  displayPointCloud : Bool := false
  displayRGBD : Bool := false
  displayTarget : Bool := false
  displayTrails : Bool := false
  displayWaypoints : Bool := false
  modelNames : List String := []
deriving DecidableEq, Repr

/-- A null `SystemViewParamsPtr` is never read; the default only totalises
`QMap.value`. -/
instance : Inhabited SystemViewParams := ⟨{}⟩

/-- Modelled from the spec: `Imagery::Type` is declared outside this file; the
base-imagery types the widget names. -/
inductive ImageryType where
  | BLANK_MAP
  | GOOGLE_MAP
  | GOOGLE_SATELLITE
  | SWISSTOPO_SATELLITE
deriving DecidableEq, Repr

/-- Modelled from the spec: `GlobalViewParams` is declared outside this file.
It holds the coordinate frame in use, the active base-imagery type and the
world-grid toggle. -/
structure GlobalViewParams where
  frame : MAV_FRAME := MAV_FRAME.MAV_FRAME_GLOBAL
  imageryType : ImageryType := ImageryType.BLANK_MAP
  displayWorldGrid : Bool := false
deriving DecidableEq, Repr

/-- `Mode`. -/
inductive Mode where
  | DEFAULT_MODE
  | MOVE_WAYPOINT_POSITION_MODE
  | MOVE_WAYPOINT_HEADING_MODE
  | SELECT_TARGET_HEADING_MODE
deriving DecidableEq, Repr

/-- A `UASInterface*` that is kept across calls: the address of the object. -/
abbrev UASPtr := Nat

/-- The members of `Pixhawk3DWidget`, and the calls made so far (`calls`, most
recent last). -/
structure Widget where
  mMode : Mode := Mode.DEFAULT_MODE
  mSelectedWpIndex : Int := -1
  mActiveSystemId : Int := -1
  mActiveUAS : Option UASPtr := none
  mGlobalViewParams : GlobalViewParams := {}
  mFollowCameraId : Int := -1
  mInitCameraPos : Bool := false
  mCameraPos : QVector3D := ⟨0, 0, 0⟩
  mSystemViewParamMap : QMap SystemViewParams := []
  mSystemContainerMap : QMap SystemContainer := []
  m3DWidget : Q3DWidget := {}
  /-- The imagery type last given to `mImageryNode`. -/
  mImageryNodeType : ImageryType := ImageryType.BLANK_MAP
  calls : List Call := []
  mCachedMousePos : QPoint := {}
  /-- The widget is built with `QGC_PROTOBUF_ENABLED` and
  `QGC_USE_PIXHAWK_MESSAGES` defined; no handler writes this. -/
  pixhawkMessages : Bool := false
deriving DecidableEq, Repr

/-- A node on the path of an intersection: its name, and the vehicle whose
waypoint group node is `node->getParent(0)->getParent(0)`, when it is one. -/
structure PickedNode where
  name : String
  waypointGroupOf : Option Int := none
deriving DecidableEq, Repr

/-- `Qt::MouseButton`. -/
inductive MouseButton where
  | LeftButton
  | RightButton
  | MidButton
  | other (value : Nat)
deriving DecidableEq, Repr

/-- `Qt::KeyboardModifiers`: none, exactly the shift key, or another set. -/
inductive KeyboardModifiers where
  | NoModifier
  | ShiftModifier
  | other (value : Nat)
deriving DecidableEq, Repr

/-- The slots the two context menus offer. -/
inductive MenuAction where
  | insertWaypoint
  | clearAllWaypoints
  | selectTarget
  | moveWaypointPosition
  | moveWaypointHeading
  | setWaypointAltitude
  | deleteWaypoint
deriving DecidableEq, Repr

/-- A `QMouseEvent` as a handler sees it: `acceptedByBase` is `isAccepted()`
after the handler of `QWidget` has run, and `menuChoice` is the entry the user
picks when the handler opens a context menu (`none`: the menu is dismissed). -/
structure QMouseEvent where
  acceptedByBase : Bool := false
  button : MouseButton := MouseButton.LeftButton
  modifiers : KeyboardModifiers := KeyboardModifiers.NoModifier
  pos : QPoint := {}
  globalPos : QPoint := {}
  menuChoice : Option MenuAction := none
deriving DecidableEq, Repr

/-- What a handler reads from outside the widget while it runs. -/
structure World where
  /-- `UASManager::instance()->getUASForId(id)`. -/
  getUASForId : Int → Option UASPtr
  /-- The object behind a `UASInterface*`. -/
  deref : UASPtr → UAS
  /-- `Imagery::LLtoUTM`. -/
  LLtoUTM : Projection
  /-- `new SystemViewParams(systemId)`. -/
  newSystemViewParams : Int → SystemViewParams
  /-- For each `*.osg` file of the directory `models`, the name of the node
  `osgDB::readNodeFile` returns, or `none` when the file cannot be loaded. -/
  modelFiles : List (Option String)
  /-- The name of the node `PixhawkCheetahGeode::create` returns. -/
  cheetahName : String
  /-- `atan2(y, x)`. -/
  atan2 : double → double → double := fun _ _ => 0
  /-- `sqrt(a)`. -/
  sqrt : double → double := fun _ => 0
  /-- `qgc::hypot3f(x, y, z)`. -/
  hypot3f : double → double → double → double := fun _ _ _ => 0
  /-- `qgc::colormap(name, index, r, g, b)`: the colour written to `r`, `g`,
  `b`. -/
  colormap : String → Int → double × double × double := fun _ _ => (0, 0, 0)
  /-- `QGC::groundTimeSeconds()`. -/
  groundTimeSeconds : double := 0
  /-- `m3DWidget->mouseCursorCoords()`. -/
  mouseCursorCoords : QPoint := {}
  /-- `m3DWidget->worldCursorPosition(cursor, z)`. -/
  worldCursorPosition : QPoint → double → QPointF := fun _ _ => {}
  /-- `Imagery::UTMtoLL(x, y, zone, latitude, longitude)`: the latitude and
  the longitude it writes. -/
  UTMtoLL : double → double → String → double × double := fun _ _ _ => (0, 0)
  /-- The id `wp->getId()` returns after `addWaypointEditable(wp)`. -/
  addedWaypointId : Waypoint → Int := fun wp => wp.id
  /-- `m3DWidget->getSceneData()` is not null. -/
  hasSceneData : Bool := true
  /-- What `QInputDialog::getDouble` returns for the pre-filled value: the
  number, and whether the dialog was confirmed (`ok`). -/
  getDouble : double → double × Bool := fun a => (a, false)
  /-- `m3DWidget->computeIntersections` for the widget position of the
  pointer: `none` when it returns false, else the node path of each
  intersection. -/
  computeIntersections : QPoint → Option (List (List PickedNode)) := fun _ => none
  /-- `atoi`. -/
  atoi : String → Int := fun t => t.toInt?.getD 0
  /-- `height()` of the widget. -/
  height : double := 0
  /-- `m3DWidget->cameraParams().fov()`. -/
  fov : double := 0
  /-- `m3DWidget->cameraManipulator()->getDistance()`. -/
  cameraDistance : double := 0

/-! ## Vehicle creation -/

/-- Modelled from the spec: `Q3DWidget::systemGroup` is defined outside this
file.  The render host owns one sub-tree per vehicle; the call returns the
vehicle's, which is created when the vehicle has none yet.  This is the scene
after the call. -/
def Q3DWidget.touchSystemGroup (q : Q3DWidget) (systemId : Int) : Q3DWidget :=
  { q with systemGroups := QMap.touch q.systemGroups systemId }

/-- A write to the group `systemGroup(systemId)` returns. -/
def Q3DWidget.modifySystemGroup (q : Q3DWidget) (systemId : Int)
    (f : SystemGroupNode → SystemGroupNode) : Q3DWidget :=
  { q with systemGroups := QMap.modify q.systemGroups systemId f }

/-- `Pixhawk3DWidget::addModels(models, systemColor)`: the catalog after the
call, by node name. -/
def addModels (w : World) (models : List String) (_systemColor : QColor) : List String :=
  let models := models ++ [w.cheetahName]
  let models := models ++ ["Sphere (0.1m)"]
  w.modelFiles.foldl (fun models node =>
    match node with
    | some name => models ++ [name]
    | none => models) models

/-- The two nodes `initializeSystem` makes in the build with the protobuf
messages: the obstacle group and the planned path, whose one drawable comes
from `createTrail`. -/
def initializeSensorNodes (systemData : SystemContainer) : SystemContainer :=
  let systemData := { systemData with obstacleGroupNode := some {} }
  -- generate path model
  { systemData with plannedPathNode := some {} }

/-- The two `addChild` calls of `initializeSystem` in the build with the
protobuf messages. -/
def attachSensorNodes (rollingMap : Switch NodeRef) : Switch NodeRef :=
  let rollingMap := Switch.addChild rollingMap NodeRef.obstacleGroupNode false
  Switch.addChild rollingMap NodeRef.plannedPathNode false

/-- `Pixhawk3DWidget::initializeSystem(systemId, systemColor)`; the build with
the protobuf messages (`pixhawkMessages`) also makes the obstacle group and
the planned path. -/
def initializeSystem (w : World) (systemId : Int) (systemColor : QColor) (s : Widget) : Widget :=
  let s := { s with mSystemViewParamMap := QMap.touch s.mSystemViewParamMap systemId }
  let s := { s with mSystemContainerMap := QMap.touch s.mSystemContainerMap systemId }
  let s := { s with m3DWidget := s.m3DWidget.touchSystemGroup systemId }
  let systemData := QMap.value s.mSystemContainerMap systemId
  -- generate grid, point cloud, target, empty trail and waypoint models
  let systemData := { systemData with
    localGridNode := true
    pointCloudNode := true
    targetNode := some { color := systemColor }
    trailNode := some []
    waypointGroupNode := some systemColor }
  let rollingMap := (QMap.value s.m3DWidget.systemGroups systemId).rollingMap
  let rollingMap := Switch.addChild rollingMap NodeRef.localGridNode false
  let rollingMap := Switch.addChild rollingMap NodeRef.pointCloudNode false
  let rollingMap := Switch.addChild rollingMap NodeRef.targetNode false
  let rollingMap := Switch.addChild rollingMap NodeRef.trailNode false
  let rollingMap := Switch.addChild rollingMap NodeRef.waypointGroupNode false
  let systemData := if s.pixhawkMessages then initializeSensorNodes systemData else systemData
  let rollingMap := if s.pixhawkMessages then attachSensorNodes rollingMap else rollingMap
  let hudGroup := Switch.addChild s.m3DWidget.hudGroup (systemId, NodeRef.rgbImageNode) false
  let hudGroup := Switch.addChild hudGroup (systemId, NodeRef.depthImageNode) false
  -- find available models
  let models := addModels w systemData.models systemColor
  let systemViewParams := QMap.value s.mSystemViewParamMap systemId
  let systemViewParams :=
    { systemViewParams with modelNames := systemViewParams.modelNames ++ models }
  let modelNode : Option NodeRef := if models = [] then none else some (NodeRef.model 0)
  let systemData := { systemData with
    rgbImageNode := true
    depthImageNode := true
    models := models
    modelNode := modelNode }
  let egocentricMap := (QMap.value s.m3DWidget.systemGroups systemId).egocentricMap
  let egocentricMap :=
    match modelNode with
    | some node => egocentricMap ++ [node]
    | none => egocentricMap
  { s with
    mSystemViewParamMap := QMap.insert s.mSystemViewParamMap systemId systemViewParams
    mSystemContainerMap := QMap.insert s.mSystemContainerMap systemId systemData
    m3DWidget :=
      { (s.m3DWidget.modifySystemGroup systemId
          (fun g => { g with rollingMap := rollingMap, egocentricMap := egocentricMap })) with
        hudGroup := hudGroup }
    calls := s.calls ++ [Call.connectModelChanged systemId] }

/-- `Pixhawk3DWidget::systemCreated(uas)`. -/
def systemCreated (w : World) (uas : UAS) (s : Widget) : Widget :=
  let systemId := uas.getUASID
  if QMap.contains s.mSystemContainerMap systemId then
    s
  else
    let s := { s with
      mSystemViewParamMap := QMap.insert s.mSystemViewParamMap systemId (w.newSystemViewParams systemId) }
    let s := { s with mSystemContainerMap := QMap.insert s.mSystemContainerMap systemId {} }
    let s := { s with calls := s.calls ++ [Call.connectPosition uas, Call.connectAttitude uas] }
    let s := initializeSystem w systemId uas.getColor s
    { s with calls := s.calls ++ [Call.systemCreatedSignal uas] }

/-! ## Trail tracker -/

/-- The decision `addToTrail` of `localPositionChanged`.  Each difference is
a `double` subtraction, and `0.01f` is compared as the `double` it converts
to. -/
def addToTrail (trail : QVector Vec3d) (x y z : double) : Bool :=
  if trail.size > 0 then
    if fabs (dsub x (trail.get (trail.size - 1)).x) > kTrailEpsilon ∨
        fabs (dsub y (trail.get (trail.size - 1)).y) > kTrailEpsilon ∨
        fabs (dsub z (trail.get (trail.size - 1)).z) > kTrailEpsilon then
      true
    else
      false
  else
    true

/-- The trail of a component after `localPositionChanged` has handled the
point `(x, y, z)`.  (With nothing stored and nothing allocated the source
writes slot `-1`; the model leaves the trail as it is.) -/
def recordPosition (trail : QVector Vec3d) (x y z : double) : QVector Vec3d :=
  if addToTrail trail x y z then
    let p : Vec3d := ⟨x, y, z⟩
    if trail.size = trail.capacity then
      (trail.memcpyShift).setAt (trail.size - 1) p
    else
      trail.append p
  else
    trail

/-- The block of `localPositionChanged` under `// update trail data`. -/
def updateTrailData (uas : UAS) (component : Int) (x y z : double)
    (systemData : SystemContainer) : SystemContainer :=
  let systemData :=
    if ¬ QMap.contains systemData.trailMap component then
      let systemData :=
        { systemData with trailMap := QMap.insert systemData.trailMap component QVector.empty }
      let systemData :=
        { systemData with
          trailMap := QMap.modify systemData.trailMap component (fun v => v.reserve 10000) }
      let systemData :=
        { systemData with
          trailIndexMap := QMap.insert systemData.trailIndexMap component
            ((QMap.size systemData.trailMap : Int) - 1) }
      let systemData :=
        { systemData with trailNode := systemData.trailNode.map (fun d => d ++ [Drawable.mk DrawableKind.trail []]) }
      { systemData with
        trailNode := systemData.trailNode.map (fun d => d ++ [Drawable.mk (DrawableKind.link uas.getColor) []]) }
    else
      systemData
  { systemData with
    trailMap := QMap.modify systemData.trailMap component (fun trail => recordPosition trail x y z) }

/-- `Pixhawk3DWidget::localPositionChanged(uas, component, x, y, z, time)`. -/
def localPositionChanged (uas : UAS) (component : Int) (x y z : double) (s : Widget) : Widget :=
  let systemId := uas.getUASID
  if ¬ QMap.contains s.mSystemContainerMap systemId then
    s
  else
    let systemData := QMap.value s.mSystemContainerMap systemId
    -- update system position
    let s := { s with
      m3DWidget := s.m3DWidget.modifySystemGroup systemId (fun g => { g with position := ⟨y, x, -z⟩ }) }
    -- update trail data
    { s with
      mSystemContainerMap :=
        QMap.insert s.mSystemContainerMap systemId (updateTrailData uas component x y z systemData) }

/-! ## Frame update -/

/-- `geometry->setVertexArray(vertices)` on `trailNode->getDrawable(i)`.  A
drawable that does not exist is an out-of-range access in the source; the
model leaves the geode as it is. -/
def setVertexArray (drawables : List Drawable) (i : Int) (vertices : List Vec3d) : List Drawable :=
  if i < 0 then drawables
  else
    match drawables.get? i.toNat with
    | some d => drawables.set i.toNat { d with vertices := vertices }
    | none => drawables

/-- The loop `for (double i = 0.1; i < length - 0.1; i += 0.3)` of
`updateTrails`, run for at most `fuel` rounds from the value `i`.  The bound
`length - 0.1` and the step `i += 0.3` are `double` operations on the `double`
literals. -/
def linkLoop (p : QVector3D) (length : double) : Nat → double → List Vec3d
  | 0, _ => []
  | fuel + 1, i =>
    if i < dsub length (toDouble (1 / 10)) then
      let v := p.scale i
      Vec3d.toVec3f ⟨v.y, v.x, -v.z⟩ :: linkLoop p length fuel (dadd i (toDouble (3 / 10)))
    else []

/-- A number of rounds after which the loop of `linkLoop` has stopped, when
`length - 0.1` is at most `2^50`: up to there every round adds more than `1/8`
to `i`. -/
def linkFuel (length : double) : Nat :=
  Int.toNat ⌈8 * dsub length (toDouble (1 / 10))⌉ + 1

/-- The vertices `updateTrails` gives to the trail line strip. -/
def trailVertices (robotX robotY robotZ : double) (trail : QVector Vec3d) : List Vec3d :=
  trail.elems.map (fun p =>
    Vec3d.toVec3f ⟨dsub p.y robotY, dsub p.x robotX, -(dsub p.z robotZ)⟩)

/-- The vertices `updateTrails` gives to the link.  (With `length - 0.1`
beyond `2^50` the loop of the source runs on, in the end without advancing
`i`; the model stops after `linkFuel` rounds.) -/
def linkVertices (robotX robotY robotZ : double) (trail : QVector Vec3d) : List Vec3d :=
  let vertices :=
    match trail.back? with
    | some back =>
      let p := QVector3D.ofDoubles (dsub back.x robotX) (dsub back.y robotY)
        (dsub back.z robotZ)
      let length := p.length
      let p := p.normalize
      linkLoop p length (linkFuel length) (toDouble (1 / 10))
    | none => []
  if vertices.length % 2 = 1 then vertices.dropLast else vertices

/-- `Pixhawk3DWidget::updateTrails`: the drawables of `trailNode` after the
call. -/
def updateTrails (robotX robotY robotZ : double) (trailNode : List Drawable)
    (trailMap : QMap (QVector Vec3d)) (trailIndexMap : QMap Int) : List Drawable :=
  trailIndexMap.foldl (fun drawables it =>
    let trail := QMap.value trailMap it.1
    -- update trail
    let drawables := setVertexArray drawables (it.2 * 2) (trailVertices robotX robotY robotZ trail)
    -- update link
    setVertexArray drawables (it.2 * 2 + 1) (linkVertices robotX robotY robotZ trail)) trailNode

/-- `Pixhawk3DWidget::updateTarget`. -/
def updateTarget (robotX robotY robotZ : double) (target : QVector4D) (targetNode : TargetNode) :
    TargetNode :=
  { targetNode with
    position := ⟨target.y - robotY, target.x - robotX, -(target.z - robotZ)⟩
    heading := target.w }

/-- `Pixhawk3DWidget::setBirdEyeView()`. -/
def setBirdEyeView (s : Widget) : Widget :=
  { s with calls := s.calls ++
      [Call.setFollowCameraId (-1), Call.rotateCamera 0 0 0, Call.setCameraDistance 100] }

/-- One round of the first loop of `update`: the switch values of the nodes of
vehicle `systemId`.  (The HUD group is written after the rolling map in the
source; the two do not share state.) -/
def updateVisibility (s : Widget) (systemId : Int) : Widget :=
  let s := { s with m3DWidget := s.m3DWidget.touchSystemGroup systemId }
  let s := { s with mSystemContainerMap := QMap.touch s.mSystemContainerMap systemId }
  let systemData := QMap.value s.mSystemContainerMap systemId
  let systemViewParams := QMap.value s.mSystemViewParamMap systemId
  let s := { s with
    m3DWidget := { s.m3DWidget with
      hudGroup :=
        if s.pixhawkMessages then
          let hudGroup := Switch.setChildValueRef s.m3DWidget.hudGroup systemData.depthImageNode
            (systemId, NodeRef.depthImageNode) systemViewParams.displayRGBD
          Switch.setChildValueRef hudGroup systemData.rgbImageNode
            (systemId, NodeRef.rgbImageNode) systemViewParams.displayRGBD
        else s.m3DWidget.hudGroup } }
  { s with
    m3DWidget := s.m3DWidget.modifySystemGroup systemId (fun systemNode =>
      let rollingMap := systemNode.rollingMap
      let rollingMap := Switch.setChildValueRef rollingMap systemData.localGridNode
        NodeRef.localGridNode systemViewParams.displayLocalGrid
      let rollingMap := Switch.setChildValueRef rollingMap systemData.pointCloudNode
        NodeRef.pointCloudNode systemViewParams.displayPointCloud
      let rollingMap := Switch.setChildValueRef rollingMap systemData.targetNode.isSome
        NodeRef.targetNode systemViewParams.displayTarget
      let rollingMap := Switch.setChildValueRef rollingMap systemData.trailNode.isSome
        NodeRef.trailNode systemViewParams.displayTrails
      let rollingMap := Switch.setChildValueRef rollingMap systemData.waypointGroupNode.isSome
        NodeRef.waypointGroupNode systemViewParams.displayWaypoints
      let rollingMap :=
        if s.pixhawkMessages then
          let rollingMap := Switch.setChildValueRef rollingMap systemData.obstacleGroupNode.isSome
            NodeRef.obstacleGroupNode systemViewParams.displayObstacleList
          Switch.setChildValueRef rollingMap systemData.plannedPathNode.isSome
            NodeRef.plannedPathNode systemViewParams.displayPlannedPath
        else rollingMap
      { systemNode with rollingMap := rollingMap }) }

/-- The camera step of `update`. -/
def updateCamera (w : World) (frame : MAV_FRAME) (s : Widget) : Widget :=
  if s.mFollowCameraId ≠ -1 then
    match w.getUASForId s.mFollowCameraId with
    | some uas =>
      let (x, y, z) := getPosition3 w.LLtoUTM (some (w.deref uas)) s.mGlobalViewParams.frame 0 0 0
      let dx := dsub y s.mCameraPos.y
      let dy := dsub x s.mCameraPos.x
      let dz := dsub s.mCameraPos.z z
      { s with
        calls := s.calls ++ [Call.moveCamera dx dy dz],
        mCameraPos := QVector3D.ofDoubles x y z }
    | none => s
  else
    match s.mActiveUAS with
    | some activeUAS =>
      if ¬ s.mInitCameraPos then
        let (x, y, z) := getPosition3 w.LLtoUTM (some (w.deref activeUAS)) frame 0 0 0
        let s := { s with calls := s.calls ++ [Call.recenterCamera y x (-z)] }
        let s := { s with mCameraPos := QVector3D.ofDoubles x y z }
        let s := setBirdEyeView s
        { s with mInitCameraPos := true }
      else s
    | none => s

/-- `Pixhawk3DWidget::updateObstacles`.  Outside the geodetic frame the source
dereferences `uas`; with a null pointer the model stops there. -/
def updateObstacles (w : World) (uas : Option UAS) (frame : MAV_FRAME)
    (robotX robotY robotZ : double) (obstacleGroupNode : ObstacleGroupNode) :
    ObstacleGroupNode :=
  if frame = MAV_FRAME.MAV_FRAME_GLOBAL then
    { obstacleGroupNode with content := none }
  else
    match uas with
    | none => obstacleGroupNode
    | some uas =>
      let receivedTimestamp := uas.obstacleListTimestamp
      let obstacleList := uas.obstacleList
      if w.groundTimeSeconds - receivedTimestamp < kMessageTimeout then
        { obstacleGroupNode with content := some (robotX, robotY, robotZ, obstacleList) }
      else
        { obstacleGroupNode with content := none }

/-- The loop `// find path length` of `updatePlannedPath`, from the length
found so far. -/
def pathLength (w : World) : List Vec3d → double → double
  | wp0 :: wp1 :: rest, length =>
    pathLength w (wp1 :: rest) (length + w.hypot3f (wp0.x - wp1.x) (wp0.y - wp1.y) (wp0.z - wp1.z))
  | _, length => length

/-- The second loop of `updatePlannedPath`: the vertices it adds, each with
its index into the colour map. -/
def pathLoop (w : World) (robotX robotY robotZ length : double) :
    List Vec3d → double → List (Vec3d × Int)
  | wp0 :: wp1 :: rest, lengthCurrent =>
    let lengthCurrent :=
      lengthCurrent + w.hypot3f (wp0.x - wp1.x) (wp0.y - wp1.y) (wp0.z - wp1.z)
    let colorIdx := toInt (lengthCurrent / length * 127)
    ((⟨wp1.y - robotY, wp1.x - robotX, -(wp1.z - robotZ)⟩ : Vec3d), colorIdx)
      :: pathLoop w robotX robotY robotZ length (wp1 :: rest) lengthCurrent
  | _, _ => []

/-- `Pixhawk3DWidget::updatePlannedPath`.  The source dereferences `uas`; with
a null pointer the model stops there. -/
def updatePlannedPath (w : World) (uas : Option UAS) (robotX robotY robotZ : double)
    (geometry : PathGeometry) : PathGeometry :=
  match uas with
  | none => geometry
  | some uas =>
    let receivedTimestamp := uas.pathTimestamp
    let path := uas.path
    let built : List (Vec3d × Int) :=
      if w.groundTimeSeconds - receivedTimestamp < kMessageTimeout then
        -- find path length
        let length := pathLength w path 0
        -- build path
        let first : List (Vec3d × Int) :=
          match path with
          | wp0 :: _ => [(⟨wp0.y - robotY, wp0.x - robotX, -(wp0.z - robotZ)⟩, 0)]
          | [] => []
        first ++ pathLoop w robotX robotY robotZ length path 0
      else []
    { vertices := built.map Prod.fst, colors := built.map Prod.snd, overall := false }

/-- A `float` or `double` stored into a byte. -/
def toByte (a : double) : Nat := (toInt a).toNat % 256

/-- The three bytes `updateRGBD` writes for a pixel of depth `depth`. -/
def coloredDepthPixel (w : World) (depth : double) : List Nat :=
  if depth ≠ 0 then
    let idx := toInt (min depth 7 / 7 * 127)
    let idx := 127 - idx
    let (r, g, b) := w.colormap "jet" idx
    [toByte (r * 255), toByte (g * 255), toByte (b * 255)]
  else [0, 0, 0]

/-- The array `coloredDepth` of `updateRGBD`. -/
def coloredDepth (w : World) (rgbdImage : RGBDImage) : List Nat :=
  ((List.range rgbdImage.rows).map (fun r =>
    ((List.range rgbdImage.cols).map (fun c =>
      coloredDepthPixel w ((rgbdImage.imagedata2.getD r []).getD c 0))).flatten)).flatten

/-- `Pixhawk3DWidget::updateRGBD`: the images of `rgbImageNode` and
`depthImageNode` after the call.  The source dereferences `uas`; with a null
pointer the model stops there. -/
def updateRGBD (w : World) (uas : Option UAS) (rgbImage depthImage : Option ImageData) :
    Option ImageData × Option ImageData :=
  match uas with
  | none => (rgbImage, depthImage)
  | some uas =>
    let receivedTimestamp := uas.rgbdImageTimestamp
    let rgbdImage := uas.rgbdImage
    if rgbdImage.rows > 0 ∧ rgbdImage.cols > 0 ∧
        w.groundTimeSeconds - receivedTimestamp < kMessageTimeout then
      (some { cols := rgbdImage.cols, rows := rgbdImage.rows, rgb := false,
              bytes := rgbdImage.imagedata1 },
        some { cols := rgbdImage.cols, rows := rgbdImage.rows, rgb := true,
               bytes := coloredDepth w rgbdImage })
    else (rgbImage, depthImage)

/-- The colour `updatePointCloud` gives to the point `p` at the offset
`(x, y, z)` from the vehicle; the bytes of `rgb` are read in the order of a
little-endian machine. -/
def pointColor (w : World) (colorPointCloudByDistance : Bool) (p : PointXYZRGB)
    (x y z : double) : Vec4 :=
  if ¬ colorPointCloudByDistance then
    let b : double := ((p.rgb % 256 : Nat) : double) / 255
    let g : double := ((p.rgb / 256 % 256 : Nat) : double) / 255
    let r : double := ((p.rgb / 65536 % 256 : Nat) : double) / 255
    ⟨r, g, b, 1⟩
  else
    let dist := w.sqrt (x * x + y * y + z * z)
    let colorIndex := toInt (min (dist / 7 * 127) 127)
    let (r, g, b) := w.colormap "jet" colorIndex
    ⟨r, g, b, 1⟩

/-- `Pixhawk3DWidget::updatePointCloud`.  The source dereferences `uas`; with
a null pointer the model stops there.  A point beyond the `752 * 480` entries
of the arrays is written out of range by the source and left out here. -/
def updatePointCloud (w : World) (uas : Option UAS) (robotX robotY robotZ : double)
    (geometry : PointCloudGeometry) (colorPointCloudByDistance : Bool) : PointCloudGeometry :=
  match uas with
  | none => geometry
  | some uas =>
    let receivedTimestamp := uas.pointCloudTimestamp
    let pointCloud := uas.pointCloud
    if w.groundTimeSeconds - receivedTimestamp > kMessageTimeout then
      { geometry with primitiveSets := [] }
    else
      let geometry := pointCloud.enum.foldl (fun geometry ip =>
        let i := ip.1
        let p := ip.2
        let x := p.x - robotX
        let y := p.y - robotY
        let z := p.z - robotZ
        if i < 752 * 480 then
          { geometry with
            vertices := (i, (⟨y, x, -z⟩ : Vec3d)) :: geometry.vertices
            colors := (i, pointColor w colorPointCloudByDistance p x y z) :: geometry.colors }
        else geometry) geometry
      match geometry.primitiveSets with
      | [] => { geometry with primitiveSets := [pointCloud.length] }
      | _ :: rest => { geometry with primitiveSets := pointCloud.length :: rest }

/-- The block of the second loop of `update` that only the build with the
protobuf messages has: the sensor overlays of one vehicle. -/
def updateSensors (w : World) (uas : Option UAS) (frame : MAV_FRAME) (x y z : double)
    (systemViewParams : SystemViewParams) (systemData : SystemContainer) : SystemContainer :=
  let systemData :=
    if systemViewParams.displayObstacleList then
      { systemData with
        obstacleGroupNode := systemData.obstacleGroupNode.map (updateObstacles w uas frame x y z) }
    else systemData
  let systemData :=
    if systemViewParams.displayPlannedPath then
      { systemData with
        plannedPathNode := systemData.plannedPathNode.map (updatePlannedPath w uas x y z) }
    else systemData
  let systemData :=
    if systemViewParams.displayPointCloud then
      if systemData.pointCloudNode then
        { systemData with
          pointCloud := updatePointCloud w uas x y z systemData.pointCloud
            systemViewParams.colorPointCloudByDistance }
      else systemData
    else systemData
  if systemViewParams.displayRGBD then
    if systemData.rgbImageNode ∧ systemData.depthImageNode then
      let images := updateRGBD w uas systemData.rgbImage systemData.depthImage
      { systemData with rgbImage := images.1, depthImage := images.2 }
    else systemData
  else systemData

/-- The body of the second loop of `update` for one vehicle, on the vehicle's
view parameters and container: pose, target, trails and, in the build with the
protobuf messages (`pixhawkMessages`), the sensor overlays. -/
def updateSystemData (w : World) (uas : Option UAS) (frame : MAV_FRAME) (pixhawkMessages : Bool)
    (systemViewParams : SystemViewParams) (systemData : SystemContainer) :
    SystemViewParams × SystemContainer :=
  let (x, y, z, _roll, _pitch, _yaw) := getPose6 w.LLtoUTM uas frame 0 0 0 0 0 0
  let (systemViewParams, systemData) :=
    if systemViewParams.displayTarget then
      if systemData.target.isNull then
        ({ systemViewParams with displayTarget := false }, systemData)
      else
        (systemViewParams,
          { systemData with targetNode := systemData.targetNode.map (updateTarget x y z systemData.target) })
    else (systemViewParams, systemData)
  let systemData :=
    if systemViewParams.displayTrails then
      { systemData with
        trailNode := systemData.trailNode.map (fun trailNode =>
          updateTrails x y z trailNode systemData.trailMap systemData.trailIndexMap) }
    else
      { systemData with trailMap := [] }
  let systemData :=
    if pixhawkMessages then updateSensors w uas frame x y z systemViewParams systemData
    else systemData
  (systemViewParams, systemData)

/-- One round of the second loop of `update`: the data of vehicle `systemId`.
(`updateWaypoints` runs between the trails and the sensor overlays; it writes
to the waypoint group only.) -/
def updateSystem (w : World) (frame : MAV_FRAME) (s : Widget) (systemId : Int) : Widget :=
  let uas := (w.getUASForId systemId).map w.deref
  let s := { s with m3DWidget := s.m3DWidget.touchSystemGroup systemId }
  let s := { s with mSystemContainerMap := QMap.touch s.mSystemContainerMap systemId }
  let systemData := QMap.value s.mSystemContainerMap systemId
  let systemViewParams := QMap.value s.mSystemViewParamMap systemId
  let r := updateSystemData w uas frame s.pixhawkMessages systemViewParams systemData
  let calls :=
    if r.1.displayWaypoints then
      s.calls ++ [Call.waypointGroupUpdate systemId uas frame]
    else s.calls
  { s with
    mSystemViewParamMap := QMap.insert s.mSystemViewParamMap systemId r.1
    mSystemContainerMap := QMap.insert s.mSystemContainerMap systemId r.2
    calls := calls }

/-- `Pixhawk3DWidget::update()`.  The HUD text and the layout refresh at its
end write to no member kept in `Widget`; what the HUD is given is
`updateHUDOfTick`. -/
def update (w : World) (s : Widget) : Widget :=
  let frame := s.mGlobalViewParams.frame
  -- set node visibility
  let s := { s with
    m3DWidget := { s.m3DWidget with
      worldGridValue := s.mGlobalViewParams.displayWorldGrid
      imageryValue :=
        if s.mGlobalViewParams.imageryType = ImageryType.BLANK_MAP then false else true } }
  -- set system-specific node visibility
  let s := (QMap.keys s.mSystemViewParamMap).foldl updateVisibility s
  let s := { s with mImageryNodeType := s.mGlobalViewParams.imageryType }
  let s := updateCamera w frame s
  -- update system-specific data
  (QMap.keys s.mSystemViewParamMap).foldl (updateSystem w frame) s

/-- A piece of the status text `updateHUD` writes to its stream: a literal,
the id of the vehicle, or a number with the precision in force. -/
inductive HudItem where
  | text (t : String)
  | id (n : Int)
  | number (a : double) (precision : Nat)
deriving DecidableEq, Repr

/-- What `updateHUD` hands to the HUD: the text of `mStatusText->setText` and
the arguments of `mScaleGeode->update`. -/
structure HudUpdate where
  statusText : List HudItem
  height : double
  fov : double
  distance : double
  darkBackground : Bool
deriving DecidableEq, Repr

/-- `Pixhawk3DWidget::updateHUD(uas, frame)`, which `update` calls at its end
for the active vehicle when there is one; `uas` is dereferenced. -/
def updateHUD (w : World) (uas : UAS) (frame : MAV_FRAME) (s : Widget) : HudUpdate :=
  -- display pose of current system
  let o := getPose w.LLtoUTM (some uas) frame
    { x := 0, y := 0, z := 0, roll := 0, pitch := 0, yaw := 0, utmZone := "" }
  let cursorPosition := w.worldCursorPosition w.mouseCursorCoords (-o.z)
  let oss : List HudItem := [HudItem.text "MAV ", HudItem.id uas.getUASID, HudItem.text ": "]
  let oss : List HudItem :=
    if frame = MAV_FRAME.MAV_FRAME_GLOBAL then
      let (latitude, longitude) := w.UTMtoLL o.x o.y o.utmZone
      let (cursorLatitude, cursorLongitude) :=
        w.UTMtoLL cursorPosition.x cursorPosition.y o.utmZone
      oss ++ [HudItem.text " Lat = ", HudItem.number latitude 6,
        HudItem.text " Lon = ", HudItem.number longitude 6,
        HudItem.text " Altitude = ", HudItem.number (-o.z) 2,
        HudItem.text " r = ", HudItem.number o.roll 2,
        HudItem.text " p = ", HudItem.number o.pitch 2,
        HudItem.text " y = ", HudItem.number o.yaw 2,
        HudItem.text " Cursor [", HudItem.number cursorLatitude 6,
        HudItem.text " ", HudItem.number cursorLongitude 6, HudItem.text "]"]
    else if frame = MAV_FRAME.MAV_FRAME_LOCAL_NED then
      oss ++ [HudItem.text " x = ", HudItem.number o.x 2,
        HudItem.text " y = ", HudItem.number o.y 2,
        HudItem.text " z = ", HudItem.number o.z 2,
        HudItem.text " r = ", HudItem.number o.roll 2,
        HudItem.text " p = ", HudItem.number o.pitch 2,
        HudItem.text " y = ", HudItem.number o.yaw 2,
        HudItem.text " Cursor [", HudItem.number cursorPosition.x 2,
        HudItem.text " ", HudItem.number cursorPosition.y 2, HudItem.text "]"]
    else oss
  let darkBackground : Bool :=
    if frame = MAV_FRAME.MAV_FRAME_GLOBAL ∧ s.mImageryNodeType = ImageryType.GOOGLE_MAP then
      false
    else true
  { statusText := oss, height := w.height, fov := w.fov, distance := w.cameraDistance,
    darkBackground := darkBackground }

/-- The call of `updateHUD` at the end of `update`: what the HUD is given by
the tick from the state `s`, when there is an active vehicle. -/
def updateHUDOfTick (w : World) (s : Widget) : Option HudUpdate :=
  let frame := s.mGlobalViewParams.frame
  let s := update w s
  s.mActiveUAS.map (fun activeUAS => updateHUD w (w.deref activeUAS) frame s)

/-! ## Interaction -/

/-- `Pixhawk3DWidget::activeSystemChanged(uas)`. -/
def activeSystemChanged (w : World) (uas : UASPtr) (s : Widget) : Widget :=
  { s with
    mActiveSystemId := (w.deref uas).getUASID
    mActiveUAS := some uas
    mMode := Mode.DEFAULT_MODE }

/-- `Pixhawk3DWidget::attitudeChanged(uas, component, roll, pitch, yaw, time)`. -/
def attitudeChanged (uas : UAS) (_component : Int) (roll pitch yaw : double) (s : Widget) :
    Widget :=
  let systemId := uas.getUASID
  if ¬ QMap.contains s.mSystemContainerMap systemId then
    s
  else
    -- update system attitude
    { s with
      m3DWidget := s.m3DWidget.modifySystemGroup systemId
        (fun g => { g with attitude := (-yaw, pitch, roll) }) }

/-- `Pixhawk3DWidget::followCameraChanged(systemId)`. -/
def followCameraChanged (w : World) (systemId : Int) (s : Widget) : Widget :=
  let s := if systemId = -1 then { s with mFollowCameraId := -1 } else s
  match w.getUASForId systemId with
  | none => s
  | some uas =>
    if s.mFollowCameraId ≠ systemId then
      let (x, y, z) := getPosition3 w.LLtoUTM (some (w.deref uas)) s.mGlobalViewParams.frame 0 0 0
      let s := { s with mCameraPos := QVector3D.ofDoubles x y z }
      let s := { s with calls := s.calls ++ [Call.recenterCamera y x (-z)] }
      { s with mFollowCameraId := systemId }
    else s

/-- `Pixhawk3DWidget::recenterActiveCamera()`. -/
def recenterActiveCamera (w : World) (s : Widget) : Widget :=
  if s.mFollowCameraId ≠ -1 then
    match w.getUASForId s.mFollowCameraId with
    | none => s
    | some uas =>
      let (x, y, z) := getPosition3 w.LLtoUTM (some (w.deref uas)) s.mGlobalViewParams.frame 0 0 0
      let s := { s with mCameraPos := QVector3D.ofDoubles x y z }
      { s with calls := s.calls ++ [Call.recenterCamera y x (-z)] }
  else s

/-- `Pixhawk3DWidget::modelChanged(systemId, index)`.  With an index outside
the catalog the source reads out of range after it has detached the current
model; the model stops there. -/
def modelChanged (systemId index : Int) (s : Widget) : Widget :=
  if ¬ QMap.contains s.mSystemContainerMap systemId then
    s
  else
    let systemData := QMap.value s.mSystemContainerMap systemId
    let s := { s with m3DWidget := s.m3DWidget.touchSystemGroup systemId }
    let s := { s with
      m3DWidget := s.m3DWidget.modifySystemGroup systemId (fun g =>
        match systemData.modelNode with
        | some node => { g with egocentricMap := g.egocentricMap.erase node }
        | none => g) }
    if 0 ≤ index ∧ index < systemData.models.length then
      let systemData := { systemData with modelNode := some (NodeRef.model index.toNat) }
      { s with
        mSystemContainerMap := QMap.insert s.mSystemContainerMap systemId systemData
        m3DWidget := s.m3DWidget.modifySystemGroup systemId (fun g =>
          { g with egocentricMap := g.egocentricMap ++ [NodeRef.model index.toNat] }) }
    else s

/-- The world position of the pointer `cursor` on the plane of the vehicle in
the frame in use, as the handlers compute it; `none` in a frame that is
neither geodetic nor local NED. -/
def cursorWorldCoords (w : World) (frame : MAV_FRAME) (uas : UAS) (cursor : QPoint) :
    Option QPointF :=
  if frame = MAV_FRAME.MAV_FRAME_GLOBAL then
    some (w.worldCursorPosition cursor uas.getAltitude)
  else if frame = MAV_FRAME.MAV_FRAME_LOCAL_NED then
    some (w.worldCursorPosition cursor (-uas.getLocalZ))
  else none

/-- `Pixhawk3DWidget::selectTargetHeading()`. -/
def selectTargetHeading (w : World) (s : Widget) : Widget :=
  match s.mActiveUAS with
  | none => s
  | some activeUAS =>
    let uas := w.deref activeUAS
    let p : QPointF :=
      match cursorWorldCoords w s.mGlobalViewParams.frame uas w.mouseCursorCoords with
      | some c => ⟨c.x, c.y⟩
      | none => ⟨0, 0⟩
    let s := { s with mSystemContainerMap := QMap.touch s.mSystemContainerMap uas.getUASID }
    let systemData := QMap.value s.mSystemContainerMap uas.getUASID
    let target := systemData.target
    let target := target.setW (w.atan2 (dsub p.y target.y) (dsub p.x target.x))
    { s with
      mSystemContainerMap :=
        QMap.insert s.mSystemContainerMap uas.getUASID { systemData with target := target } }

/-- `Pixhawk3DWidget::selectTarget()`. -/
def selectTarget (w : World) (s : Widget) : Widget :=
  match s.mActiveUAS with
  | none => s
  | some activeUAS =>
    let uas := w.deref activeUAS
    if ¬ uas.hasParamManager then
      s
    else
      let s := { s with mSystemContainerMap := QMap.touch s.mSystemContainerMap uas.getUASID }
      let systemData := QMap.value s.mSystemContainerMap uas.getUASID
      let target : QVector4D :=
        if s.mGlobalViewParams.frame = MAV_FRAME.MAV_FRAME_GLOBAL then
          let altitude := uas.getAltitude
          let cursorWorldCoords := w.worldCursorPosition s.mCachedMousePos altitude
          let zTarget := match uas.targetAlt with
            | some v => v
            | none => -altitude
          QVector4D.ofDoubles cursorWorldCoords.x cursorWorldCoords.y zTarget 0
        else if s.mGlobalViewParams.frame = MAV_FRAME.MAV_FRAME_LOCAL_NED then
          let z := uas.getLocalZ
          let cursorWorldCoords := w.worldCursorPosition s.mCachedMousePos (-z)
          let zTarget := match uas.targetAlt with
            | some v => v
            | none => z
          QVector4D.ofDoubles cursorWorldCoords.x cursorWorldCoords.y zTarget 0
        else systemData.target
      let s := { s with
        mSystemContainerMap :=
          QMap.insert s.mSystemContainerMap uas.getUASID { systemData with target := target } }
      let systemId := uas.getUASID
      let s :=
        if QMap.contains s.mSystemViewParamMap systemId then
          { s with
            mSystemViewParamMap :=
              QMap.modify s.mSystemViewParamMap systemId (fun p => { p with displayTarget := true }) }
        else s
      { s with mMode := Mode.SELECT_TARGET_HEADING_MODE }

/-- `Pixhawk3DWidget::setTarget()`.  Without an active vehicle the source
dereferences a null pointer after `selectTargetHeading` has returned; the
model stops there. -/
def setTarget (w : World) (s : Widget) : Widget :=
  let s := selectTargetHeading w s
  match s.mActiveUAS with
  | none => s
  | some activeUAS =>
    let uas := w.deref activeUAS
    let s := { s with mSystemContainerMap := QMap.touch s.mSystemContainerMap uas.getUASID }
    let target := (QMap.value s.mSystemContainerMap uas.getUASID).target
    { s with calls := s.calls ++
        [Call.setTargetPosition activeUAS target.x target.y target.z (RadiansToDegrees target.w)] }

/-- `Pixhawk3DWidget::insertWaypoint()`.  In a frame that is neither geodetic
nor local NED no waypoint is made and the source dereferences the null
pointer; the model stops there. -/
def insertWaypoint (w : World) (s : Widget) : Widget :=
  match s.mActiveUAS with
  | none => s
  | some activeUAS =>
    let uas := w.deref activeUAS
    let wp : Option Waypoint :=
      if s.mGlobalViewParams.frame = MAV_FRAME.MAV_FRAME_GLOBAL then
        let latitude := uas.getLatitude
        let longitude := uas.getLongitude
        let altitude := uas.getAltitude
        let utm := w.LLtoUTM latitude longitude
        let cursorWorldCoords := w.worldCursorPosition s.mCachedMousePos altitude
        let (latitude, longitude) := w.UTMtoLL cursorWorldCoords.x cursorWorldCoords.y utm.zone
        some { id := 0, x := longitude, y := latitude, z := altitude, param1 := 0, param2 := 1 / 4 }
      else if s.mGlobalViewParams.frame = MAV_FRAME.MAV_FRAME_LOCAL_NED then
        let z := uas.getLocalZ
        let cursorWorldCoords := w.worldCursorPosition s.mCachedMousePos (-z)
        some { id := 0, x := cursorWorldCoords.x, y := cursorWorldCoords.y, z := z,
               param1 := 0, param2 := 1 / 4 }
      else none
    match wp with
    | some wp =>
      let wp := { wp with frame := s.mGlobalViewParams.frame }
      let s := { s with calls := s.calls ++ [Call.addWaypointEditable activeUAS wp] }
      let s := { s with mSelectedWpIndex := w.addedWaypointId wp }
      { s with mMode := Mode.MOVE_WAYPOINT_HEADING_MODE }
    | none => s

/-- The element `waypoints.at(index)`, when there is one. -/
def waypointAt (waypoints : List Waypoint) (index : Int) : Option Waypoint :=
  if 0 ≤ index then waypoints.get? index.toNat else none

/-- `Pixhawk3DWidget::moveWaypointPosition()`.  With a selected index outside
the waypoint list the source reads out of range; the model stops there. -/
def moveWaypointPosition (w : World) (s : Widget) : Widget :=
  if s.mMode ≠ Mode.MOVE_WAYPOINT_POSITION_MODE then
    { s with mMode := Mode.MOVE_WAYPOINT_POSITION_MODE }
  else
    match s.mActiveUAS with
    | none => s
    | some activeUAS =>
      let uas := w.deref activeUAS
      match waypointAt uas.waypoints s.mSelectedWpIndex with
      | none => s
      | some _waypoint =>
        if s.mGlobalViewParams.frame = MAV_FRAME.MAV_FRAME_GLOBAL then
          let latitude := uas.getLatitude
          let longitude := uas.getLongitude
          let altitude := uas.getAltitude
          let utm := w.LLtoUTM latitude longitude
          let cursorWorldCoords := w.worldCursorPosition w.mouseCursorCoords altitude
          let (latitude, longitude) := w.UTMtoLL cursorWorldCoords.x cursorWorldCoords.y utm.zone
          { s with calls := s.calls ++
              [Call.waypointSetX activeUAS s.mSelectedWpIndex longitude,
               Call.waypointSetY activeUAS s.mSelectedWpIndex latitude] }
        else if s.mGlobalViewParams.frame = MAV_FRAME.MAV_FRAME_LOCAL_NED then
          let z := uas.getLocalZ
          let cursorWorldCoords := w.worldCursorPosition w.mouseCursorCoords (-z)
          { s with calls := s.calls ++
              [Call.waypointSetX activeUAS s.mSelectedWpIndex cursorWorldCoords.x,
               Call.waypointSetY activeUAS s.mSelectedWpIndex cursorWorldCoords.y] }
        else s

/-- `Pixhawk3DWidget::moveWaypointHeading()`.  With a selected index outside
the waypoint list the source reads out of range; the model stops there. -/
def moveWaypointHeading (w : World) (s : Widget) : Widget :=
  if s.mMode ≠ Mode.MOVE_WAYPOINT_HEADING_MODE then
    { s with mMode := Mode.MOVE_WAYPOINT_HEADING_MODE }
  else
    match s.mActiveUAS with
    | none => s
    | some activeUAS =>
      let uas := w.deref activeUAS
      match waypointAt uas.waypoints s.mSelectedWpIndex with
      | none => s
      | some waypoint =>
        let z : double :=
          if s.mGlobalViewParams.frame = MAV_FRAME.MAV_FRAME_GLOBAL then
            -waypoint.z
          else if s.mGlobalViewParams.frame = MAV_FRAME.MAV_FRAME_LOCAL_NED then
            uas.getLocalZ
          else 0
        let cursorWorldCoords := w.worldCursorPosition w.mouseCursorCoords (-z)
        let yaw := w.atan2 (dsub cursorWorldCoords.y waypoint.y)
          (dsub cursorWorldCoords.x waypoint.x)
        let yaw := RadiansToDegrees yaw
        { s with calls := s.calls ++ [Call.waypointSetYaw activeUAS s.mSelectedWpIndex yaw] }

/-- `Pixhawk3DWidget::deleteWaypoint()`. -/
def deleteWaypoint (s : Widget) : Widget :=
  match s.mActiveUAS with
  | some activeUAS =>
    { s with calls := s.calls ++ [Call.removeWaypoint activeUAS s.mSelectedWpIndex] }
  | none => s

/-- `Pixhawk3DWidget::setWaypointAltitude()`.  With a selected index outside
the waypoint list the source reads out of range; the model stops there. -/
def setWaypointAltitude (w : World) (s : Widget) : Widget :=
  match s.mActiveUAS with
  | none => s
  | some activeUAS =>
    let uas := w.deref activeUAS
    match waypointAt uas.waypoints s.mSelectedWpIndex with
    | none => s
    | some waypoint =>
      let (newAltitude, ok) := w.getDouble waypoint.z
      if ok then
        if s.mGlobalViewParams.frame = MAV_FRAME.MAV_FRAME_GLOBAL then
          { s with calls := s.calls ++
              [Call.waypointSetZ activeUAS s.mSelectedWpIndex newAltitude] }
        else if s.mGlobalViewParams.frame = MAV_FRAME.MAV_FRAME_LOCAL_NED then
          { s with calls := s.calls ++
              [Call.waypointSetZ activeUAS s.mSelectedWpIndex (-newAltitude)] }
        else s
      else s

/-- `Pixhawk3DWidget::clearAllWaypoints()`. -/
def clearAllWaypoints (w : World) (s : Widget) : Widget :=
  match s.mActiveUAS with
  | some activeUAS =>
    let waypoints := (w.deref activeUAS).waypoints
    { s with calls := s.calls ++
        ((List.range waypoints.length).reverse.map
          (fun (i : Nat) => Call.removeWaypoint activeUAS (i : Int))) }
  | none => s

/-- `Pixhawk3DWidget::findWaypoint(mousePos)`: the widget after the call and
the index returned. -/
def findWaypoint (w : World) (mousePos : QPoint) (s : Widget) : Widget × Int :=
  match s.mActiveUAS with
  | none => (s, -1)
  | some activeUAS =>
    if ¬ w.hasSceneData then
      (s, -1)
    else
      let uas := w.deref activeUAS
      let s := { s with mSystemContainerMap := QMap.touch s.mSystemContainerMap uas.getUASID }
      let systemData := QMap.value s.mSystemContainerMap uas.getUASID
      match w.computeIntersections mousePos with
      | some intersections =>
        let hit := intersections.findSome? (fun nodePath =>
          nodePath.findSome? (fun node =>
            if node.name.take 2 = "wp" ∧ systemData.waypointGroupNode.isSome ∧
                node.waypointGroupOf = some uas.getUASID then
              some (w.atoi (node.name.drop 2))
            else none))
        (s, hit.getD (-1))
      | none => (s, -1)

/-- `Pixhawk3DWidget::showInsertWaypointMenu`: the slot of the entry the user
picks runs before the menu returns. -/
def showInsertWaypointMenu (w : World) (choice : Option MenuAction) (s : Widget) : Widget :=
  match choice with
  | some MenuAction.insertWaypoint => insertWaypoint w s
  | some MenuAction.clearAllWaypoints => clearAllWaypoints w s
  | some MenuAction.selectTarget => selectTarget w s
  | _ => s

/-- `Pixhawk3DWidget::showEditWaypointMenu`: the slot of the entry the user
picks runs before the menu returns. -/
def showEditWaypointMenu (w : World) (choice : Option MenuAction) (s : Widget) : Widget :=
  match choice with
  | some MenuAction.moveWaypointPosition => moveWaypointPosition w s
  | some MenuAction.moveWaypointHeading => moveWaypointHeading w s
  | some MenuAction.setWaypointAltitude => setWaypointAltitude w s
  | some MenuAction.deleteWaypoint => deleteWaypoint s
  | some MenuAction.clearAllWaypoints => clearAllWaypoints w s
  | _ => s

/-- The block of `mousePressEvent` for a left press with the Shift modifier:
the waypoint under the pointer is looked up and a context menu shown. -/
def shiftPress (w : World) (event : QMouseEvent) (s : Widget) : Widget :=
  let (s, index) := findWaypoint w event.pos s
  let s := { s with mSelectedWpIndex := index }
  if s.mSelectedWpIndex = -1 then
    let s := { s with mCachedMousePos := event.pos }
    showInsertWaypointMenu w event.menuChoice s
  else
    showEditWaypointMenu w event.menuChoice s

/-- `Pixhawk3DWidget::mousePressEvent(event)`. -/
def mousePressEvent (w : World) (event : QMouseEvent) (s : Widget) : Widget :=
  if event.acceptedByBase then
    s
  else if event.button = MouseButton.LeftButton then
    let s := if s.mMode = Mode.SELECT_TARGET_HEADING_MODE then setTarget w s else s
    let s := if s.mMode ≠ Mode.DEFAULT_MODE then { s with mMode := Mode.DEFAULT_MODE } else s
    if event.modifiers = KeyboardModifiers.ShiftModifier then
      shiftPress w event s
    else
      { s with calls := s.calls ++ [Call.handleMousePressEvent] }
  else
    { s with calls := s.calls ++ [Call.handleMousePressEvent] }

/-- `Pixhawk3DWidget::mouseMoveEvent(event)`. -/
def mouseMoveEvent (w : World) (event : QMouseEvent) (s : Widget) : Widget :=
  if event.acceptedByBase then
    s
  else
    let s := if s.mMode = Mode.SELECT_TARGET_HEADING_MODE then selectTargetHeading w s else s
    let s := if s.mMode = Mode.MOVE_WAYPOINT_POSITION_MODE then moveWaypointPosition w s else s
    let s := if s.mMode = Mode.MOVE_WAYPOINT_HEADING_MODE then moveWaypointHeading w s else s
    { s with calls := s.calls ++ [Call.handleMouseMoveEvent] }

/-! ## Event sequences -/

/-- The state the constructor leaves: no vehicle is tracked. -/
def init : Widget := {}

/-- The side panel writes the toggles of a tracked vehicle through the shared
`SystemViewParamsPtr`. -/
def editSystemViewParams (systemId : Int) (f : SystemViewParams → SystemViewParams)
    (s : Widget) : Widget :=
  if QMap.contains s.mSystemViewParamMap systemId then
    { s with mSystemViewParamMap := QMap.modify s.mSystemViewParamMap systemId f }
  else s

/-- The display-trails toggle of vehicle `systemId` is set to `b`. -/
def setDisplayTrails (systemId : Int) (b : Bool) (s : Widget) : Widget :=
  editSystemViewParams systemId (fun p => { p with displayTrails := b }) s

/-- The handlers of the widget that write to no member kept here: they hand
the event to the 3D widget, resize the HUD, show or hide the side panel, or
emit `visibilityChanged`. -/
inductive PassiveHandler where
  | showViewParamWindow
  | sizeChanged
  | keyPressEvent
  | keyReleaseEvent
  | mouseReleaseEvent
  | wheelEvent
  | showEvent
  | hideEvent
deriving DecidableEq, Repr

/-- What can happen to the widget between two states: a handler of the
widget runs, or the side panel writes to the view parameters it shares with
the widget. -/
inductive Event where
  | systemCreated (w : World) (uas : UAS)
  | localPositionChanged (uas : UAS) (component : Int) (x y z : double)
  | update (w : World)
  | editSystemViewParams (systemId : Int) (p : SystemViewParams)
  | editGlobalViewParams (p : GlobalViewParams)
  | activeSystemChanged (w : World) (uas : UASPtr)
  | followCameraChanged (w : World) (systemId : Int)
  | attitudeChanged (uas : UAS) (component : Int) (roll pitch yaw : double)
  | recenterActiveCamera (w : World)
  | setBirdEyeView
  | modelChanged (systemId index : Int)
  | mousePressEvent (w : World) (event : QMouseEvent)
  | mouseMoveEvent (w : World) (event : QMouseEvent)
  | passive (handler : PassiveHandler)

/-- The state after one event. -/
def step (s : Widget) : Event → Widget
  | Event.systemCreated w uas => systemCreated w uas s
  | Event.localPositionChanged uas component x y z => localPositionChanged uas component x y z s
  | Event.update w => update w s
  | Event.editSystemViewParams systemId p => editSystemViewParams systemId (fun _ => p) s
  | Event.editGlobalViewParams p => { s with mGlobalViewParams := p }
  | Event.activeSystemChanged w uas => activeSystemChanged w uas s
  | Event.followCameraChanged w systemId => followCameraChanged w systemId s
  | Event.attitudeChanged uas component roll pitch yaw =>
    attitudeChanged uas component roll pitch yaw s
  | Event.recenterActiveCamera w => recenterActiveCamera w s
  | Event.setBirdEyeView => setBirdEyeView s
  | Event.modelChanged systemId index => modelChanged systemId index s
  | Event.mousePressEvent w event => mousePressEvent w event s
  | Event.mouseMoveEvent w event => mouseMoveEvent w event s
  | Event.passive _ => s

/-- The event is a position notification or a tick. -/
def Event.isNotificationOrTick : Event → Bool
  | Event.localPositionChanged _ _ _ _ _ => true
  | Event.update _ => true
  | _ => false

/-- The state after a sequence of events, oldest first. -/
def run (s : Widget) (events : List Event) : Widget := events.foldl step s

/-- The stored trail of a component of a vehicle; empty when there is none. -/
def trailOf (s : Widget) (systemId component : Int) : QVector Vec3d :=
  QMap.value (QMap.value s.mSystemContainerMap systemId).trailMap component

/-- A world for the examples: one vehicle, id 3, at address 0. -/
def demoWorld : World where
  getUASForId := fun id => if id = 3 then some 0 else none
  deref := fun _ => { uasId := 3, localX := 1, localY := 2, localZ := -5 }
  LLtoUTM := fun latitude longitude => ⟨latitude, longitude, "32T"⟩
  newSystemViewParams := fun id => { systemId := id, displayTrails := true }
  modelFiles := [some "quad", none]
  cheetahName := "cheetah"

/-- The vehicle of the examples. -/
def demoUAS : UAS := { uasId := 3, localX := 1, localY := 2, localZ := -5 }

/-- The state after the vehicle of the examples has been created. -/
def demoState : Widget := systemCreated demoWorld demoUAS init

/-- The state of the examples after component 7 of the vehicle has reported
the position (0, 0, 0). -/
def demoStateAtOrigin : Widget := localPositionChanged demoUAS 7 0 0 0 demoState

/-- A coordinate between the threshold `0.01f` of the code and one hundredth:
`0.01f + 2^-33`, about 0.00999999989. -/
def justBelowHundredth : double := 85899345 / 8589934592

/-- How often `initializeSystem` has run for vehicle `systemId`: each run, and
nothing else, connects the vehicle's `modelChangedSignal`. -/
def initializeCount (systemId : Int) (s : Widget) : Nat :=
  s.calls.count (Call.connectModelChanged systemId)

/-- The state after a sequence of vehicle-created notifications. -/
def systemCreatedAll (s : Widget) (notifications : List (World × UAS)) : Widget :=
  notifications.foldl (fun s n => systemCreated n.1 n.2 s) s

/-- The capacity `localPositionChanged` reserves for a new trail. -/
@[irreducible] def kTrailCapacity : Nat := 10000

/-- The last `n` elements of a list, in their order. -/
def lastN {α : Type} (n : Nat) (l : List α) : List α := l.drop (l.length - n)

/-- The append policy in the words of the specification: a point is accepted
next to the last accepted point `L` when it differs from `L` by more than the
threshold `eps` on some axis, the difference being the one `double`
subtraction gives. -/
def differsFrom (eps : double) (L p : Vec3d) : Bool :=
  |dsub p.x L.x| > eps ∨ |dsub p.y L.y| > eps ∨ |dsub p.z L.z| > eps

/-- The points of a sequence of notifications that the append policy with
threshold `eps` accepts, oldest first, when `last` is the last point accepted
before the sequence (`none`: nothing was accepted yet). -/
def acceptedFrom (eps : double) : Option Vec3d → List Vec3d → List Vec3d
  | _, [] => []
  | none, p :: t => p :: acceptedFrom eps (some p) t
  | some L, p :: t =>
    if differsFrom eps L p then p :: acceptedFrom eps (some p) t
    else acceptedFrom eps (some L) t

/-- The state after the position notifications `points`, oldest first, of one
component of one vehicle. -/
def localPositionChangedAll (uas : UAS) (component : Int) (s : Widget) (points : List Vec3d) :
    Widget :=
  points.foldl (fun s p => localPositionChanged uas component p.x p.y p.z s) s

/-- The trail after the points `points`, oldest first, have been handled. -/
def recordAll (trail : QVector Vec3d) (points : List Vec3d) : QVector Vec3d :=
  points.foldl (fun t p => recordPosition t p.x p.y p.z) trail

/-- The trail `localPositionChanged` starts for a component it sees for the
first time. -/
def newTrail : QVector Vec3d := (QVector.empty : QVector Vec3d).reserve 10000

/-- Every trail of a vehicle has the reserved capacity and is not longer. -/
def SystemContainer.trailsBounded (c : SystemContainer) : Prop :=
  ∀ t ∈ c.trailMap, t.2.alloc = kTrailCapacity ∧ t.2.elems.length ≤ kTrailCapacity

/-- Every trail of every vehicle has the reserved capacity and is not longer. -/
def Widget.trailsBounded (s : Widget) : Prop :=
  ∀ e ∈ s.mSystemContainerMap, e.2.trailsBounded

/-! ## Definitions for the statements about the scene and the interaction -/

/-- `osg::Switch::getChildValue(child)`: the value of the first occurrence of
`child`, false when it is not a child. -/
def Switch.getChildValue {κ : Type} [DecidableEq κ] : Switch κ → κ → Bool
  | [], _ => false
  | (c, b) :: t, child => if c = child then b else Switch.getChildValue t child

/-- The node is a model of a catalog. -/
def NodeRef.isModel : NodeRef → Bool
  | NodeRef.model _ => true
  | _ => false

/-- The children a vehicle has in the rolling map after `initializeSystem`, in
the build without and with the protobuf messages. -/
def overlayChildren (pixhawkMessages : Bool) : Switch NodeRef :=
  [(NodeRef.localGridNode, false), (NodeRef.pointCloudNode, false), (NodeRef.targetNode, false),
    (NodeRef.trailNode, false), (NodeRef.waypointGroupNode, false)] ++
  (if pixhawkMessages then
    [(NodeRef.obstacleGroupNode, false), (NodeRef.plannedPathNode, false)]
  else [])

/-- The call is a `setTargetPosition` command to a vehicle. -/
def Call.isSetTargetPosition : Call → Bool
  | Call.setTargetPosition _ _ _ _ _ => true
  | _ => false

/-- The `setTargetPosition` commands among the calls, in their order. -/
def targetCommands (calls : List Call) : List Call := calls.filter Call.isSetTargetPosition

/-- The point `p` of `selectTargetHeading`: the world position of the pointer
in the geodetic and in the local-NED frame, `(0, 0)` in any other frame. -/
def pointerWorldPosition (w : World) (frame : MAV_FRAME) (uas : UAS) : QPointF :=
  match cursorWorldCoords w frame uas w.mouseCursorCoords with
  | some c => ⟨c.x, c.y⟩
  | none => ⟨0, 0⟩

/-- A world for the examples of the interaction: the vehicle with id 3 at
address 0 has a parameter manager, the projection of the pointer onto the
plane of the vehicle gives the pixel coordinates, the pointer is at (1, 3),
and `atan2 (1, 0)` is `PI / 2`. -/
def demoWorldPointer : World :=
  { demoWorld with
    deref := fun _ => { uasId := 3, localX := 1, localY := 2, localZ := -5, hasParamManager := true }
    worldCursorPosition := fun c _ => ⟨(c.x : double), (c.y : double)⟩
    mouseCursorCoords := ⟨1, 3⟩
    atan2 := fun y x => if y = 1 ∧ x = 0 then PI / 2 else 0 }

/-- The state of the examples after the vehicle has become the active one. -/
def demoActiveState : Widget := activeSystemChanged demoWorldPointer 0 demoState

/-- The state of the examples after a shift-click at (1, 2) whose context menu
was answered with "Select target". -/
def demoSelectState : Widget :=
  mousePressEvent demoWorldPointer
    { modifiers := KeyboardModifiers.ShiftModifier, pos := ⟨1, 2⟩,
      menuChoice := some MenuAction.selectTarget } demoActiveState

/-- The state `mousePressEvent` reaches on a left press after its two blocks
on the mode, before it looks at the modifier. -/
def committed (w : World) (s : Widget) : Widget :=
  let s := if s.mMode = Mode.SELECT_TARGET_HEADING_MODE then setTarget w s else s
  if s.mMode ≠ Mode.DEFAULT_MODE then { s with mMode := Mode.DEFAULT_MODE } else s

/-- The command `setTarget` sends to the active vehicle `a` from the state
`s`: the stored target, and as heading the bearing from the target to the
pointer, in degrees. -/
def targetCommand (w : World) (s : Widget) (a : UASPtr) : Call :=
  let target := (QMap.value s.mSystemContainerMap (w.deref a).uasId).target
  let p := pointerWorldPosition w s.mGlobalViewParams.frame (w.deref a)
  Call.setTargetPosition a target.x target.y target.z
    (RadiansToDegrees (toFloat (w.atan2 (dsub p.y target.y) (dsub p.x target.x))))

/-- The call moves, turns or re-centres the camera, or belongs to the switch
to the bird's-eye view. -/
def Call.isCamera : Call → Bool
  | Call.moveCamera _ _ _ => true
  | Call.recenterCamera _ _ _ => true
  | Call.rotateCamera _ _ _ => true
  | Call.setCameraDistance _ => true
  | Call.setFollowCameraId _ => true
  | _ => false

/-- The camera calls among the calls, in their order. -/
def cameraCalls (calls : List Call) : List Call := calls.filter Call.isCamera

/-- The camera calls the tick in world `w` adds from the state `s`. -/
def tickCameraCalls (w : World) (s : Widget) : List Call :=
  (cameraCalls (update w s).calls).drop (cameraCalls s.calls).length

/-- The call is part of the snap to the active vehicle or of the switch to
the bird's-eye view: any camera call but the translation of the follow mode. -/
def Call.isSnap : Call → Bool
  | Call.recenterCamera _ _ _ => true
  | Call.rotateCamera _ _ _ => true
  | Call.setCameraDistance _ => true
  | Call.setFollowCameraId _ => true
  | _ => false

/-- The tick in world `w` from the state `s` snaps the camera or switches the
view. -/
def tickSnaps (w : World) (s : Widget) : Bool := (tickCameraCalls w s).any Call.isSnap

/-- How many of the ticks of a sequence of events snap the camera or switch
the view. -/
def snapTicks : Widget → List Event → Nat
  | _, [] => 0
  | s, Event.update w :: rest => (if tickSnaps w s then 1 else 0) + snapTicks (update w s) rest
  | s, e :: rest => snapTicks (step s e) rest

/-- The world of the examples at the time `now`, in which the vehicle has
reported one obstacle, a path of two points, a cloud of one point and an
image of one pixel, all of them at the time 1. -/
def demoSensorWorld (now : double) : World :=
  { demoWorld with
    groundTimeSeconds := now
    deref := fun _ =>
      { uasId := 3, localX := 1, localY := 2, localZ := -5,
        obstacleList := [⟨1, 1, 1⟩], obstacleListTimestamp := 1,
        path := [⟨0, 0, 0⟩, ⟨1, 0, 0⟩], pathTimestamp := 1,
        pointCloud := [⟨1, 2, 3, 255⟩], pointCloudTimestamp := 1,
        rgbdImage := { rows := 1, cols := 1, imagedata1 := [7], imagedata2 := [[2]] },
        rgbdImageTimestamp := 1 } }

/-- The state of the examples in the build with the protobuf messages: the
vehicle is created, the frame is local NED, the four sensor overlays are
switched on, and a tick has run at the time 2, one second after the sensor
messages. -/
def demoSensorState : Widget :=
  update (demoSensorWorld 2)
    (editSystemViewParams 3
      (fun p => { p with displayObstacleList := true, displayPlannedPath := true,
                         displayPointCloud := true, displayRGBD := true })
      { systemCreated demoWorld demoUAS { init with pixhawkMessages := true } with
        mGlobalViewParams := { frame := MAV_FRAME.MAV_FRAME_LOCAL_NED } })

/-- The world of the examples of the interaction with an empty registry. -/
def demoWorldMissing : World := { demoWorldPointer with getUASForId := fun _ => none }

/-- The state of the examples in the local-NED frame after the vehicle, which
has reported the position (0, 0, 0) for component 7, has become the active
one, a target was selected at (1, 2), and a tick has run while the vehicle,
at (1, 2, -5), was in the registry. -/
def demoLocalState : Widget :=
  update demoWorldPointer
    (mousePressEvent demoWorldPointer
      { modifiers := KeyboardModifiers.ShiftModifier, pos := ⟨1, 2⟩,
        menuChoice := some MenuAction.selectTarget }
      (activeSystemChanged demoWorldPointer 0
        { demoStateAtOrigin with
          mGlobalViewParams := { frame := MAV_FRAME.MAV_FRAME_LOCAL_NED } }))

/-- The world of the examples after the vehicle has moved to latitude 4,
longitude 6 and altitude 2. -/
def demoWorldMoved : World :=
  { demoWorld with
    deref := fun _ => { uasId := 3, latitude := 4, longitude := 6, altitude := 2 } }

/-- The state of the examples after the camera was told to follow the
vehicle. -/
def demoFollowState : Widget := followCameraChanged demoWorld 3 demoState

/-- A world for the examples of the follow camera: the projection places the
vehicle at the northing 5247000.81 and the easting 465000.5, as `double`
values, and the vehicle stands still. -/
def demoWorldStill : World :=
  { demoWorld with
    LLtoUTM := fun _ _ => ⟨toDouble (524700081 / 100), toDouble (4650005 / 10), "32T"⟩ }

/-- The state of the examples after the camera was told to follow the
vehicle that stands still. -/
def demoStillState : Widget := followCameraChanged demoWorldStill 3 demoState

/-- The writes the handlers of the pointer make to the container map, under
the id of the active vehicle: an access through `operator[]`, and a new
target for the entry. -/
inductive TargetEdit (id : Int) : QMap SystemContainer → QMap SystemContainer → Prop
  | touch (m : QMap SystemContainer) : TargetEdit id m (QMap.touch m id)
  | target (m : QMap SystemContainer) (t : QVector4D) :
      TargetEdit id m (QMap.insert m id { QMap.value m id with target := t })

/-- What a handler of the pointer, run in the world `w`, can have done when
it has taken the widget from the state `s` to the state `t`: the active
vehicle, the frame, the camera members, the scene and the build flag are as
they were; the mode is the target-heading mode only if it was before or there
is an active vehicle; the container map has changed by writes of `TargetEdit`
under the id of the active vehicle, and the view parameters by switching on
the display-target toggle of that vehicle, if it has view parameters. -/
def interacted (w : World) (s t : Widget) : Prop :=
  t.mActiveUAS = s.mActiveUAS ∧ t.mActiveSystemId = s.mActiveSystemId ∧
  t.mGlobalViewParams = s.mGlobalViewParams ∧ t.mFollowCameraId = s.mFollowCameraId ∧
  t.mInitCameraPos = s.mInitCameraPos ∧ t.mCameraPos = s.mCameraPos ∧
  t.m3DWidget = s.m3DWidget ∧ t.mImageryNodeType = s.mImageryNodeType ∧
  t.pixhawkMessages = s.pixhawkMessages ∧
  (t.mMode = Mode.SELECT_TARGET_HEADING_MODE →
    s.mMode = Mode.SELECT_TARGET_HEADING_MODE ∨ ∃ a, s.mActiveUAS = some a) ∧
  (∀ P : QMap SystemContainer → Prop,
    (∀ a, s.mActiveUAS = some a → ∀ m m', P m → TargetEdit (w.deref a).uasId m m' → P m') →
    P s.mSystemContainerMap → P t.mSystemContainerMap) ∧
  (∀ Q : QMap SystemViewParams → Prop,
    (∀ a, s.mActiveUAS = some a → ∀ m, Q m → QMap.contains m (w.deref a).uasId = true →
      Q (QMap.modify m (w.deref a).uasId (fun p => { p with displayTarget := true }))) →
    Q s.mSystemViewParamMap → Q t.mSystemViewParamMap)

/-- The list with the waypoint at the index `i` replaced by `f` of it; the
list itself when it has no such waypoint. -/
def modifyAt (l : List Waypoint) (i : Int) (f : Waypoint → Waypoint) : List Waypoint :=
  if 0 ≤ i then
    match l.get? i.toNat with
    | some wp => l.set i.toNat (f wp)
    | none => l
  else l

/-- Modelled from the spec: `Waypoint::setX`, `setY`, `setZ` and `setYaw` are
defined outside this file; each stores its argument in the waypoint.  The
editable waypoints of the vehicle `uas` after the call `c`, when `c` is one of
these setters on a waypoint of that vehicle; the list as it is for every other
call. -/
def applySetter (uas : Nat) (waypoints : List Waypoint) : Call → List Waypoint
  | Call.waypointSetX u i v =>
    if u = uas then modifyAt waypoints i (fun wp => { wp with x := v }) else waypoints
  | Call.waypointSetY u i v =>
    if u = uas then modifyAt waypoints i (fun wp => { wp with y := v }) else waypoints
  | Call.waypointSetZ u i v =>
    if u = uas then modifyAt waypoints i (fun wp => { wp with z := v }) else waypoints
  | Call.waypointSetYaw u i v =>
    if u = uas then modifyAt waypoints i (fun wp => { wp with yaw := v }) else waypoints
  | _ => waypoints

/-- The editable waypoints of the vehicle `uas` after the setter calls among
`calls`, oldest first. -/
def afterSetters (uas : Nat) (waypoints : List Waypoint) (calls : List Call) : List Waypoint :=
  calls.foldl (applySetter uas) waypoints

/-- The sampling distances of the link in the words of the specification:
`0.1, 0.4, 0.7, ...`, as many as are less than `L - 0.1`. -/
def linkDistances (L : double) : List double :=
  (List.range (Int.toNat ⌈(L - 2 / 10) / (3 / 10)⌉)).map
    (fun (k : Nat) => 1 / 10 + 3 / 10 * (k : double))

/-- The value of `i` in round `k` of the loop of the link: `0.1` with `0.3`
added `k` times, each sum rounded to `double`. -/
def linkAccumulated : Nat → double
  | 0 => toDouble (1 / 10)
  | k + 1 => dadd (linkAccumulated k) (toDouble (3 / 10))

/-- The vertex of the link for the value `i` along the direction `u`:
`(v.y, v.x, -v.z)` for `v = u * i`. -/
def linkSample (u : QVector3D) (i : double) : Vec3d :=
  Vec3d.toVec3f ⟨(u.scale i).y, (u.scale i).x, -(u.scale i).z⟩

/-- The entries of the map are in the order of their keys, as `insert` keeps
them. -/
def QMap.ordered {V : Type} (m : QMap V) : Prop := m.Pairwise (fun a b => a.1 < b.1)

/-- The trail map of the container is in key order, its trail node has two
drawables for each stored trail, and every value `v` of the trail index map is
the index of a pair of them: `0 ≤ v` and `2 v + 1` is less than their number. -/
def SystemContainer.wellIndexed (c : SystemContainer) : Prop :=
  QMap.ordered c.trailMap ∧
  ∀ drawables, c.trailNode = some drawables →
    2 * c.trailMap.length ≤ drawables.length ∧
    ∀ e ∈ c.trailIndexMap, 0 ≤ e.2 ∧ 2 * e.2 + 1 < (drawables.length : Int)

/-- The scene nodes `initializeSystem` makes in every build are set: the grid,
the point cloud, the target marker, the trail node, the waypoint group and the
two image nodes. -/
def SystemContainer.initialised (c : SystemContainer) : Prop :=
  c.localGridNode = true ∧ c.pointCloudNode = true ∧ c.targetNode.isSome = true ∧
  c.trailNode.isSome = true ∧ c.waypointGroupNode.isSome = true ∧
  c.rgbImageNode = true ∧ c.depthImageNode = true

/-- The two maps have the same keys, every container is initialised, and the
active vehicle, when there is one, is tracked under the id `mActiveSystemId`. -/
def Widget.consistent (s : Widget) : Prop :=
  (∀ k, QMap.contains s.mSystemContainerMap k = QMap.contains s.mSystemViewParamMap k) ∧
  (∀ e ∈ s.mSystemContainerMap, e.2.initialised) ∧
  (∀ a, s.mActiveUAS = some a → QMap.contains s.mSystemContainerMap s.mActiveSystemId = true)

/-- The proviso on the environment of the widget, for an event in the state
`s`: a vehicle is announced as the active one only after it was created, and
the active vehicle has the id it was announced with whenever a handler of the
pointer asks for it. -/
def Event.admissible (s : Widget) : Event → Prop
  | Event.activeSystemChanged w uas =>
    QMap.contains s.mSystemContainerMap (w.deref uas).uasId = true
  | Event.mousePressEvent w _ => ∀ a, s.mActiveUAS = some a → (w.deref a).uasId = s.mActiveSystemId
  | Event.mouseMoveEvent w _ => ∀ a, s.mActiveUAS = some a → (w.deref a).uasId = s.mActiveSystemId
  | _ => True

/-- Every event of the sequence is admissible in the state it occurs in. -/
def admissibleRun : Widget → List Event → Prop
  | _, [] => True
  | s, e :: rest => e.admissible s ∧ admissibleRun (step s e) rest

/-- The ids of the vehicles the events announce as created. -/
def createdIds : List Event → List Int
  | [] => []
  | Event.systemCreated _ uas :: rest => uas.uasId :: createdIds rest
  | _ :: rest => createdIds rest

/-- A world for the examples of the waypoint handlers: the vehicle has two
waypoints, both at z = -5; the pointer is at (4, 6) and projects onto its
pixel coordinates; the node under the pointer is waypoint 1 of the vehicle;
and the altitude dialog is confirmed with the value it is opened with. -/
def demoWorldWaypoint : World :=
  { demoWorld with
    deref := fun _ =>
      { uasId := 3, localX := 1, localY := 2, localZ := -5,
        waypoints := [{ id := 0, x := 0, y := 0, z := -5 }, { id := 1, x := 1, y := 1, z := -5 }] }
    worldCursorPosition := fun c _ => ⟨(c.x : double), (c.y : double)⟩
    mouseCursorCoords := ⟨4, 6⟩
    getDouble := fun a => (a, true)
    computeIntersections := fun _ => some [[{ name := "wp1", waypointGroupOf := some 3 }]]
    atoi := fun _ => 1 }

/-- The state of the examples in the local-NED frame after the vehicle has
become the active one and a shift-click on waypoint 1 was answered with "Move
waypoint". -/
def demoMoveState : Widget :=
  mousePressEvent demoWorldWaypoint
    { modifiers := KeyboardModifiers.ShiftModifier, pos := ⟨1, 1⟩,
      menuChoice := some MenuAction.moveWaypointPosition }
    (activeSystemChanged demoWorldWaypoint 0
      { demoState with mGlobalViewParams := { frame := MAV_FRAME.MAV_FRAME_LOCAL_NED } })

/-- The events of the examples of the trail index: the vehicle is created,
its components 7 and 8 report a position, the trails are hidden, a tick runs,
and component 8 reports again. -/
def demoShareEvents : List Event :=
  [Event.systemCreated demoWorld demoUAS,
   Event.localPositionChanged demoUAS 7 0 0 0,
   Event.localPositionChanged demoUAS 8 0 0 0,
   Event.editSystemViewParams 3 { systemId := 3, displayTrails := false },
   Event.update demoWorld,
   Event.localPositionChanged demoUAS 8 1 1 1]

/-- The events of the examples of the untracked active vehicle: a vehicle that
was never created becomes the active one, and a shift-click follows. -/
def demoUntrackedEvents : List Event :=
  [Event.activeSystemChanged demoWorldPointer 0,
   Event.mousePressEvent demoWorldPointer { modifiers := KeyboardModifiers.ShiftModifier }]

/-- The events of the examples of the target selection: the vehicle is
created and becomes the active one, and a shift-click at (1, 2) is answered
with "Select target". -/
def demoSelectEvents : List Event :=
  [Event.systemCreated demoWorldPointer demoUAS,
   Event.activeSystemChanged demoWorldPointer 0,
   Event.mousePressEvent demoWorldPointer
     { modifiers := KeyboardModifiers.ShiftModifier, pos := ⟨1, 2⟩,
       menuChoice := some MenuAction.selectTarget }]

/-- The maps `c'` and `vp'` have the keys of `c` and `vp`, and every container
of `c'` is initialised. -/
def keptMaps (c : QMap SystemContainer) (vp : QMap SystemViewParams)
    (c' : QMap SystemContainer) (vp' : QMap SystemViewParams) : Prop :=
  (∀ j, QMap.contains c' j = QMap.contains c j) ∧
  (∀ j, QMap.contains vp' j = QMap.contains vp j) ∧
  ∀ x ∈ c', x.2.initialised

/-! ## Facts about rounding -/

theorem pow2_eq_zpow (k : Int) : pow2 k = (2 : ℚ) ^ k := by
  unfold pow2
  split_ifs with h
  · obtain ⟨n, rfl⟩ := Int.eq_ofNat_of_zero_le h
    simp
  · have h' : 0 ≤ -k := by omega
    obtain ⟨n, hn⟩ := Int.eq_ofNat_of_zero_le h'
    have hk : k = -(n : Int) := by omega
    subst hk
    simp

theorem pow2_pos (k : Int) : 0 < pow2 k := by
  rw [pow2_eq_zpow]
  positivity

theorem pow2_le_pow2 {a b : Int} (h : a ≤ b) : pow2 a ≤ pow2 b := by
  rw [pow2_eq_zpow, pow2_eq_zpow]
  exact zpow_le_zpow_right₀ (by norm_num) h

theorem pow2_add (a b : Int) : pow2 (a + b) = pow2 a * pow2 b := by
  rw [pow2_eq_zpow, pow2_eq_zpow, pow2_eq_zpow, zpow_add₀ (by norm_num)]

theorem log2Aux_spec : ∀ (fuel n : Nat), 0 < n → n ≤ fuel →
    2 ^ log2Aux fuel n ≤ n ∧ n < 2 ^ (log2Aux fuel n + 1) := by
  intro fuel
  induction fuel with
  | zero => intro n h0 h1; omega
  | succ f ih =>
    intro n h0 h1
    unfold log2Aux
    split_ifs with h2
    · have : n = 1 := by omega
      subst this
      decide
    · have h := ih (n / 2) (by omega) (by omega)
      rw [pow_succ, pow_succ]
      rw [pow_succ] at h
      omega

theorem floorLog2_spec (n : Nat) (h : 0 < n) :
    2 ^ floorLog2 n ≤ n ∧ n < 2 ^ (floorLog2 n + 1) :=
  log2Aux_spec n n h (le_refl n)

/-- The binary exponent of a positive number is the exponent of a power of two
that is not above it. -/
theorem pow2_binaryExponent_le (q : ℚ) (hq : 0 < q) : pow2 (binaryExponent q) ≤ q := by
  unfold binaryExponent
  dsimp only
  split_ifs with h
  · exact h
  · have hnum : 0 < q.num := Rat.num_pos.2 hq
    have hn : 0 < q.num.natAbs := Int.natAbs_pos.2 (ne_of_gt hnum)
    have hd : 0 < q.den := q.den_pos
    have h1 := (floorLog2_spec _ hn).1
    have h2 := (floorLog2_spec _ hd).2
    rw [pow2_eq_zpow]
    have e : ((floorLog2 q.num.natAbs : Int) - (floorLog2 q.den : Int) - 1) =
        (floorLog2 q.num.natAbs : Int) - ((floorLog2 q.den + 1 : Nat) : Int) := by
      push_cast
      ring
    rw [e, zpow_sub₀ (by norm_num), zpow_natCast, zpow_natCast]
    have hq' : q = (q.num.natAbs : ℚ) / (q.den : ℚ) := by
      have : ((q.num.natAbs : Int) : ℚ) = (q.num : ℚ) := by
        rw [Int.natAbs_of_nonneg (le_of_lt hnum)]
      rw [← Int.cast_natCast, this]
      exact (Rat.num_div_den q).symm
    conv_rhs => rw [hq']
    have h1' : ((2 : ℚ) ^ floorLog2 q.num.natAbs) ≤ (q.num.natAbs : ℚ) := by
      exact_mod_cast h1
    have h2' : (q.den : ℚ) ≤ (2 : ℚ) ^ (floorLog2 q.den + 1) := by
      exact_mod_cast le_of_lt h2
    have hd' : (0 : ℚ) < (q.den : ℚ) := by exact_mod_cast hd
    exact div_le_div₀ (by positivity) h1' hd' h2'

theorem binaryExponent_lt (q : ℚ) (hq : 0 < q) (e : Int) (h : q < pow2 e) :
    binaryExponent q < e := by
  by_contra hc
  have := pow2_le_pow2 (not_lt.1 hc)
  have := pow2_binaryExponent_le q hq
  linarith

theorem roundHalfEven_sub_le (r : ℚ) : |(roundHalfEven r : ℚ) - r| ≤ 1 / 2 := by
  have h1 := Int.floor_le r
  have h2 := Int.lt_floor_add_one r
  unfold roundHalfEven
  dsimp only
  rw [abs_le]
  split_ifs with a b c
  · constructor <;> linarith
  · push_cast
    constructor <;> linarith
  · constructor <;> linarith
  · push_cast
    constructor <;> linarith

theorem roundHalfEven_le (r : ℚ) (n : Int) (h : r ≤ n) : roundHalfEven r ≤ n := by
  have h1 := Int.floor_le r
  have hf : ⌊r⌋ ≤ n := by
    have : ((⌊r⌋ : Int) : ℚ) ≤ (n : ℚ) := le_trans h1 h
    exact_mod_cast this
  have hlt : (1 : ℚ) / 2 ≤ r - ⌊r⌋ → ⌊r⌋ + 1 ≤ n := by
    intro hh
    have : ((⌊r⌋ : Int) : ℚ) < (n : ℚ) := by linarith
    have : ⌊r⌋ < n := by exact_mod_cast this
    omega
  unfold roundHalfEven
  dsimp only
  split_ifs with a b c
  · exact hf
  · exact hlt (le_of_lt b)
  · exact hf
  · exact hlt (not_lt.1 a)

theorem roundHalfEven_ge (r : ℚ) (n : Int) (h : (n : ℚ) ≤ r) : n ≤ roundHalfEven r := by
  have hf : n ≤ ⌊r⌋ := Int.le_floor.2 h
  unfold roundHalfEven
  dsimp only
  split_ifs <;> omega

theorem roundBinary_zero (p : Nat) (emin : Int) : roundBinary p emin 0 = 0 := by
  simp [roundBinary]

/-- Rounding moves a number by at most half a unit in its last place. -/
theorem roundBinary_sub_le (p : Nat) (emin : Int) (x : ℚ) (e : Int)
    (hx : |x| < pow2 (e + 1)) (he : emin ≤ e) :
    |roundBinary p emin x - x| ≤ pow2 (e - ((p : Int) - 1)) / 2 := by
  unfold roundBinary
  split_ifs with h0
  · subst h0
    simp only [sub_self, abs_zero]
    have := pow2_pos (e - ((p : Int) - 1))
    linarith
  · dsimp only
    have hpos : 0 < |x| := abs_pos.2 h0
    have hb : binaryExponent |x| < e + 1 := binaryExponent_lt _ hpos _ hx
    have hk : max (binaryExponent |x|) emin - ((p : Int) - 1) ≤ e - ((p : Int) - 1) := by
      have : max (binaryExponent |x|) emin ≤ e := max_le (by omega) he
      omega
    generalize max (binaryExponent |x|) emin - ((p : Int) - 1) = k at hk
    have hkpos := pow2_pos k
    have hr := roundHalfEven_sub_le (x / pow2 k)
    have e1 : (roundHalfEven (x / pow2 k) : ℚ) * pow2 k - x =
        ((roundHalfEven (x / pow2 k) : ℚ) - x / pow2 k) * pow2 k := by
      field_simp
    rw [e1, abs_mul, abs_of_pos hkpos]
    have h3 := pow2_le_pow2 hk
    calc |(roundHalfEven (x / pow2 k) : ℚ) - x / pow2 k| * pow2 k
        ≤ 1 / 2 * pow2 k := mul_le_mul_of_nonneg_right hr (le_of_lt hkpos)
      _ ≤ pow2 (e - ((p : Int) - 1)) / 2 := by linarith

/-- A number that is not above a number of the format (`m * 2^K` with
`x < 2^(K + p)`) is not rounded above it. -/
theorem roundBinary_le (p : Nat) (emin : Int) (x : ℚ) (m K : Int)
    (hx : x ≤ (m : ℚ) * pow2 K) (hm : 0 ≤ m) (hlt : x < pow2 (K + (p : Int)))
    (hK : emin - ((p : Int) - 1) ≤ K) :
    roundBinary p emin x ≤ (m : ℚ) * pow2 K := by
  unfold roundBinary
  have hc : (0 : ℚ) ≤ (m : ℚ) * pow2 K :=
    mul_nonneg (by exact_mod_cast hm) (le_of_lt (pow2_pos K))
  split_ifs with h0
  · exact hc
  · dsimp only
    rcases lt_or_gt_of_ne h0 with hneg | hpos
    · generalize max (binaryExponent |x|) emin - ((p : Int) - 1) = k
      have hkpos := pow2_pos k
      have : roundHalfEven (x / pow2 k) ≤ 0 := by
        apply roundHalfEven_le
        simp only [Int.cast_zero]
        exact le_of_lt (div_neg_of_neg_of_pos hneg hkpos)
      have h' : (roundHalfEven (x / pow2 k) : ℚ) ≤ 0 := by exact_mod_cast this
      exact le_trans (mul_nonpos_of_nonpos_of_nonneg h' (le_of_lt hkpos)) hc
    · have hb : binaryExponent |x| < K + (p : Int) := by
        apply binaryExponent_lt _ (abs_pos.2 h0)
        rw [abs_of_pos hpos]
        exact hlt
      have hk : max (binaryExponent |x|) emin - ((p : Int) - 1) ≤ K := by
        have : max (binaryExponent |x|) emin ≤ K + ((p : Int) - 1) := max_le (by omega) (by omega)
        omega
      generalize max (binaryExponent |x|) emin - ((p : Int) - 1) = k at hk
      have hkpos := pow2_pos k
      obtain ⟨d, hd⟩ := Int.eq_ofNat_of_zero_le (sub_nonneg.2 hk)
      have hKk : K = k + (d : Int) := by omega
      have hp2 : pow2 K = ((2 ^ d : Nat) : ℚ) * pow2 k := by
        rw [hKk, pow2_add, pow2_eq_zpow (d : Int), zpow_natCast]
        push_cast
        ring
      have hle : x / pow2 k ≤ ((m * (2 ^ d : Nat) : Int) : ℚ) := by
        rw [div_le_iff₀ hkpos]
        push_cast
        rw [hp2] at hx
        push_cast at hx
        linarith
      have := roundHalfEven_le _ _ hle
      have h' : (roundHalfEven (x / pow2 k) : ℚ) ≤ ((m * (2 ^ d : Nat) : Int) : ℚ) := by
        exact_mod_cast this
      calc (roundHalfEven (x / pow2 k) : ℚ) * pow2 k
          ≤ ((m * (2 ^ d : Nat) : Int) : ℚ) * pow2 k :=
            mul_le_mul_of_nonneg_right h' (le_of_lt hkpos)
        _ = (m : ℚ) * pow2 K := by
            rw [hp2]
            push_cast
            ring

/-- The binary exponent of a positive number `q` is the integer `e` with
`2^e ≤ q < 2^(e + 1)`. -/
theorem binaryExponent_spec (q : ℚ) (hq : 0 < q) :
    pow2 (binaryExponent q) ≤ q ∧ q < pow2 (binaryExponent q + 1) := by
  refine ⟨pow2_binaryExponent_le q hq, ?_⟩
  have hnum : 0 < q.num := Rat.num_pos.2 hq
  have hn : 0 < q.num.natAbs := Int.natAbs_pos.2 (ne_of_gt hnum)
  have hd : 0 < q.den := q.den_pos
  have h1 := (floorLog2_spec _ hn).2
  have h2 := (floorLog2_spec _ hd).1
  have hup : q < pow2 ((floorLog2 q.num.natAbs : Int) - (floorLog2 q.den : Int) + 1) := by
    rw [pow2_eq_zpow]
    have e : ((floorLog2 q.num.natAbs : Int) - (floorLog2 q.den : Int) + 1) =
        ((floorLog2 q.num.natAbs + 1 : Nat) : Int) - (floorLog2 q.den : Int) := by
      push_cast
      ring
    rw [e, zpow_sub₀ (by norm_num), zpow_natCast, zpow_natCast]
    have hq' : q = (q.num.natAbs : ℚ) / (q.den : ℚ) := by
      have : ((q.num.natAbs : Int) : ℚ) = (q.num : ℚ) := by
        rw [Int.natAbs_of_nonneg (le_of_lt hnum)]
      rw [← Int.cast_natCast, this]
      exact (Rat.num_div_den q).symm
    conv_lhs => rw [hq']
    have h1' : (q.num.natAbs : ℚ) < (2 : ℚ) ^ (floorLog2 q.num.natAbs + 1) := by
      exact_mod_cast h1
    have h2' : ((2 : ℚ) ^ floorLog2 q.den) ≤ (q.den : ℚ) := by
      exact_mod_cast h2
    have hd' : (0 : ℚ) < (q.den : ℚ) := by exact_mod_cast hd
    have hp : (0 : ℚ) < (2 : ℚ) ^ floorLog2 q.den := by positivity
    calc (q.num.natAbs : ℚ) / (q.den : ℚ)
        < (2 : ℚ) ^ (floorLog2 q.num.natAbs + 1) / (q.den : ℚ) :=
          div_lt_div_of_pos_right h1' hd'
      _ ≤ (2 : ℚ) ^ (floorLog2 q.num.natAbs + 1) / (2 : ℚ) ^ floorLog2 q.den :=
          div_le_div_of_nonneg_left (by positivity) hp h2'
  unfold binaryExponent
  dsimp only
  split_ifs with h
  · exact hup
  · rw [sub_add_cancel]
    exact not_le.1 h

/-- No integer is nearer to `r` than `roundHalfEven r`. -/
theorem roundHalfEven_nearest (r : ℚ) (n : Int) :
    |(roundHalfEven r : ℚ) - r| ≤ |(n : ℚ) - r| := by
  have h := roundHalfEven_sub_le r
  have h1 := Int.floor_le r
  have h2 := Int.lt_floor_add_one r
  by_cases hn : n ≤ ⌊r⌋
  · have hn' : (n : ℚ) ≤ (⌊r⌋ : ℚ) := by exact_mod_cast hn
    have e : |(n : ℚ) - r| = r - n := by
      rw [abs_of_nonpos (by linarith)]
      ring
    rw [e]
    unfold roundHalfEven
    dsimp only
    split_ifs with a b c
    · rw [abs_of_nonpos (by linarith)]
      linarith
    · push_cast
      rw [abs_of_nonneg (by linarith)]
      linarith
    · rw [abs_of_nonpos (by linarith)]
      linarith
    · push_cast
      rw [abs_of_nonneg (by linarith)]
      linarith
  · have hn1 : ⌊r⌋ + 1 ≤ n := by omega
    have hn' : ((⌊r⌋ : Int) : ℚ) + 1 ≤ (n : ℚ) := by exact_mod_cast hn1
    have e : |(n : ℚ) - r| = n - r := abs_of_nonneg (by linarith)
    rw [e]
    unfold roundHalfEven
    dsimp only
    split_ifs with a b c
    · rw [abs_of_nonpos (by linarith)]
      linarith
    · push_cast
      rw [abs_of_nonneg (by linarith)]
      linarith
    · rw [abs_of_nonpos (by linarith)]
      linarith
    · push_cast
      rw [abs_of_nonneg (by linarith)]
      linarith

/-- Halfway between two integers `roundHalfEven` takes the even one. -/
theorem roundHalfEven_tie (r : ℚ) (h : r - ⌊r⌋ = 1 / 2) : roundHalfEven r % 2 = 0 := by
  unfold roundHalfEven
  dsimp only
  rw [if_neg (by rw [h]; exact lt_irrefl _), if_neg (by rw [h]; exact lt_irrefl _)]
  split_ifs with c
  · exact c
  · omega

/-- The result of rounding a number `x ≠ 0` with binary exponent `e`, in the
format with `p` significant bits and least normal exponent `emin`, on the
grid of the multiples of `2^k`, `k = max e emin - (p - 1)`: it is a multiple
`m * 2^k` with `|m| ≤ 2^p`, no multiple of `2^k` is nearer to `x`, and when
`x` lies halfway between two multiples `m` is even. -/
theorem roundBinary_spec (p : Nat) (emin : Int) (x : ℚ) (hx : x ≠ 0) :
    ∃ m : Int,
      roundBinary p emin x =
        (m : ℚ) * pow2 (max (binaryExponent |x|) emin - ((p : Int) - 1)) ∧
      |m| ≤ 2 ^ p ∧
      (∀ n : Int, |roundBinary p emin x - x| ≤
        |(n : ℚ) * pow2 (max (binaryExponent |x|) emin - ((p : Int) - 1)) - x|) ∧
      (∀ n : Int,
        x = ((n : ℚ) + 1 / 2) * pow2 (max (binaryExponent |x|) emin - ((p : Int) - 1)) →
        m % 2 = 0) := by
  have hpos : 0 < |x| := abs_pos.2 hx
  have hspec := binaryExponent_spec |x| hpos
  have hr : roundBinary p emin x =
      (roundHalfEven (x / pow2 (max (binaryExponent |x|) emin - ((p : Int) - 1))) : ℚ) *
        pow2 (max (binaryExponent |x|) emin - ((p : Int) - 1)) := by
    unfold roundBinary
    rw [if_neg hx]
  have hk : binaryExponent |x| + 1 ≤
      (max (binaryExponent |x|) emin - ((p : Int) - 1)) + (p : Int) := by
    have := le_max_left (binaryExponent |x|) emin
    omega
  generalize max (binaryExponent |x|) emin - ((p : Int) - 1) = k at hr hk ⊢
  have hkpos := pow2_pos k
  refine ⟨roundHalfEven (x / pow2 k), hr, ?_, ?_, ?_⟩
  · have hlt : |x / pow2 k| ≤ ((2 ^ p : Int) : ℚ) := by
      rw [abs_div, abs_of_pos hkpos, div_le_iff₀ hkpos]
      have h1 : pow2 (binaryExponent |x| + 1) ≤ pow2 (k + (p : Int)) := pow2_le_pow2 hk
      have h2 : pow2 (k + (p : Int)) = (2 : ℚ) ^ p * pow2 k := by
        rw [pow2_add, pow2_eq_zpow (p : Int), zpow_natCast]
        ring
      rw [h2] at h1
      push_cast
      linarith [hspec.2]
    rw [abs_le] at hlt ⊢
    constructor
    · apply roundHalfEven_ge
      push_cast at hlt ⊢
      exact hlt.1
    · exact roundHalfEven_le _ _ hlt.2
  · intro n
    rw [hr]
    have e1 : (roundHalfEven (x / pow2 k) : ℚ) * pow2 k - x =
        ((roundHalfEven (x / pow2 k) : ℚ) - x / pow2 k) * pow2 k := by
      field_simp
    have e2 : (n : ℚ) * pow2 k - x = ((n : ℚ) - x / pow2 k) * pow2 k := by
      field_simp
    rw [e1, e2, abs_mul, abs_mul, abs_of_pos hkpos]
    exact mul_le_mul_of_nonneg_right (roundHalfEven_nearest _ n) (le_of_lt hkpos)
  · intro n hn
    apply roundHalfEven_tie
    have e : x / pow2 k = (n : ℚ) + 1 / 2 := by
      rw [hn]
      field_simp
      ring
    rw [e]
    have hf : ⌊(n : ℚ) + 1 / 2⌋ = n := by
      rw [Int.floor_eq_iff]
      constructor <;> linarith
    rw [hf]
    ring

theorem sqrtAux_spec (n : Nat) : ∀ (b r : Nat), r * r ≤ n → n < (r + 2 ^ b) * (r + 2 ^ b) →
    sqrtAux n b r * sqrtAux n b r ≤ n ∧ n < (sqrtAux n b r + 1) * (sqrtAux n b r + 1) := by
  intro b
  induction b with
  | zero =>
    intro r h1 h2
    simpa [sqrtAux] using ⟨h1, h2⟩
  | succ b ih =>
    intro r h1 h2
    unfold sqrtAux
    split_ifs with h
    · apply ih _ h
      have : r + 2 ^ b + 2 ^ b = r + 2 ^ (b + 1) := by
        rw [pow_succ]
        ring
      rw [this]
      exact h2
    · exact ih _ h1 (not_le.1 h)

/-- The number `floorSqrt n` is the integer part of the square root of `n`. -/
theorem floorSqrt_spec (n : Nat) :
    floorSqrt n * floorSqrt n ≤ n ∧ n < (floorSqrt n + 1) * (floorSqrt n + 1) := by
  unfold floorSqrt
  apply sqrtAux_spec n _ 0 (Nat.zero_le _)
  rw [Nat.zero_add, ← pow_add]
  rcases Nat.eq_zero_or_pos n with h0 | hpos
  · subst h0
    positivity
  · have h := (floorLog2_spec n hpos).2
    refine lt_of_lt_of_le h (Nat.pow_le_pow_right (by norm_num) ?_)
    omega

/-- The square root in a binary format is the rounding of a number `a` that
stands for the root of `q`: with `t` the scale of `sqrtBinary` and `m` the
integer part of the root of `q * 4^t`, which has more than `p + 2` bits, the
root lies from `m / 2^t` to below `(m + 1) / 2^t`; `a` is `m / 2^t` when that
is the root, and the midpoint `(m + 1/2) / 2^t` otherwise. -/
theorem sqrtBinary_spec (p : Nat) (emin : Int) (q : ℚ) (hq : 0 < q) :
    ∃ (m : Nat) (t : Int),
      2 ^ (p + 2) ≤ m ∧
      ((m : ℚ) / pow2 t) ^ 2 ≤ q ∧ q < (((m : ℚ) + 1) / pow2 t) ^ 2 ∧
      sqrtBinary p emin q =
        roundBinary p emin
          (if ((m : ℚ) / pow2 t) ^ 2 = q then (m : ℚ) / pow2 t
            else ((m : ℚ) + 1 / 2) / pow2 t) := by
  have hspec := binaryExponent_spec q hq
  set t : Int := (p : Int) + 2 - binaryExponent q / 2 with ht
  have htpos := pow2_pos t
  have h4 : pow2 (2 * t) = pow2 t * pow2 t := by
    rw [two_mul, pow2_add]
  have hx0 : 0 ≤ q * pow2 (2 * t) := le_of_lt (mul_pos hq (pow2_pos _))
  have hfl0 : 0 ≤ ⌊q * pow2 (2 * t)⌋ := Int.floor_nonneg.2 hx0
  set n : Nat := ⌊q * pow2 (2 * t)⌋.toNat with hn
  have hnc : ((n : Int) : ℚ) = ((⌊q * pow2 (2 * t)⌋ : Int) : ℚ) := by
    rw [hn, Int.toNat_of_nonneg hfl0]
  have hn1 : (n : ℚ) ≤ q * pow2 (2 * t) := by
    have := Int.floor_le (q * pow2 (2 * t))
    rw [← hnc] at this
    exact_mod_cast this
  have hn2 : q * pow2 (2 * t) < (n : ℚ) + 1 := by
    have := Int.lt_floor_add_one (q * pow2 (2 * t))
    rw [← hnc] at this
    exact_mod_cast this
  have hs := floorSqrt_spec n
  set m : Nat := floorSqrt n with hm
  have hs1 : (m : ℚ) * (m : ℚ) ≤ (n : ℚ) := by exact_mod_cast hs.1
  have hs2 : (n : ℚ) + 1 ≤ ((m : ℚ) + 1) * ((m : ℚ) + 1) := by
    have : n + 1 ≤ (m + 1) * (m + 1) := hs.2
    exact_mod_cast this
  have hlow : ((m : ℚ) / pow2 t) ^ 2 ≤ q := by
    rw [div_pow, div_le_iff₀ (by positivity)]
    rw [h4] at hn1
    nlinarith
  have hup : q < (((m : ℚ) + 1) / pow2 t) ^ 2 := by
    rw [div_pow, lt_div_iff₀ (by positivity)]
    rw [h4] at hn2
    nlinarith
  have hbig : 2 ^ (p + 2) ≤ m := by
    by_contra hc
    have hc1 : m + 1 ≤ 2 ^ (p + 2) := by omega
    have hc2 : ((m : ℚ) + 1) ≤ (2 : ℚ) ^ (p + 2) := by exact_mod_cast hc1
    have he : (2 : Int) * (p + 2 : Nat) ≤ binaryExponent q + 2 * t := by
      have := Int.ediv_add_emod (binaryExponent q) 2
      have := Int.emod_nonneg (binaryExponent q) (by norm_num : (2 : Int) ≠ 0)
      push_cast
      omega
    have h1 : pow2 ((2 : Int) * (p + 2 : Nat)) ≤ pow2 (binaryExponent q + 2 * t) :=
      pow2_le_pow2 he
    rw [pow2_add] at h1
    have h2 : pow2 ((2 : Int) * (p + 2 : Nat)) = (2 : ℚ) ^ (p + 2) * (2 : ℚ) ^ (p + 2) := by
      rw [two_mul, pow2_add, pow2_eq_zpow, zpow_natCast]
    rw [h2] at h1
    have h3 : pow2 (binaryExponent q) * pow2 (2 * t) ≤ q * pow2 (2 * t) :=
      mul_le_mul_of_nonneg_right hspec.1 (le_of_lt (pow2_pos _))
    have h5 : ((m : ℚ) + 1) * ((m : ℚ) + 1) ≤ (2 : ℚ) ^ (p + 2) * (2 : ℚ) ^ (p + 2) :=
      mul_le_mul hc2 hc2 (by positivity) (by positivity)
    have h6 : q * pow2 (2 * t) < ((m : ℚ) + 1) * ((m : ℚ) + 1) := lt_of_lt_of_le hn2 hs2
    linarith
  refine ⟨m, t, hbig, hlow, hup, ?_⟩
  unfold sqrtBinary
  rw [if_neg (not_le.2 hq)]
  dsimp only
  rw [← ht, ← hn, ← hm]
  have hiff : (m * m = n ∧ (n : ℚ) = q * pow2 (2 * t)) ↔ ((m : ℚ) / pow2 t) ^ 2 = q := by
    constructor
    · rintro ⟨h1, h2⟩
      have h1' : (m : ℚ) * (m : ℚ) = (n : ℚ) := by exact_mod_cast h1
      rw [div_pow, div_eq_iff (by positivity), sq, sq, ← h4, ← h2, h1']
    · intro h
      rw [div_pow, div_eq_iff (by positivity), sq, sq, ← h4] at h
      have h2 : (n : ℚ) = q * pow2 (2 * t) := le_antisymm hn1 (by rw [← h]; exact hs1)
      refine ⟨?_, h2⟩
      have : (m : ℚ) * (m : ℚ) = (n : ℚ) := by rw [h2, h]
      exact_mod_cast this
  by_cases hc : ((m : ℚ) / pow2 t) ^ 2 = q
  · rw [if_pos hc, if_pos (hiff.2 hc)]
  · rw [if_neg hc, if_neg (fun h => hc (hiff.1 h))]

/-- Values of the rounding at examples: one tenth and one third in both
formats; a tie above `2^24` and above `2^53` goes to the even significand;
below the least normal number the grid is that of the subnormal numbers, and
half the least subnormal number goes to zero. -/
theorem rounding_examples :
    toDouble (1 / 10) = 3602879701896397 / 36028797018963968 ∧
      toFloat (1 / 10) = 13421773 / 134217728 ∧
      toDouble (1 / 3) = 6004799503160661 / 18014398509481984 ∧
      toFloat (1 / 3) = 11184811 / 33554432 ∧
      toFloat 16777217 = 16777216 ∧
      toFloat 16777219 = 16777220 ∧
      toDouble 9007199254740993 = 9007199254740992 ∧
      toDouble (-9007199254740995) = -9007199254740996 ∧
      toFloat (1 / 2 ^ 149) = 1 / 2 ^ 149 ∧
      toFloat (1 / 2 ^ 150) = 0 ∧
      toFloat (3 / 2 ^ 150) = 1 / 2 ^ 148 ∧
      toDouble (3 / 2 ^ 1075) = 1 / 2 ^ 1073 := by
  refine ⟨by decide!, by decide!, by decide!, by decide!, by decide!, by decide!, by decide!,
    by decide!, by decide!, by decide!, by decide!, by decide!⟩

/-- Values of the square root at examples. -/
theorem dsqrt_examples :
    dsqrt 0 = 0 ∧ dsqrt 4 = 2 ∧ dsqrt (49 / 4) = 7 / 2 ∧ dsqrt (1 / 4) = 1 / 2 ∧
      dsqrt 2 = 6369051672525773 / 4503599627370496 ∧
      dsqrt 3 = 3900231685776981 / 2251799813685248 ∧
      dsqrt 38 = 6940513151682137 / 1125899906842624 ∧
      dsqrt (toDouble (1 / 10)) = 5696652996790543 / 18014398509481984 := by
  refine ⟨by decide!, by decide!, by decide!, by decide!, by decide!, by decide!, by decide!,
    by decide!⟩

theorem toDouble_zero : toDouble 0 = 0 := roundBinary_zero _ _

theorem toFloat_zero : toFloat 0 = 0 := roundBinary_zero _ _

theorem dsub_self (a : double) : dsub a a = 0 := by
  unfold dsub
  rw [sub_self, toDouble_zero]

theorem dsub_zero_zero : dsub 0 0 = 0 := dsub_self 0

theorem dsub_one_zero : dsub 1 0 = 1 := by decide!

theorem dsub_justBelowHundredth : dsub justBelowHundredth 0 = justBelowHundredth := by decide!

/-! ## Facts about `QMap` -/

namespace QMap

variable {V : Type}

theorem find?_insert_self (m : QMap V) (k : Int) (v : V) : find? (insert m k v) k = some v := by
  induction m with
  | nil => simp [insert, find?]
  | cons e t ih =>
    obtain ⟨k', v'⟩ := e
    unfold insert
    by_cases h1 : k < k'
    · simp [h1, find?]
    · by_cases h2 : k = k'
      · simp [h2, find?]
      · simp [h1, h2, find?, ih]

theorem find?_insert_of_ne (m : QMap V) {k j : Int} (h : j ≠ k) (v : V) :
    find? (insert m k v) j = find? m j := by
  induction m with
  | nil => simp [insert, find?, h]
  | cons e t ih =>
    obtain ⟨k', v'⟩ := e
    unfold insert
    by_cases h1 : k < k'
    · simp [h1, find?, h]
    · by_cases h2 : k = k'
      · subst h2
        simp [find?, h]
      · simp [h1, h2, find?, ih]

theorem contains_insert_self (m : QMap V) (k : Int) (v : V) : contains (insert m k v) k = true := by
  simp [contains, find?_insert_self]

theorem contains_insert_of_ne (m : QMap V) {k j : Int} (h : j ≠ k) (v : V) :
    contains (insert m k v) j = contains m j := by
  simp [contains, find?_insert_of_ne m h]

theorem value_insert_self [Inhabited V] (m : QMap V) (k : Int) (v : V) :
    value (insert m k v) k = v := by
  simp [value, find?_insert_self]

theorem value_insert_of_ne [Inhabited V] (m : QMap V) {k j : Int} (h : j ≠ k) (v : V) :
    value (insert m k v) j = value m j := by
  simp [value, find?_insert_of_ne m h]

theorem mem_insert {m : QMap V} {k : Int} {v : V} {e : Int × V} (h : e ∈ insert m k v) :
    e = (k, v) ∨ e ∈ m := by
  induction m with
  | nil => simpa [insert] using h
  | cons e' t ih =>
    obtain ⟨k', v'⟩ := e'
    unfold insert at h
    by_cases h1 : k < k'
    · simp only [h1, if_true, List.mem_cons] at h
      rcases h with h | h | h
      · exact Or.inl h
      · exact Or.inr (by simp [h])
      · exact Or.inr (by simp [h])
    · by_cases h2 : k = k'
      · subst h2
        simp only [lt_irrefl, if_true, if_false, List.mem_cons] at h
        rcases h with h | h
        · exact Or.inl h
        · exact Or.inr (by simp [h])
      · simp only [h1, h2, if_false, List.mem_cons] at h
        rcases h with h | h
        · exact Or.inr (by simp [h])
        · rcases ih h with h | h
          · exact Or.inl h
          · exact Or.inr (by simp [h])

theorem mem_of_find? {m : QMap V} {k : Int} {v : V} (h : find? m k = some v) : (k, v) ∈ m := by
  induction m with
  | nil => simp [find?] at h
  | cons e t ih =>
    obtain ⟨k', v'⟩ := e
    unfold find? at h
    by_cases h1 : k = k'
    · simp only [h1, if_true, Option.some.injEq] at h
      simp [h1, h]
    · simp only [h1, if_false] at h
      exact List.mem_cons_of_mem _ (ih h)

theorem mem_value_of_contains [Inhabited V] {m : QMap V} {k : Int} (h : contains m k = true) :
    (k, value m k) ∈ m := by
  unfold contains at h
  obtain ⟨v, hv⟩ := Option.isSome_iff_exists.mp h
  have : value m k = v := by simp [value, hv]
  rw [this]
  exact mem_of_find? hv

theorem value_of_not_contains [Inhabited V] {m : QMap V} {k : Int} (h : contains m k = false) :
    value m k = default := by
  unfold contains at h
  cases hf : find? m k with
  | none => simp [value, hf]
  | some v => simp [hf] at h

theorem value_touch [Inhabited V] (m : QMap V) (k j : Int) : value (touch m k) j = value m j := by
  unfold touch
  by_cases h : contains m k = true
  · simp [h]
  · rw [if_neg h]
    by_cases hj : j = k
    · rw [hj, value_insert_self, value_of_not_contains (by simpa using h)]
    · exact value_insert_of_ne m hj _

theorem contains_touch_self [Inhabited V] (m : QMap V) (k : Int) : contains (touch m k) k = true := by
  unfold touch
  by_cases h : contains m k = true
  · simp [h]
  · rw [if_neg h]
    exact contains_insert_self m k _

theorem contains_touch_of_ne [Inhabited V] (m : QMap V) {k j : Int} (h : j ≠ k) :
    contains (touch m k) j = contains m j := by
  unfold touch
  by_cases hk : contains m k = true
  · simp [hk]
  · rw [if_neg hk]
    exact contains_insert_of_ne m h _

theorem touch_of_contains [Inhabited V] {m : QMap V} {k : Int} (h : contains m k = true) :
    touch m k = m := by
  simp [touch, h]

theorem mem_touch [Inhabited V] {m : QMap V} {k : Int} {e : Int × V} (h : e ∈ touch m k) :
    e = (k, default) ∨ e ∈ m := by
  unfold touch at h
  by_cases hk : contains m k = true
  · simp only [hk, if_true] at h
    exact Or.inr h
  · rw [if_neg hk] at h
    exact mem_insert h

theorem mem_keys_of_contains {m : QMap V} {k : Int} (h : contains m k = true) : k ∈ keys m := by
  have hv : ∃ v, find? m k = some v := Option.isSome_iff_exists.mp h
  obtain ⟨v, hv⟩ := hv
  exact List.mem_map.mpr ⟨(k, v), mem_of_find? hv, rfl⟩

theorem contains_insert_mono (m : QMap V) (k : Int) (v : V) {j : Int}
    (h : contains m j = true) : contains (insert m k v) j = true := by
  by_cases hj : j = k
  · rw [hj]
    exact contains_insert_self m k v
  · rw [contains_insert_of_ne m hj]
    exact h

theorem insert_insert (m : QMap V) (k : Int) (a b : V) :
    insert (insert m k a) k b = insert m k b := by
  induction m with
  | nil => simp [insert]
  | cons e t ih =>
    obtain ⟨k', v'⟩ := e
    by_cases h1 : k < k'
    · simp [insert, h1]
    · by_cases h2 : k = k'
      · subst h2
        simp [insert]
      · simp [insert, h1, h2, ih]

theorem value_modify_self [Inhabited V] (m : QMap V) (k : Int) (f : V → V) :
    value (modify m k f) k = f (value m k) := by
  simp [modify, value_insert_self]

theorem value_modify_of_ne [Inhabited V] (m : QMap V) {k j : Int} (h : j ≠ k) (f : V → V) :
    value (modify m k f) j = value m j := by
  simp [modify, value_insert_of_ne m h]

end QMap

/-! ## Facts about the handlers of the pointer -/

theorem interacted_refl (w : World) (s : Widget) : interacted w s s :=
  ⟨rfl, rfl, rfl, rfl, rfl, rfl, rfl, rfl, rfl, fun h => Or.inl h, fun _ _ h => h,
    fun _ _ h => h⟩

theorem interacted_trans {w : World} {s t u : Widget} (h1 : interacted w s t)
    (h2 : interacted w t u) : interacted w s u := by
  obtain ⟨a1, a2, a3, a4, a5, a6, a7, a8, a9, am, ac, av⟩ := h1
  obtain ⟨b1, b2, b3, b4, b5, b6, b7, b8, b9, bm, bc, bv⟩ := h2
  refine ⟨b1.trans a1, b2.trans a2, b3.trans a3, b4.trans a4, b5.trans a5, b6.trans a6,
    b7.trans a7, b8.trans a8, b9.trans a9, ?_, ?_, ?_⟩
  · intro h
    rcases bm h with h' | ⟨a, ha⟩
    · exact am h'
    · exact Or.inr ⟨a, a1 ▸ ha⟩
  · intro P hP hs
    exact bc P (fun a ha => hP a (a1 ▸ ha)) (ac P hP hs)
  · intro Q hQ hs
    exact bv Q (fun a ha => hQ a (a1 ▸ ha)) (av Q hQ hs)

/-- A handler that leaves the two maps alone and does not enter the
target-heading mode. -/
theorem interacted_of_same (w : World) {s t : Widget}
    (h1 : t.mActiveUAS = s.mActiveUAS) (h2 : t.mActiveSystemId = s.mActiveSystemId)
    (h3 : t.mGlobalViewParams = s.mGlobalViewParams)
    (h4 : t.mFollowCameraId = s.mFollowCameraId) (h5 : t.mInitCameraPos = s.mInitCameraPos)
    (h6 : t.mCameraPos = s.mCameraPos) (h7 : t.m3DWidget = s.m3DWidget)
    (h8 : t.mImageryNodeType = s.mImageryNodeType) (h9 : t.pixhawkMessages = s.pixhawkMessages)
    (hc : t.mSystemContainerMap = s.mSystemContainerMap)
    (hv : t.mSystemViewParamMap = s.mSystemViewParamMap)
    (hm : t.mMode = s.mMode ∨ t.mMode ≠ Mode.SELECT_TARGET_HEADING_MODE) :
    interacted w s t := by
  refine ⟨h1, h2, h3, h4, h5, h6, h7, h8, h9, ?_, ?_, ?_⟩
  · intro h
    rcases hm with hm | hm
    · exact Or.inl (hm ▸ h)
    · exact absurd h hm
  · intro P _ hs
    rw [hc]
    exact hs
  · intro Q _ hs
    rw [hv]
    exact hs

theorem selectTargetHeading_interacted (w : World) (s : Widget) :
    interacted w s (selectTargetHeading w s) := by
  unfold selectTargetHeading
  split
  · exact interacted_refl w s
  · rename_i a ha
    refine ⟨rfl, rfl, rfl, rfl, rfl, rfl, rfl, rfl, rfl, fun h => Or.inl h, ?_, fun _ _ h => h⟩
    intro P hP hs
    exact hP a ha _ _ (hP a ha _ _ hs (TargetEdit.touch _)) (TargetEdit.target _ _)

theorem selectTarget_interacted (w : World) (s : Widget) :
    interacted w s (selectTarget w s) := by
  unfold selectTarget
  split
  · exact interacted_refl w s
  · rename_i a ha
    dsimp only
    by_cases hp : (w.deref a).hasParamManager = true
    · rw [if_neg (not_not.2 hp)]
      by_cases hc : QMap.contains s.mSystemViewParamMap (w.deref a).getUASID = true
      · rw [if_pos hc]
        refine ⟨rfl, rfl, rfl, rfl, rfl, rfl, rfl, rfl, rfl, fun _ => Or.inr ⟨a, ha⟩, ?_, ?_⟩
        · intro P hP hs
          exact hP a ha _ _ (hP a ha _ _ hs (TargetEdit.touch _)) (TargetEdit.target _ _)
        · intro Q hQ hs
          exact hQ a ha _ hs hc
      · rw [if_neg hc]
        refine ⟨rfl, rfl, rfl, rfl, rfl, rfl, rfl, rfl, rfl, fun _ => Or.inr ⟨a, ha⟩, ?_,
          fun _ _ h => h⟩
        intro P hP hs
        exact hP a ha _ _ (hP a ha _ _ hs (TargetEdit.touch _)) (TargetEdit.target _ _)
    · rw [if_pos hp]
      exact interacted_refl w s

theorem setTarget_interacted (w : World) (s : Widget) : interacted w s (setTarget w s) := by
  have h1 := selectTargetHeading_interacted w s
  refine interacted_trans h1 ?_
  unfold setTarget
  dsimp only
  split
  · exact interacted_refl w _
  · rename_i a ha
    refine ⟨rfl, rfl, rfl, rfl, rfl, rfl, rfl, rfl, rfl, fun h => Or.inl h, ?_, fun _ _ h => h⟩
    intro P hP hs
    exact hP a ha _ _ hs (TargetEdit.touch _)

theorem findWaypoint_interacted (w : World) (pos : QPoint) (s : Widget) :
    interacted w s (findWaypoint w pos s).1 := by
  unfold findWaypoint
  split
  · exact interacted_refl w s
  · rename_i a ha
    by_cases hd : w.hasSceneData = true
    · rw [if_neg (not_not.2 hd)]
      have key : interacted w s
          { s with mSystemContainerMap := QMap.touch s.mSystemContainerMap (w.deref a).getUASID } := by
        refine ⟨rfl, rfl, rfl, rfl, rfl, rfl, rfl, rfl, rfl, fun h => Or.inl h, ?_, fun _ _ h => h⟩
        intro P hP hs
        exact hP a ha _ _ hs (TargetEdit.touch _)
      dsimp only
      split
      · exact key
      · exact key
    · rw [if_pos hd]
      exact interacted_refl w s

theorem insertWaypoint_interacted (w : World) (s : Widget) :
    interacted w s (insertWaypoint w s) := by
  unfold insertWaypoint
  split
  · exact interacted_refl w s
  · dsimp only
    split
    · refine interacted_of_same w rfl rfl rfl rfl rfl rfl rfl rfl rfl rfl rfl (Or.inr ?_)
      simp
    · exact interacted_refl w s

theorem moveWaypointPosition_interacted (w : World) (s : Widget) :
    interacted w s (moveWaypointPosition w s) := by
  unfold moveWaypointPosition
  by_cases hm : s.mMode ≠ Mode.MOVE_WAYPOINT_POSITION_MODE
  · rw [if_pos hm]
    refine interacted_of_same w rfl rfl rfl rfl rfl rfl rfl rfl rfl rfl rfl (Or.inr ?_)
    simp
  · rw [if_neg hm]
    split
    · exact interacted_refl w s
    · dsimp only
      split
      · exact interacted_refl w s
      · split_ifs <;>
          exact interacted_of_same w rfl rfl rfl rfl rfl rfl rfl rfl rfl rfl rfl (Or.inl rfl)

theorem moveWaypointHeading_interacted (w : World) (s : Widget) :
    interacted w s (moveWaypointHeading w s) := by
  unfold moveWaypointHeading
  by_cases hm : s.mMode ≠ Mode.MOVE_WAYPOINT_HEADING_MODE
  · rw [if_pos hm]
    refine interacted_of_same w rfl rfl rfl rfl rfl rfl rfl rfl rfl rfl rfl (Or.inr ?_)
    simp
  · rw [if_neg hm]
    split
    · exact interacted_refl w s
    · dsimp only
      split
      · exact interacted_refl w s
      · exact interacted_of_same w rfl rfl rfl rfl rfl rfl rfl rfl rfl rfl rfl (Or.inl rfl)

theorem deleteWaypoint_interacted (w : World) (s : Widget) :
    interacted w s (deleteWaypoint s) := by
  unfold deleteWaypoint
  split
  · exact interacted_of_same w rfl rfl rfl rfl rfl rfl rfl rfl rfl rfl rfl (Or.inl rfl)
  · exact interacted_refl w s

theorem setWaypointAltitude_interacted (w : World) (s : Widget) :
    interacted w s (setWaypointAltitude w s) := by
  unfold setWaypointAltitude
  split
  · exact interacted_refl w s
  · dsimp only
    split
    · exact interacted_refl w s
    · split_ifs
      · exact interacted_of_same w rfl rfl rfl rfl rfl rfl rfl rfl rfl rfl rfl (Or.inl rfl)
      · exact interacted_of_same w rfl rfl rfl rfl rfl rfl rfl rfl rfl rfl rfl (Or.inl rfl)
      · exact interacted_refl w s
      · exact interacted_refl w s

theorem clearAllWaypoints_interacted (w : World) (s : Widget) :
    interacted w s (clearAllWaypoints w s) := by
  unfold clearAllWaypoints
  split
  · exact interacted_of_same w rfl rfl rfl rfl rfl rfl rfl rfl rfl rfl rfl (Or.inl rfl)
  · exact interacted_refl w s

theorem showInsertWaypointMenu_interacted (w : World) (choice : Option MenuAction)
    (s : Widget) : interacted w s (showInsertWaypointMenu w choice s) := by
  unfold showInsertWaypointMenu
  split
  · exact insertWaypoint_interacted w s
  · exact clearAllWaypoints_interacted w s
  · exact selectTarget_interacted w s
  · exact interacted_refl w s

theorem showEditWaypointMenu_interacted (w : World) (choice : Option MenuAction)
    (s : Widget) : interacted w s (showEditWaypointMenu w choice s) := by
  unfold showEditWaypointMenu
  split
  · exact moveWaypointPosition_interacted w s
  · exact moveWaypointHeading_interacted w s
  · exact setWaypointAltitude_interacted w s
  · exact deleteWaypoint_interacted w s
  · exact clearAllWaypoints_interacted w s
  · exact interacted_refl w s

theorem shiftPress_interacted (w : World) (event : QMouseEvent) (s : Widget) :
    interacted w s (shiftPress w event s) := by
  have h1 := findWaypoint_interacted w event.pos s
  have h2 : ∀ i : Int, interacted w (findWaypoint w event.pos s).1
      { (findWaypoint w event.pos s).1 with mSelectedWpIndex := i } := fun i =>
    interacted_of_same w rfl rfl rfl rfl rfl rfl rfl rfl rfl rfl rfl (Or.inl rfl)
  have h3 : ∀ t : Widget, interacted w t { t with mCachedMousePos := event.pos } := fun t =>
    interacted_of_same w rfl rfl rfl rfl rfl rfl rfl rfl rfl rfl rfl (Or.inl rfl)
  unfold shiftPress
  dsimp only
  refine interacted_trans h1 (interacted_trans (h2 (findWaypoint w event.pos s).2) ?_)
  split_ifs
  · exact interacted_trans (h3 _) (showInsertWaypointMenu_interacted w _ _)
  · exact showEditWaypointMenu_interacted w _ _

theorem mousePressEvent_interacted (w : World) (event : QMouseEvent) (s : Widget) :
    interacted w s (mousePressEvent w event s) := by
  have hpass : ∀ t : Widget,
      interacted w t { t with calls := t.calls ++ [Call.handleMousePressEvent] } := fun t =>
    interacted_of_same w rfl rfl rfl rfl rfl rfl rfl rfl rfl rfl rfl (Or.inl rfl)
  have h1 : interacted w s
      (if s.mMode = Mode.SELECT_TARGET_HEADING_MODE then setTarget w s else s) := by
    split_ifs
    · exact setTarget_interacted w s
    · exact interacted_refl w s
  have h2 : ∀ t : Widget, interacted w t
      (if t.mMode ≠ Mode.DEFAULT_MODE then { t with mMode := Mode.DEFAULT_MODE } else t) := by
    intro t
    split_ifs
    · refine interacted_of_same w rfl rfl rfl rfl rfl rfl rfl rfl rfl rfl rfl (Or.inr ?_)
      simp
    · exact interacted_refl w t
  have hc : interacted w s (committed w s) := by
    unfold committed
    exact interacted_trans h1 (h2 _)
  unfold mousePressEvent
  by_cases ha : event.acceptedByBase = true
  · rw [if_pos ha]
    exact interacted_refl w s
  · rw [if_neg ha]
    by_cases hb : event.button = MouseButton.LeftButton
    · rw [if_pos hb]
      show interacted w s
        (if event.modifiers = KeyboardModifiers.ShiftModifier then
          shiftPress w event (committed w s)
        else
          { committed w s with calls := (committed w s).calls ++ [Call.handleMousePressEvent] })
      by_cases hs : event.modifiers = KeyboardModifiers.ShiftModifier
      · rw [if_pos hs]
        exact interacted_trans hc (shiftPress_interacted w event _)
      · rw [if_neg hs]
        exact interacted_trans hc (hpass _)
    · rw [if_neg hb]
      exact hpass s

theorem mouseMoveEvent_interacted (w : World) (event : QMouseEvent) (s : Widget) :
    interacted w s (mouseMoveEvent w event s) := by
  have h1 : ∀ t : Widget, interacted w t
      (if t.mMode = Mode.SELECT_TARGET_HEADING_MODE then selectTargetHeading w t else t) := by
    intro t
    split_ifs
    · exact selectTargetHeading_interacted w t
    · exact interacted_refl w t
  have h2 : ∀ t : Widget, interacted w t
      (if t.mMode = Mode.MOVE_WAYPOINT_POSITION_MODE then moveWaypointPosition w t else t) := by
    intro t
    split_ifs
    · exact moveWaypointPosition_interacted w t
    · exact interacted_refl w t
  have h3 : ∀ t : Widget, interacted w t
      (if t.mMode = Mode.MOVE_WAYPOINT_HEADING_MODE then moveWaypointHeading w t else t) := by
    intro t
    split_ifs
    · exact moveWaypointHeading_interacted w t
    · exact interacted_refl w t
  unfold mouseMoveEvent
  by_cases ha : event.acceptedByBase = true
  · rw [if_pos ha]
    exact interacted_refl w s
  · rw [if_neg ha]
    refine interacted_trans (interacted_trans (interacted_trans (h1 s) (h2 _)) (h3 _)) ?_
    exact interacted_of_same w rfl rfl rfl rfl rfl rfl rfl rfl rfl rfl rfl (Or.inl rfl)

/-! ## Facts about one trail -/

theorem fabs_eq_abs (a : double) : fabs a = |a| := by
  unfold fabs
  by_cases h : a < 0
  · simp [h, abs_of_neg h]
  · simp [h, abs_of_nonneg (not_lt.mp h)]

theorem lastN_of_length_le {α : Type} {n : Nat} {l : List α} (h : l.length ≤ n) :
    lastN n l = l := by
  simp [lastN, Nat.sub_eq_zero_of_le h]

theorem lastN_length_le {α : Type} (n : Nat) (l : List α) : (lastN n l).length ≤ n := by
  simp only [lastN, List.length_drop]
  omega

theorem lastN_append_singleton {α : Type} {n : Nat} (hn : 0 < n) (l : List α) (p : α) :
    lastN n (lastN n l ++ [p]) = lastN n (l ++ [p]) := by
  by_cases h : l.length ≤ n
  · rw [lastN_of_length_le h]
  · have h' : n < l.length := not_le.mp h
    simp only [lastN, List.length_append, List.length_drop, List.length_singleton]
    have e1 : l.length - (l.length - n) + 1 - n = 1 := by omega
    have e2 : l.length + 1 - n = (l.length - n) + 1 := by omega
    rw [e1, e2]
    have e3 : l.length - n < l.length := by omega
    rw [List.drop_append_of_le_length (by simp; omega),
      List.drop_append_of_le_length (by omega), List.drop_drop]

theorem getLast?_lastN {α : Type} {n : Nat} (hn : 0 < n) (l : List α) :
    (lastN n l).getLast? = l.getLast? := by
  unfold lastN
  rw [List.getLast?_drop]
  by_cases h : l.length ≤ l.length - n
  · have : l.length = 0 := by omega
    have hl : l = [] := List.length_eq_zero.mp this
    simp [hl]
  · simp [h]

namespace QVector

theorem get_last_eq {l : List Vec3d} {a : Nat} (h : 0 < l.length) :
    ∃ L, l.getLast? = some L ∧ (QVector.mk l a).get ((QVector.mk l a).size - 1) = L := by
  have hne : l ≠ [] := by
    intro e
    simp [e] at h
  refine ⟨l.getLast hne, List.getLast?_eq_getLast _ hne, ?_⟩
  simp only [get, size]
  rw [List.getLast_eq_getElem]
  exact List.getD_eq_getElem l default (by omega)

end QVector

theorem addToTrail_eq (trail : QVector Vec3d) (x y z : double) :
    addToTrail trail x y z =
      match trail.back? with
      | none => true
      | some L => differsFrom kTrailEpsilon L ⟨x, y, z⟩ := by
  obtain ⟨l, a⟩ := trail
  by_cases h : 0 < l.length
  · obtain ⟨L, h1, h2⟩ := QVector.get_last_eq (a := a) h
    have hs : (QVector.mk l a).size > 0 := h
    simp only [addToTrail, hs, if_true, h2, QVector.back?, h1, differsFrom, fabs_eq_abs]
    by_cases hd : |x - L.x| > kTrailEpsilon ∨ |y - L.y| > kTrailEpsilon ∨ |z - L.z| > kTrailEpsilon
    · simp [hd]
    · simp [hd]
  · have hl : l = [] := List.length_eq_zero.mp (by omega)
    subst hl
    simp [addToTrail, QVector.size, QVector.back?]

theorem shift_set_eq (l : List Vec3d) (p : Vec3d) (h : 0 < l.length) :
    (l.drop 1 ++ l.drop (l.length - 1)).set (l.length - 1) p = l.drop 1 ++ [p] := by
  rw [List.set_append_right _ _ (by simp)]
  congr 1
  have h1 : (l.drop (l.length - 1)).length = 1 := by
    simp only [List.length_drop]
    omega
  have h2 : l.length - 1 - (l.drop 1).length = 0 := by simp
  rw [h2]
  match hd : l.drop (l.length - 1), h1 with
  | [a], _ => rfl

theorem recordPosition_eq {t : QVector Vec3d} (ha : t.alloc = kTrailCapacity)
    (hl : t.elems.length ≤ kTrailCapacity) (x y z : double) :
    recordPosition t x y z =
      if addToTrail t x y z then
        { elems := lastN kTrailCapacity (t.elems ++ [⟨x, y, z⟩]), alloc := kTrailCapacity }
      else t := by
  obtain ⟨l, a⟩ := t
  simp only at ha hl
  subst ha
  unfold recordPosition
  by_cases hadd : addToTrail (QVector.mk l kTrailCapacity) x y z = true
  · simp only [hadd, if_true]
    by_cases hfull : (QVector.mk l kTrailCapacity).size = (QVector.mk l kTrailCapacity).capacity
    · have hlen : l.length = kTrailCapacity := hfull
      have hpos : 0 < l.length := by rw [hlen]; unfold kTrailCapacity; norm_num
      rw [if_pos hfull]
      simp only [QVector.memcpyShift, QVector.setAt, QVector.size, shift_set_eq l _ hpos]
      have e : lastN kTrailCapacity (l ++ [(⟨x, y, z⟩ : Vec3d)]) = List.drop 1 l ++ [⟨x, y, z⟩] := by
        simp only [lastN, List.length_append, List.length_singleton, hlen]
        rw [show kTrailCapacity + 1 - kTrailCapacity = 1 by omega]
        rw [List.drop_append_of_le_length (by omega)]
      rw [e]
    · have hlen : l.length ≠ kTrailCapacity := hfull
      have hlt : l.length < kTrailCapacity := lt_of_le_of_ne hl hlen
      rw [if_neg hfull]
      rw [lastN_of_length_le (by simp; omega)]
      have : ¬ (l.length + 1 > kTrailCapacity) := by omega
      simp [QVector.append, this]
  · simp [hadd]

theorem recordPosition_bounded {t : QVector Vec3d} (ha : t.alloc = kTrailCapacity)
    (hl : t.elems.length ≤ kTrailCapacity) (x y z : double) :
    (recordPosition t x y z).alloc = kTrailCapacity ∧
      (recordPosition t x y z).elems.length ≤ kTrailCapacity := by
  rw [recordPosition_eq ha hl]
  by_cases hadd : addToTrail t x y z = true
  · rw [if_pos hadd]
    exact ⟨rfl, lastN_length_le _ _⟩
  · rw [if_neg hadd]
    exact ⟨ha, hl⟩

theorem newTrail_eq : newTrail = { elems := [], alloc := kTrailCapacity } := by
  simp [newTrail, QVector.reserve, QVector.empty, kTrailCapacity]

/-! ## Facts about the trails of one vehicle -/

/-- The trail `localPositionChanged` works on: the stored one, or a new one. -/
theorem updateTrailData_trailMap (uas : UAS) (component : Int) (x y z : double)
    (c : SystemContainer) :
    (updateTrailData uas component x y z c).trailMap =
      QMap.insert c.trailMap component
        (recordPosition
          (if QMap.contains c.trailMap component then QMap.value c.trailMap component
            else newTrail) x y z) := by
  unfold updateTrailData
  by_cases h : QMap.contains c.trailMap component = true
  · simp [h, QMap.modify]
  · simp [h, QMap.modify, QMap.value_insert_self, QMap.insert_insert, newTrail]

theorem SystemContainer.trailsBounded_of_default : (default : SystemContainer).trailsBounded := by
  intro t ht
  simp [default] at ht

theorem SystemContainer.trailsBounded_of_trailMap_eq {c d : SystemContainer}
    (h : d.trailMap = c.trailMap) (hc : c.trailsBounded) : d.trailsBounded := by
  intro t ht
  rw [h] at ht
  exact hc t ht

theorem SystemContainer.trailsBounded_value {c : SystemContainer} (hc : c.trailsBounded)
    (component : Int) (h : QMap.contains c.trailMap component = true) :
    (QMap.value c.trailMap component).alloc = kTrailCapacity ∧
      (QMap.value c.trailMap component).elems.length ≤ kTrailCapacity :=
  hc _ (QMap.mem_value_of_contains h)

theorem updateTrailData_trailsBounded (uas : UAS) (component : Int) (x y z : double)
    {c : SystemContainer} (hc : c.trailsBounded) :
    (updateTrailData uas component x y z c).trailsBounded := by
  intro t ht
  rw [updateTrailData_trailMap] at ht
  rcases QMap.mem_insert ht with h | h
  · subst h
    by_cases hk : QMap.contains c.trailMap component = true
    · simp only [hk, if_true]
      exact recordPosition_bounded (SystemContainer.trailsBounded_value hc component hk).1
        (SystemContainer.trailsBounded_value hc component hk).2 x y z
    · simp only [hk]
      rw [newTrail_eq]
      exact recordPosition_bounded rfl (by simp) x y z
  · exact hc t h

theorem Widget.allTrailsBounded_value {s : Widget} (hs : s.trailsBounded) (systemId : Int) :
    (QMap.value s.mSystemContainerMap systemId).trailsBounded := by
  by_cases h : QMap.contains s.mSystemContainerMap systemId = true
  · exact hs _ (QMap.mem_value_of_contains h)
  · rw [QMap.value_of_not_contains (by simpa using h)]
    exact SystemContainer.trailsBounded_of_default

/-- Writing a container with bounded trails into the map keeps the bound. -/
theorem trailsBounded_insert {m : QMap SystemContainer} (hm : ∀ e ∈ m, e.2.trailsBounded)
    (systemId : Int) {c : SystemContainer} (hc : c.trailsBounded) :
    ∀ e ∈ QMap.insert m systemId c, e.2.trailsBounded := by
  intro e he
  rcases QMap.mem_insert he with h | h
  · subst h
    exact hc
  · exact hm e h

theorem trailsBounded_touch {m : QMap SystemContainer} (hm : ∀ e ∈ m, e.2.trailsBounded)
    (systemId : Int) : ∀ e ∈ QMap.touch m systemId, e.2.trailsBounded := by
  intro e he
  rcases QMap.mem_touch he with h | h
  · subst h
    exact SystemContainer.trailsBounded_of_default
  · exact hm e h

theorem localPositionChanged_trailsBounded (uas : UAS) (component : Int) (x y z : double)
    {s : Widget} (hs : s.trailsBounded) :
    (localPositionChanged uas component x y z s).trailsBounded := by
  unfold localPositionChanged
  by_cases h : QMap.contains s.mSystemContainerMap uas.getUASID = true
  · simp only [h, not_true_eq_false, if_false]
    exact trailsBounded_insert hs _
      (updateTrailData_trailsBounded uas component x y z (Widget.allTrailsBounded_value hs _))
  · simp only [h, not_false_eq_true, if_true]
    exact hs

theorem trailOf_localPositionChanged (uas : UAS) (component : Int) (x y z : double)
    (s : Widget) (h : QMap.contains s.mSystemContainerMap uas.uasId = true) :
    trailOf (localPositionChanged uas component x y z s) uas.uasId component =
      recordPosition
        (if QMap.contains (QMap.value s.mSystemContainerMap uas.uasId).trailMap component
          then trailOf s uas.uasId component else newTrail) x y z := by
  simp [trailOf, localPositionChanged, UAS.getUASID, h, QMap.value_insert_self,
    updateTrailData_trailMap]

theorem contains_localPositionChanged (uas : UAS) (component : Int) (x y z : double)
    (s : Widget) (h : QMap.contains s.mSystemContainerMap uas.uasId = true) :
    QMap.contains (localPositionChanged uas component x y z s).mSystemContainerMap uas.uasId
        = true ∧
      QMap.contains (QMap.value (localPositionChanged uas component x y z
        s).mSystemContainerMap uas.uasId).trailMap component = true := by
  simp [localPositionChanged, UAS.getUASID, h, QMap.value_insert_self,
    QMap.contains_insert_self, updateTrailData_trailMap]

/-! ## Facts about sequences of notifications -/

theorem kTrailCapacity_eq : kTrailCapacity = 10000 := by
  unfold kTrailCapacity
  rfl

theorem kTrailCapacity_pos : 0 < kTrailCapacity := by
  rw [kTrailCapacity_eq]
  norm_num

/-- A trail that holds the last accepted points goes on holding them. -/
theorem recordAll_elems (points : List Vec3d) :
    ∀ (t : QVector Vec3d) (acc : List Vec3d), t.alloc = kTrailCapacity →
      t.elems = lastN kTrailCapacity acc →
      (recordAll t points).elems
          = lastN kTrailCapacity (acc ++ acceptedFrom kTrailEpsilon acc.getLast? points) ∧
        (recordAll t points).alloc = kTrailCapacity := by
  induction points with
  | nil =>
    intro t acc ha he
    cases acc.getLast? <;> simp [recordAll, acceptedFrom, he, ha]
  | cons p rest ih =>
    intro t acc ha he
    have hl : t.elems.length ≤ kTrailCapacity := by
      rw [he]
      exact lastN_length_le _ _
    have hback : t.back? = acc.getLast? := by
      simp only [QVector.back?, he]
      exact getLast?_lastN kTrailCapacity_pos acc
    have hstep : recordAll t (p :: rest) = recordAll (recordPosition t p.x p.y p.z) rest := rfl
    have hadd := addToTrail_eq t p.x p.y p.z
    rw [hback] at hadd
    have hnew : lastN kTrailCapacity (t.elems ++ [p]) = lastN kTrailCapacity (acc ++ [p]) := by
      rw [he]
      exact lastN_append_singleton kTrailCapacity_pos acc p
    have hacc : (acc ++ [p]).getLast? = some p := List.getLast?_concat acc
    rw [hstep, recordPosition_eq ha hl]
    cases hlast : acc.getLast? with
    | none =>
      rw [hlast] at hadd
      simp only at hadd
      rw [if_pos hadd]
      have := ih ⟨lastN kTrailCapacity (t.elems ++ [⟨p.x, p.y, p.z⟩]), kTrailCapacity⟩
        (acc ++ [p]) rfl hnew
      rw [hacc] at this
      simpa [acceptedFrom, List.append_assoc] using this
    | some L =>
      rw [hlast] at hadd
      simp only at hadd
      by_cases hd : differsFrom kTrailEpsilon L ⟨p.x, p.y, p.z⟩ = true
      · rw [if_pos (hadd.trans hd)]
        have := ih ⟨lastN kTrailCapacity (t.elems ++ [⟨p.x, p.y, p.z⟩]), kTrailCapacity⟩
          (acc ++ [p]) rfl hnew
        rw [hacc] at this
        have hd' : differsFrom kTrailEpsilon L p = true := hd
        simpa [acceptedFrom, hd', List.append_assoc] using this
      · have hf : addToTrail t p.x p.y p.z ≠ true := by
          rw [hadd]
          exact hd
        rw [if_neg hf]
        have := ih t acc ha he
        rw [hlast] at this
        have hd' : ¬ differsFrom kTrailEpsilon L p = true := hd
        simpa [acceptedFrom, hd'] using this

theorem trailOf_localPositionChangedAll (uas : UAS) (component : Int) (points : List Vec3d) :
    ∀ s : Widget, QMap.contains s.mSystemContainerMap uas.uasId = true →
      QMap.contains (QMap.value s.mSystemContainerMap uas.uasId).trailMap component = true →
      trailOf (localPositionChangedAll uas component s points) uas.uasId component
        = recordAll (trailOf s uas.uasId component) points := by
  induction points with
  | nil => intro s _ _; rfl
  | cons p rest ih =>
    intro s h1 h2
    have hstep : localPositionChangedAll uas component s (p :: rest)
        = localPositionChangedAll uas component (localPositionChanged uas component p.x p.y p.z s)
          rest := rfl
    have hc := contains_localPositionChanged uas component p.x p.y p.z s h1
    rw [hstep, ih _ hc.1 hc.2, trailOf_localPositionChanged uas component p.x p.y p.z s h1]
    simp only [h2, if_true]
    rfl

theorem recordPosition_newTrail (x y z : double) :
    recordPosition newTrail x y z = { elems := [⟨x, y, z⟩], alloc := 10000 } := by
  simp [recordPosition, addToTrail, newTrail, QVector.reserve, QVector.empty, QVector.size,
    QVector.capacity, QVector.append]

theorem recordPosition_of_differs {t : QVector Vec3d} {L : Vec3d} (x y z : double)
    (hb : t.back? = some L) (hd : differsFrom kTrailEpsilon L ⟨x, y, z⟩ = true) :
    (recordPosition t x y z).elems
      = (if t.size = t.capacity then t.elems.drop 1 else t.elems) ++ [⟨x, y, z⟩] := by
  have hadd : addToTrail t x y z = true := by
    rw [addToTrail_eq, hb]
    exact hd
  have hpos : 0 < t.elems.length := by
    cases he : t.elems with
    | nil => simp [QVector.back?, he] at hb
    | cons a l => simp
  unfold recordPosition
  rw [if_pos hadd]
  by_cases hfull : t.size = t.capacity
  · rw [if_pos hfull, if_pos hfull]
    simp only [QVector.memcpyShift, QVector.setAt, QVector.size, shift_set_eq _ _ hpos]
  · rw [if_neg hfull, if_neg hfull]
    rfl

theorem recordPosition_of_not_differs {t : QVector Vec3d} {L : Vec3d} (x y z : double)
    (hb : t.back? = some L) (hd : differsFrom kTrailEpsilon L ⟨x, y, z⟩ = false) :
    recordPosition t x y z = t := by
  have hadd : addToTrail t x y z = false := by
    rw [addToTrail_eq, hb]
    exact hd
  simp [recordPosition, hadd]

theorem recordAll_of_not_differs {t : QVector Vec3d} {L : Vec3d} (hb : t.back? = some L)
    (points : List Vec3d) (hd : ∀ p ∈ points, differsFrom kTrailEpsilon L p = false) :
    recordAll t points = t := by
  induction points with
  | nil => rfl
  | cons p rest ih =>
    have hstep : recordAll t (p :: rest) = recordAll (recordPosition t p.x p.y p.z) rest := rfl
    rw [hstep, recordPosition_of_not_differs p.x p.y p.z hb (hd p (by simp))]
    exact ih (fun q hq => hd q (by simp [hq]))

/-! ## The trail bound is kept by every handler -/

theorem foldl_invariant {σ κ : Type} (P : σ → Prop) (f : σ → κ → σ)
    (h : ∀ s k, P s → P (f s k)) : ∀ (l : List κ) (s : σ), P s → P (l.foldl f s) := by
  intro l
  induction l with
  | nil => intro s hs; exact hs
  | cons k t ih => intro s hs; exact ih (f s k) (h s k hs)

theorem initializeSystem_trailsBounded (w : World) (systemId : Int) (color : QColor)
    {s : Widget} (hs : s.trailsBounded) : (initializeSystem w systemId color s).trailsBounded := by
  unfold initializeSystem Widget.trailsBounded
  dsimp only
  apply trailsBounded_insert (trailsBounded_touch hs systemId)
  apply SystemContainer.trailsBounded_of_trailMap_eq
    (c := QMap.value (QMap.touch s.mSystemContainerMap systemId) systemId)
  · cases s.pixhawkMessages <;> rfl
  · rw [QMap.value_touch]
    exact Widget.allTrailsBounded_value hs _

theorem systemCreated_trailsBounded (w : World) (uas : UAS) {s : Widget} (hs : s.trailsBounded) :
    (systemCreated w uas s).trailsBounded := by
  unfold systemCreated
  by_cases h : QMap.contains s.mSystemContainerMap uas.getUASID = true
  · simp only [h, if_true]
    exact hs
  · simp only [h]
    have h1 : Widget.trailsBounded
        (initializeSystem w uas.getUASID uas.getColor
          { s with
            mSystemViewParamMap :=
              QMap.insert s.mSystemViewParamMap uas.getUASID (w.newSystemViewParams uas.getUASID)
            mSystemContainerMap := QMap.insert s.mSystemContainerMap uas.getUASID {}
            calls := s.calls ++ [Call.connectPosition uas, Call.connectAttitude uas] }) := by
      apply initializeSystem_trailsBounded
      exact trailsBounded_insert hs _ SystemContainer.trailsBounded_of_default
    exact h1

theorem updateVisibility_trailsBounded (systemId : Int) {s : Widget} (hs : s.trailsBounded) :
    (updateVisibility s systemId).trailsBounded := by
  unfold updateVisibility Widget.trailsBounded
  dsimp only
  exact trailsBounded_touch hs systemId

theorem updateCamera_mSystemContainerMap (w : World) (frame : MAV_FRAME) (s : Widget) :
    (updateCamera w frame s).mSystemContainerMap = s.mSystemContainerMap := by
  unfold updateCamera
  by_cases h : s.mFollowCameraId ≠ -1
  · rw [if_pos h]
    cases w.getUASForId s.mFollowCameraId <;> rfl
  · rw [if_neg h]
    cases s.mActiveUAS with
    | none => rfl
    | some a =>
      by_cases hi : s.mInitCameraPos = true
      · simp [hi]
      · simp [hi, setBirdEyeView]

theorem updateCamera_mSystemViewParamMap (w : World) (frame : MAV_FRAME) (s : Widget) :
    (updateCamera w frame s).mSystemViewParamMap = s.mSystemViewParamMap := by
  unfold updateCamera
  by_cases h : s.mFollowCameraId ≠ -1
  · rw [if_pos h]
    cases w.getUASForId s.mFollowCameraId <;> rfl
  · rw [if_neg h]
    cases s.mActiveUAS with
    | none => rfl
    | some a =>
      by_cases hi : s.mInitCameraPos = true
      · simp [hi]
      · simp [hi, setBirdEyeView]

/-- The sensor overlays leave the members outside the sensor nodes alone. -/
theorem updateSensors_frame (w : World) (uas : Option UAS) (frame : MAV_FRAME) (x y z : double)
    (p : SystemViewParams) (c : SystemContainer) :
    (updateSensors w uas frame x y z p c).trailMap = c.trailMap ∧
      (updateSensors w uas frame x y z p c).trailIndexMap = c.trailIndexMap ∧
      (updateSensors w uas frame x y z p c).trailNode = c.trailNode ∧
      (updateSensors w uas frame x y z p c).targetNode = c.targetNode ∧
      (updateSensors w uas frame x y z p c).target = c.target ∧
      (updateSensors w uas frame x y z p c).modelNode = c.modelNode ∧
      (updateSensors w uas frame x y z p c).models = c.models := by
  unfold updateSensors
  dsimp only
  split_ifs <;> simp

/-- The view parameters and the container of a vehicle after its round of the
second loop of `update`. -/
theorem updateSystem_values (w : World) (frame : MAV_FRAME) (s : Widget) (systemId : Int) :
    QMap.value (updateSystem w frame s systemId).mSystemViewParamMap systemId
        = (updateSystemData w ((w.getUASForId systemId).map w.deref) frame s.pixhawkMessages
            (QMap.value s.mSystemViewParamMap systemId)
            (QMap.value s.mSystemContainerMap systemId)).1 ∧
      QMap.value (updateSystem w frame s systemId).mSystemContainerMap systemId
        = (updateSystemData w ((w.getUASForId systemId).map w.deref) frame s.pixhawkMessages
            (QMap.value s.mSystemViewParamMap systemId)
            (QMap.value s.mSystemContainerMap systemId)).2 := by
  unfold updateSystem
  simp only [QMap.value_insert_self, QMap.value_touch]
  exact ⟨trivial, trivial⟩

theorem updateSystemData_trailMap (w : World) (uas : Option UAS) (frame : MAV_FRAME) (b : Bool)
    (p : SystemViewParams) (c : SystemContainer) :
    (updateSystemData w uas frame b p c).2.trailMap =
      (if p.displayTrails then c.trailMap else []) ∧
    (updateSystemData w uas frame b p c).1.displayTrails = p.displayTrails := by
  unfold updateSystemData
  by_cases h1 : p.displayTarget = true <;>
    by_cases h2 : c.target.isNull = true <;>
    by_cases h3 : p.displayTrails = true <;>
    cases b <;>
    simp [h1, h2, h3, updateSensors_frame]

/-- The trail map a vehicle has after its round of the second loop of
`update`: cleared when its trails are not displayed, else as before. -/
theorem updateSystem_trailMap (w : World) (frame : MAV_FRAME) (s : Widget) (systemId : Int) :
    (QMap.value (updateSystem w frame s systemId).mSystemContainerMap systemId).trailMap =
      if (QMap.value s.mSystemViewParamMap systemId).displayTrails then
        (QMap.value s.mSystemContainerMap systemId).trailMap
      else [] := by
  rw [(updateSystem_values w frame s systemId).2]
  exact (updateSystemData_trailMap _ _ _ _ _ _).1

theorem updateSystem_mSystemContainerMap (w : World) (frame : MAV_FRAME) (s : Widget)
    (systemId : Int) :
    (updateSystem w frame s systemId).mSystemContainerMap =
      QMap.insert (QMap.touch s.mSystemContainerMap systemId) systemId
        (QMap.value (updateSystem w frame s systemId).mSystemContainerMap systemId) := by
  conv_lhs => unfold updateSystem
  simp only [QMap.value_touch]
  conv_rhs => unfold updateSystem
  simp only [QMap.value_insert_self, QMap.value_touch]

theorem updateSystem_trailsBounded (w : World) (frame : MAV_FRAME) (systemId : Int) {s : Widget}
    (hs : s.trailsBounded) : (updateSystem w frame s systemId).trailsBounded := by
  unfold Widget.trailsBounded
  rw [updateSystem_mSystemContainerMap]
  apply trailsBounded_insert (trailsBounded_touch hs systemId)
  intro t ht
  rw [updateSystem_trailMap] at ht
  by_cases h3 : (QMap.value s.mSystemViewParamMap systemId).displayTrails = true
  · simp only [h3, if_true] at ht
    exact Widget.allTrailsBounded_value hs systemId t ht
  · simp [h3] at ht

theorem update_trailsBounded (w : World) {s : Widget} (hs : s.trailsBounded) :
    (update w s).trailsBounded := by
  unfold update
  dsimp only
  apply foldl_invariant Widget.trailsBounded _
    (fun s k h => updateSystem_trailsBounded w _ k h)
  have hc : ∀ t : Widget, Widget.trailsBounded t →
      Widget.trailsBounded (updateCamera w s.mGlobalViewParams.frame t) := by
    intro t ht
    unfold Widget.trailsBounded
    rw [updateCamera_mSystemContainerMap]
    exact ht
  apply hc
  have hv : ∀ t : Widget, Widget.trailsBounded t →
      Widget.trailsBounded { t with mImageryNodeType := t.mGlobalViewParams.imageryType } :=
    fun t ht => ht
  apply hv
  apply foldl_invariant Widget.trailsBounded _
    (fun s k h => updateVisibility_trailsBounded k h)
  exact hs

theorem QMap.value_eq_default_or_mem {V : Type} [Inhabited V] (m : QMap V) (k : Int) :
    QMap.value m k = default ∨ (k, QMap.value m k) ∈ m := by
  by_cases h : QMap.contains m k = true
  · exact Or.inr (QMap.mem_value_of_contains h)
  · exact Or.inl (QMap.value_of_not_contains (by simpa using h))

/-- A property of containers that a new container has and that does not
depend on the target is kept by the writes of `TargetEdit`. -/
theorem TargetEdit.forall_mem {I : SystemContainer → Prop} (hd : I default)
    (ht : ∀ c t, I c → I { c with target := t }) {id : Int} {m m' : QMap SystemContainer}
    (h : TargetEdit id m m') (hm : ∀ e ∈ m, I e.2) : ∀ e ∈ m', I e.2 := by
  cases h with
  | touch =>
    intro e he
    rcases QMap.mem_touch he with h | h
    · subst h
      exact hd
    · exact hm e h
  | target t =>
    intro e he
    rcases QMap.mem_insert he with h | h
    · subst h
      apply ht
      rcases QMap.value_eq_default_or_mem m id with h | h
      · rw [h]
        exact hd
      · exact hm _ h
    · exact hm e h

theorem interacted_forall_mem {I : SystemContainer → Prop} (hd : I default)
    (ht : ∀ c t, I c → I { c with target := t }) {w : World} {s t : Widget}
    (h : interacted w s t) (hs : ∀ e ∈ s.mSystemContainerMap, I e.2) :
    ∀ e ∈ t.mSystemContainerMap, I e.2 :=
  h.2.2.2.2.2.2.2.2.2.2.1 (fun m => ∀ e ∈ m, I e.2)
    (fun _ _ _ _ hm he => TargetEdit.forall_mem hd ht he hm) hs

theorem attitudeChanged_mSystemContainerMap (uas : UAS) (component : Int)
    (roll pitch yaw : double) (s : Widget) :
    (attitudeChanged uas component roll pitch yaw s).mSystemContainerMap
      = s.mSystemContainerMap := by
  unfold attitudeChanged
  dsimp only
  split_ifs <;> rfl

theorem recenterActiveCamera_mSystemContainerMap (w : World) (s : Widget) :
    (recenterActiveCamera w s).mSystemContainerMap = s.mSystemContainerMap := by
  unfold recenterActiveCamera
  split_ifs
  · split <;> rfl
  · rfl

/-- A property of containers that does not depend on the active model is kept
by `modelChanged`. -/
theorem modelChanged_forall_mem {I : SystemContainer → Prop}
    (hn : ∀ c n, I c → I { c with modelNode := n }) (systemId index : Int) {s : Widget}
    (hs : ∀ e ∈ s.mSystemContainerMap, I e.2) :
    ∀ e ∈ (modelChanged systemId index s).mSystemContainerMap, I e.2 := by
  unfold modelChanged
  by_cases hc : QMap.contains s.mSystemContainerMap systemId = true
  · rw [if_neg (not_not.2 hc)]
    dsimp only
    split_ifs
    · intro e he
      rcases QMap.mem_insert he with h | h
      · subst h
        exact hn _ _ (hs _ (QMap.mem_value_of_contains hc))
      · exact hs e h
    · exact hs
  · rw [if_pos hc]
    exact hs

theorem interacted_trailsBounded {w : World} {s t : Widget} (h : interacted w s t)
    (hs : s.trailsBounded) : t.trailsBounded :=
  interacted_forall_mem SystemContainer.trailsBounded_of_default (fun _ _ hc => hc) h hs

theorem step_trailsBounded (e : Event) {s : Widget} (hs : s.trailsBounded) :
    (step s e).trailsBounded := by
  cases e with
  | systemCreated w uas => exact systemCreated_trailsBounded w uas hs
  | localPositionChanged uas component x y z =>
    exact localPositionChanged_trailsBounded uas component x y z hs
  | update w => exact update_trailsBounded w hs
  | editSystemViewParams systemId p =>
    unfold step editSystemViewParams
    by_cases h : QMap.contains s.mSystemViewParamMap systemId = true
    · simp only [h, if_true]
      exact hs
    · simp only [h]
      exact hs
  | editGlobalViewParams p => exact hs
  | activeSystemChanged w uas => exact hs
  | followCameraChanged w systemId =>
    have h : (followCameraChanged w systemId s).mSystemContainerMap = s.mSystemContainerMap := by
      unfold followCameraChanged
      dsimp only
      split
      · split_ifs <;> rfl
      · split_ifs <;> rfl
    unfold step Widget.trailsBounded
    rw [h]
    exact hs
  | attitudeChanged uas component roll pitch yaw =>
    unfold step Widget.trailsBounded
    rw [attitudeChanged_mSystemContainerMap]
    exact hs
  | recenterActiveCamera w =>
    unfold step Widget.trailsBounded
    rw [recenterActiveCamera_mSystemContainerMap]
    exact hs
  | setBirdEyeView => exact hs
  | modelChanged systemId index =>
    exact modelChanged_forall_mem (fun _ _ hc => hc) systemId index hs
  | mousePressEvent w event => exact interacted_trailsBounded (mousePressEvent_interacted w event s) hs
  | mouseMoveEvent w event => exact interacted_trailsBounded (mouseMoveEvent_interacted w event s) hs
  | passive handler => exact hs

theorem run_trailsBounded (events : List Event) {s : Widget} (hs : s.trailsBounded) :
    (run s events).trailsBounded :=
  foldl_invariant Widget.trailsBounded step (fun _ e h => step_trailsBounded e h) events s hs

theorem init_trailsBounded : init.trailsBounded := by
  intro e he
  simp [init] at he

theorem trailOf_size_le {s : Widget} (hs : s.trailsBounded) (systemId component : Int) :
    (trailOf s systemId component).size ≤ kTrailCapacity := by
  unfold trailOf
  have hc := Widget.allTrailsBounded_value hs systemId
  by_cases h : QMap.contains (QMap.value s.mSystemContainerMap systemId).trailMap component = true
  · exact (SystemContainer.trailsBounded_value hc component h).2
  · rw [QMap.value_of_not_contains (by simpa using h)]
    simp [QVector.size, default, QVector.empty]

/-! ## Facts about the tick -/

theorem updateVisibility_mSystemViewParamMap (s : Widget) (systemId : Int) :
    (updateVisibility s systemId).mSystemViewParamMap = s.mSystemViewParamMap := rfl

theorem updateVisibility_value (s : Widget) (systemId j : Int) :
    QMap.value (updateVisibility s systemId).mSystemContainerMap j
      = QMap.value s.mSystemContainerMap j := by
  unfold updateVisibility
  exact QMap.value_touch _ _ _

theorem foldl_updateVisibility (keys : List Int) (s : Widget) :
    (keys.foldl updateVisibility s).mSystemViewParamMap = s.mSystemViewParamMap ∧
      ∀ j, QMap.value (keys.foldl updateVisibility s).mSystemContainerMap j
        = QMap.value s.mSystemContainerMap j := by
  induction keys generalizing s with
  | nil => exact ⟨rfl, fun _ => rfl⟩
  | cons k t ih =>
    have h := ih (updateVisibility s k)
    refine ⟨h.1.trans (updateVisibility_mSystemViewParamMap s k), fun j => ?_⟩
    exact (h.2 j).trans (updateVisibility_value s k j)

theorem updateSystem_displayTrails (w : World) (frame : MAV_FRAME) (s : Widget)
    (systemId j : Int) :
    (QMap.value (updateSystem w frame s systemId).mSystemViewParamMap j).displayTrails
      = (QMap.value s.mSystemViewParamMap j).displayTrails := by
  by_cases hj : j = systemId
  · subst hj
    rw [(updateSystem_values w frame s j).1]
    exact (updateSystemData_trailMap _ _ _ _ _ _).2
  · unfold updateSystem
    simp only [QMap.value_insert_of_ne _ hj]

theorem updateSystem_contains_viewParams (w : World) (frame : MAV_FRAME) (s : Widget)
    (systemId : Int) {j : Int} (h : QMap.contains s.mSystemViewParamMap j = true) :
    QMap.contains (updateSystem w frame s systemId).mSystemViewParamMap j = true := by
  unfold updateSystem
  exact QMap.contains_insert_mono _ _ _ h

theorem updateSystem_value_of_ne (w : World) (frame : MAV_FRAME) (s : Widget)
    {systemId j : Int} (hj : j ≠ systemId) :
    QMap.value (updateSystem w frame s systemId).mSystemContainerMap j
      = QMap.value s.mSystemContainerMap j := by
  rw [updateSystem_mSystemContainerMap, QMap.value_insert_of_ne _ hj, QMap.value_touch]

/-- The second loop of `update` clears the trail map of a vehicle whose trails
are not displayed, when the loop reaches it, and nothing refills it. -/
theorem foldl_updateSystem_trailMap (w : World) (frame : MAV_FRAME) (j : Int) (keys : List Int) :
    ∀ s : Widget, (QMap.value s.mSystemViewParamMap j).displayTrails = false →
      (j ∈ keys ∨ (QMap.value s.mSystemContainerMap j).trailMap = []) →
      (QMap.value (keys.foldl (updateSystem w frame) s).mSystemContainerMap j).trailMap = [] := by
  induction keys with
  | nil =>
    intro s _ h
    rcases h with h | h
    · simp at h
    · exact h
  | cons k t ih =>
    intro s hd h
    have hd' : (QMap.value (updateSystem w frame s k).mSystemViewParamMap j).displayTrails
        = false := by
      rw [updateSystem_displayTrails]
      exact hd
    apply ih (updateSystem w frame s k) hd'
    by_cases hk : j = k
    · right
      subst hk
      rw [updateSystem_trailMap]
      simp [hd]
    · rcases h with h | h
      · left
        simpa [hk] using h
      · right
        rw [updateSystem_value_of_ne w frame s hk]
        exact h

theorem foldl_updateSystem_contains (w : World) (frame : MAV_FRAME) (j : Int) (keys : List Int) :
    ∀ s : Widget, QMap.contains s.mSystemViewParamMap j = true →
      QMap.contains (keys.foldl (updateSystem w frame) s).mSystemViewParamMap j = true := by
  induction keys with
  | nil => intro s h; exact h
  | cons k t ih => intro s h; exact ih _ (updateSystem_contains_viewParams w frame s k h)

/-- A tick while the trails of a tracked vehicle are not displayed leaves the
vehicle without any stored trail, and the vehicle stays tracked. -/
theorem update_trailMap_of_hidden (w : World) (s : Widget) (systemId : Int)
    (ht : QMap.contains s.mSystemViewParamMap systemId = true)
    (hd : (QMap.value s.mSystemViewParamMap systemId).displayTrails = false) :
    (QMap.value (update w s).mSystemContainerMap systemId).trailMap = [] ∧
      QMap.contains (update w s).mSystemViewParamMap systemId = true := by
  unfold update
  dsimp only
  have hv := foldl_updateVisibility (QMap.keys s.mSystemViewParamMap)
    { s with
      m3DWidget := { s.m3DWidget with
        worldGridValue := s.mGlobalViewParams.displayWorldGrid
        imageryValue :=
          if s.mGlobalViewParams.imageryType = ImageryType.BLANK_MAP then false else true } }
  have hvp := hv.1
  simp only at hvp
  constructor
  · apply foldl_updateSystem_trailMap
    · rw [updateCamera_mSystemViewParamMap]
      simp only [hvp]
      exact hd
    · left
      rw [updateCamera_mSystemViewParamMap]
      simp only [hvp]
      exact QMap.mem_keys_of_contains ht
  · apply foldl_updateSystem_contains
    rw [updateCamera_mSystemViewParamMap]
    simp only [hvp]
    exact ht

theorem foldl_updateSystem_displayTrails (w : World) (frame : MAV_FRAME) (j : Int)
    (keys : List Int) :
    ∀ s : Widget,
      (QMap.value (keys.foldl (updateSystem w frame) s).mSystemViewParamMap j).displayTrails
        = (QMap.value s.mSystemViewParamMap j).displayTrails := by
  induction keys with
  | nil => intro s; rfl
  | cons k t ih => intro s; exact (ih _).trans (updateSystem_displayTrails w frame s k j)

/-- A tick leaves the display-trails toggle of every vehicle as it is, and
tracked vehicles tracked. -/
theorem update_displayTrails (w : World) (s : Widget) (systemId : Int) :
    (QMap.value (update w s).mSystemViewParamMap systemId).displayTrails
        = (QMap.value s.mSystemViewParamMap systemId).displayTrails ∧
      (QMap.contains s.mSystemViewParamMap systemId = true →
        QMap.contains (update w s).mSystemViewParamMap systemId = true) := by
  unfold update
  dsimp only
  have hv := foldl_updateVisibility (QMap.keys s.mSystemViewParamMap)
    { s with
      m3DWidget := { s.m3DWidget with
        worldGridValue := s.mGlobalViewParams.displayWorldGrid
        imageryValue :=
          if s.mGlobalViewParams.imageryType = ImageryType.BLANK_MAP then false else true } }
  have hvp := hv.1
  simp only at hvp
  constructor
  · rw [foldl_updateSystem_displayTrails, updateCamera_mSystemViewParamMap]
    simp only [hvp]
  · intro ht
    apply foldl_updateSystem_contains
    rw [updateCamera_mSystemViewParamMap]
    simp only [hvp]
    exact ht

theorem localPositionChanged_mSystemViewParamMap (uas : UAS) (component : Int) (x y z : double)
    (s : Widget) :
    (localPositionChanged uas component x y z s).mSystemViewParamMap = s.mSystemViewParamMap := by
  unfold localPositionChanged
  by_cases h : QMap.contains s.mSystemContainerMap uas.getUASID = true
  · simp [h]
  · simp [h]

/-- Position notifications and ticks leave a hidden trail toggle off and a
tracked vehicle tracked. -/
theorem run_hidden (systemId : Int) (events : List Event) :
    ∀ s : Widget, (∀ e ∈ events, e.isNotificationOrTick = true) →
      QMap.contains s.mSystemViewParamMap systemId = true →
      (QMap.value s.mSystemViewParamMap systemId).displayTrails = false →
      QMap.contains (run s events).mSystemViewParamMap systemId = true ∧
        (QMap.value (run s events).mSystemViewParamMap systemId).displayTrails = false := by
  induction events with
  | nil => intro s _ ht hd; exact ⟨ht, hd⟩
  | cons e rest ih =>
    intro s he ht hd
    have hrest : ∀ e' ∈ rest, e'.isNotificationOrTick = true :=
      fun e' h' => he e' (List.mem_cons_of_mem _ h')
    have hstep : run s (e :: rest) = run (step s e) rest := rfl
    rw [hstep]
    have hhead := he e (List.mem_cons_self _ _)
    cases e with
    | localPositionChanged uas component x y z =>
      apply ih _ hrest
      · simp only [step, localPositionChanged_mSystemViewParamMap]
        exact ht
      · simp only [step, localPositionChanged_mSystemViewParamMap]
        exact hd
    | update w =>
      apply ih _ hrest
      · exact (update_displayTrails w s systemId).2 ht
      · simp only [step]
        rw [(update_displayTrails w s systemId).1]
        exact hd
    | systemCreated w uas => simp [Event.isNotificationOrTick] at hhead
    | editSystemViewParams j p => simp [Event.isNotificationOrTick] at hhead
    | editGlobalViewParams p => simp [Event.isNotificationOrTick] at hhead
    | activeSystemChanged w uas => simp [Event.isNotificationOrTick] at hhead
    | followCameraChanged w j => simp [Event.isNotificationOrTick] at hhead
    | attitudeChanged uas component roll pitch yaw =>
      simp [Event.isNotificationOrTick] at hhead
    | recenterActiveCamera w => simp [Event.isNotificationOrTick] at hhead
    | setBirdEyeView => simp [Event.isNotificationOrTick] at hhead
    | modelChanged j index => simp [Event.isNotificationOrTick] at hhead
    | mousePressEvent w event => simp [Event.isNotificationOrTick] at hhead
    | mouseMoveEvent w event => simp [Event.isNotificationOrTick] at hhead
    | passive handler => simp [Event.isNotificationOrTick] at hhead

theorem setDisplayTrails_displayTrails (systemId : Int) (b : Bool) (s : Widget)
    (ht : QMap.contains s.mSystemViewParamMap systemId = true) :
    (QMap.value (setDisplayTrails systemId b s).mSystemViewParamMap systemId).displayTrails = b ∧
      QMap.contains (setDisplayTrails systemId b s).mSystemViewParamMap systemId = true ∧
      (setDisplayTrails systemId b s).mSystemContainerMap = s.mSystemContainerMap := by
  simp [setDisplayTrails, editSystemViewParams, ht, QMap.modify, QMap.value_insert_self,
    QMap.contains_insert_self]

/-! ## Facts about vehicle creation -/

theorem systemCreated_of_contains (w : World) (uas : UAS) (s : Widget)
    (h : QMap.contains s.mSystemContainerMap uas.uasId = true) : systemCreated w uas s = s := by
  simp [systemCreated, UAS.getUASID, h]

theorem systemCreated_calls_of_not_contains (w : World) (uas : UAS) (s : Widget)
    (h : QMap.contains s.mSystemContainerMap uas.uasId = false) :
    (systemCreated w uas s).calls = s.calls ++ [Call.connectPosition uas, Call.connectAttitude uas,
      Call.connectModelChanged uas.uasId, Call.systemCreatedSignal uas] := by
  simp [systemCreated, UAS.getUASID, h, initializeSystem]

theorem systemCreated_contains (w : World) (uas : UAS) (s : Widget) (j : Int) :
    QMap.contains (systemCreated w uas s).mSystemContainerMap j
      = (decide (j = uas.uasId) || QMap.contains s.mSystemContainerMap j) := by
  by_cases h : QMap.contains s.mSystemContainerMap uas.uasId = true
  · rw [systemCreated_of_contains w uas s h]
    by_cases hj : j = uas.uasId
    · simp [hj, h]
    · simp [hj]
  · have h' : QMap.contains s.mSystemContainerMap uas.uasId = false := by simpa using h
    by_cases hj : j = uas.uasId
    · subst hj
      simp [systemCreated, UAS.getUASID, h', initializeSystem, QMap.contains_insert_self]
    · simp [systemCreated, UAS.getUASID, h', initializeSystem, hj,
        QMap.contains_insert_of_ne, QMap.contains_touch_of_ne]

theorem initializeCount_systemCreated (w : World) (uas : UAS) (s : Widget) (j : Int) :
    initializeCount j (systemCreated w uas s) = initializeCount j s +
      (if j = uas.uasId ∧ QMap.contains s.mSystemContainerMap uas.uasId = false then 1 else 0) := by
  by_cases h : QMap.contains s.mSystemContainerMap uas.uasId = true
  · rw [systemCreated_of_contains w uas s h]
    simp [h]
  · have h' : QMap.contains s.mSystemContainerMap uas.uasId = false := by simpa using h
    unfold initializeCount
    rw [systemCreated_calls_of_not_contains w uas s h']
    by_cases hj : j = uas.uasId
    · subst hj
      simp [h', List.count_cons]
    · have hj' : uas.uasId ≠ j := fun e => hj e.symm
      simp [h', hj, hj', List.count_cons]

theorem initializeCount_systemCreatedAll (l : List (World × UAS)) (s : Widget) (j : Int) :
    initializeCount j (systemCreatedAll s l) = initializeCount j s +
      (if j ∈ l.map (fun n => n.2.uasId) ∧ QMap.contains s.mSystemContainerMap j = false
        then 1 else 0) := by
  induction l generalizing s with
  | nil => simp [systemCreatedAll]
  | cons n t ih =>
    have hstep : systemCreatedAll s (n :: t) = systemCreatedAll (systemCreated n.1 n.2 s) t := rfl
    rw [hstep, ih, initializeCount_systemCreated, systemCreated_contains]
    by_cases hj : j = n.2.uasId
    · subst hj
      by_cases hc : QMap.contains s.mSystemContainerMap n.2.uasId = true
      · simp [hc]
      · have hc' : QMap.contains s.mSystemContainerMap n.2.uasId = false := by simpa using hc
        simp [hc']
    · have hd : decide (j = n.2.uasId) = false := by simpa using hj
      simp only [hd, Bool.false_or, List.map_cons, List.mem_cons, hj, false_or, add_zero,
        false_and, if_false, decide_False]

/-! ## Pose and position resolver: results -/

/-- C5: for a non-null vehicle, `getPosition` in the local-NED frame returns
exactly the vehicle's local x, y and z, in this order and with their signs;
the zone string is not touched.  The same holds for the overload without a
zone. -/
theorem getPosition_local_ned_passthrough (LLtoUTM : Projection) (uas : UAS) (o : Position)
    (x y z : double) :
    getPosition LLtoUTM (some uas) MAV_FRAME.MAV_FRAME_LOCAL_NED o
        = { x := uas.localX, y := uas.localY, z := uas.localZ, utmZone := o.utmZone } ∧
      getPosition3 LLtoUTM (some uas) MAV_FRAME.MAV_FRAME_LOCAL_NED x y z
        = (uas.localX, uas.localY, uas.localZ) := by
  constructor <;> simp [getPosition, getPosition3, UAS.getLocalX, UAS.getLocalY, UAS.getLocalZ]

/-- C6: for a non-null vehicle, `getPosition` and `getPose` in the geodetic
frame return x, y and the zone that `LLtoUTM` gives for the vehicle's latitude
and longitude, and z equal to minus the vehicle's altitude. -/
theorem getPosition_getPose_geodetic (LLtoUTM : Projection) (uas : UAS) (o : Position)
    (q : Pose) :
    getPosition LLtoUTM (some uas) MAV_FRAME.MAV_FRAME_GLOBAL o
        = { x := (LLtoUTM uas.latitude uas.longitude).x
            y := (LLtoUTM uas.latitude uas.longitude).y
            z := -uas.altitude
            utmZone := (LLtoUTM uas.latitude uas.longitude).zone } ∧
      (getPose LLtoUTM (some uas) MAV_FRAME.MAV_FRAME_GLOBAL q).x
        = (LLtoUTM uas.latitude uas.longitude).x ∧
      (getPose LLtoUTM (some uas) MAV_FRAME.MAV_FRAME_GLOBAL q).y
        = (LLtoUTM uas.latitude uas.longitude).y ∧
      (getPose LLtoUTM (some uas) MAV_FRAME.MAV_FRAME_GLOBAL q).utmZone
        = (LLtoUTM uas.latitude uas.longitude).zone ∧
      (getPose LLtoUTM (some uas) MAV_FRAME.MAV_FRAME_GLOBAL q).z = -uas.altitude := by
  simp [getPosition, getPose, UAS.getLatitude, UAS.getLongitude, UAS.getAltitude]

/-- C7: with a null vehicle, `getPosition` and `getPose` return their
reference arguments as they were, whatever the frame: x, y, z, roll, pitch,
yaw and the zone string keep their values. -/
theorem getPose_getPosition_null (LLtoUTM : Projection) (frame : MAV_FRAME) (o : Position)
    (q : Pose) (x y z roll pitch yaw : double) :
    getPosition LLtoUTM none frame o = o ∧
      getPose LLtoUTM none frame q = q ∧
      getPosition3 LLtoUTM none frame x y z = (x, y, z) ∧
      getPose6 LLtoUTM none frame x y z roll pitch yaw = (x, y, z, roll, pitch, yaw) := by
  simp [getPosition, getPose, getPosition3, getPose6]

/-- C8: for a non-null vehicle and every frame, also one that is neither
geodetic nor local NED, `getPose` sets roll, pitch and yaw to the vehicle's
and leaves in x, y, z and the zone what `getPosition` leaves there for the
same vehicle, frame and initial values. -/
theorem getPose_refines_getPosition (LLtoUTM : Projection) (uas : UAS) (frame : MAV_FRAME)
    (q : Pose) :
    getPose LLtoUTM (some uas) frame q =
      { x := (getPosition LLtoUTM (some uas) frame ⟨q.x, q.y, q.z, q.utmZone⟩).x
        y := (getPosition LLtoUTM (some uas) frame ⟨q.x, q.y, q.z, q.utmZone⟩).y
        z := (getPosition LLtoUTM (some uas) frame ⟨q.x, q.y, q.z, q.utmZone⟩).z
        roll := uas.roll
        pitch := uas.pitch
        yaw := uas.yaw
        utmZone := (getPosition LLtoUTM (some uas) frame ⟨q.x, q.y, q.z, q.utmZone⟩).utmZone } := by
  unfold getPose getPosition
  by_cases h1 : frame = MAV_FRAME.MAV_FRAME_GLOBAL
  · simp [h1, UAS.getRoll, UAS.getPitch, UAS.getYaw]
  · by_cases h2 : frame = MAV_FRAME.MAV_FRAME_LOCAL_NED
    · simp [h2, UAS.getRoll, UAS.getPitch, UAS.getYaw]
    · simp [h1, h2, UAS.getRoll, UAS.getPitch, UAS.getYaw]

/-! ## Vehicle creation and render position: results -/

/-- C9: for a tracked vehicle, a position notification `(x, y, z)` sets the
render position of the vehicle to `(y, x, -z)`; with the position resolved in
the local-NED frame this is (local Y, local X, minus local Z), and for the
vehicle at local (1, 2, -5) it is (2, 1, 5). -/
theorem render_position_local_ned (LLtoUTM : Projection) (uas : UAS) (component : Int)
    (x y z : double) (s : Widget)
    (h : QMap.contains s.mSystemContainerMap uas.uasId = true) :
    (QMap.value (localPositionChanged uas component x y z s).m3DWidget.systemGroups
        uas.uasId).position = ⟨y, x, -z⟩ ∧
      (QMap.value (localPositionChanged uas component
          (getPosition3 LLtoUTM (some uas) MAV_FRAME.MAV_FRAME_LOCAL_NED 0 0 0).1
          (getPosition3 LLtoUTM (some uas) MAV_FRAME.MAV_FRAME_LOCAL_NED 0 0 0).2.1
          (getPosition3 LLtoUTM (some uas) MAV_FRAME.MAV_FRAME_LOCAL_NED 0 0 0).2.2
          s).m3DWidget.systemGroups uas.uasId).position
        = ⟨uas.localY, uas.localX, -uas.localZ⟩ ∧
      (uas.localX = 1 → uas.localY = 2 → uas.localZ = -5 →
        (QMap.value (localPositionChanged uas component uas.localX uas.localY uas.localZ
          s).m3DWidget.systemGroups uas.uasId).position = ⟨2, 1, 5⟩) := by
  have key : ∀ a b c : double,
      (QMap.value (localPositionChanged uas component a b c s).m3DWidget.systemGroups
        uas.uasId).position = ⟨b, a, -c⟩ := by
    intro a b c
    simp [localPositionChanged, UAS.getUASID, h, Q3DWidget.modifySystemGroup,
      QMap.value_modify_self]
  refine ⟨key x y z, ?_, ?_⟩
  · rw [key]
    simp [getPosition3, getPosition, UAS.getLocalX, UAS.getLocalY, UAS.getLocalZ]
  · intro hx hy hz
    rw [key, hx, hy, hz]
    norm_num

/-- C9, at the vehicle of the examples: it is tracked, and its notification
from local (1, 2, -5) puts it at render position (2, 1, 5). -/
theorem render_position_local_ned_witness :
    QMap.contains demoState.mSystemContainerMap demoUAS.uasId = true ∧
      (QMap.value (localPositionChanged demoUAS 7 1 2 (-5) demoState).m3DWidget.systemGroups
        3).position = ⟨2, 1, 5⟩ :=
  have h : QMap.contains demoState.mSystemContainerMap demoUAS.uasId = true := by decide
  ⟨h, (render_position_local_ned demoWorld.LLtoUTM demoUAS 7 1 2 (-5) demoState h).2.2
    rfl rfl rfl⟩

/-- C10: a vehicle-created notification for an id that is already in the
per-vehicle state map returns the widget as it was (both maps, the scene and
everything else), and over every sequence of notifications from the
constructed widget `initializeSystem` has run exactly once for each id that
occurs in the sequence and never for another id. -/
theorem systemCreated_once_per_id (notifications : List (World × UAS)) (j : Int) (w : World)
    (uas : UAS) (s : Widget) (h : QMap.contains s.mSystemContainerMap uas.uasId = true) :
    systemCreated w uas s = s ∧
      initializeCount j (systemCreatedAll init notifications)
        = (if j ∈ notifications.map (fun n => n.2.uasId) then 1 else 0) := by
  refine ⟨systemCreated_of_contains w uas s h, ?_⟩
  rw [initializeCount_systemCreatedAll]
  have h0 : initializeCount j init = 0 := by simp [init, initializeCount]
  have h1 : QMap.contains init.mSystemContainerMap j = false := by
    simp [init, QMap.contains, QMap.find?]
  simp only [h0, h1, and_true, zero_add]

/-- C10, at the vehicle of the examples: once it is tracked, a second
notification changes nothing, and after three notifications for the ids 3, 4
and 3 again `initializeSystem` has run once for id 3. -/
theorem systemCreated_once_per_id_witness :
    QMap.contains demoState.mSystemContainerMap demoUAS.uasId = true ∧
      systemCreated demoWorld demoUAS demoState = demoState ∧
      initializeCount 3 (systemCreatedAll init
        [(demoWorld, demoUAS), (demoWorld, { uasId := 4 }), (demoWorld, demoUAS)]) = 1 :=
  have h : QMap.contains demoState.mSystemContainerMap demoUAS.uasId = true := by decide
  ⟨h, (systemCreated_once_per_id
        [(demoWorld, demoUAS), (demoWorld, { uasId := 4 }), (demoWorld, demoUAS)] 3
        demoWorld demoUAS demoState h).1,
    (systemCreated_once_per_id
        [(demoWorld, demoUAS), (demoWorld, { uasId := 4 }), (demoWorld, demoUAS)] 3
        demoWorld demoUAS demoState h).2.trans (by decide)⟩

/-! ## Trail tracker: results -/

/-- C1: after every sequence of events from the constructed widget (vehicles
created, position notifications, ticks, edits of the view parameters), the
stored trail of every component of every vehicle has at most 10,000 points. -/
theorem trail_length_le_capacity (events : List Event) (systemId component : Int) :
    (trailOf (run init events) systemId component).size ≤ 10000 := by
  have h := trailOf_size_le (run_trailsBounded events init_trailsBounded) systemId component
  rw [kTrailCapacity_eq] at h
  exact h

/-- C2 as stated fails: with last stored point (0, 0, 0), the notification
(`justBelowHundredth`, 0, 0) is within 0.01 of it on every axis, and the code
stores it all the same, since it is beyond `0.01f`. -/
theorem stored_within_hundredth :
    (trailOf demoStateAtOrigin 3 7).elems = [⟨0, 0, 0⟩] ∧
      ¬ (|justBelowHundredth - 0| > 1 / 100 ∨ |(0 : double) - 0| > 1 / 100 ∨
        |(0 : double) - 0| > 1 / 100) ∧
      (trailOf (localPositionChanged demoUAS 7 justBelowHundredth 0 0 demoStateAtOrigin) 3 7).elems
        = [⟨0, 0, 0⟩, ⟨justBelowHundredth, 0, 0⟩] := by
  have ht : QMap.contains demoState.mSystemContainerMap demoUAS.uasId = true := by decide
  have h0 : trailOf demoStateAtOrigin 3 7 = ⟨[⟨0, 0, 0⟩], 10000⟩ := by
    have := trailOf_localPositionChanged demoUAS 7 0 0 0 demoState ht
    have hc : QMap.contains (QMap.value demoState.mSystemContainerMap demoUAS.uasId).trailMap 7
        = false := by decide
    rw [hc] at this
    simpa [demoStateAtOrigin, demoUAS, recordPosition, addToTrail, newTrail, QVector.reserve,
      QVector.empty, QVector.size, QVector.capacity, QVector.append] using this
  have ht1 : QMap.contains demoStateAtOrigin.mSystemContainerMap demoUAS.uasId = true :=
    (contains_localPositionChanged demoUAS 7 0 0 0 demoState ht).1
  have hc1 : QMap.contains
      (QMap.value demoStateAtOrigin.mSystemContainerMap demoUAS.uasId).trailMap 7 = true :=
    (contains_localPositionChanged demoUAS 7 0 0 0 demoState ht).2
  have h1 := trailOf_localPositionChanged demoUAS 7 justBelowHundredth 0 0 demoStateAtOrigin ht1
  rw [hc1] at h1
  have hu : demoUAS.uasId = 3 := rfl
  rw [hu] at h1
  refine ⟨by rw [h0], ?_, ?_⟩
  · unfold justBelowHundredth
    norm_num [abs_of_nonneg]
  · decide!

/-- C2, amended: the threshold is `0.01f`, the single-precision constant
`5368709 / 536870912`, a little below one hundredth, and the difference on an
axis is the one `double` subtraction gives, the exact difference rounded to
the nearest `double`.  For a tracked vehicle whose trail for the component has
the last point `L`, a notification whose difference from `L` is beyond `0.01f`
on some axis becomes the new last element (behind all stored points, or
behind all but the oldest when the trail is full); any other notification
leaves the trail exactly as it was, and so does every run of notifications
whose differences from `L` are within `0.01f` on every axis.  A notification
for a component without a trail is always stored. -/
theorem position_stored_iff_beyond_epsilon (uas : UAS) (component : Int) (s : Widget)
    (L : Vec3d) (x y z : double) (points : List Vec3d)
    (ht : QMap.contains s.mSystemContainerMap uas.uasId = true) :
    (QMap.contains (QMap.value s.mSystemContainerMap uas.uasId).trailMap component = true →
      (trailOf s uas.uasId component).back? = some L →
        ((|dsub x L.x| > kTrailEpsilon ∨ |dsub y L.y| > kTrailEpsilon ∨
            |dsub z L.z| > kTrailEpsilon) →
          (trailOf (localPositionChanged uas component x y z s) uas.uasId component).elems
            = (if (trailOf s uas.uasId component).size = (trailOf s uas.uasId component).capacity
                then (trailOf s uas.uasId component).elems.drop 1
                else (trailOf s uas.uasId component).elems) ++ [⟨x, y, z⟩]) ∧
        (¬ (|dsub x L.x| > kTrailEpsilon ∨ |dsub y L.y| > kTrailEpsilon ∨
            |dsub z L.z| > kTrailEpsilon) →
          trailOf (localPositionChanged uas component x y z s) uas.uasId component
            = trailOf s uas.uasId component) ∧
        ((∀ p ∈ points, |dsub p.x L.x| ≤ kTrailEpsilon ∧ |dsub p.y L.y| ≤ kTrailEpsilon ∧
            |dsub p.z L.z| ≤ kTrailEpsilon) →
          trailOf (localPositionChangedAll uas component s points) uas.uasId component
            = trailOf s uas.uasId component)) ∧
      (QMap.contains (QMap.value s.mSystemContainerMap uas.uasId).trailMap component = false →
        (trailOf (localPositionChanged uas component x y z s) uas.uasId component).elems
          = [⟨x, y, z⟩]) := by
  constructor
  · intro hc hb
    have h1 := trailOf_localPositionChanged uas component x y z s ht
    rw [hc, if_pos rfl] at h1
    refine ⟨?_, ?_, ?_⟩
    · intro hd
      rw [h1]
      exact recordPosition_of_differs x y z hb (by simpa [differsFrom] using hd)
    · intro hd
      rw [h1]
      exact recordPosition_of_not_differs x y z hb (by simpa [differsFrom] using hd)
    · intro hp
      rw [trailOf_localPositionChangedAll uas component points s ht hc]
      apply recordAll_of_not_differs hb
      intro p hpm
      have := hp p hpm
      simp only [differsFrom, gt_iff_lt, decide_eq_false_iff_not, not_or, not_lt]
      exact this
  · intro hc
    have h1 := trailOf_localPositionChanged uas component x y z s ht
    rw [hc] at h1
    rw [h1]
    simp [recordPosition_newTrail]

/-- C2, amended, at the examples: the vehicle is tracked, its component 7 has
the trail [(0, 0, 0)], and the notification (`justBelowHundredth`, 0, 0), which
is beyond `0.01f` on the x axis, is stored behind it. -/
theorem position_stored_iff_beyond_epsilon_witness :
    QMap.contains demoStateAtOrigin.mSystemContainerMap demoUAS.uasId = true ∧
      (trailOf (localPositionChanged demoUAS 7 justBelowHundredth 0 0 demoStateAtOrigin)
        demoUAS.uasId 7).elems = [⟨0, 0, 0⟩, ⟨justBelowHundredth, 0, 0⟩] := by
  have ht0 : QMap.contains demoState.mSystemContainerMap demoUAS.uasId = true := by decide
  have ht : QMap.contains demoStateAtOrigin.mSystemContainerMap demoUAS.uasId = true :=
    (contains_localPositionChanged demoUAS 7 0 0 0 demoState ht0).1
  have hc : QMap.contains
      (QMap.value demoStateAtOrigin.mSystemContainerMap demoUAS.uasId).trailMap 7 = true :=
    (contains_localPositionChanged demoUAS 7 0 0 0 demoState ht0).2
  have h0 : trailOf demoStateAtOrigin demoUAS.uasId 7 = ⟨[⟨0, 0, 0⟩], 10000⟩ := by
    have := trailOf_localPositionChanged demoUAS 7 0 0 0 demoState ht0
    have hn : QMap.contains (QMap.value demoState.mSystemContainerMap demoUAS.uasId).trailMap 7
        = false := by decide
    rw [hn] at this
    simpa [demoStateAtOrigin, recordPosition_newTrail] using this
  have hb : (trailOf demoStateAtOrigin demoUAS.uasId 7).back? = some ⟨0, 0, 0⟩ := by
    rw [h0]
    rfl
  have hd : |dsub justBelowHundredth (⟨0, 0, 0⟩ : Vec3d).x| > kTrailEpsilon ∨
      |dsub 0 (⟨0, 0, 0⟩ : Vec3d).y| > kTrailEpsilon ∨
      |dsub 0 (⟨0, 0, 0⟩ : Vec3d).z| > kTrailEpsilon := by
    left
    show |dsub justBelowHundredth 0| > kTrailEpsilon
    rw [dsub_justBelowHundredth]
    unfold justBelowHundredth kTrailEpsilon
    norm_num [abs_of_nonneg]
  have h := ((position_stored_iff_beyond_epsilon demoUAS 7 demoStateAtOrigin ⟨0, 0, 0⟩
    justBelowHundredth 0 0 [] ht).1 hc hb).1 hd
  refine ⟨ht, ?_⟩
  rw [h, h0]
  simp [QVector.size, QVector.capacity]

/-- The rounding of the difference decides at the threshold: with the last
stored x at the `double` -0.001 and the notified x at the `double`
0.008999999776482583, the exact difference is beyond `0.01f`, the `double`
difference is `0.01f` itself, and the point is not stored. -/
theorem rounded_difference_not_stored :
    toDouble (8999999776482583 / 1000000000000000000) - toDouble (-1 / 1000) > kTrailEpsilon ∧
      dsub (toDouble (8999999776482583 / 1000000000000000000)) (toDouble (-1 / 1000))
        = kTrailEpsilon ∧
      addToTrail ⟨[⟨toDouble (-1 / 1000), 0, 0⟩], 10000⟩
        (toDouble (8999999776482583 / 1000000000000000000)) 0 0 = false ∧
      recordPosition ⟨[⟨toDouble (-1 / 1000), 0, 0⟩], 10000⟩
        (toDouble (8999999776482583 / 1000000000000000000)) 0 0
        = ⟨[⟨toDouble (-1 / 1000), 0, 0⟩], 10000⟩ := by
  refine ⟨by decide!, by decide!, by decide!, by decide!⟩

/-- C3: for a tracked vehicle and a component without a trail, after any
sequence of position notifications for this component the stored trail is the
last min(n, 10000) of the n points the append policy accepted, oldest first.
An accepted point is appended while fewer than 10,000 points are stored; with
10,000 stored, element 0 is dropped, the others move down by one and the new
point is the last element. -/
theorem trail_holds_last_accepted (uas : UAS) (component : Int) (s : Widget)
    (points : List Vec3d)
    (ht : QMap.contains s.mSystemContainerMap uas.uasId = true)
    (hn : QMap.contains (QMap.value s.mSystemContainerMap uas.uasId).trailMap component = false) :
    (trailOf (localPositionChangedAll uas component s points) uas.uasId component).elems
        = lastN 10000 (acceptedFrom kTrailEpsilon none points) ∧
      (trailOf (localPositionChangedAll uas component s points) uas.uasId component).elems.length
        = min (acceptedFrom kTrailEpsilon none points).length 10000 ∧
      (∀ (t : QVector Vec3d) (x y z : double), t.alloc = 10000 → addToTrail t x y z = true →
        (t.elems.length < 10000 → (recordPosition t x y z).elems = t.elems ++ [⟨x, y, z⟩]) ∧
        (t.elems.length = 10000 →
          (recordPosition t x y z).elems = t.elems.drop 1 ++ [⟨x, y, z⟩])) := by
  have main : (trailOf (localPositionChangedAll uas component s points) uas.uasId component).elems
      = lastN 10000 (acceptedFrom kTrailEpsilon none points) := by
    cases points with
    | nil =>
      have : trailOf s uas.uasId component = default := by
        unfold trailOf
        exact QMap.value_of_not_contains hn
      simp [localPositionChangedAll, this, acceptedFrom, lastN, default, QVector.empty]
    | cons p rest =>
      have hstep : localPositionChangedAll uas component s (p :: rest)
          = localPositionChangedAll uas component (localPositionChanged uas component p.x p.y p.z s)
            rest := rfl
      have hc := contains_localPositionChanged uas component p.x p.y p.z s ht
      have h1 := trailOf_localPositionChanged uas component p.x p.y p.z s ht
      rw [hn] at h1
      simp only [Bool.false_eq_true, if_false, recordPosition_newTrail] at h1
      rw [hstep, trailOf_localPositionChangedAll uas component rest _ hc.1 hc.2, h1]
      have := (recordAll_elems rest ⟨[⟨p.x, p.y, p.z⟩], 10000⟩ [p] kTrailCapacity_eq.symm
        (lastN_of_length_le (by simp [kTrailCapacity_eq])).symm).1
      rw [this, kTrailCapacity_eq]
      simp [acceptedFrom]
  refine ⟨main, ?_, ?_⟩
  · rw [main]
    simp only [lastN, List.length_drop]
    omega
  · intro t x y z ha hadd
    constructor
    · intro hlt
      have hne : ¬ t.size = t.capacity := by
        simp only [QVector.size, QVector.capacity, ha]
        omega
      simp [recordPosition, hadd, hne, QVector.append]
    · intro hfull
      have heq : t.size = t.capacity := by
        simp only [QVector.size, QVector.capacity, ha]
        exact hfull
      have hpos : 0 < t.elems.length := by omega
      unfold recordPosition
      rw [if_pos hadd, if_pos heq]
      simp only [QVector.memcpyShift, QVector.setAt, QVector.size, shift_set_eq _ _ hpos]

/-- C3, at the examples: the vehicle is tracked, component 7 has no trail, and
of the notifications (0, 0, 0), (0, 0, 0), (1, 0, 0) the first and the third
are stored, in this order. -/
theorem trail_holds_last_accepted_witness :
    QMap.contains demoState.mSystemContainerMap demoUAS.uasId = true ∧
      QMap.contains (QMap.value demoState.mSystemContainerMap demoUAS.uasId).trailMap 7 = false ∧
      (trailOf (localPositionChangedAll demoUAS 7 demoState [⟨0, 0, 0⟩, ⟨0, 0, 0⟩, ⟨1, 0, 0⟩])
        demoUAS.uasId 7).elems = [⟨0, 0, 0⟩, ⟨1, 0, 0⟩] := by
  have ht : QMap.contains demoState.mSystemContainerMap demoUAS.uasId = true := by decide
  have hn : QMap.contains (QMap.value demoState.mSystemContainerMap demoUAS.uasId).trailMap 7
      = false := by decide
  refine ⟨ht, hn, ?_⟩
  rw [(trail_holds_last_accepted demoUAS 7 demoState [⟨0, 0, 0⟩, ⟨0, 0, 0⟩, ⟨1, 0, 0⟩] ht hn).1]
  simp only [acceptedFrom, differsFrom, dsub_zero_zero, dsub_one_zero, kTrailEpsilon, lastN]
  norm_num

/-- C4 as stated fails: the vehicle of the examples is tracked, its toggle
is on and it has stored the point (0, 0, 0) for component 7.  When the toggle
goes off and on again with no tick in between, that history is still there
after the second switching on; and when a tick runs while the toggle is off
and the position (1, 1, 1) is notified after it, the history after the second
switching on holds that point. -/
theorem toggle_without_tick_keeps_trail :
    QMap.contains demoStateAtOrigin.mSystemViewParamMap 3 = true ∧
      (QMap.value demoStateAtOrigin.mSystemViewParamMap 3).displayTrails = true ∧
      (trailOf demoStateAtOrigin 3 7).elems = [⟨0, 0, 0⟩] ∧
      (QMap.value (setDisplayTrails 3 false demoStateAtOrigin).mSystemViewParamMap
        3).displayTrails = false ∧
      (QMap.value (setDisplayTrails 3 true
        (setDisplayTrails 3 false demoStateAtOrigin)).mSystemViewParamMap 3).displayTrails
        = true ∧
      (trailOf (setDisplayTrails 3 true (setDisplayTrails 3 false demoStateAtOrigin)) 3 7).elems
        = [⟨0, 0, 0⟩] ∧
      (QMap.value (setDisplayTrails 3 true (localPositionChanged demoUAS 7 1 1 1
        (update demoWorld (setDisplayTrails 3 false demoStateAtOrigin)))).mSystemViewParamMap
        3).displayTrails = true ∧
      (trailOf (setDisplayTrails 3 true (localPositionChanged demoUAS 7 1 1 1
        (update demoWorld (setDisplayTrails 3 false demoStateAtOrigin)))) 3 7).elems
        = [⟨1, 1, 1⟩] := by
  refine ⟨by decide!, by decide!, by decide!, by decide!, by decide!, by decide!, by decide!,
    by decide!⟩

/-- C4, amended: for a tracked vehicle, a tick that runs while its
display-trails toggle is off discards the vehicle's whole stored trail map.
So when the toggle goes off, a tick runs and the toggle goes on again right
after it, the toggle is on and the history of every component of the vehicle
is empty; and the same holds when any position notifications and further
ticks come between the switching off and that tick. -/
theorem trails_cleared_on_hide (w : World) (s : Widget) (systemId component : Int)
    (events : List Event)
    (ht : QMap.contains s.mSystemViewParamMap systemId = true) :
    ((QMap.value s.mSystemViewParamMap systemId).displayTrails = false →
        (QMap.value (update w s).mSystemContainerMap systemId).trailMap = []) ∧
      (QMap.value (setDisplayTrails systemId true
          (update w (setDisplayTrails systemId false s))).mSystemViewParamMap
        systemId).displayTrails = true ∧
      (QMap.value (setDisplayTrails systemId true
          (update w (setDisplayTrails systemId false s))).mSystemContainerMap
        systemId).trailMap = [] ∧
      (trailOf (setDisplayTrails systemId true (update w (setDisplayTrails systemId false s)))
        systemId component).elems = [] ∧
      ((∀ e ∈ events, e.isNotificationOrTick = true) →
        (QMap.value (setDisplayTrails systemId true
            (update w (run (setDisplayTrails systemId false s) events))).mSystemViewParamMap
          systemId).displayTrails = true ∧
        (QMap.value (setDisplayTrails systemId true
            (update w (run (setDisplayTrails systemId false s) events))).mSystemContainerMap
          systemId).trailMap = []) := by
  have hoff := setDisplayTrails_displayTrails systemId false s ht
  have hup := update_trailMap_of_hidden w (setDisplayTrails systemId false s) systemId
    hoff.2.1 hoff.1
  have hon := setDisplayTrails_displayTrails systemId true
    (update w (setDisplayTrails systemId false s)) hup.2
  refine ⟨fun hd => (update_trailMap_of_hidden w s systemId ht hd).1, hon.1, ?_, ?_, ?_⟩
  · rw [hon.2.2]
    exact hup.1
  · unfold trailOf
    rw [hon.2.2, hup.1]
    rfl
  · intro he
    have hrun := run_hidden systemId events (setDisplayTrails systemId false s) he hoff.2.1 hoff.1
    have hup' := update_trailMap_of_hidden w (run (setDisplayTrails systemId false s) events)
      systemId hrun.1 hrun.2
    have hon' := setDisplayTrails_displayTrails systemId true
      (update w (run (setDisplayTrails systemId false s) events)) hup'.2
    refine ⟨hon'.1, ?_⟩
    rw [hon'.2.2]
    exact hup'.1

/-- C4, amended, at the examples: the vehicle is tracked and has stored the
point (0, 0, 0) for component 7; after the toggle went off, a tick ran and
the toggle went on again, that history is empty. -/
theorem trails_cleared_on_hide_witness :
    QMap.contains demoStateAtOrigin.mSystemViewParamMap 3 = true ∧
      (trailOf demoStateAtOrigin 3 7).elems = [⟨0, 0, 0⟩] ∧
      (trailOf (setDisplayTrails 3 true
        (update demoWorld (setDisplayTrails 3 false demoStateAtOrigin))) 3 7).elems = [] := by
  have ht : QMap.contains demoStateAtOrigin.mSystemViewParamMap 3 = true := by decide
  refine ⟨ht, ?_, (trails_cleared_on_hide demoWorld demoStateAtOrigin 3 7 [] ht).2.2.2.1⟩
  have ht0 : QMap.contains demoState.mSystemContainerMap demoUAS.uasId = true := by decide
  have := trailOf_localPositionChanged demoUAS 7 0 0 0 demoState ht0
  have hn : QMap.contains (QMap.value demoState.mSystemContainerMap demoUAS.uasId).trailMap 7
      = false := by decide
  rw [hn] at this
  have hu : demoUAS.uasId = 3 := rfl
  rw [hu] at this
  simp [demoStateAtOrigin, this, recordPosition_newTrail]

/-! ## Vehicle scene state: results -/

theorem QMap.countP_of_not_contains {V : Type} {m : QMap V} {k : Int}
    (h : QMap.contains m k = false) : m.countP (fun e => decide (e.1 = k)) = 0 := by
  induction m with
  | nil => rfl
  | cons e t ih =>
    obtain ⟨k', v'⟩ := e
    by_cases hk : k = k'
    · simp [QMap.contains, QMap.find?, hk] at h
    · have ht : QMap.contains t k = false := by
        simpa [QMap.contains, QMap.find?, hk] using h
      have hk' : ¬ k' = k := fun e => hk e.symm
      simp [List.countP_cons, ih ht, hk']

theorem QMap.countP_insert_of_not_contains {V : Type} {m : QMap V} {k : Int} (v : V)
    (h : QMap.contains m k = false) :
    (QMap.insert m k v).countP (fun e => decide (e.1 = k)) = 1 := by
  induction m with
  | nil => simp [QMap.insert, List.countP_cons]
  | cons e t ih =>
    obtain ⟨k', v'⟩ := e
    have hk : ¬ k = k' := by
      intro hk
      simp [QMap.contains, QMap.find?, hk] at h
    have hk' : ¬ k' = k := fun e => hk e.symm
    have ht : QMap.contains t k = false := by
      simpa [QMap.contains, QMap.find?, hk] using h
    unfold QMap.insert
    by_cases h1 : k < k'
    · have h0 := QMap.countP_of_not_contains ht
      simp [h1, List.countP_cons, hk', h0]
    · simp [h1, hk, List.countP_cons, hk', ih ht]

/-- The widget after a vehicle-created notification for an unseen id, member
by member. -/
theorem systemCreated_of_not_contains (w : World) (uas : UAS) (s : Widget)
    (h : QMap.contains s.mSystemContainerMap uas.uasId = false) :
    (systemCreated w uas s).mSystemContainerMap
        = QMap.insert s.mSystemContainerMap uas.uasId
            (QMap.value (systemCreated w uas s).mSystemContainerMap uas.uasId) ∧
      (QMap.value (systemCreated w uas s).mSystemContainerMap uas.uasId).models
        = addModels w [] uas.color ∧
      (QMap.value (systemCreated w uas s).mSystemContainerMap uas.uasId).modelNode
        = (if addModels w [] uas.color = [] then none else some (NodeRef.model 0)) ∧
      (QMap.value (systemCreated w uas s).m3DWidget.systemGroups uas.uasId).rollingMap
        = (QMap.value s.m3DWidget.systemGroups uas.uasId).rollingMap
            ++ overlayChildren s.pixhawkMessages ∧
      (QMap.value (systemCreated w uas s).m3DWidget.systemGroups uas.uasId).egocentricMap
        = (QMap.value s.m3DWidget.systemGroups uas.uasId).egocentricMap ++
            (if addModels w [] uas.color = [] then [] else [NodeRef.model 0]) ∧
      (systemCreated w uas s).m3DWidget.hudGroup
        = s.m3DWidget.hudGroup ++
            [((uas.uasId, NodeRef.rgbImageNode), false), ((uas.uasId, NodeRef.depthImageNode), false)] := by
  have e1 : QMap.touch (QMap.insert s.mSystemContainerMap uas.uasId ({} : SystemContainer)) uas.uasId
      = QMap.insert s.mSystemContainerMap uas.uasId {} :=
    QMap.touch_of_contains (QMap.contains_insert_self _ _ _)
  cases hp : s.pixhawkMessages <;>
    simp [systemCreated, UAS.getUASID, UAS.getColor, h, initializeSystem, e1, hp,
      QMap.insert_insert, QMap.value_insert_self, Q3DWidget.modifySystemGroup,
      Q3DWidget.touchSystemGroup, QMap.value_modify_self, QMap.value_touch, Switch.addChild,
      overlayChildren, initializeSensorNodes, attachSensorNodes] <;>
    split <;> simp_all


theorem addModels_length (w : World) (models : List String) (color : QColor) :
    models.length + 2 ≤ (addModels w models color).length := by
  unfold addModels
  have key : ∀ (files : List (Option String)) (acc : List String),
      acc.length ≤ (files.foldl (fun models node =>
        match node with
        | some name => models ++ [name]
        | none => models) acc).length := by
    intro files
    induction files with
    | nil => intro acc; exact le_refl _
    | cons f t ih =>
      intro acc
      cases f with
      | none => exact ih acc
      | some name =>
        refine le_trans ?_ (ih (acc ++ [name]))
        simp
  refine le_trans ?_ (key _ _)
  simp

theorem addModels_ne_nil (w : World) (models : List String) (color : QColor) :
    addModels w models color ≠ [] := by
  intro h
  have := addModels_length w models color
  rw [h] at this
  simp at this

theorem Switch.getChildValue_append_of_not_mem {κ : Type} [DecidableEq κ] (sw : Switch κ)
    (child : κ) (rest : Switch κ) (h : ∀ e ∈ sw, e.1 ≠ child) :
    Switch.getChildValue (sw ++ rest) child = Switch.getChildValue rest child := by
  induction sw with
  | nil => rfl
  | cons e t ih =>
    obtain ⟨c, b⟩ := e
    have hc : ¬ c = child := h (c, b) (by simp)
    simp only [List.cons_append, Switch.getChildValue, hc, if_false]
    exact ih (fun e he => h e (by simp [he]))

/-- C11: after a vehicle-created notification for an id that the per-vehicle
state map, the scene and the HUD group have not seen, there is exactly one
per-vehicle state entry for the id; the model catalog is not empty and the
active model is its entry 0, the one model node attached; the local grid, the
point cloud, the target marker, the trail holder and the waypoint group are
the children of the vehicle's rolling map, and the RGB and depth image windows
are children of the HUD group, each with its switch value off. -/
theorem systemCreated_unseen_id (w : World) (uas : UAS) (s : Widget)
    (h : QMap.contains s.mSystemContainerMap uas.uasId = false)
    (hg : QMap.contains s.m3DWidget.systemGroups uas.uasId = false)
    (hh : ∀ e ∈ s.m3DWidget.hudGroup, e.1.1 ≠ uas.uasId) :
    (systemCreated w uas s).mSystemContainerMap.countP (fun e => decide (e.1 = uas.uasId)) = 1 ∧
      (QMap.value (systemCreated w uas s).mSystemContainerMap uas.uasId).models ≠ [] ∧
      (QMap.value (systemCreated w uas s).mSystemContainerMap uas.uasId).modelNode
        = some (NodeRef.model 0) ∧
      (QMap.value (systemCreated w uas s).m3DWidget.systemGroups uas.uasId).egocentricMap
        = [NodeRef.model 0] ∧
      (QMap.value (systemCreated w uas s).m3DWidget.systemGroups uas.uasId).rollingMap
        = overlayChildren s.pixhawkMessages ∧
      (∀ n ∈ [NodeRef.localGridNode, NodeRef.pointCloudNode, NodeRef.targetNode,
          NodeRef.trailNode, NodeRef.waypointGroupNode],
        n ∈ ((QMap.value (systemCreated w uas s).m3DWidget.systemGroups
          uas.uasId).rollingMap).map Prod.fst ∧
        Switch.getChildValue
          (QMap.value (systemCreated w uas s).m3DWidget.systemGroups uas.uasId).rollingMap n
          = false) ∧
      (∀ n ∈ [NodeRef.rgbImageNode, NodeRef.depthImageNode],
        (uas.uasId, n) ∈ ((systemCreated w uas s).m3DWidget.hudGroup).map Prod.fst ∧
        Switch.getChildValue (systemCreated w uas s).m3DWidget.hudGroup (uas.uasId, n) = false) := by
  obtain ⟨hmap, hmodels, hnode, hroll, hego, hhud⟩ := systemCreated_of_not_contains w uas s h
  have hne := addModels_ne_nil w [] uas.color
  have hdef : QMap.value s.m3DWidget.systemGroups uas.uasId = default :=
    QMap.value_of_not_contains hg
  have hroll' : (QMap.value (systemCreated w uas s).m3DWidget.systemGroups uas.uasId).rollingMap
      = overlayChildren s.pixhawkMessages := by
    rw [hroll, hdef]
    rfl
  refine ⟨?_, ?_, ?_, ?_, hroll', ?_, ?_⟩
  · rw [hmap]
    exact QMap.countP_insert_of_not_contains _ h
  · rw [hmodels]
    exact hne
  · rw [hnode, if_neg hne]
  · rw [hego, hdef, if_neg hne]
    rfl
  · rw [hroll']
    intro n hn
    cases hp : s.pixhawkMessages <;>
      simp only [List.mem_cons, List.mem_singleton, List.not_mem_nil, or_false] at hn <;>
      rcases hn with rfl | rfl | rfl | rfl | rfl <;>
      simp [overlayChildren, Switch.getChildValue]
  · rw [hhud]
    intro n hn
    simp only [List.mem_cons, List.mem_singleton, List.not_mem_nil, or_false] at hn
    have hnm : ∀ e ∈ s.m3DWidget.hudGroup, e.1 ≠ (uas.uasId, n) := by
      intro e he heq
      exact hh e he (by rw [heq])
    rw [Switch.getChildValue_append_of_not_mem _ _ _ hnm]
    rcases hn with rfl | rfl <;> simp [Switch.getChildValue]

/-- C11, for the vehicle with id 3 at the constructed widget: no map has seen
the id, and after the notification the widget has one state entry for it, its
catalog is the cheetah, the sphere and the one model file that loads, model 0
is active and the five overlay nodes are attached with the value off. -/
theorem systemCreated_unseen_id_witness :
    QMap.contains init.mSystemContainerMap demoUAS.uasId = false ∧
      demoState.mSystemContainerMap.countP (fun e => decide (e.1 = 3)) = 1 ∧
      (QMap.value demoState.mSystemContainerMap 3).models = ["cheetah", "Sphere (0.1m)", "quad"] ∧
      (QMap.value demoState.mSystemContainerMap 3).modelNode = some (NodeRef.model 0) ∧
      (QMap.value demoState.m3DWidget.systemGroups 3).rollingMap
        = [(NodeRef.localGridNode, false), (NodeRef.pointCloudNode, false),
            (NodeRef.targetNode, false), (NodeRef.trailNode, false),
            (NodeRef.waypointGroupNode, false)] := by
  have h : QMap.contains init.mSystemContainerMap demoUAS.uasId = false := by decide
  have hg : QMap.contains init.m3DWidget.systemGroups demoUAS.uasId = false := by decide
  have hh : ∀ e ∈ init.m3DWidget.hudGroup, e.1.1 ≠ demoUAS.uasId := by
    intro e he
    simp [init] at he
  have key := systemCreated_unseen_id demoWorld demoUAS init h hg hh
  exact ⟨h, key.1, by decide, key.2.2.1, key.2.2.2.2.1⟩

theorem filter_erase_of_pos {α : Type} [DecidableEq α] (p : α → Bool) (l : List α) (a : α)
    (ha : p a = true) : (l.erase a).filter p = (l.filter p).erase a := by
  induction l with
  | nil => rfl
  | cons b t ih =>
    by_cases hb : b = a
    · subst hb
      simp [ha]
    · have hb' : (b == a) = false := by simpa using hb
      rw [List.erase_cons, hb']
      by_cases hp : p b = true
      · simp [List.filter_cons, hp, ih, List.erase_cons, hb']
      · simp [List.filter_cons, hp, ih]

theorem modelChanged_of_not_contains (systemId index : Int) (s : Widget)
    (h : QMap.contains s.mSystemContainerMap systemId = false) :
    modelChanged systemId index s = s := by
  simp [modelChanged, h]

/-- The container and the scene group of a tracked vehicle after
`modelChanged` with an index inside the catalog. -/
theorem modelChanged_of_valid (systemId index : Int) (s : Widget)
    (ht : QMap.contains s.mSystemContainerMap systemId = true) (h0 : 0 ≤ index)
    (h1 : index < (QMap.value s.mSystemContainerMap systemId).models.length) :
    QMap.value (modelChanged systemId index s).mSystemContainerMap systemId
        = { QMap.value s.mSystemContainerMap systemId with
            modelNode := some (NodeRef.model index.toNat) } ∧
      (QMap.value (modelChanged systemId index s).m3DWidget.systemGroups systemId).egocentricMap
        = (match (QMap.value s.mSystemContainerMap systemId).modelNode with
            | some node => (QMap.value s.m3DWidget.systemGroups systemId).egocentricMap.erase node
            | none => (QMap.value s.m3DWidget.systemGroups systemId).egocentricMap)
          ++ [NodeRef.model index.toNat] := by
  have hv : 0 ≤ index ∧ index < ((QMap.value s.mSystemContainerMap systemId).models.length : Int) :=
    ⟨h0, h1⟩
  unfold modelChanged
  simp only [ht, not_true_eq_false, if_false, hv, and_self, if_true, QMap.value_insert_self,
    Q3DWidget.modifySystemGroup, Q3DWidget.touchSystemGroup, QMap.value_modify_self,
    QMap.value_touch, true_and]
  cases (QMap.value s.mSystemContainerMap systemId).modelNode <;> rfl

/-- C12: for a tracked vehicle and an index inside its model catalog,
`modelChanged` detaches the attached model node and attaches catalog entry
`index`: afterwards the active model is that entry, the catalog is as before,
and when the active model was the one model node attached, the new one is the
one model node attached.  For a system id that is not tracked nothing
changes. -/
theorem modelChanged_switches_model (systemId index : Int) (s : Widget) (cur : NodeRef)
    (ht : QMap.contains s.mSystemContainerMap systemId = true) (h0 : 0 ≤ index)
    (h1 : index < (QMap.value s.mSystemContainerMap systemId).models.length) :
    (QMap.value (modelChanged systemId index s).mSystemContainerMap systemId).modelNode
        = some (NodeRef.model index.toNat) ∧
      index.toNat < (QMap.value (modelChanged systemId index s).mSystemContainerMap
        systemId).models.length ∧
      (QMap.value (modelChanged systemId index s).mSystemContainerMap systemId).models
        = (QMap.value s.mSystemContainerMap systemId).models ∧
      ((QMap.value s.mSystemContainerMap systemId).modelNode = some cur →
        (QMap.value (modelChanged systemId index s).m3DWidget.systemGroups systemId).egocentricMap
          = (QMap.value s.m3DWidget.systemGroups systemId).egocentricMap.erase cur
            ++ [NodeRef.model index.toNat]) ∧
      ((QMap.value s.mSystemContainerMap systemId).modelNode = some cur → cur.isModel = true →
        (QMap.value s.m3DWidget.systemGroups systemId).egocentricMap.filter NodeRef.isModel
          = [cur] →
        (QMap.value (modelChanged systemId index s).m3DWidget.systemGroups
          systemId).egocentricMap.filter NodeRef.isModel = [NodeRef.model index.toNat]) ∧
      (∀ j i : Int, QMap.contains s.mSystemContainerMap j = false → modelChanged j i s = s) := by
  obtain ⟨hc, he⟩ := modelChanged_of_valid systemId index s ht h0 h1
  refine ⟨by rw [hc], ?_, by rw [hc], ?_, ?_, fun j i hj => modelChanged_of_not_contains j i s hj⟩
  · rw [hc]
    simp only
    omega
  · intro hcur
    rw [he, hcur]
  · intro hcur hm hf
    rw [he, hcur]
    simp only [List.filter_append, filter_erase_of_pos NodeRef.isModel _ cur hm, hf]
    simp [NodeRef.isModel]

/-- C12, at the vehicle of the examples after its creation: it is tracked,
index 2 is inside its catalog of three models, model 0 is the one model
attached, and after `modelChanged` model 2 is active and the one attached. -/
theorem modelChanged_switches_model_witness :
    QMap.contains demoState.mSystemContainerMap 3 = true ∧
      (QMap.value demoState.m3DWidget.systemGroups 3).egocentricMap = [NodeRef.model 0] ∧
      (QMap.value (modelChanged 3 2 demoState).mSystemContainerMap 3).modelNode
        = some (NodeRef.model 2) ∧
      (QMap.value (modelChanged 3 2 demoState).m3DWidget.systemGroups
        3).egocentricMap.filter NodeRef.isModel = [NodeRef.model 2] := by
  have ht : QMap.contains demoState.mSystemContainerMap 3 = true := by decide
  have h1 : (2 : Int) < (QMap.value demoState.mSystemContainerMap 3).models.length := by decide
  have key := modelChanged_switches_model 3 2 demoState (NodeRef.model 0) ht (by decide) h1
  exact ⟨ht, by decide, key.1, key.2.2.2.2.1 (by decide) rfl (by decide)⟩

/-! ## Interaction: results -/

/-- C13 as stated fails: invoked a second time, while the mode is already the
action's mode, neither action sets the mode to Default; the mode stays. -/
theorem move_action_twice_keeps_mode :
    (moveWaypointPosition demoWorld (moveWaypointPosition demoWorld init)).mMode
        = Mode.MOVE_WAYPOINT_POSITION_MODE ∧
      (moveWaypointPosition demoWorld (moveWaypointPosition demoWorld init)).mMode
        ≠ Mode.DEFAULT_MODE ∧
      (moveWaypointHeading demoWorld (moveWaypointHeading demoWorld init)).mMode
        = Mode.MOVE_WAYPOINT_HEADING_MODE ∧
      (moveWaypointHeading demoWorld (moveWaypointHeading demoWorld init)).mMode
        ≠ Mode.DEFAULT_MODE := by
  simp [moveWaypointPosition, moveWaypointHeading, init]

theorem moveWaypointPosition_mMode (w : World) (s : Widget) :
    (moveWaypointPosition w s).mMode = Mode.MOVE_WAYPOINT_POSITION_MODE := by
  unfold moveWaypointPosition
  by_cases h : s.mMode ≠ Mode.MOVE_WAYPOINT_POSITION_MODE
  · rw [if_pos h]
  · rw [if_neg h]
    have h' : s.mMode = Mode.MOVE_WAYPOINT_POSITION_MODE := not_not.mp h
    cases s.mActiveUAS with
    | none => exact h'
    | some a =>
      dsimp only
      cases waypointAt (w.deref a).waypoints s.mSelectedWpIndex with
      | none => exact h'
      | some wp =>
        dsimp only
        split_ifs <;> exact h'

theorem moveWaypointHeading_mMode (w : World) (s : Widget) :
    (moveWaypointHeading w s).mMode = Mode.MOVE_WAYPOINT_HEADING_MODE := by
  unfold moveWaypointHeading
  by_cases h : s.mMode ≠ Mode.MOVE_WAYPOINT_HEADING_MODE
  · rw [if_pos h]
  · rw [if_neg h]
    have h' : s.mMode = Mode.MOVE_WAYPOINT_HEADING_MODE := not_not.mp h
    cases s.mActiveUAS with
    | none => exact h'
    | some a =>
      dsimp only
      cases waypointAt (w.deref a).waypoints s.mSelectedWpIndex with
      | none => exact h'
      | some wp => exact h'

/-- C13, amended: invoked from any other mode, the move-waypoint-position
action sets the mode to MoveWaypointPosition and the move-waypoint-heading
action sets it to MoveWaypointHeading, and changes nothing else; invoked
while the mode is already the action's mode, the action leaves the mode as it
is.  So after either action the mode is that action's mode. -/
theorem move_action_sets_its_mode (w : World) (s : Widget) :
    (moveWaypointPosition w s).mMode = Mode.MOVE_WAYPOINT_POSITION_MODE ∧
      (moveWaypointHeading w s).mMode = Mode.MOVE_WAYPOINT_HEADING_MODE ∧
      (s.mMode ≠ Mode.MOVE_WAYPOINT_POSITION_MODE →
        moveWaypointPosition w s = { s with mMode := Mode.MOVE_WAYPOINT_POSITION_MODE }) ∧
      (s.mMode ≠ Mode.MOVE_WAYPOINT_HEADING_MODE →
        moveWaypointHeading w s = { s with mMode := Mode.MOVE_WAYPOINT_HEADING_MODE }) ∧
      (s.mMode = Mode.MOVE_WAYPOINT_POSITION_MODE → (moveWaypointPosition w s).mMode = s.mMode) ∧
      (s.mMode = Mode.MOVE_WAYPOINT_HEADING_MODE → (moveWaypointHeading w s).mMode = s.mMode) := by
  refine ⟨moveWaypointPosition_mMode w s, moveWaypointHeading_mMode w s, ?_, ?_, ?_, ?_⟩
  · intro h
    simp [moveWaypointPosition, h]
  · intro h
    simp [moveWaypointHeading, h]
  · intro h
    rw [h]
    exact moveWaypointPosition_mMode w s
  · intro h
    rw [h]
    exact moveWaypointHeading_mMode w s

theorem targetCommands_append (a b : List Call) :
    targetCommands (a ++ b) = targetCommands a ++ targetCommands b := by
  simp [targetCommands]

theorem targetCommands_append_removeWaypoint (calls : List Call) (a : Nat) (l : List Nat) :
    targetCommands (calls ++ l.map (fun (i : Nat) => Call.removeWaypoint a (i : Int)))
      = targetCommands calls := by
  have h : targetCommands (l.map (fun (i : Nat) => Call.removeWaypoint a (i : Int))) = [] := by
    unfold targetCommands
    rw [List.filter_eq_nil_iff]
    intro c hc
    obtain ⟨i, -, rfl⟩ := List.mem_map.1 hc
    simp [Call.isSetTargetPosition]
  rw [targetCommands_append, h, List.append_nil]

theorem selectTargetHeading_frame (w : World) (s : Widget) :
    (selectTargetHeading w s).mMode = s.mMode ∧
      (selectTargetHeading w s).calls = s.calls ∧
      (selectTargetHeading w s).mActiveUAS = s.mActiveUAS ∧
      (selectTargetHeading w s).mGlobalViewParams = s.mGlobalViewParams := by
  unfold selectTargetHeading
  split <;> exact ⟨rfl, rfl, rfl, rfl⟩

/-- The target of the active vehicle after `selectTargetHeading`: its heading
is the bearing from the target to the pointer, the rest is as before. -/
theorem selectTargetHeading_target (w : World) (s : Widget) (a : UASPtr)
    (ha : s.mActiveUAS = some a) :
    (QMap.value (selectTargetHeading w s).mSystemContainerMap (w.deref a).uasId).target
      = { (QMap.value s.mSystemContainerMap (w.deref a).uasId).target with
          w := toFloat (w.atan2
            (dsub (pointerWorldPosition w s.mGlobalViewParams.frame (w.deref a)).y
              (QMap.value s.mSystemContainerMap (w.deref a).uasId).target.y)
            (dsub (pointerWorldPosition w s.mGlobalViewParams.frame (w.deref a)).x
              (QMap.value s.mSystemContainerMap (w.deref a).uasId).target.x)) } := by
  unfold selectTargetHeading pointerWorldPosition
  simp only [ha, UAS.getUASID, QMap.value_insert_self, QMap.value_touch, QVector4D.setW]

/-- What `setTarget` does with an active vehicle: one command, with the
stored target and its new heading in degrees. -/
theorem setTarget_of_active (w : World) (s : Widget) (a : UASPtr) (ha : s.mActiveUAS = some a) :
    (setTarget w s).mMode = s.mMode ∧
      (setTarget w s).calls = s.calls ++
        [Call.setTargetPosition a
          (QMap.value s.mSystemContainerMap (w.deref a).uasId).target.x
          (QMap.value s.mSystemContainerMap (w.deref a).uasId).target.y
          (QMap.value s.mSystemContainerMap (w.deref a).uasId).target.z
          (RadiansToDegrees (toFloat (w.atan2
            (dsub (pointerWorldPosition w s.mGlobalViewParams.frame (w.deref a)).y
              (QMap.value s.mSystemContainerMap (w.deref a).uasId).target.y)
            (dsub (pointerWorldPosition w s.mGlobalViewParams.frame (w.deref a)).x
              (QMap.value s.mSystemContainerMap (w.deref a).uasId).target.x))))] := by
  have hf := selectTargetHeading_frame w s
  have ht := selectTargetHeading_target w s a ha
  have ha' : (selectTargetHeading w s).mActiveUAS = some a := hf.2.2.1.trans ha
  unfold setTarget
  simp only [ha', UAS.getUASID, QMap.value_touch, ht, hf.1, hf.2.1, true_and]

theorem setTarget_of_not_active (w : World) (s : Widget) (ha : s.mActiveUAS = none) :
    setTarget w s = s := by
  simp [setTarget, selectTargetHeading, ha]

theorem findWaypoint_frame (w : World) (pos : QPoint) (s : Widget) :
    (findWaypoint w pos s).1.mMode = s.mMode ∧ (findWaypoint w pos s).1.calls = s.calls := by
  unfold findWaypoint
  repeat' split
  all_goals exact ⟨rfl, rfl⟩

theorem insertWaypoint_targetCommands (w : World) (s : Widget) :
    targetCommands (insertWaypoint w s).calls = targetCommands s.calls := by
  unfold insertWaypoint
  split
  · rfl
  · dsimp only
    split
    · simp [targetCommands, Call.isSetTargetPosition]
    · rfl

theorem clearAllWaypoints_targetCommands (w : World) (s : Widget) :
    targetCommands (clearAllWaypoints w s).calls = targetCommands s.calls := by
  unfold clearAllWaypoints
  split
  · exact targetCommands_append_removeWaypoint _ _ _
  · rfl

theorem selectTarget_calls (w : World) (s : Widget) : (selectTarget w s).calls = s.calls := by
  unfold selectTarget
  split
  · rfl
  · dsimp only
    split_ifs <;> rfl

theorem moveWaypointPosition_targetCommands (w : World) (s : Widget) :
    targetCommands (moveWaypointPosition w s).calls = targetCommands s.calls := by
  unfold moveWaypointPosition
  by_cases hm : s.mMode ≠ Mode.MOVE_WAYPOINT_POSITION_MODE
  · rw [if_pos hm]
  · rw [if_neg hm]
    cases ha : s.mActiveUAS with
    | none => rfl
    | some a =>
      dsimp only
      cases hw : waypointAt (w.deref a).waypoints s.mSelectedWpIndex with
      | none => rfl
      | some wp =>
        dsimp only
        split_ifs <;> simp [targetCommands, Call.isSetTargetPosition]

theorem moveWaypointHeading_targetCommands (w : World) (s : Widget) :
    targetCommands (moveWaypointHeading w s).calls = targetCommands s.calls := by
  unfold moveWaypointHeading
  by_cases hm : s.mMode ≠ Mode.MOVE_WAYPOINT_HEADING_MODE
  · rw [if_pos hm]
  · rw [if_neg hm]
    cases ha : s.mActiveUAS with
    | none => rfl
    | some a =>
      dsimp only
      cases hw : waypointAt (w.deref a).waypoints s.mSelectedWpIndex with
      | none => rfl
      | some wp => simp [targetCommands, Call.isSetTargetPosition]

theorem setWaypointAltitude_targetCommands (w : World) (s : Widget) :
    targetCommands (setWaypointAltitude w s).calls = targetCommands s.calls := by
  unfold setWaypointAltitude
  cases ha : s.mActiveUAS with
  | none => rfl
  | some a =>
    dsimp only
    cases hw : waypointAt (w.deref a).waypoints s.mSelectedWpIndex with
    | none => rfl
    | some wp =>
      dsimp only
      split_ifs <;> simp [targetCommands, Call.isSetTargetPosition]

theorem deleteWaypoint_targetCommands (s : Widget) :
    targetCommands (deleteWaypoint s).calls = targetCommands s.calls := by
  unfold deleteWaypoint
  split <;> simp [targetCommands, Call.isSetTargetPosition]

theorem showInsertWaypointMenu_targetCommands (w : World) (choice : Option MenuAction)
    (s : Widget) :
    targetCommands (showInsertWaypointMenu w choice s).calls = targetCommands s.calls := by
  unfold showInsertWaypointMenu
  split
  · exact insertWaypoint_targetCommands w s
  · exact clearAllWaypoints_targetCommands w s
  · rw [selectTarget_calls]
  · rfl

theorem showEditWaypointMenu_targetCommands (w : World) (choice : Option MenuAction)
    (s : Widget) :
    targetCommands (showEditWaypointMenu w choice s).calls = targetCommands s.calls := by
  unfold showEditWaypointMenu
  split
  · exact moveWaypointPosition_targetCommands w s
  · exact moveWaypointHeading_targetCommands w s
  · exact setWaypointAltitude_targetCommands w s
  · exact deleteWaypoint_targetCommands s
  · exact clearAllWaypoints_targetCommands w s
  · rfl

theorem showInsertWaypointMenu_of_none (w : World) (s : Widget) :
    showInsertWaypointMenu w none s = s := rfl

theorem showEditWaypointMenu_of_none (w : World) (s : Widget) :
    showEditWaypointMenu w none s = s := rfl

theorem shiftPress_targetCommands (w : World) (event : QMouseEvent) (s : Widget) :
    targetCommands (shiftPress w event s).calls = targetCommands s.calls := by
  unfold shiftPress
  dsimp only
  split_ifs
  · rw [showInsertWaypointMenu_targetCommands]
    exact congrArg targetCommands (findWaypoint_frame w event.pos s).2
  · rw [showEditWaypointMenu_targetCommands]
    exact congrArg targetCommands (findWaypoint_frame w event.pos s).2

theorem shiftPress_mMode_of_none (w : World) (event : QMouseEvent) (s : Widget)
    (hc : event.menuChoice = none) : (shiftPress w event s).mMode = s.mMode := by
  unfold shiftPress
  dsimp only
  rw [hc]
  split_ifs
  · rw [showInsertWaypointMenu_of_none]
    exact (findWaypoint_frame w event.pos s).1
  · rw [showEditWaypointMenu_of_none]
    exact (findWaypoint_frame w event.pos s).1

/-- A press the base class has not consumed, with a button other than the
left one, is handed on and nothing else happens. -/
theorem mousePressEvent_of_not_left (w : World) (event : QMouseEvent) (s : Widget)
    (hacc : event.acceptedByBase = false) (hb : event.button ≠ MouseButton.LeftButton) :
    mousePressEvent w event s = { s with calls := s.calls ++ [Call.handleMousePressEvent] } := by
  unfold mousePressEvent
  rw [hacc, if_neg (by decide), if_neg hb]

theorem setTarget_mMode (w : World) (s : Widget) : (setTarget w s).mMode = s.mMode := by
  cases ha : s.mActiveUAS with
  | none => rw [setTarget_of_not_active w s ha]
  | some a => exact (setTarget_of_active w s a ha).1

theorem setTarget_calls (w : World) (s : Widget) (a : UASPtr) (ha : s.mActiveUAS = some a) :
    (setTarget w s).calls = s.calls ++ [targetCommand w s a] :=
  (setTarget_of_active w s a ha).2

theorem committed_mMode (w : World) (s : Widget) :
    (committed w s).mMode = Mode.DEFAULT_MODE := by
  unfold committed
  dsimp only
  split_ifs with h1 h2 h2
  · rfl
  · exact not_not.1 h2
  · rfl
  · exact not_not.1 h2

theorem committed_calls_of_select (w : World) (s : Widget) (a : UASPtr)
    (hm : s.mMode = Mode.SELECT_TARGET_HEADING_MODE) (ha : s.mActiveUAS = some a) :
    (committed w s).calls = s.calls ++ [targetCommand w s a] := by
  unfold committed
  dsimp only
  rw [if_pos hm]
  split_ifs
  · exact setTarget_calls w s a ha
  · exact setTarget_calls w s a ha

theorem committed_calls_of_not_select (w : World) (s : Widget)
    (hm : s.mMode ≠ Mode.SELECT_TARGET_HEADING_MODE) : (committed w s).calls = s.calls := by
  unfold committed
  dsimp only
  rw [if_neg hm]
  split_ifs <;> rfl

theorem mousePressEvent_of_left (w : World) (event : QMouseEvent) (s : Widget)
    (hacc : event.acceptedByBase = false) (hb : event.button = MouseButton.LeftButton) :
    mousePressEvent w event s
      = if event.modifiers = KeyboardModifiers.ShiftModifier then
          shiftPress w event (committed w s)
        else
          { committed w s with calls := (committed w s).calls ++ [Call.handleMousePressEvent] } := by
  unfold mousePressEvent committed
  rw [hacc, if_neg (by decide), if_pos hb]

theorem mousePressEvent_left_targetCommands (w : World) (event : QMouseEvent) (s : Widget)
    (hacc : event.acceptedByBase = false) (hb : event.button = MouseButton.LeftButton) :
    targetCommands (mousePressEvent w event s).calls = targetCommands (committed w s).calls := by
  rw [mousePressEvent_of_left w event s hacc hb]
  split_ifs
  · exact shiftPress_targetCommands w event (committed w s)
  · simp [targetCommands, Call.isSetTargetPosition]

theorem mousePressEvent_left_mMode (w : World) (event : QMouseEvent) (s : Widget)
    (hacc : event.acceptedByBase = false) (hb : event.button = MouseButton.LeftButton)
    (hq : event.modifiers ≠ KeyboardModifiers.ShiftModifier ∨ event.menuChoice = none) :
    (mousePressEvent w event s).mMode = Mode.DEFAULT_MODE := by
  rw [mousePressEvent_of_left w event s hacc hb]
  by_cases hs : event.modifiers = KeyboardModifiers.ShiftModifier
  · rw [if_pos hs]
    rcases hq with hq | hq
    · exact absurd hs hq
    · rw [shiftPress_mMode_of_none w event _ hq]
      exact committed_mMode w s
  · rw [if_neg hs]
    exact committed_mMode w s

/-- A left press in the target-heading mode with the active vehicle `a`
sends it exactly one command, the one of `targetCommand`. -/
theorem mousePressEvent_select_commands (w : World) (event : QMouseEvent) (s : Widget)
    (a : UASPtr) (hacc : event.acceptedByBase = false)
    (hb : event.button = MouseButton.LeftButton)
    (hm : s.mMode = Mode.SELECT_TARGET_HEADING_MODE) (ha : s.mActiveUAS = some a) :
    targetCommands (mousePressEvent w event s).calls
      = targetCommands s.calls ++ [targetCommand w s a] := by
  rw [mousePressEvent_left_targetCommands w event s hacc hb,
    committed_calls_of_select w s a hm ha, targetCommands_append]
  rfl

theorem selectTarget_of_manager (w : World) (s : Widget) (a : UASPtr)
    (ha : s.mActiveUAS = some a) (hp : (w.deref a).hasParamManager = true) :
    (selectTarget w s).mMode = Mode.SELECT_TARGET_HEADING_MODE ∧
      (selectTarget w s).mActiveUAS = some a := by
  unfold selectTarget
  rw [ha]
  dsimp only
  rw [if_neg (not_not.2 hp)]
  split_ifs <;> exact ⟨rfl, rfl⟩

/-- The target `selectTarget` stores for the active vehicle, in the geodetic
and in the local-NED frame: the world position under the cached pointer
position and the target altitude, narrowed to single precision. -/
theorem selectTarget_target (w : World) (s : Widget) (a : UASPtr)
    (ha : s.mActiveUAS = some a) (hp : (w.deref a).hasParamManager = true) :
    (s.mGlobalViewParams.frame = MAV_FRAME.MAV_FRAME_GLOBAL →
      (QMap.value (selectTarget w s).mSystemContainerMap (w.deref a).uasId).target =
        ⟨toFloat (w.worldCursorPosition s.mCachedMousePos (w.deref a).altitude).x,
          toFloat (w.worldCursorPosition s.mCachedMousePos (w.deref a).altitude).y,
          toFloat ((w.deref a).targetAlt.getD (-(w.deref a).altitude)), 0⟩) ∧
    (s.mGlobalViewParams.frame = MAV_FRAME.MAV_FRAME_LOCAL_NED →
      (QMap.value (selectTarget w s).mSystemContainerMap (w.deref a).uasId).target =
        ⟨toFloat (w.worldCursorPosition s.mCachedMousePos (-(w.deref a).localZ)).x,
          toFloat (w.worldCursorPosition s.mCachedMousePos (-(w.deref a).localZ)).y,
          toFloat ((w.deref a).targetAlt.getD (w.deref a).localZ), 0⟩) := by
  have hne : ¬ MAV_FRAME.MAV_FRAME_LOCAL_NED = MAV_FRAME.MAV_FRAME_GLOBAL := by decide
  constructor
  · intro hf
    unfold selectTarget
    rw [ha]
    dsimp only
    rw [if_neg (not_not.2 hp), hf, if_pos rfl]
    split_ifs <;>
      cases ht : (w.deref a).targetAlt <;>
      simp [UAS.getUASID, UAS.getAltitude, QMap.value_insert_self, QVector4D.ofDoubles,
        toFloat_zero]
  · intro hf
    unfold selectTarget
    rw [ha]
    dsimp only
    rw [if_neg (not_not.2 hp), hf, if_neg hne, if_pos rfl]
    split_ifs <;>
      cases ht : (w.deref a).targetAlt <;>
      simp [UAS.getUASID, UAS.getLocalZ, QMap.value_insert_self, QVector4D.ofDoubles,
        toFloat_zero]

/-- C14 as stated fails: a press of the right button in the mode "move
waypoint position" leaves the widget in that mode. -/
theorem right_press_keeps_mode :
    (moveWaypointPosition demoWorld init).mMode = Mode.MOVE_WAYPOINT_POSITION_MODE ∧
      (mousePressEvent demoWorld { button := MouseButton.RightButton }
        (moveWaypointPosition demoWorld init)).mMode = Mode.MOVE_WAYPOINT_POSITION_MODE ∧
      (mousePressEvent demoWorld { button := MouseButton.RightButton }
        (moveWaypointPosition demoWorld init)).mMode ≠ Mode.DEFAULT_MODE := by
  refine ⟨by decide, by decide, by decide⟩

/-- C14, amended: for a press the base class has not consumed, from any mode.
With the left button the commit of the mode is performed once: in the
target-heading mode with an active vehicle exactly one `setTargetPosition`
command goes to that vehicle, in any other mode none; and afterwards the mode
is Default (in the target-heading mode: given the active vehicle `setTarget`
needs), unless the Shift modifier is held and the user picks an entry of the
context menu, whose slot may set a mode again.  With any other button the
mode stays as it was and no command is sent. -/
theorem press_commits_once (w : World) (event : QMouseEvent) (s : Widget)
    (hacc : event.acceptedByBase = false) :
    (event.button = MouseButton.LeftButton →
      ((s.mMode = Mode.SELECT_TARGET_HEADING_MODE → ∃ a, s.mActiveUAS = some a) →
        (event.modifiers ≠ KeyboardModifiers.ShiftModifier ∨ event.menuChoice = none) →
        (mousePressEvent w event s).mMode = Mode.DEFAULT_MODE) ∧
      (s.mMode = Mode.SELECT_TARGET_HEADING_MODE → ∀ a, s.mActiveUAS = some a →
        ∃ x y z heading, targetCommands (mousePressEvent w event s).calls
          = targetCommands s.calls ++ [Call.setTargetPosition a x y z heading]) ∧
      (s.mMode ≠ Mode.SELECT_TARGET_HEADING_MODE →
        targetCommands (mousePressEvent w event s).calls = targetCommands s.calls)) ∧
    (event.button ≠ MouseButton.LeftButton →
      (mousePressEvent w event s).mMode = s.mMode ∧
      targetCommands (mousePressEvent w event s).calls = targetCommands s.calls) := by
  refine ⟨fun hb => ⟨fun _ => mousePressEvent_left_mMode w event s hacc hb, ?_, ?_⟩, ?_⟩
  · intro hm a ha
    exact ⟨_, _, _, _, mousePressEvent_select_commands w event s a hacc hb hm ha⟩
  · intro hm
    rw [mousePressEvent_left_targetCommands w event s hacc hb,
      committed_calls_of_not_select w s hm]
  · intro hb
    rw [mousePressEvent_of_not_left w event s hacc hb]
    refine ⟨rfl, ?_⟩
    simp [targetCommands, Call.isSetTargetPosition]

/-- C14, amended, at the examples: a plain left press in the target-heading
mode of the examples ends in the Default mode and has sent exactly one
command to the active vehicle. -/
theorem press_commits_once_witness :
    ({} : QMouseEvent).acceptedByBase = false ∧
      (mousePressEvent demoWorldPointer {} demoSelectState).mMode = Mode.DEFAULT_MODE ∧
      ∃ x y z heading, targetCommands (mousePressEvent demoWorldPointer {} demoSelectState).calls
        = targetCommands demoSelectState.calls ++ [Call.setTargetPosition 0 x y z heading] :=
  ⟨rfl,
    (press_commits_once demoWorldPointer {} demoSelectState rfl).1 rfl |>.1
      (fun _ => ⟨0, by decide⟩) (Or.inl (by decide)),
    (press_commits_once demoWorldPointer {} demoSelectState rfl).1 rfl |>.2.1 (by decide) 0
      (by decide)⟩

/-- C15 as stated fails on the heading: in the examples the target is stored
at (1, 2, 0), the pointer is at (1, 3) when the button goes down, `atan2 (1, 0)`
is `PI / 2`, which the target holds in single precision, and the one command
the vehicle receives carries that angle in degrees, the `double`
`6333187152226743 / 70368744177664`, about 90.0000025. -/
theorem target_heading_in_degrees :
    demoSelectState.mMode = Mode.SELECT_TARGET_HEADING_MODE ∧
      (QMap.value demoSelectState.mSystemContainerMap 3).target = ⟨1, 2, 0, 0⟩ ∧
      pointerWorldPosition demoWorldPointer demoSelectState.mGlobalViewParams.frame
        (demoWorldPointer.deref 0) = ⟨1, 3⟩ ∧
      demoWorldPointer.atan2 (dsub 3 2) (dsub 1 1) = PI / 2 ∧
      toFloat (PI / 2) = 13176795 / 8388608 ∧
      targetCommands (mousePressEvent demoWorldPointer {} demoSelectState).calls
        = [Call.setTargetPosition 0 1 2 0 (6333187152226743 / 70368744177664)] ∧
      (6333187152226743 / 70368744177664 : double) ≠ PI / 2 ∧
      (90 : double) < 6333187152226743 / 70368744177664 := by
  refine ⟨by decide!, by decide!, by decide!, by decide!, by decide!, by decide!, by decide!,
    by decide!⟩

/-- C15, amended: after the Select-target action with an active vehicle that
has a parameter manager the mode is the target-heading mode, with the same
active vehicle, and in the geodetic and the local-NED frame the stored target
is the world position under the cached pointer position and the target
altitude (the parameter `TARGET-ALT`, else minus the altitude, or the local z),
each narrowed to single precision, with heading 0.  In every state of that
mode with that active vehicle, a left press the base class has not consumed
sends the vehicle exactly one `setTargetPosition` command: its position is the
stored target and its heading is `atan2 (dy, dx)`, narrowed to single
precision and converted from radians to degrees in `double`, where `(dx, dy)`
is the pointer position minus the target, subtracted in `double`, and the
pointer position is the world position under the pointer in the geodetic and
local-NED frames and `(0, 0)` in any other frame.  Afterwards the mode is
Default, unless the Shift modifier is held and the user picks an entry of the
context menu. -/
theorem select_target_then_press (w : World) (s : Widget) (a : UASPtr)
    (ha : s.mActiveUAS = some a) (hp : (w.deref a).hasParamManager = true) :
    (selectTarget w s).mMode = Mode.SELECT_TARGET_HEADING_MODE ∧
      (selectTarget w s).mActiveUAS = some a ∧
      (s.mGlobalViewParams.frame = MAV_FRAME.MAV_FRAME_GLOBAL →
        (QMap.value (selectTarget w s).mSystemContainerMap (w.deref a).uasId).target =
          ⟨toFloat (w.worldCursorPosition s.mCachedMousePos (w.deref a).altitude).x,
            toFloat (w.worldCursorPosition s.mCachedMousePos (w.deref a).altitude).y,
            toFloat ((w.deref a).targetAlt.getD (-(w.deref a).altitude)), 0⟩) ∧
      (s.mGlobalViewParams.frame = MAV_FRAME.MAV_FRAME_LOCAL_NED →
        (QMap.value (selectTarget w s).mSystemContainerMap (w.deref a).uasId).target =
          ⟨toFloat (w.worldCursorPosition s.mCachedMousePos (-(w.deref a).localZ)).x,
            toFloat (w.worldCursorPosition s.mCachedMousePos (-(w.deref a).localZ)).y,
            toFloat ((w.deref a).targetAlt.getD (w.deref a).localZ), 0⟩) ∧
      ∀ (w2 : World) (event : QMouseEvent) (t : Widget),
        t.mMode = Mode.SELECT_TARGET_HEADING_MODE → t.mActiveUAS = some a →
        event.acceptedByBase = false → event.button = MouseButton.LeftButton →
        targetCommands (mousePressEvent w2 event t).calls
          = targetCommands t.calls ++
            [Call.setTargetPosition a
              (QMap.value t.mSystemContainerMap (w2.deref a).uasId).target.x
              (QMap.value t.mSystemContainerMap (w2.deref a).uasId).target.y
              (QMap.value t.mSystemContainerMap (w2.deref a).uasId).target.z
              (ddiv (dmul (toFloat (w2.atan2
                (dsub (pointerWorldPosition w2 t.mGlobalViewParams.frame (w2.deref a)).y
                  (QMap.value t.mSystemContainerMap (w2.deref a).uasId).target.y)
                (dsub (pointerWorldPosition w2 t.mGlobalViewParams.frame (w2.deref a)).x
                  (QMap.value t.mSystemContainerMap (w2.deref a).uasId).target.x))) 180)
                PI)] ∧
        ((event.modifiers ≠ KeyboardModifiers.ShiftModifier ∨ event.menuChoice = none) →
          (mousePressEvent w2 event t).mMode = Mode.DEFAULT_MODE) := by
  refine ⟨(selectTarget_of_manager w s a ha hp).1, (selectTarget_of_manager w s a ha hp).2,
    (selectTarget_target w s a ha hp).1, (selectTarget_target w s a ha hp).2, ?_⟩
  intro w2 event t hm hat hacc hb
  exact ⟨mousePressEvent_select_commands w2 event t a hacc hb hm hat,
    mousePressEvent_left_mMode w2 event t hacc hb⟩

/-- C15, amended, at the examples: the active vehicle of the examples has a
parameter manager; after the Select-target action the widget is in the
target-heading mode with that vehicle, and the left press with the pointer at
(1, 3) sends the target (1, 2, 0) with the heading of about 90.0000025
degrees. -/
theorem select_target_then_press_witness :
    demoActiveState.mActiveUAS = some 0 ∧
      (demoWorldPointer.deref 0).hasParamManager = true ∧
      (selectTarget demoWorldPointer demoActiveState).mMode = Mode.SELECT_TARGET_HEADING_MODE ∧
      targetCommands (mousePressEvent demoWorldPointer {} demoSelectState).calls
        = [Call.setTargetPosition 0 1 2 0 (6333187152226743 / 70368744177664)] :=
  ⟨by decide!, by decide!,
    (select_target_then_press demoWorldPointer demoActiveState 0 (by decide!) (by decide!)).1,
    ((select_target_then_press demoWorldPointer demoActiveState 0 (by decide!)
      (by decide!)).2.2.2.2 demoWorldPointer {} demoSelectState (by decide!) (by decide!)
      (by decide!) (by decide!)).1.trans (by decide!)⟩

/-! ## Sensor overlays and missing vehicles: results -/

theorem updateSystem_viewParams_of_ne (w : World) (frame : MAV_FRAME) (s : Widget)
    {systemId j : Int} (hj : j ≠ systemId) :
    QMap.value (updateSystem w frame s systemId).mSystemViewParamMap j
      = QMap.value s.mSystemViewParamMap j := by
  unfold updateSystem
  simp only [QMap.value_insert_of_ne _ hj]

/-- A property the round of a vehicle establishes for its container, whenever
a condition the rounds keep holds, holds after the second loop of `update`
when the loop visits the vehicle. -/
theorem foldl_updateSystem_establishes (w : World) (frame : MAV_FRAME) (j : Int) (b : Bool)
    (Q : SystemViewParams → SystemContainer → Prop) (R : SystemContainer → Prop)
    (hQ : ∀ p c, Q p c →
      Q (updateSystemData w ((w.getUASForId j).map w.deref) frame b p c).1
        (updateSystemData w ((w.getUASForId j).map w.deref) frame b p c).2)
    (hR : ∀ p c, Q p c →
      R (updateSystemData w ((w.getUASForId j).map w.deref) frame b p c).2)
    (keys : List Int) :
    ∀ s : Widget, s.pixhawkMessages = b →
      Q (QMap.value s.mSystemViewParamMap j) (QMap.value s.mSystemContainerMap j) →
      (j ∈ keys ∨ R (QMap.value s.mSystemContainerMap j)) →
      R (QMap.value (keys.foldl (updateSystem w frame) s).mSystemContainerMap j) := by
  induction keys with
  | nil =>
    intro s _ _ h
    rcases h with h | h
    · simp at h
    · exact h
  | cons k t ih =>
    intro s hb hq h
    have hb' : (updateSystem w frame s k).pixhawkMessages = b := hb
    by_cases hk : j = k
    · subst hk
      have hv := updateSystem_values w frame s j
      rw [hb] at hv
      apply ih (updateSystem w frame s j) hb'
      · rw [hv.1, hv.2]
        exact hQ _ _ hq
      · right
        rw [hv.2]
        exact hR _ _ hq
    · apply ih (updateSystem w frame s k) hb'
      · rw [updateSystem_viewParams_of_ne w frame s hk, updateSystem_value_of_ne w frame s hk]
        exact hq
      · rcases h with h | h
        · left
          simpa [hk] using h
        · right
          rw [updateSystem_value_of_ne w frame s hk]
          exact h

theorem foldl_updateVisibility_fields (keys : List Int) (s : Widget) :
    (keys.foldl updateVisibility s).pixhawkMessages = s.pixhawkMessages ∧
      (keys.foldl updateVisibility s).mFollowCameraId = s.mFollowCameraId ∧
      (keys.foldl updateVisibility s).mGlobalViewParams = s.mGlobalViewParams ∧
      (keys.foldl updateVisibility s).mCameraPos = s.mCameraPos ∧
      (keys.foldl updateVisibility s).mActiveUAS = s.mActiveUAS ∧
      (keys.foldl updateVisibility s).mInitCameraPos = s.mInitCameraPos ∧
      (keys.foldl updateVisibility s).calls = s.calls := by
  induction keys generalizing s with
  | nil => exact ⟨rfl, rfl, rfl, rfl, rfl, rfl, rfl⟩
  | cons k t ih => exact ih (updateVisibility s k)

theorem updateCamera_fields (w : World) (frame : MAV_FRAME) (s : Widget) :
    (updateCamera w frame s).pixhawkMessages = s.pixhawkMessages ∧
      (updateCamera w frame s).mFollowCameraId = s.mFollowCameraId ∧
      (updateCamera w frame s).mActiveUAS = s.mActiveUAS ∧
      (updateCamera w frame s).mGlobalViewParams = s.mGlobalViewParams := by
  unfold updateCamera
  split_ifs <;> (try split) <;> exact ⟨rfl, rfl, rfl, rfl⟩

/-- The tick is the second loop run from a state that agrees with the state
before the tick on everything but the scene graph. -/
theorem update_eq_foldl (w : World) (s : Widget) :
    ∃ s1 : Widget,
      update w s = (QMap.keys s.mSystemViewParamMap).foldl
        (updateSystem w s.mGlobalViewParams.frame) (updateCamera w s.mGlobalViewParams.frame s1) ∧
      s1.mSystemViewParamMap = s.mSystemViewParamMap ∧
      (∀ j, QMap.value s1.mSystemContainerMap j = QMap.value s.mSystemContainerMap j) ∧
      s1.pixhawkMessages = s.pixhawkMessages ∧
      s1.mFollowCameraId = s.mFollowCameraId ∧
      s1.mGlobalViewParams = s.mGlobalViewParams ∧
      s1.mCameraPos = s.mCameraPos ∧
      s1.mActiveUAS = s.mActiveUAS ∧
      s1.mInitCameraPos = s.mInitCameraPos ∧
      s1.calls = s.calls := by
  have hv := foldl_updateVisibility (QMap.keys s.mSystemViewParamMap)
    { s with
      m3DWidget := { s.m3DWidget with
        worldGridValue := s.mGlobalViewParams.displayWorldGrid
        imageryValue :=
          if s.mGlobalViewParams.imageryType = ImageryType.BLANK_MAP then false else true } }
  have hf := foldl_updateVisibility_fields (QMap.keys s.mSystemViewParamMap)
    { s with
      m3DWidget := { s.m3DWidget with
        worldGridValue := s.mGlobalViewParams.displayWorldGrid
        imageryValue :=
          if s.mGlobalViewParams.imageryType = ImageryType.BLANK_MAP then false else true } }
  have hvp := hv.1
  have hvc := hv.2
  simp only at hvp hvc hf
  unfold update
  dsimp only
  rw [updateCamera_mSystemViewParamMap]
  simp only [hvp]
  refine ⟨_, rfl, ?_, ?_, ?_⟩
  · rfl
  · exact hvc
  · exact hf

/-- The second loop of `update` starts from a state with the view parameters,
the containers and the build flag of the state before the tick. -/
theorem update_eq_foldl_data (w : World) (s : Widget) :
    ∃ s2 : Widget,
      update w s = (QMap.keys s.mSystemViewParamMap).foldl
        (updateSystem w s.mGlobalViewParams.frame) s2 ∧
      s2.mSystemViewParamMap = s.mSystemViewParamMap ∧
      (∀ j, QMap.value s2.mSystemContainerMap j = QMap.value s.mSystemContainerMap j) ∧
      s2.pixhawkMessages = s.pixhawkMessages := by
  obtain ⟨s1, h0, h1, h2, h3, _⟩ := update_eq_foldl w s
  refine ⟨_, h0, ?_, ?_, ?_⟩
  · rw [updateCamera_mSystemViewParamMap]
    exact h1
  · intro j
    rw [updateCamera_mSystemContainerMap]
    exact h2 j
  · rw [(updateCamera_fields _ _ _).1]
    exact h3

theorem updateObstacles_of_stale (w : World) (u : UAS) (frame : MAV_FRAME) (x y z : double)
    (node : ObstacleGroupNode)
    (h : w.groundTimeSeconds - u.obstacleListTimestamp > kMessageTimeout) :
    (updateObstacles w (some u) frame x y z node).content = none := by
  unfold updateObstacles
  dsimp only
  split_ifs with h1 h2
  · rfl
  · exact absurd h2 (not_lt.2 (le_of_lt h))
  · rfl

theorem updatePlannedPath_of_stale (w : World) (u : UAS) (x y z : double) (g : PathGeometry)
    (h : w.groundTimeSeconds - u.pathTimestamp > kMessageTimeout) :
    (updatePlannedPath w (some u) x y z g).vertices = [] := by
  unfold updatePlannedPath
  dsimp only
  rw [if_neg (not_lt.2 (le_of_lt h))]
  rfl

theorem updatePointCloud_of_stale (w : World) (u : UAS) (x y z : double)
    (g : PointCloudGeometry) (b : Bool)
    (h : w.groundTimeSeconds - u.pointCloudTimestamp > kMessageTimeout) :
    (updatePointCloud w (some u) x y z g b).primitiveSets = [] := by
  unfold updatePointCloud
  dsimp only
  rw [if_pos h]

/-- What the sensor block does to the three scene overlays. -/
theorem updateSensors_nodes (w : World) (uas : Option UAS) (frame : MAV_FRAME) (x y z : double)
    (p : SystemViewParams) (c : SystemContainer) :
    (updateSensors w uas frame x y z p c).obstacleGroupNode
        = (if p.displayObstacleList then
            c.obstacleGroupNode.map (updateObstacles w uas frame x y z)
          else c.obstacleGroupNode) ∧
      (updateSensors w uas frame x y z p c).plannedPathNode
        = (if p.displayPlannedPath then
            c.plannedPathNode.map (updatePlannedPath w uas x y z)
          else c.plannedPathNode) ∧
      (updateSensors w uas frame x y z p c).pointCloud
        = (if p.displayPointCloud then
            if c.pointCloudNode then
              updatePointCloud w uas x y z c.pointCloud p.colorPointCloudByDistance
            else c.pointCloud
          else c.pointCloud) ∧
      (updateSensors w uas frame x y z p c).pointCloudNode = c.pointCloudNode := by
  unfold updateSensors
  dsimp only
  split_ifs <;> simp

/-- The image windows keep their images through the sensor block when the
image of the vehicle is stale. -/
theorem updateSensors_images_of_stale (w : World) (uas : Option UAS) (frame : MAV_FRAME)
    (x y z : double) (p : SystemViewParams) (c : SystemContainer)
    (h : ∀ u, uas = some u →
      ¬ (w.groundTimeSeconds - u.rgbdImageTimestamp < kMessageTimeout)) :
    (updateSensors w uas frame x y z p c).rgbImage = c.rgbImage ∧
      (updateSensors w uas frame x y z p c).depthImage = c.depthImage := by
  have hr : ∀ r d, updateRGBD w uas r d = (r, d) := by
    intro r d
    cases uas with
    | none => rfl
    | some u =>
      unfold updateRGBD
      dsimp only
      rw [if_neg]
      intro hc
      exact h u rfl hc.2.2
  unfold updateSensors
  dsimp only
  split_ifs <;> simp [hr]

/-- The round of a vehicle, in the build with the protobuf messages, on the
three scene overlays and their toggles. -/
theorem updateSystemData_nodes (w : World) (uas : Option UAS) (frame : MAV_FRAME)
    (p : SystemViewParams) (c : SystemContainer) :
    (updateSystemData w uas frame true p c).2.obstacleGroupNode
        = (if p.displayObstacleList then
            c.obstacleGroupNode.map (updateObstacles w uas frame
              (getPose6 w.LLtoUTM uas frame 0 0 0 0 0 0).1
              (getPose6 w.LLtoUTM uas frame 0 0 0 0 0 0).2.1
              (getPose6 w.LLtoUTM uas frame 0 0 0 0 0 0).2.2.1)
          else c.obstacleGroupNode) ∧
      (updateSystemData w uas frame true p c).2.plannedPathNode
        = (if p.displayPlannedPath then
            c.plannedPathNode.map (updatePlannedPath w uas
              (getPose6 w.LLtoUTM uas frame 0 0 0 0 0 0).1
              (getPose6 w.LLtoUTM uas frame 0 0 0 0 0 0).2.1
              (getPose6 w.LLtoUTM uas frame 0 0 0 0 0 0).2.2.1)
          else c.plannedPathNode) ∧
      (updateSystemData w uas frame true p c).2.pointCloud
        = (if p.displayPointCloud then
            if c.pointCloudNode then
              updatePointCloud w uas
                (getPose6 w.LLtoUTM uas frame 0 0 0 0 0 0).1
                (getPose6 w.LLtoUTM uas frame 0 0 0 0 0 0).2.1
                (getPose6 w.LLtoUTM uas frame 0 0 0 0 0 0).2.2.1
                c.pointCloud p.colorPointCloudByDistance
            else c.pointCloud
          else c.pointCloud) ∧
      (updateSystemData w uas frame true p c).2.pointCloudNode = c.pointCloudNode ∧
      (updateSystemData w uas frame true p c).1.displayObstacleList = p.displayObstacleList ∧
      (updateSystemData w uas frame true p c).1.displayPlannedPath = p.displayPlannedPath ∧
      (updateSystemData w uas frame true p c).1.displayPointCloud = p.displayPointCloud := by
  unfold updateSystemData
  by_cases h1 : p.displayTarget = true <;>
    by_cases h2 : c.target.isNull = true <;>
    by_cases h3 : p.displayTrails = true <;>
    simp [h1, h2, h3, updateSensors_nodes]

theorem updateSystemData_images_of_stale (w : World) (uas : Option UAS) (frame : MAV_FRAME)
    (b : Bool) (p : SystemViewParams) (c : SystemContainer)
    (h : ∀ u, uas = some u →
      ¬ (w.groundTimeSeconds - u.rgbdImageTimestamp < kMessageTimeout)) :
    (updateSystemData w uas frame b p c).2.rgbImage = c.rgbImage ∧
      (updateSystemData w uas frame b p c).2.depthImage = c.depthImage := by
  unfold updateSystemData
  by_cases h1 : p.displayTarget = true <;>
    by_cases h2 : c.target.isNull = true <;>
    by_cases h3 : p.displayTrails = true <;>
    cases b <;>
    simp [h1, h2, h3, (updateSensors_images_of_stale w uas frame _ _ _ _ _ h).1,
      (updateSensors_images_of_stale w uas frame _ _ _ _ _ h).2]

/-- C16: in the build with the protobuf messages, for a tracked vehicle that
is in the registry, a tick at which the message of an enabled overlay is more
than `kMessageTimeout`, 4 seconds, old leaves that overlay cleared, whatever
it held: the obstacle group has no content, the planned path has no vertex,
and the point cloud has no primitive set. -/
theorem stale_overlays_cleared (w : World) (s : Widget) (systemId : Int) (p : UASPtr)
    (hb : s.pixhawkMessages = true)
    (ht : QMap.contains s.mSystemViewParamMap systemId = true)
    (hu : w.getUASForId systemId = some p) :
    kMessageTimeout = 4 ∧
    ((QMap.value s.mSystemViewParamMap systemId).displayObstacleList = true →
      w.groundTimeSeconds - (w.deref p).obstacleListTimestamp > kMessageTimeout →
      ∀ node,
        (QMap.value (update w s).mSystemContainerMap systemId).obstacleGroupNode = some node →
        node.content = none) ∧
    ((QMap.value s.mSystemViewParamMap systemId).displayPlannedPath = true →
      w.groundTimeSeconds - (w.deref p).pathTimestamp > kMessageTimeout →
      ∀ geometry,
        (QMap.value (update w s).mSystemContainerMap systemId).plannedPathNode = some geometry →
        geometry.vertices = []) ∧
    ((QMap.value s.mSystemViewParamMap systemId).displayPointCloud = true →
      w.groundTimeSeconds - (w.deref p).pointCloudTimestamp > kMessageTimeout →
      (QMap.value s.mSystemContainerMap systemId).pointCloudNode = true →
      (QMap.value (update w s).mSystemContainerMap systemId).pointCloud.primitiveSets = []) := by
  obtain ⟨s2, h0, h1, h2, h3⟩ := update_eq_foldl_data w s
  have hk : systemId ∈ QMap.keys s.mSystemViewParamMap := QMap.mem_keys_of_contains ht
  have hu' : (w.getUASForId systemId).map w.deref = some (w.deref p) := by rw [hu]; rfl
  have hb2 : s2.pixhawkMessages = true := h3.trans hb
  refine ⟨rfl, ?_, ?_, ?_⟩
  · intro hd hs
    rw [h0]
    apply foldl_updateSystem_establishes w s.mGlobalViewParams.frame systemId true
      (fun q _ => q.displayObstacleList = true)
      (fun c => ∀ node, c.obstacleGroupNode = some node → node.content = none)
      ?_ ?_ _ s2 hb2 ?_ (Or.inl hk)
    · intro q c hq
      rw [(updateSystemData_nodes _ _ _ _ _).2.2.2.2.1]
      exact hq
    · intro q c hq node hn
      rw [(updateSystemData_nodes _ _ _ _ _).1, if_pos hq, hu'] at hn
      obtain ⟨a, -, rfl⟩ := Option.map_eq_some'.1 hn
      exact updateObstacles_of_stale w (w.deref p) _ _ _ _ a hs
    · show (QMap.value s2.mSystemViewParamMap systemId).displayObstacleList = true
      rw [h1]
      exact hd
  · intro hd hs
    rw [h0]
    apply foldl_updateSystem_establishes w s.mGlobalViewParams.frame systemId true
      (fun q _ => q.displayPlannedPath = true)
      (fun c => ∀ geometry, c.plannedPathNode = some geometry → geometry.vertices = [])
      ?_ ?_ _ s2 hb2 ?_ (Or.inl hk)
    · intro q c hq
      rw [(updateSystemData_nodes _ _ _ _ _).2.2.2.2.2.1]
      exact hq
    · intro q c hq geometry hn
      rw [(updateSystemData_nodes _ _ _ _ _).2.1, if_pos hq, hu'] at hn
      obtain ⟨a, -, rfl⟩ := Option.map_eq_some'.1 hn
      exact updatePlannedPath_of_stale w (w.deref p) _ _ _ a hs
    · show (QMap.value s2.mSystemViewParamMap systemId).displayPlannedPath = true
      rw [h1]
      exact hd
  · intro hd hs hn
    rw [h0]
    apply foldl_updateSystem_establishes w s.mGlobalViewParams.frame systemId true
      (fun q c => q.displayPointCloud = true ∧ c.pointCloudNode = true)
      (fun c => c.pointCloud.primitiveSets = [])
      ?_ ?_ _ s2 hb2 ?_ (Or.inl hk)
    · intro q c hq
      rw [(updateSystemData_nodes _ _ _ _ _).2.2.2.2.2.2, (updateSystemData_nodes _ _ _ _ _).2.2.2.1]
      exact hq
    · intro q c hq
      rw [(updateSystemData_nodes _ _ _ _ _).2.2.1, if_pos hq.1, if_pos hq.2, hu']
      exact updatePointCloud_of_stale w (w.deref p) _ _ _ _ _ hs
    · show (QMap.value s2.mSystemViewParamMap systemId).displayPointCloud = true ∧
        (QMap.value s2.mSystemContainerMap systemId).pointCloudNode = true
      rw [h1, h2]
      exact ⟨hd, hn⟩

/-- C16, at the examples: at the time 2 the three overlays of the vehicle
show the messages of the time 1; the tick at the time 10 leaves the obstacle
group without content, the planned path without vertex and the point cloud
without primitive set. -/
theorem stale_overlays_cleared_witness :
    demoSensorState.pixhawkMessages = true ∧
      QMap.contains demoSensorState.mSystemViewParamMap 3 = true ∧
      (demoSensorWorld 10).getUASForId 3 = some 0 ∧
      (QMap.value demoSensorState.mSystemContainerMap 3).obstacleGroupNode
        = some { content := some (1, 2, -5, [⟨1, 1, 1⟩]) } ∧
      (QMap.value demoSensorState.mSystemContainerMap 3).pointCloud.primitiveSets = [1] ∧
      (∀ node,
        (QMap.value (update (demoSensorWorld 10) demoSensorState).mSystemContainerMap
          3).obstacleGroupNode = some node → node.content = none) ∧
      (∀ geometry,
        (QMap.value (update (demoSensorWorld 10) demoSensorState).mSystemContainerMap
          3).plannedPathNode = some geometry → geometry.vertices = []) ∧
      (QMap.value (update (demoSensorWorld 10) demoSensorState).mSystemContainerMap
        3).pointCloud.primitiveSets = [] := by
  have hb : demoSensorState.pixhawkMessages = true := by decide!
  have ht : QMap.contains demoSensorState.mSystemViewParamMap 3 = true := by decide!
  have key := stale_overlays_cleared (demoSensorWorld 10) demoSensorState 3 0 hb ht rfl
  have hs : ∀ t : double, t = 1 → (demoSensorWorld 10).groundTimeSeconds - t > kMessageTimeout := by
    intro t h1
    rw [h1]
    decide!
  exact ⟨hb, ht, rfl, by decide!, by decide!,
    key.2.1 (by decide!) (hs _ rfl),
    key.2.2.1 (by decide!) (hs _ rfl),
    key.2.2.2 (by decide!) (hs _ rfl) (by decide!)⟩

/-- C17 is not what the code does: for a vehicle in the registry whose image
is more than `kMessageTimeout` old at a tick, the two image windows hold after
the tick exactly the images they held before it; `updateRGBD` has no branch
for a stale image. -/
theorem stale_rgbd_image_kept (w : World) (s : Widget) (systemId : Int) (p : UASPtr)
    (hu : w.getUASForId systemId = some p)
    (hs : w.groundTimeSeconds - (w.deref p).rgbdImageTimestamp > kMessageTimeout) :
    (QMap.value (update w s).mSystemContainerMap systemId).rgbImage
        = (QMap.value s.mSystemContainerMap systemId).rgbImage ∧
      (QMap.value (update w s).mSystemContainerMap systemId).depthImage
        = (QMap.value s.mSystemContainerMap systemId).depthImage := by
  obtain ⟨s2, h0, _, h2, _⟩ := update_eq_foldl_data w s
  have hst : ∀ u, (w.getUASForId systemId).map w.deref = some u →
      ¬ (w.groundTimeSeconds - u.rgbdImageTimestamp < kMessageTimeout) := by
    intro u hu'
    rw [hu] at hu'
    have : w.deref p = u := Option.some.inj hu'
    rw [← this]
    exact not_lt.2 (le_of_lt hs)
  rw [h0]
  apply foldl_updateSystem_establishes w s.mGlobalViewParams.frame systemId s2.pixhawkMessages
    (fun _ c => c.rgbImage = (QMap.value s.mSystemContainerMap systemId).rgbImage ∧
      c.depthImage = (QMap.value s.mSystemContainerMap systemId).depthImage)
    (fun c => c.rgbImage = (QMap.value s.mSystemContainerMap systemId).rgbImage ∧
      c.depthImage = (QMap.value s.mSystemContainerMap systemId).depthImage)
    ?_ ?_ _ s2 rfl ?_ (Or.inr ?_)
  · intro q c hq
    rw [(updateSystemData_images_of_stale _ _ _ _ _ _ hst).1,
      (updateSystemData_images_of_stale _ _ _ _ _ _ hst).2]
    exact hq
  · intro q c hq
    rw [(updateSystemData_images_of_stale _ _ _ _ _ _ hst).1,
      (updateSystemData_images_of_stale _ _ _ _ _ _ hst).2]
    exact hq
  · show _ ∧ _
    rw [h2]
    exact ⟨rfl, rfl⟩
  · show _ ∧ _
    rw [h2]
    exact ⟨rfl, rfl⟩

/-- C17, at the examples: the image overlay of the vehicle is enabled and at
the time 2 the windows show the image of the time 1; after the tick at the
time 10, nine seconds after the image, they still show it. -/
theorem stale_rgbd_image_kept_witness :
    (demoSensorWorld 10).getUASForId 3 = some 0 ∧
      (demoSensorWorld 10).groundTimeSeconds
        - ((demoSensorWorld 10).deref 0).rgbdImageTimestamp > kMessageTimeout ∧
      demoSensorState.pixhawkMessages = true ∧
      (QMap.value demoSensorState.mSystemViewParamMap 3).displayRGBD = true ∧
      (QMap.value demoSensorState.mSystemContainerMap 3).rgbImage
        = some { cols := 1, rows := 1, rgb := false, bytes := [7] } ∧
      (QMap.value (update (demoSensorWorld 10) demoSensorState).mSystemContainerMap 3).rgbImage
        = some { cols := 1, rows := 1, rgb := false, bytes := [7] } ∧
      (QMap.value (update (demoSensorWorld 10) demoSensorState).mSystemContainerMap 3).depthImage
        = some { cols := 1, rows := 1, rgb := true, bytes := [0, 0, 0] } := by
  have hs : (demoSensorWorld 10).groundTimeSeconds
      - ((demoSensorWorld 10).deref 0).rgbdImageTimestamp > kMessageTimeout := by decide!
  have key := stale_rgbd_image_kept (demoSensorWorld 10) demoSensorState 3 0 rfl hs
  have h1 : (QMap.value demoSensorState.mSystemContainerMap 3).rgbImage
      = some { cols := 1, rows := 1, rgb := false, bytes := [7] } := by decide!
  have h2 : (QMap.value demoSensorState.mSystemContainerMap 3).depthImage
      = some { cols := 1, rows := 1, rgb := true, bytes := [0, 0, 0] } := by decide!
  exact ⟨rfl, hs, by decide!, by decide!, h1, key.1.trans h1, key.2.trans h2⟩

/-- C18 is not what the code does: the vehicle of the examples is tracked,
with a target and a trail, and a tick with the vehicle in the registry leaves
the state as it is, the target marker at (0, 0, 0) and the trail vertex at
(-2, -1, -5); the tick with the vehicle missing from the registry moves the
marker to (2, 1, 5) and the trail vertex to (0, 0, 0), the places relative to
the origin, and empties the link.  The stored trail is as before. -/
theorem missing_vehicle_redrawn :
    QMap.contains demoLocalState.mSystemViewParamMap 3 = true ∧
      demoWorldMissing.getUASForId 3 = none ∧
      update demoWorldPointer demoLocalState = demoLocalState ∧
      (QMap.value demoLocalState.mSystemContainerMap 3).targetNode
        = some { color := {}, position := ⟨0, 0, 0⟩ } ∧
      (QMap.value (update demoWorldMissing demoLocalState).mSystemContainerMap 3).targetNode
        = some { color := {}, position := ⟨2, 1, 5⟩ } ∧
      ((QMap.value demoLocalState.mSystemContainerMap 3).trailNode.map
        (fun drawables => (drawables.map Drawable.vertices).head?))
        = some (some [⟨-2, -1, -5⟩]) ∧
      ((QMap.value (update demoWorldMissing demoLocalState).mSystemContainerMap 3).trailNode.map
        (fun drawables => drawables.map Drawable.vertices))
        = some [[⟨0, 0, 0⟩], []] ∧
      (QMap.value (update demoWorldMissing demoLocalState).mSystemContainerMap 3).trailMap
        = (QMap.value demoLocalState.mSystemContainerMap 3).trailMap := by
  refine ⟨by decide!, rfl, by decide!, by decide!, by decide!, by decide!, by decide!, by decide!⟩

/-! ## Camera: results -/

theorem cameraCalls_append (a b : List Call) :
    cameraCalls (a ++ b) = cameraCalls a ++ cameraCalls b := by
  simp [cameraCalls]

theorem updateSystem_camera (w : World) (frame : MAV_FRAME) (s : Widget) (k : Int) :
    cameraCalls (updateSystem w frame s k).calls = cameraCalls s.calls ∧
      (updateSystem w frame s k).mCameraPos = s.mCameraPos ∧
      (updateSystem w frame s k).mInitCameraPos = s.mInitCameraPos := by
  refine ⟨?_, rfl, rfl⟩
  unfold updateSystem
  dsimp only
  split_ifs
  · rw [cameraCalls_append]
    simp [cameraCalls, Call.isCamera]
  · rfl

theorem foldl_updateSystem_camera (w : World) (frame : MAV_FRAME) (keys : List Int) :
    ∀ s : Widget,
      cameraCalls (keys.foldl (updateSystem w frame) s).calls = cameraCalls s.calls ∧
        (keys.foldl (updateSystem w frame) s).mCameraPos = s.mCameraPos ∧
        (keys.foldl (updateSystem w frame) s).mInitCameraPos = s.mInitCameraPos := by
  induction keys with
  | nil => intro s; exact ⟨rfl, rfl, rfl⟩
  | cons k t ih =>
    intro s
    have h := ih (updateSystem w frame s k)
    have h' := updateSystem_camera w frame s k
    exact ⟨h.1.trans h'.1, h.2.1.trans h'.2.1, h.2.2.trans h'.2.2⟩

theorem updateCamera_of_found (w : World) (frame : MAV_FRAME) (s : Widget) (p : UASPtr)
    (hf : s.mFollowCameraId ≠ -1) (hu : w.getUASForId s.mFollowCameraId = some p) :
    (updateCamera w frame s).calls = s.calls ++
        [Call.moveCamera
          (dsub (getPosition3 w.LLtoUTM (some (w.deref p)) s.mGlobalViewParams.frame 0 0 0).2.1
            s.mCameraPos.y)
          (dsub (getPosition3 w.LLtoUTM (some (w.deref p)) s.mGlobalViewParams.frame 0 0 0).1
            s.mCameraPos.x)
          (dsub s.mCameraPos.z
            (getPosition3 w.LLtoUTM (some (w.deref p)) s.mGlobalViewParams.frame 0 0 0).2.2)] ∧
      (updateCamera w frame s).mCameraPos
        = QVector3D.ofDoubles
           (getPosition3 w.LLtoUTM (some (w.deref p)) s.mGlobalViewParams.frame 0 0 0).1
           (getPosition3 w.LLtoUTM (some (w.deref p)) s.mGlobalViewParams.frame 0 0 0).2.1
           (getPosition3 w.LLtoUTM (some (w.deref p)) s.mGlobalViewParams.frame 0 0 0).2.2 ∧
      (updateCamera w frame s).mInitCameraPos = s.mInitCameraPos := by
  unfold updateCamera
  rw [if_pos hf, hu]
  exact ⟨rfl, rfl, rfl⟩

theorem updateCamera_of_unmoved (w : World) (frame : MAV_FRAME) (s : Widget)
    (h : (s.mFollowCameraId ≠ -1 ∧ w.getUASForId s.mFollowCameraId = none) ∨
      (s.mFollowCameraId = -1 ∧ (s.mActiveUAS = none ∨ s.mInitCameraPos = true))) :
    updateCamera w frame s = s := by
  unfold updateCamera
  rcases h with ⟨hf, hu⟩ | ⟨hf, h⟩
  · rw [if_pos hf, hu]
  · rw [if_neg (not_not.2 hf)]
    rcases h with h | h
    · rw [h]
    · split
      · rw [if_neg (not_not.2 h)]
      · rfl

theorem updateCamera_of_snap (w : World) (frame : MAV_FRAME) (s : Widget) (a : UASPtr)
    (hf : s.mFollowCameraId = -1) (ha : s.mActiveUAS = some a)
    (hi : s.mInitCameraPos = false) :
    (updateCamera w frame s).calls = s.calls ++
        [Call.recenterCamera (getPosition3 w.LLtoUTM (some (w.deref a)) frame 0 0 0).2.1
          (getPosition3 w.LLtoUTM (some (w.deref a)) frame 0 0 0).1
          (-(getPosition3 w.LLtoUTM (some (w.deref a)) frame 0 0 0).2.2),
         Call.setFollowCameraId (-1), Call.rotateCamera 0 0 0, Call.setCameraDistance 100] ∧
      (updateCamera w frame s).mCameraPos
        = QVector3D.ofDoubles (getPosition3 w.LLtoUTM (some (w.deref a)) frame 0 0 0).1
           (getPosition3 w.LLtoUTM (some (w.deref a)) frame 0 0 0).2.1
           (getPosition3 w.LLtoUTM (some (w.deref a)) frame 0 0 0).2.2 ∧
      (updateCamera w frame s).mInitCameraPos = true := by
  have hi' : ¬ s.mInitCameraPos = true := by rw [hi]; decide
  unfold updateCamera
  rw [if_neg (not_not.2 hf), ha]
  dsimp only
  rw [if_pos hi']
  refine ⟨?_, rfl, rfl⟩
  simp [setBirdEyeView]

/-- The camera part of a tick, when the follow vehicle is in the registry. -/
theorem update_of_found (w : World) (s : Widget) (p : UASPtr)
    (hf : s.mFollowCameraId ≠ -1) (hu : w.getUASForId s.mFollowCameraId = some p) :
    cameraCalls (update w s).calls = cameraCalls s.calls ++
        [Call.moveCamera
          (dsub (getPosition3 w.LLtoUTM (some (w.deref p)) s.mGlobalViewParams.frame 0 0 0).2.1
            s.mCameraPos.y)
          (dsub (getPosition3 w.LLtoUTM (some (w.deref p)) s.mGlobalViewParams.frame 0 0 0).1
            s.mCameraPos.x)
          (dsub s.mCameraPos.z
            (getPosition3 w.LLtoUTM (some (w.deref p)) s.mGlobalViewParams.frame 0 0 0).2.2)] ∧
      (update w s).mCameraPos
        = QVector3D.ofDoubles
           (getPosition3 w.LLtoUTM (some (w.deref p)) s.mGlobalViewParams.frame 0 0 0).1
           (getPosition3 w.LLtoUTM (some (w.deref p)) s.mGlobalViewParams.frame 0 0 0).2.1
           (getPosition3 w.LLtoUTM (some (w.deref p)) s.mGlobalViewParams.frame 0 0 0).2.2 ∧
      (update w s).mInitCameraPos = s.mInitCameraPos := by
  obtain ⟨s1, h0, -, -, -, e1, e2, e3, -, e5, e6⟩ := update_eq_foldl w s
  have hc := foldl_updateSystem_camera w s.mGlobalViewParams.frame
    (QMap.keys s.mSystemViewParamMap) (updateCamera w s.mGlobalViewParams.frame s1)
  rw [← h0] at hc
  have hk := updateCamera_of_found w s.mGlobalViewParams.frame s1 p (by rw [e1]; exact hf)
    (by rw [e1]; exact hu)
  rw [e2, e3, e6] at hk
  rw [hc.1, hc.2.1, hc.2.2, hk.1, hk.2.1, hk.2.2, e5, cameraCalls_append]
  refine ⟨?_, rfl, rfl⟩
  simp [cameraCalls, Call.isCamera]

/-- The camera part of a tick that neither follows nor snaps. -/
theorem update_of_unmoved (w : World) (s : Widget)
    (h : (s.mFollowCameraId ≠ -1 ∧ w.getUASForId s.mFollowCameraId = none) ∨
      (s.mFollowCameraId = -1 ∧ (s.mActiveUAS = none ∨ s.mInitCameraPos = true))) :
    cameraCalls (update w s).calls = cameraCalls s.calls ∧
      (update w s).mCameraPos = s.mCameraPos ∧
      (update w s).mInitCameraPos = s.mInitCameraPos := by
  obtain ⟨s1, h0, -, -, -, e1, -, e3, e4, e5, e6⟩ := update_eq_foldl w s
  have hc := foldl_updateSystem_camera w s.mGlobalViewParams.frame
    (QMap.keys s.mSystemViewParamMap) (updateCamera w s.mGlobalViewParams.frame s1)
  rw [← h0] at hc
  have hk := updateCamera_of_unmoved w s.mGlobalViewParams.frame s1
    (by rw [e1, e4, e5]; exact h)
  rw [hk] at hc
  rw [hc.1, hc.2.1, hc.2.2, e3, e5, e6]
  exact ⟨rfl, rfl, rfl⟩

/-- The camera part of the tick that snaps. -/
theorem update_of_snap (w : World) (s : Widget) (a : UASPtr)
    (hf : s.mFollowCameraId = -1) (ha : s.mActiveUAS = some a)
    (hi : s.mInitCameraPos = false) :
    cameraCalls (update w s).calls = cameraCalls s.calls ++
        [Call.recenterCamera
          (getPosition3 w.LLtoUTM (some (w.deref a)) s.mGlobalViewParams.frame 0 0 0).2.1
          (getPosition3 w.LLtoUTM (some (w.deref a)) s.mGlobalViewParams.frame 0 0 0).1
          (-(getPosition3 w.LLtoUTM (some (w.deref a)) s.mGlobalViewParams.frame 0 0 0).2.2),
         Call.setFollowCameraId (-1), Call.rotateCamera 0 0 0, Call.setCameraDistance 100] ∧
      (update w s).mCameraPos
        = QVector3D.ofDoubles
           (getPosition3 w.LLtoUTM (some (w.deref a)) s.mGlobalViewParams.frame 0 0 0).1
           (getPosition3 w.LLtoUTM (some (w.deref a)) s.mGlobalViewParams.frame 0 0 0).2.1
           (getPosition3 w.LLtoUTM (some (w.deref a)) s.mGlobalViewParams.frame 0 0 0).2.2 ∧
      (update w s).mInitCameraPos = true := by
  obtain ⟨s1, h0, -, -, -, e1, -, -, e4, e5, e6⟩ := update_eq_foldl w s
  have hc := foldl_updateSystem_camera w s.mGlobalViewParams.frame
    (QMap.keys s.mSystemViewParamMap) (updateCamera w s.mGlobalViewParams.frame s1)
  rw [← h0] at hc
  have hk := updateCamera_of_snap w s.mGlobalViewParams.frame s1 a (by rw [e1]; exact hf)
    (by rw [e4]; exact ha) (by rw [e5]; exact hi)
  rw [e6] at hk
  rw [hc.1, hc.2.1, hc.2.2, hk.1, hk.2.1, hk.2.2, cameraCalls_append]
  refine ⟨?_, rfl, rfl⟩
  simp [cameraCalls, Call.isCamera]

theorem tickCameraCalls_eq (w : World) (s : Widget) (added : List Call)
    (h : cameraCalls (update w s).calls = cameraCalls s.calls ++ added) :
    tickCameraCalls w s = added := by
  unfold tickCameraCalls
  rw [h]
  simp

/-- A tick snaps exactly when no follow vehicle is set, the camera was not
snapped before, and there is an active vehicle. -/
theorem tickSnaps_iff (w : World) (s : Widget) :
    tickSnaps w s = true ↔
      (s.mFollowCameraId = -1 ∧ s.mInitCameraPos = false ∧ ∃ a, s.mActiveUAS = some a) := by
  unfold tickSnaps
  by_cases hf : s.mFollowCameraId = -1
  · cases ha : s.mActiveUAS with
    | none =>
      have h := (update_of_unmoved w s (Or.inr ⟨hf, Or.inl ha⟩)).1
      rw [tickCameraCalls_eq w s [] (by rw [h, List.append_nil])]
      simp
    | some a =>
      cases hi : s.mInitCameraPos with
      | true =>
        have h := (update_of_unmoved w s (Or.inr ⟨hf, Or.inr hi⟩)).1
        rw [tickCameraCalls_eq w s [] (by rw [h, List.append_nil])]
        simp
      | false =>
        rw [tickCameraCalls_eq w s _ (update_of_snap w s a hf ha hi).1]
        simp [Call.isSnap, hf]
  · cases hu : w.getUASForId s.mFollowCameraId with
    | none =>
      have h := (update_of_unmoved w s (Or.inl ⟨hf, hu⟩)).1
      rw [tickCameraCalls_eq w s [] (by rw [h, List.append_nil])]
      simp [hf]
    | some p =>
      rw [tickCameraCalls_eq w s _ (update_of_found w s p hf hu).1]
      simp [Call.isSnap, hf]

theorem update_mInitCameraPos_of_true (w : World) (s : Widget) (h : s.mInitCameraPos = true) :
    (update w s).mInitCameraPos = true := by
  by_cases hf : s.mFollowCameraId = -1
  · rw [(update_of_unmoved w s (Or.inr ⟨hf, Or.inr h⟩)).2.2]
    exact h
  · cases hu : w.getUASForId s.mFollowCameraId with
    | none =>
      rw [(update_of_unmoved w s (Or.inl ⟨hf, hu⟩)).2.2]
      exact h
    | some p =>
      rw [(update_of_found w s p hf hu).2.2]
      exact h

theorem step_mInitCameraPos_of_true (e : Event) (s : Widget) (h : s.mInitCameraPos = true) :
    (step s e).mInitCameraPos = true := by
  cases e with
  | systemCreated w uas =>
    have : (systemCreated w uas s).mInitCameraPos = s.mInitCameraPos := by
      unfold systemCreated
      dsimp only
      split_ifs <;> rfl
    exact this.trans h
  | localPositionChanged uas component x y z =>
    have : (localPositionChanged uas component x y z s).mInitCameraPos = s.mInitCameraPos := by
      unfold localPositionChanged
      by_cases hc : QMap.contains s.mSystemContainerMap uas.getUASID = true
      · simp [hc]
      · simp [hc]
    exact this.trans h
  | update w => exact update_mInitCameraPos_of_true w s h
  | editSystemViewParams systemId p =>
    have : (editSystemViewParams systemId (fun _ => p) s).mInitCameraPos = s.mInitCameraPos := by
      unfold editSystemViewParams
      split_ifs <;> rfl
    exact this.trans h
  | editGlobalViewParams p => exact h
  | activeSystemChanged w uas => exact h
  | followCameraChanged w systemId =>
    have : (followCameraChanged w systemId s).mInitCameraPos = s.mInitCameraPos := by
      unfold followCameraChanged
      dsimp only
      split
      · split_ifs <;> rfl
      · split_ifs <;> rfl
    exact this.trans h
  | attitudeChanged uas component roll pitch yaw =>
    have : (attitudeChanged uas component roll pitch yaw s).mInitCameraPos
        = s.mInitCameraPos := by
      unfold attitudeChanged
      dsimp only
      split_ifs <;> rfl
    exact this.trans h
  | recenterActiveCamera w =>
    have : (recenterActiveCamera w s).mInitCameraPos = s.mInitCameraPos := by
      unfold recenterActiveCamera
      split_ifs
      · split <;> rfl
      · rfl
    exact this.trans h
  | setBirdEyeView => exact h
  | modelChanged systemId index =>
    have : (modelChanged systemId index s).mInitCameraPos = s.mInitCameraPos := by
      unfold modelChanged
      dsimp only
      split_ifs <;> rfl
    exact this.trans h
  | mousePressEvent w event =>
    exact ((mousePressEvent_interacted w event s).2.2.2.2.1).trans h
  | mouseMoveEvent w event =>
    exact ((mouseMoveEvent_interacted w event s).2.2.2.2.1).trans h
  | passive handler => exact h

theorem snapTicks_of_snapped (events : List Event) :
    ∀ s : Widget, s.mInitCameraPos = true → snapTicks s events = 0 := by
  induction events with
  | nil => intro s _; rfl
  | cons e rest ih =>
    intro s h
    have hrest := ih (step s e) (step_mInitCameraPos_of_true e s h)
    cases e with
    | update w =>
      have hn : tickSnaps w s = false := by
        cases ht : tickSnaps w s with
        | false => rfl
        | true =>
          have := ((tickSnaps_iff w s).1 ht).2.1
          rw [h] at this
          exact absurd this (by decide)
      have hrest' : snapTicks (update w s) rest = 0 := hrest
      simp [snapTicks, hn, hrest']
    | systemCreated w uas => exact hrest
    | localPositionChanged uas component x y z => exact hrest
    | editSystemViewParams systemId p => exact hrest
    | editGlobalViewParams p => exact hrest
    | activeSystemChanged w uas => exact hrest
    | followCameraChanged w systemId => exact hrest
    | attitudeChanged uas component roll pitch yaw => exact hrest
    | recenterActiveCamera w => exact hrest
    | setBirdEyeView => exact hrest
    | modelChanged systemId index => exact hrest
    | mousePressEvent w event => exact hrest
    | mouseMoveEvent w event => exact hrest
    | passive handler => exact hrest

theorem update_mInitCameraPos_of_snaps (w : World) (s : Widget) (h : tickSnaps w s = true) :
    (update w s).mInitCameraPos = true := by
  obtain ⟨hf, hi, a, ha⟩ := (tickSnaps_iff w s).1 h
  exact (update_of_snap w s a hf ha hi).2.2

theorem snapTicks_le_one (events : List Event) : ∀ s : Widget, snapTicks s events ≤ 1 := by
  induction events with
  | nil => intro s; exact Nat.zero_le 1
  | cons e rest ih =>
    intro s
    have hrest := ih (step s e)
    cases e with
    | update w =>
      cases ht : tickSnaps w s with
      | false =>
        have hrest' : snapTicks (update w s) rest ≤ 1 := hrest
        simpa [snapTicks, ht] using hrest'
      | true =>
        have h0 := snapTicks_of_snapped rest (update w s) (update_mInitCameraPos_of_snaps w s ht)
        simp [snapTicks, ht, h0]
    | systemCreated w uas => exact hrest
    | localPositionChanged uas component x y z => exact hrest
    | editSystemViewParams systemId p => exact hrest
    | editGlobalViewParams p => exact hrest
    | activeSystemChanged w uas => exact hrest
    | followCameraChanged w systemId => exact hrest
    | attitudeChanged uas component roll pitch yaw => exact hrest
    | recenterActiveCamera w => exact hrest
    | setBirdEyeView => exact hrest
    | modelChanged systemId index => exact hrest
    | mousePressEvent w event => exact hrest
    | mouseMoveEvent w event => exact hrest
    | passive handler => exact hrest

/-- C19: on a tick with a follow vehicle set.  When the vehicle is in the
registry and its resolved position is `(x, y, z)`, the tick makes exactly one
camera call, the translation by `(y - cy, x - cx, cz - z)` from the cached
position `(cx, cy, cz)`, each difference taken in `double`; the cache does not
become `(x, y, z)` but its narrowing to single precision.  When the vehicle is
not in the registry the tick makes no camera call and the cache stays as it
is. -/
theorem follow_camera_translates (w : World) (s : Widget) (hf : s.mFollowCameraId ≠ -1) :
    (∀ p x y z, w.getUASForId s.mFollowCameraId = some p →
      getPosition3 w.LLtoUTM (some (w.deref p)) s.mGlobalViewParams.frame 0 0 0 = (x, y, z) →
      cameraCalls (update w s).calls = cameraCalls s.calls ++
          [Call.moveCamera (dsub y s.mCameraPos.y) (dsub x s.mCameraPos.x)
            (dsub s.mCameraPos.z z)] ∧
        (update w s).mCameraPos = ⟨toFloat x, toFloat y, toFloat z⟩) ∧
    (w.getUASForId s.mFollowCameraId = none →
      cameraCalls (update w s).calls = cameraCalls s.calls ∧
        (update w s).mCameraPos = s.mCameraPos) := by
  constructor
  · intro p x y z hu hp
    have h := update_of_found w s p hf hu
    rw [hp] at h
    exact ⟨h.1, h.2.1⟩
  · intro hu
    have h := update_of_unmoved w s (Or.inl ⟨hf, hu⟩)
    exact ⟨h.1, h.2.1⟩

/-- C19, at the examples: the camera follows a vehicle that stands still at
the northing 5247000.81 and the easting 465000.5.  The cache holds the
northing as 5247001; the tick translates the camera by about -0.19 along the
northing although the vehicle has not moved, and leaves 5247001 in the cache,
so the next tick does the same again. -/
theorem follow_camera_translates_witness :
    demoStillState.mFollowCameraId ≠ -1 ∧
      demoWorldStill.getUASForId demoStillState.mFollowCameraId = some 0 ∧
      getPosition3 demoWorldStill.LLtoUTM (some (demoWorldStill.deref 0))
          demoStillState.mGlobalViewParams.frame 0 0 0
        = (5633924220258877 / 1073741824, 930001 / 2, 0) ∧
      demoStillState.mCameraPos = ⟨5247001, 930001 / 2, 0⟩ ∧
      cameraCalls (update demoWorldStill demoStillState).calls
        = cameraCalls demoStillState.calls ++
          [Call.moveCamera 0 (-204010947 / 1073741824) 0] ∧
      (update demoWorldStill demoStillState).mCameraPos = ⟨5247001, 930001 / 2, 0⟩ ∧
      cameraCalls (update demoWorldStill (update demoWorldStill demoStillState)).calls
        = cameraCalls demoStillState.calls ++
          [Call.moveCamera 0 (-204010947 / 1073741824) 0,
            Call.moveCamera 0 (-204010947 / 1073741824) 0] :=
  have h1 := (follow_camera_translates demoWorldStill demoStillState (by decide!)).1 0
    (5633924220258877 / 1073741824) (930001 / 2) 0 (by decide!) (by decide!)
  have h2 := (follow_camera_translates demoWorldStill (update demoWorldStill demoStillState)
    (by decide!)).1 0 (5633924220258877 / 1073741824) (930001 / 2) 0 (by decide!)
    (by decide!)
  ⟨by decide!, by decide!, by decide!, by decide!, h1.1.trans (by decide!),
    h1.2.trans (by decide!), h2.1.trans (by decide!)⟩

/-- At the examples: the camera follows the vehicle with the cache at
(0, 0, 0); the vehicle is resolved at (4, 6, -2), and the tick translates the
camera by (6 - 0, 4 - 0, 0 - (-2)) and caches (4, 6, -2). -/
theorem follow_camera_moved_vehicle :
    demoFollowState.mFollowCameraId ≠ -1 ∧
      demoFollowState.mCameraPos = ⟨0, 0, 0⟩ ∧
      cameraCalls (update demoWorldMoved demoFollowState).calls
        = cameraCalls demoFollowState.calls ++ [Call.moveCamera 6 4 2] ∧
      (update demoWorldMoved demoFollowState).mCameraPos = ⟨4, 6, -2⟩ := by
  refine ⟨by decide!, by decide!, by decide!, by decide!⟩

/-- C20: over every sequence of events from every state, at most one tick
snaps the camera or switches the view, and none does once the camera has been
snapped.  The tick that does it runs with no follow vehicle set, for an
active vehicle, and makes exactly the camera calls of the snap to the
position of that vehicle and of the bird's-eye view; no tick after it does it
again.  And a tick with no follow vehicle set, an active vehicle and the
camera not yet snapped is such a tick. -/
theorem camera_snaps_at_most_once (s : Widget) (events : List Event) :
    snapTicks s events ≤ 1 ∧
    (s.mInitCameraPos = true → snapTicks s events = 0) ∧
    (∀ w, tickSnaps w s = true →
      s.mFollowCameraId = -1 ∧
      (∃ a, s.mActiveUAS = some a ∧
        tickCameraCalls w s =
          [Call.recenterCamera
            (getPosition3 w.LLtoUTM (some (w.deref a)) s.mGlobalViewParams.frame 0 0 0).2.1
            (getPosition3 w.LLtoUTM (some (w.deref a)) s.mGlobalViewParams.frame 0 0 0).1
            (-(getPosition3 w.LLtoUTM (some (w.deref a)) s.mGlobalViewParams.frame 0 0 0).2.2),
           Call.setFollowCameraId (-1), Call.rotateCamera 0 0 0, Call.setCameraDistance 100]) ∧
      snapTicks (update w s) events = 0) ∧
    (∀ w a, s.mFollowCameraId = -1 → s.mInitCameraPos = false → s.mActiveUAS = some a →
      tickSnaps w s = true) := by
  refine ⟨snapTicks_le_one events s, snapTicks_of_snapped events s, ?_, ?_⟩
  · intro w ht
    obtain ⟨hf, hi, a, ha⟩ := (tickSnaps_iff w s).1 ht
    exact ⟨hf, ⟨a, ha, tickCameraCalls_eq w s _ (update_of_snap w s a hf ha hi).1⟩,
      snapTicks_of_snapped events (update w s) (update_mInitCameraPos_of_snaps w s ht)⟩
  · intro w a hf hi ha
    exact (tickSnaps_iff w s).2 ⟨hf, hi, a, ha⟩

/-! ## Facts about the tick: the members it keeps -/

theorem updateVisibility_controls (s : Widget) (k : Int) :
    (updateVisibility s k).mActiveUAS = s.mActiveUAS ∧
      (updateVisibility s k).mActiveSystemId = s.mActiveSystemId ∧
      (updateVisibility s k).mMode = s.mMode ∧
      (updateVisibility s k).mImageryNodeType = s.mImageryNodeType :=
  ⟨rfl, rfl, rfl, rfl⟩

theorem updateSystem_controls (w : World) (frame : MAV_FRAME) (s : Widget) (k : Int) :
    (updateSystem w frame s k).mActiveUAS = s.mActiveUAS ∧
      (updateSystem w frame s k).mActiveSystemId = s.mActiveSystemId ∧
      (updateSystem w frame s k).mMode = s.mMode ∧
      (updateSystem w frame s k).mImageryNodeType = s.mImageryNodeType ∧
      (updateSystem w frame s k).mGlobalViewParams = s.mGlobalViewParams :=
  ⟨rfl, rfl, rfl, rfl, rfl⟩

theorem updateCamera_controls (w : World) (frame : MAV_FRAME) (s : Widget) :
    (updateCamera w frame s).mActiveUAS = s.mActiveUAS ∧
      (updateCamera w frame s).mActiveSystemId = s.mActiveSystemId ∧
      (updateCamera w frame s).mMode = s.mMode ∧
      (updateCamera w frame s).mImageryNodeType = s.mImageryNodeType ∧
      (updateCamera w frame s).mGlobalViewParams = s.mGlobalViewParams := by
  unfold updateCamera
  split_ifs <;> (try split) <;> exact ⟨rfl, rfl, rfl, rfl, rfl⟩

/-- The tick keeps the active vehicle, its id, the mode and the global view
parameters, and records the imagery type of the global view parameters. -/
theorem update_controls (w : World) (s : Widget) :
    (update w s).mActiveUAS = s.mActiveUAS ∧
      (update w s).mActiveSystemId = s.mActiveSystemId ∧
      (update w s).mMode = s.mMode ∧
      (update w s).mImageryNodeType = s.mGlobalViewParams.imageryType ∧
      (update w s).mGlobalViewParams = s.mGlobalViewParams := by
  have key : ∀ (a : Option UASPtr) (i : Int) (m : Mode) (t : ImageryType) (g : GlobalViewParams)
      (l : List Int) (u : Widget),
      (u.mActiveUAS = a ∧ u.mActiveSystemId = i ∧ u.mMode = m ∧ u.mImageryNodeType = t ∧
        u.mGlobalViewParams = g) →
      ((l.foldl (updateSystem w s.mGlobalViewParams.frame) u).mActiveUAS = a ∧
        (l.foldl (updateSystem w s.mGlobalViewParams.frame) u).mActiveSystemId = i ∧
        (l.foldl (updateSystem w s.mGlobalViewParams.frame) u).mMode = m ∧
        (l.foldl (updateSystem w s.mGlobalViewParams.frame) u).mImageryNodeType = t ∧
        (l.foldl (updateSystem w s.mGlobalViewParams.frame) u).mGlobalViewParams = g) := by
    intro a i m t g l
    exact foldl_invariant
      (fun u : Widget => u.mActiveUAS = a ∧ u.mActiveSystemId = i ∧ u.mMode = m ∧
        u.mImageryNodeType = t ∧ u.mGlobalViewParams = g)
      (updateSystem w s.mGlobalViewParams.frame) (fun u k h => h) l
  have vis : ∀ (l : List Int) (u : Widget),
      (l.foldl updateVisibility u).mActiveUAS = u.mActiveUAS ∧
        (l.foldl updateVisibility u).mActiveSystemId = u.mActiveSystemId ∧
        (l.foldl updateVisibility u).mMode = u.mMode ∧
        (l.foldl updateVisibility u).mGlobalViewParams = u.mGlobalViewParams := by
    intro l
    induction l with
    | nil => intro u; exact ⟨rfl, rfl, rfl, rfl⟩
    | cons k t ih => intro u; exact ih (updateVisibility u k)
  unfold update
  dsimp only
  apply key
  have hc := updateCamera_controls w s.mGlobalViewParams.frame
  refine ⟨(hc _).1.trans ?_, (hc _).2.1.trans ?_, (hc _).2.2.1.trans ?_, (hc _).2.2.2.1.trans ?_,
    (hc _).2.2.2.2.trans ?_⟩
  · exact (vis _ _).1
  · exact (vis _ _).2.1
  · exact (vis _ _).2.2.1
  · exact congrArg GlobalViewParams.imageryType (vis _ _).2.2.2
  · exact (vis _ _).2.2.2

/-! ## Heads-up display: results -/

/-- C25: `updateHUD` passes `darkBackground = false` to the scale indicator
exactly when the frame is the geodetic one and the imagery type in force is
`GOOGLE_MAP`, and `darkBackground = true` for every other combination; the call
at the end of a tick with an active vehicle passes `false` exactly when the
global view parameters before the tick have the geodetic frame and the imagery
type `GOOGLE_MAP`. -/
theorem hud_background_dark_unless_light_map (w : World) (s : Widget) :
    (∀ (uas : UAS) (frame : MAV_FRAME),
      ((updateHUD w uas frame s).darkBackground = false ↔
        (frame = MAV_FRAME.MAV_FRAME_GLOBAL ∧ s.mImageryNodeType = ImageryType.GOOGLE_MAP)) ∧
      ((updateHUD w uas frame s).darkBackground = true ↔
        ¬ (frame = MAV_FRAME.MAV_FRAME_GLOBAL ∧
          s.mImageryNodeType = ImageryType.GOOGLE_MAP))) ∧
    (∀ a, s.mActiveUAS = some a →
      ∃ h, updateHUDOfTick w s = some h ∧
        (h.darkBackground = false ↔
          (s.mGlobalViewParams.frame = MAV_FRAME.MAV_FRAME_GLOBAL ∧
            s.mGlobalViewParams.imageryType = ImageryType.GOOGLE_MAP)) ∧
        (h.darkBackground = true ↔
          ¬ (s.mGlobalViewParams.frame = MAV_FRAME.MAV_FRAME_GLOBAL ∧
            s.mGlobalViewParams.imageryType = ImageryType.GOOGLE_MAP))) := by
  have h1 : ∀ (t : Widget) (uas : UAS) (frame : MAV_FRAME),
      ((updateHUD w uas frame t).darkBackground = false ↔
        (frame = MAV_FRAME.MAV_FRAME_GLOBAL ∧ t.mImageryNodeType = ImageryType.GOOGLE_MAP)) ∧
      ((updateHUD w uas frame t).darkBackground = true ↔
        ¬ (frame = MAV_FRAME.MAV_FRAME_GLOBAL ∧
          t.mImageryNodeType = ImageryType.GOOGLE_MAP)) := by
    intro t uas frame
    unfold updateHUD
    dsimp only
    by_cases h : frame = MAV_FRAME.MAV_FRAME_GLOBAL ∧ t.mImageryNodeType = ImageryType.GOOGLE_MAP
    · rw [if_pos h]
      simp [h]
    · rw [if_neg h]
      simp [h]
  refine ⟨h1 s, ?_⟩
  intro a ha
  have hu := update_controls w s
  refine ⟨updateHUD w (w.deref a) s.mGlobalViewParams.frame (update w s), ?_, ?_⟩
  · unfold updateHUDOfTick
    dsimp only
    rw [hu.1, ha]
    rfl
  · have h2 := h1 (update w s) (w.deref a) s.mGlobalViewParams.frame
    rw [hu.2.2.2.1] at h2
    exact h2

/-! ## Facts about the waypoint setters -/

theorem waypointAt_modifyAt (l : List Waypoint) (i j : Int) (f : Waypoint → Waypoint) :
    waypointAt (modifyAt l i f) j =
      if j = i then (waypointAt l i).map f else waypointAt l j := by
  unfold modifyAt waypointAt
  by_cases hi : 0 ≤ i
  · rw [if_pos hi, if_pos hi]
    cases hg : l.get? i.toNat with
    | none =>
      dsimp only
      by_cases hji : j = i
      · subst hji
        rw [if_pos hi, if_pos rfl, hg]
        rfl
      · rw [if_neg hji]
    | some wp =>
      dsimp only
      have hlt : i.toNat < l.length := by
        by_contra h
        rw [List.get?_eq_getElem?, List.getElem?_eq_none (not_lt.mp h)] at hg
        cases hg
      by_cases hji : j = i
      · subst hji
        rw [if_pos hi, if_pos rfl]
        simp only [List.get?_eq_getElem?]
        rw [List.getElem?_set_self hlt]
        rfl
      · rw [if_neg hji]
        by_cases hj : 0 ≤ j
        · rw [if_pos hj, if_pos hj]
          simp only [List.get?_eq_getElem?]
          rw [List.getElem?_set_ne]
          intro h
          apply hji
          rw [← Int.toNat_of_nonneg hj, ← Int.toNat_of_nonneg hi, h]
        · rw [if_neg hj, if_neg hj]
  · rw [if_neg hi, if_neg hi]
    by_cases hji : j = i
    · subst hji
      rw [if_neg hi, if_pos rfl]
      rfl
    · rw [if_neg hji]

/-! ## Waypoint editing: results -/

/-- C24: While the mode is `MOVE_WAYPOINT_POSITION_MODE`, a vehicle is
active and the selected index names one of its waypoints, a pointer move that
the base class did not accept leaves the mode as it is and, in the local-NED
frame, sets x and y of the selected waypoint to the projection of the pointer
onto the plane at `-localZ`; in the geodetic frame it sets them to the
longitude and latitude of the projection onto the plane at the altitude of the
vehicle.  In both frames z, yaw and the other members of that waypoint and all
other waypoints stay as they are. -/
theorem pointer_move_moves_selected_waypoint (w : World) (event : QMouseEvent) (s : Widget)
    (a : UASPtr) (wp : Waypoint)
    (he : event.acceptedByBase = false)
    (hm : s.mMode = Mode.MOVE_WAYPOINT_POSITION_MODE)
    (ha : s.mActiveUAS = some a)
    (hwp : waypointAt (w.deref a).waypoints s.mSelectedWpIndex = some wp) :
    (mouseMoveEvent w event s).mMode = Mode.MOVE_WAYPOINT_POSITION_MODE ∧
    (s.mGlobalViewParams.frame = MAV_FRAME.MAV_FRAME_LOCAL_NED →
      (mouseMoveEvent w event s).calls = s.calls ++
        [Call.waypointSetX a s.mSelectedWpIndex
            (w.worldCursorPosition w.mouseCursorCoords (-(w.deref a).localZ)).x,
          Call.waypointSetY a s.mSelectedWpIndex
            (w.worldCursorPosition w.mouseCursorCoords (-(w.deref a).localZ)).y,
          Call.handleMouseMoveEvent] ∧
      ∀ j, waypointAt (afterSetters a (w.deref a).waypoints
          ((mouseMoveEvent w event s).calls.drop s.calls.length)) j =
        if j = s.mSelectedWpIndex then
          some { wp with
            x := (w.worldCursorPosition w.mouseCursorCoords (-(w.deref a).localZ)).x
            y := (w.worldCursorPosition w.mouseCursorCoords (-(w.deref a).localZ)).y }
        else waypointAt (w.deref a).waypoints j) ∧
    (s.mGlobalViewParams.frame = MAV_FRAME.MAV_FRAME_GLOBAL →
      ∀ c : QPointF,
        c = w.worldCursorPosition w.mouseCursorCoords (w.deref a).getAltitude →
        ∀ ll : double × double,
        ll = w.UTMtoLL c.x c.y
          (w.LLtoUTM (w.deref a).getLatitude (w.deref a).getLongitude).zone →
        (mouseMoveEvent w event s).calls = s.calls ++
          [Call.waypointSetX a s.mSelectedWpIndex ll.2,
            Call.waypointSetY a s.mSelectedWpIndex ll.1,
            Call.handleMouseMoveEvent] ∧
        ∀ j, waypointAt (afterSetters a (w.deref a).waypoints
            ((mouseMoveEvent w event s).calls.drop s.calls.length)) j =
          if j = s.mSelectedWpIndex then some { wp with x := ll.2, y := ll.1 }
          else waypointAt (w.deref a).waypoints j) := by
  have hmove : mouseMoveEvent w event s =
      { moveWaypointPosition w s with
        calls := (moveWaypointPosition w s).calls ++ [Call.handleMouseMoveEvent] } := by
    have h1 : (moveWaypointPosition w s).mMode = Mode.MOVE_WAYPOINT_POSITION_MODE := by
      unfold moveWaypointPosition
      rw [if_neg (by simp [hm]), ha]
      dsimp only
      rw [hwp]
      dsimp only
      split_ifs <;> exact hm
    have h0 : (if s.mMode = Mode.SELECT_TARGET_HEADING_MODE then selectTargetHeading w s
        else s) = s := if_neg (by rw [hm]; decide)
    have h2 : (if s.mMode = Mode.MOVE_WAYPOINT_POSITION_MODE then moveWaypointPosition w s
        else s) = moveWaypointPosition w s := if_pos hm
    have h3 : (if (moveWaypointPosition w s).mMode = Mode.MOVE_WAYPOINT_HEADING_MODE then
          moveWaypointHeading w (moveWaypointPosition w s)
        else moveWaypointPosition w s) = moveWaypointPosition w s :=
      if_neg (by rw [h1]; decide)
    unfold mouseMoveEvent
    rw [he]
    simp only [Bool.false_eq_true, if_false]
    rw [h0, h2, h3]
  have hset : ∀ (x y : double) (j : Int),
      waypointAt (afterSetters a (w.deref a).waypoints
        [Call.waypointSetX a s.mSelectedWpIndex x, Call.waypointSetY a s.mSelectedWpIndex y,
          Call.handleMouseMoveEvent]) j =
      if j = s.mSelectedWpIndex then some { wp with x := x, y := y }
      else waypointAt (w.deref a).waypoints j := by
    intro x y j
    simp only [afterSetters, List.foldl, applySetter, if_true]
    simp only [waypointAt_modifyAt]
    by_cases hj : j = s.mSelectedWpIndex
    · rw [if_pos hj, if_pos hj, if_pos trivial, hwp]
      rfl
    · rw [if_neg hj, if_neg hj, if_neg hj]
  rw [hmove]
  refine ⟨?_, ?_, ?_⟩
  · show (moveWaypointPosition w s).mMode = _
    unfold moveWaypointPosition
    rw [if_neg (by simp [hm]), ha]
    dsimp only
    rw [hwp]
    dsimp only
    split_ifs <;> exact hm
  · intro hf
    have hcalls : (moveWaypointPosition w s).calls = s.calls ++
        [Call.waypointSetX a s.mSelectedWpIndex
            (w.worldCursorPosition w.mouseCursorCoords (-(w.deref a).localZ)).x,
          Call.waypointSetY a s.mSelectedWpIndex
            (w.worldCursorPosition w.mouseCursorCoords (-(w.deref a).localZ)).y] := by
      unfold moveWaypointPosition
      rw [if_neg (by simp [hm]), ha]
      dsimp only
      rw [hwp]
      dsimp only
      rw [if_neg (by rw [hf]; decide), if_pos hf]
      rfl
    have hall : (moveWaypointPosition w s).calls ++ [Call.handleMouseMoveEvent] = s.calls ++
        [Call.waypointSetX a s.mSelectedWpIndex
            (w.worldCursorPosition w.mouseCursorCoords (-(w.deref a).localZ)).x,
          Call.waypointSetY a s.mSelectedWpIndex
            (w.worldCursorPosition w.mouseCursorCoords (-(w.deref a).localZ)).y,
          Call.handleMouseMoveEvent] := by
      rw [hcalls, List.append_assoc]
      rfl
    refine ⟨hall, ?_⟩
    intro j
    show waypointAt (afterSetters a (w.deref a).waypoints
      (((moveWaypointPosition w s).calls ++ [Call.handleMouseMoveEvent]).drop s.calls.length)) j = _
    rw [hall, List.drop_left]
    exact hset _ _ j
  · intro hf c hc ll hll
    have hcalls : (moveWaypointPosition w s).calls = s.calls ++
        [Call.waypointSetX a s.mSelectedWpIndex ll.2,
          Call.waypointSetY a s.mSelectedWpIndex ll.1] := by
      unfold moveWaypointPosition
      rw [if_neg (by simp [hm]), ha]
      dsimp only
      rw [hwp]
      dsimp only
      rw [if_pos hf, hll, hc]
    have hall : (moveWaypointPosition w s).calls ++ [Call.handleMouseMoveEvent] = s.calls ++
        [Call.waypointSetX a s.mSelectedWpIndex ll.2,
          Call.waypointSetY a s.mSelectedWpIndex ll.1,
          Call.handleMouseMoveEvent] := by
      rw [hcalls, List.append_assoc]
      rfl
    refine ⟨hall, ?_⟩
    intro j
    show waypointAt (afterSetters a (w.deref a).waypoints
      (((moveWaypointPosition w s).calls ++ [Call.handleMouseMoveEvent]).drop s.calls.length)) j = _
    rw [hall, List.drop_left]
    exact hset _ _ j

/-- C24, at the examples: in the local-NED frame with waypoint 1 selected for
moving and the pointer at (4, 6), a pointer move sets x of the waypoint to 4
and y to 6 and leaves the mode. -/
theorem pointer_move_moves_selected_waypoint_witness :
    demoMoveState.mMode = Mode.MOVE_WAYPOINT_POSITION_MODE ∧
    demoMoveState.mGlobalViewParams.frame = MAV_FRAME.MAV_FRAME_LOCAL_NED ∧
    (mouseMoveEvent demoWorldWaypoint {} demoMoveState).mMode =
      Mode.MOVE_WAYPOINT_POSITION_MODE ∧
    (mouseMoveEvent demoWorldWaypoint {} demoMoveState).calls = demoMoveState.calls ++
      [Call.waypointSetX 0 1 4, Call.waypointSetY 0 1 6, Call.handleMouseMoveEvent] :=
  have h := pointer_move_moves_selected_waypoint demoWorldWaypoint {} demoMoveState 0
    { id := 1, x := 1, y := 1, z := -5 } rfl (by decide!) (by decide!) (by decide!)
  ⟨by decide!, by decide!, h.1, (h.2.1 (by decide!)).1⟩

/-- C30: Cancelling the set-altitude dialog stores nothing.  Confirming it
with the value it was opened with, the stored z of the selected waypoint,
stores that value in the geodetic frame, so z is unchanged there; in the
local-NED frame it stores the negated value, so z changes sign (the altitude
`-z` computed for that frame is not what the dialog is opened with). -/
theorem altitude_dialog_confirm_negates_local_z (w : World) (s : Widget) (a : UASPtr)
    (wp : Waypoint) (ha : s.mActiveUAS = some a)
    (hwp : waypointAt (w.deref a).waypoints s.mSelectedWpIndex = some wp) :
    ((w.getDouble wp.z).2 = false → setWaypointAltitude w s = s) ∧
    (w.getDouble wp.z = (wp.z, true) →
      (s.mGlobalViewParams.frame = MAV_FRAME.MAV_FRAME_GLOBAL →
        (setWaypointAltitude w s).calls =
          s.calls ++ [Call.waypointSetZ a s.mSelectedWpIndex wp.z] ∧
        waypointAt (afterSetters a (w.deref a).waypoints
          [Call.waypointSetZ a s.mSelectedWpIndex wp.z]) s.mSelectedWpIndex = some wp) ∧
      (s.mGlobalViewParams.frame = MAV_FRAME.MAV_FRAME_LOCAL_NED →
        (setWaypointAltitude w s).calls =
          s.calls ++ [Call.waypointSetZ a s.mSelectedWpIndex (-wp.z)] ∧
        waypointAt (afterSetters a (w.deref a).waypoints
          [Call.waypointSetZ a s.mSelectedWpIndex (-wp.z)]) s.mSelectedWpIndex =
            some { wp with z := -wp.z })) := by
  have hset : ∀ v : double, waypointAt (afterSetters a (w.deref a).waypoints
      [Call.waypointSetZ a s.mSelectedWpIndex v]) s.mSelectedWpIndex =
        some { wp with z := v } := by
    intro v
    simp only [afterSetters, List.foldl, applySetter, if_true]
    rw [waypointAt_modifyAt, if_pos rfl, hwp]
    rfl
  refine ⟨?_, ?_⟩
  · intro hc
    simp [setWaypointAltitude, ha, hwp, hc]
  · intro hc
    refine ⟨?_, ?_⟩
    · intro hf
      refine ⟨?_, hset wp.z⟩
      simp [setWaypointAltitude, ha, hwp, hc, hf]
    · intro hf
      refine ⟨?_, hset (-wp.z)⟩
      simp [setWaypointAltitude, ha, hwp, hc, hf]

/-- C30, at the examples: in the local-NED frame waypoint 1 has z = -5; the
dialog is confirmed with -5 and the handler stores 5. -/
theorem altitude_dialog_confirm_negates_local_z_witness :
    waypointAt (demoWorldWaypoint.deref 0).waypoints demoMoveState.mSelectedWpIndex =
      some { id := 1, x := 1, y := 1, z := -5 } ∧
    demoWorldWaypoint.getDouble (-5) = (-5, true) ∧
    (setWaypointAltitude demoWorldWaypoint demoMoveState).calls =
      demoMoveState.calls ++ [Call.waypointSetZ 0 1 5] ∧
    waypointAt (afterSetters 0 (demoWorldWaypoint.deref 0).waypoints
      [Call.waypointSetZ 0 1 5]) 1 = some { id := 1, x := 1, y := 1, z := 5 } :=
  have h := altitude_dialog_confirm_negates_local_z demoWorldWaypoint demoMoveState 0
    { id := 1, x := 1, y := 1, z := -5 } (by decide!) (by decide!)
  ⟨by decide!, rfl, ((h.2 rfl).2 (by decide!)).1, ((h.2 rfl).2 (by decide!)).2⟩

/-! ## Facts about the mode and the active vehicle -/

/-- Every handler but `activeSystemChanged` and the two handlers of the pointer
keeps the mode, the active vehicle and its id. -/
theorem step_controls (e : Event) (s : Widget) :
    ((step s e).mMode = s.mMode ∧ (step s e).mActiveUAS = s.mActiveUAS ∧
      (step s e).mActiveSystemId = s.mActiveSystemId) ∨
    (∃ w uas, e = Event.activeSystemChanged w uas) ∨
    (∃ w event, e = Event.mousePressEvent w event) ∨
    (∃ w event, e = Event.mouseMoveEvent w event) := by
  cases e with
  | systemCreated w uas =>
    left
    simp only [step]
    unfold systemCreated
    dsimp only
    split_ifs <;> exact ⟨rfl, rfl, rfl⟩
  | localPositionChanged uas component x y z =>
    left
    simp only [step]
    unfold localPositionChanged
    dsimp only
    split_ifs <;> exact ⟨rfl, rfl, rfl⟩
  | update w =>
    left
    have h := update_controls w s
    exact ⟨h.2.2.1, h.1, h.2.1⟩
  | editSystemViewParams systemId p =>
    left
    simp only [step]
    unfold editSystemViewParams
    split_ifs <;> exact ⟨rfl, rfl, rfl⟩
  | editGlobalViewParams p => exact Or.inl ⟨rfl, rfl, rfl⟩
  | activeSystemChanged w uas => exact Or.inr (Or.inl ⟨w, uas, rfl⟩)
  | followCameraChanged w systemId =>
    left
    simp only [step]
    unfold followCameraChanged
    dsimp only
    split
    · split_ifs <;> exact ⟨rfl, rfl, rfl⟩
    · split_ifs <;> exact ⟨rfl, rfl, rfl⟩
  | attitudeChanged uas component roll pitch yaw =>
    left
    simp only [step]
    unfold attitudeChanged
    dsimp only
    split_ifs <;> exact ⟨rfl, rfl, rfl⟩
  | recenterActiveCamera w =>
    left
    simp only [step]
    unfold recenterActiveCamera
    split_ifs
    · split <;> exact ⟨rfl, rfl, rfl⟩
    · exact ⟨rfl, rfl, rfl⟩
  | setBirdEyeView => exact Or.inl ⟨rfl, rfl, rfl⟩
  | modelChanged systemId index =>
    left
    simp only [step]
    unfold modelChanged
    dsimp only
    split_ifs <;> exact ⟨rfl, rfl, rfl⟩
  | mousePressEvent w event => exact Or.inr (Or.inr (Or.inl ⟨w, event, rfl⟩))
  | mouseMoveEvent w event => exact Or.inr (Or.inr (Or.inr ⟨w, event, rfl⟩))
  | passive handler => exact Or.inl ⟨rfl, rfl, rfl⟩

/-- The handlers of the pointer keep the active vehicle and its id. -/
theorem interacted_active {w : World} {s t : Widget} (h : interacted w s t) :
    t.mActiveUAS = s.mActiveUAS ∧ t.mActiveSystemId = s.mActiveSystemId :=
  ⟨h.1, h.2.1⟩

theorem step_select_has_active (e : Event) (s : Widget)
    (hs : s.mMode = Mode.SELECT_TARGET_HEADING_MODE → ∃ a, s.mActiveUAS = some a)
    (ht : (step s e).mMode = Mode.SELECT_TARGET_HEADING_MODE) :
    ∃ a, (step s e).mActiveUAS = some a := by
  have hi : ∀ (w : World) (t : Widget), interacted w s t → t.mMode = Mode.SELECT_TARGET_HEADING_MODE →
      ∃ a, t.mActiveUAS = some a := by
    intro w t h hm
    rw [h.1]
    rcases h.2.2.2.2.2.2.2.2.2.1 hm with h' | h'
    · exact hs h'
    · exact h'
  rcases step_controls e s with h | ⟨w, uas, rfl⟩ | ⟨w, event, rfl⟩ | ⟨w, event, rfl⟩
  · rw [h.2.1]
    rw [h.1] at ht
    exact hs ht
  · exact ⟨uas, rfl⟩
  · exact hi w _ (mousePressEvent_interacted w event s) ht
  · exact hi w _ (mouseMoveEvent_interacted w event s) ht

theorem run_select_has_active (events : List Event) :
    ∀ s : Widget, (s.mMode = Mode.SELECT_TARGET_HEADING_MODE → ∃ a, s.mActiveUAS = some a) →
      (run s events).mMode = Mode.SELECT_TARGET_HEADING_MODE →
      ∃ a, (run s events).mActiveUAS = some a :=
  fun s => foldl_invariant
    (fun s : Widget => s.mMode = Mode.SELECT_TARGET_HEADING_MODE → ∃ a, s.mActiveUAS = some a)
    step (fun s e h => step_select_has_active e s h) events s

/-! ## Reachable states: results -/

/-- C26: In every state reached from the constructed widget through its
handlers, the mode `SELECT_TARGET_HEADING_MODE` comes with an active vehicle;
so `setTarget`, which a left press calls in that mode only, finds the active
vehicle, passes its dereference and sends the target to that vehicle. -/
theorem select_heading_mode_has_active_vehicle (events : List Event)
    (h : (run init events).mMode = Mode.SELECT_TARGET_HEADING_MODE) :
    ∃ a, (run init events).mActiveUAS = some a ∧
      ∀ w : World, ∃ x y z yaw,
        (setTarget w (run init events)).calls =
          (selectTargetHeading w (run init events)).calls ++
            [Call.setTargetPosition a x y z yaw] := by
  obtain ⟨a, ha⟩ := run_select_has_active events init (fun h0 => by cases h0) h
  refine ⟨a, ha, ?_⟩
  intro w
  have h1 : (selectTargetHeading w (run init events)).mActiveUAS = some a :=
    (selectTargetHeading_interacted w (run init events)).1.trans ha
  unfold setTarget
  dsimp only
  rw [h1]
  exact ⟨_, _, _, _, rfl⟩

/-- C26, at the examples: after the vehicle is created and made the active one
and "Select target" is chosen, the mode is `SELECT_TARGET_HEADING_MODE` and
there is an active vehicle. -/
theorem select_heading_mode_has_active_vehicle_witness :
    (run init demoSelectEvents).mMode = Mode.SELECT_TARGET_HEADING_MODE ∧
    ∃ a, (run init demoSelectEvents).mActiveUAS = some a ∧
      ∀ w : World, ∃ x y z yaw,
        (setTarget w (run init demoSelectEvents)).calls =
          (selectTargetHeading w (run init demoSelectEvents)).calls ++
            [Call.setTargetPosition a x y z yaw] :=
  ⟨by decide!, select_heading_mode_has_active_vehicle demoSelectEvents (by decide!)⟩

/-! ## Facts about the sizes and the order of `QMap` -/

theorem QMap.length_insert_pos {V : Type} (m : QMap V) (k : Int) (v : V) :
    0 < (QMap.insert m k v).length := by
  cases m with
  | nil => simp [QMap.insert]
  | cons e t =>
    obtain ⟨k', v'⟩ := e
    unfold QMap.insert
    split_ifs <;> simp

theorem QMap.length_insert_le {V : Type} (m : QMap V) (k : Int) (v : V) :
    (QMap.insert m k v).length ≤ m.length + 1 := by
  induction m with
  | nil => simp [QMap.insert]
  | cons e t ih =>
    obtain ⟨k', v'⟩ := e
    unfold QMap.insert
    split_ifs
    · simp
    · simp
    · simp only [List.length_cons]
      omega

theorem QMap.ordered_insert {V : Type} {m : QMap V} (hm : QMap.ordered m) (k : Int) (v : V) :
    QMap.ordered (QMap.insert m k v) := by
  induction m with
  | nil => simp [QMap.insert, QMap.ordered]
  | cons e t ih =>
    obtain ⟨k', v'⟩ := e
    unfold QMap.ordered at hm
    rw [List.pairwise_cons] at hm
    unfold QMap.insert
    by_cases h1 : k < k'
    · rw [if_pos h1]
      unfold QMap.ordered
      rw [List.pairwise_cons]
      refine ⟨?_, List.pairwise_cons.2 hm⟩
      intro a ha
      rcases List.mem_cons.1 ha with h | h
      · rw [h]
        exact h1
      · exact lt_trans h1 (hm.1 a h)
    · rw [if_neg h1]
      by_cases h2 : k = k'
      · rw [if_pos h2]
        unfold QMap.ordered
        rw [List.pairwise_cons]
        refine ⟨?_, hm.2⟩
        intro a ha
        rw [h2]
        exact hm.1 a ha
      · rw [if_neg h2]
        unfold QMap.ordered
        rw [List.pairwise_cons]
        refine ⟨?_, ih hm.2⟩
        intro a ha
        rcases QMap.mem_insert ha with h | h
        · rw [h]
          show k' < k
          omega
        · exact hm.1 a h

theorem QMap.length_insert_of_contains {V : Type} {m : QMap V} (hm : QMap.ordered m) {k : Int}
    (h : QMap.contains m k = true) (v : V) : (QMap.insert m k v).length = m.length := by
  induction m with
  | nil => simp [QMap.contains, QMap.find?] at h
  | cons e t ih =>
    obtain ⟨k', v'⟩ := e
    unfold QMap.ordered at hm
    rw [List.pairwise_cons] at hm
    unfold QMap.insert
    by_cases h2 : k = k'
    · have h1 : ¬ k < k' := by omega
      rw [if_neg h1, if_pos h2]
      rfl
    · have ht : QMap.contains t k = true := by
        simpa [QMap.contains, QMap.find?, h2] using h
      have h1 : ¬ k < k' := by
        intro hlt
        obtain ⟨x, hx⟩ := Option.isSome_iff_exists.mp ht
        have := hm.1 _ (QMap.mem_of_find? hx)
        simp only at this
        omega
      rw [if_neg h1, if_neg h2]
      simp only [List.length_cons]
      rw [ih hm.2 ht]

theorem QMap.ordered_modify {V : Type} [Inhabited V] {m : QMap V} (hm : QMap.ordered m)
    (k : Int) (f : V → V) : QMap.ordered (QMap.modify m k f) :=
  QMap.ordered_insert hm k _

theorem QMap.length_modify_of_contains {V : Type} [Inhabited V] {m : QMap V}
    (hm : QMap.ordered m) {k : Int} (h : QMap.contains m k = true) (f : V → V) :
    (QMap.modify m k f).length = m.length :=
  QMap.length_insert_of_contains hm h _

theorem QMap.contains_of_mem_keys {V : Type} {m : QMap V} {k : Int} (h : k ∈ QMap.keys m) :
    QMap.contains m k = true := by
  induction m with
  | nil => simp [QMap.keys] at h
  | cons e t ih =>
    obtain ⟨k', v'⟩ := e
    by_cases h2 : k = k'
    · simp [QMap.contains, QMap.find?, h2]
    · have ht : k ∈ QMap.keys t := by
        simpa [QMap.keys, h2] using h
      have := ih ht
      simpa [QMap.contains, QMap.find?, h2] using this

theorem foldl_invariant_mem {σ κ : Type} (P : σ → Prop) (f : σ → κ → σ) (l : List κ)
    (h : ∀ s k, k ∈ l → P s → P (f s k)) : ∀ s : σ, P s → P (l.foldl f s) := by
  induction l with
  | nil => intro s hs; exact hs
  | cons k t ih =>
    intro s hs
    exact ih (fun s' k' hk' => h s' k' (List.mem_cons_of_mem _ hk')) (f s k)
      (h s k (List.mem_cons_self _ _) hs)

/-! ## Facts about the drawables of the trail node -/

theorem setVertexArray_length (d : List Drawable) (i : Int) (v : List Vec3d) :
    (setVertexArray d i v).length = d.length := by
  unfold setVertexArray
  split_ifs
  · rfl
  · split
    · simp
    · rfl

theorem setVertexArray_get?_of_ne (d : List Drawable) (i : Int) (v : List Vec3d) (j : Nat)
    (h : i ≠ (j : Int)) : (setVertexArray d i v).get? j = d.get? j := by
  unfold setVertexArray
  split_ifs with h0
  · rfl
  · split
    · simp only [List.get?_eq_getElem?]
      apply List.getElem?_set_ne
      intro hij
      apply h
      rw [← hij]
      exact (Int.toNat_of_nonneg (not_lt.mp h0)).symm
    · rfl

theorem setVertexArray_get?_self (d : List Drawable) (j : Nat) (v : List Vec3d)
    (h : j < d.length) :
    ((setVertexArray d (j : Int) v).get? j).map Drawable.vertices = some v := by
  unfold setVertexArray
  rw [if_neg (by omega)]
  simp only [Int.toNat_ofNat, List.get?_eq_getElem?]
  rw [List.getElem?_eq_getElem h]
  dsimp only
  rw [List.getElem?_set_self h]
  rfl

theorem updateTrails_length (x y z : double) (tm : QMap (QVector Vec3d))
    (tim : QMap Int) : ∀ d : List Drawable, (updateTrails x y z d tm tim).length = d.length := by
  unfold updateTrails
  induction tim with
  | nil => intro d; rfl
  | cons e t ih =>
    intro d
    rw [List.foldl_cons, ih]
    dsimp only
    rw [setVertexArray_length, setVertexArray_length]

/-- A drawable no entry of the trail index map names is left as it is. -/
theorem updateTrails_get?_of_ne (x y z : double) (tm : QMap (QVector Vec3d))
    (j : Nat) (tim : QMap Int) :
    ∀ d : List Drawable, (∀ e ∈ tim, e.2 * 2 ≠ (j : Int) ∧ e.2 * 2 + 1 ≠ (j : Int)) →
      (updateTrails x y z d tm tim).get? j = d.get? j := by
  unfold updateTrails
  induction tim with
  | nil => intro d _; rfl
  | cons e t ih =>
    intro d h
    rw [List.foldl_cons, ih _ (fun e' he' => h e' (List.mem_cons_of_mem _ he'))]
    dsimp only
    have he := h e (List.mem_cons_self _ _)
    rw [setVertexArray_get?_of_ne _ _ _ _ he.2, setVertexArray_get?_of_ne _ _ _ _ he.1]

theorem updateTrails_append (x y z : double) (tm : QMap (QVector Vec3d))
    (pre post : QMap Int) (d : List Drawable) :
    updateTrails x y z d tm (pre ++ post) =
      updateTrails x y z (updateTrails x y z d tm pre) tm post := by
  unfold updateTrails
  rw [List.foldl_append]

theorem updateTrails_cons (x y z : double) (tm : QMap (QVector Vec3d))
    (e : Int × Int) (post : QMap Int) (d : List Drawable) :
    updateTrails x y z d tm (e :: post) =
      updateTrails x y z
        (setVertexArray (setVertexArray d (e.2 * 2) (trailVertices x y z (QMap.value tm e.1)))
          (e.2 * 2 + 1) (linkVertices x y z (QMap.value tm e.1))) tm post := by
  unfold updateTrails
  rw [List.foldl_cons]

/-- After `updateTrails`, the two drawables of an entry of the trail index map
whose value names a pair of drawables hold the trail vertices and the link
vertices of the trail of its key, when no entry behind it in the map has the
same value. -/
theorem updateTrails_get?_last (x y z : double) (tm : QMap (QVector Vec3d))
    (pre post : QMap Int) (e : Int × Int) (d : List Drawable)
    (hr : 0 ≤ e.2 ∧ 2 * e.2 + 1 < (d.length : Int)) (hp : ∀ e' ∈ post, e'.2 ≠ e.2) :
    ((updateTrails x y z d tm (pre ++ e :: post)).get? (e.2 * 2).toNat).map Drawable.vertices =
        some (trailVertices x y z (QMap.value tm e.1)) ∧
      ((updateTrails x y z d tm (pre ++ e :: post)).get? (e.2 * 2 + 1).toNat).map
          Drawable.vertices =
        some (linkVertices x y z (QMap.value tm e.1)) := by
  rw [updateTrails_append, updateTrails_cons]
  have hlen := updateTrails_length x y z tm pre d
  generalize updateTrails x y z d tm pre = d1 at hlen
  rw [← hlen] at hr
  have hne : ∀ e' ∈ post, ∀ j : Nat, ((j : Int) = e.2 * 2 ∨ (j : Int) = e.2 * 2 + 1) →
      e'.2 * 2 ≠ (j : Int) ∧ e'.2 * 2 + 1 ≠ (j : Int) := by
    intro e' he' j hj
    have h1 := hp e' he'
    constructor <;> omega
  have hn1 : ((e.2 * 2).toNat : Int) = e.2 * 2 := Int.toNat_of_nonneg (by omega)
  have hn2 : ((e.2 * 2 + 1).toNat : Int) = e.2 * 2 + 1 := Int.toNat_of_nonneg (by omega)
  constructor
  · rw [updateTrails_get?_of_ne x y z tm _ post _ (fun e' he' => hne e' he' _ (Or.inl hn1))]
    rw [setVertexArray_get?_of_ne _ _ _ _ (by omega)]
    have := setVertexArray_get?_self d1 (e.2 * 2).toNat
      (trailVertices x y z (QMap.value tm e.1)) (by omega)
    rw [hn1] at this
    exact this
  · rw [updateTrails_get?_of_ne x y z tm _ post _ (fun e' he' => hne e' he' _ (Or.inr hn2))]
    have := setVertexArray_get?_self
      (setVertexArray d1 (e.2 * 2) (trailVertices x y z (QMap.value tm e.1)))
      (e.2 * 2 + 1).toNat (linkVertices x y z (QMap.value tm e.1))
      (by rw [setVertexArray_length]; omega)
    rw [hn2] at this
    exact this

/-! ## Facts about the round of one vehicle -/

theorem updateSensors_nodes_kept (w : World) (uas : Option UAS) (frame : MAV_FRAME)
    (x y z : double) (p : SystemViewParams) (c : SystemContainer) :
    (updateSensors w uas frame x y z p c).localGridNode = c.localGridNode ∧
      (updateSensors w uas frame x y z p c).waypointGroupNode = c.waypointGroupNode ∧
      (updateSensors w uas frame x y z p c).rgbImageNode = c.rgbImageNode ∧
      (updateSensors w uas frame x y z p c).depthImageNode = c.depthImageNode ∧
      (updateSensors w uas frame x y z p c).pointCloudNode = c.pointCloudNode := by
  unfold updateSensors
  dsimp only
  split_ifs <;> simp

/-- The view parameters and the container of a vehicle after its round of the
second loop of `update`, member by member. -/
theorem updateSystemData_result (w : World) (uas : Option UAS) (frame : MAV_FRAME) (b : Bool)
    (p : SystemViewParams) (c : SystemContainer) :
    (updateSystemData w uas frame b p c).1.displayTarget =
        (p.displayTarget && !c.target.isNull) ∧
      (updateSystemData w uas frame b p c).2.target = c.target ∧
      (updateSystemData w uas frame b p c).2.targetNode =
        (if p.displayTarget = true ∧ c.target.isNull = false then
          c.targetNode.map (updateTarget
            (getPose6 w.LLtoUTM uas frame 0 0 0 0 0 0).1
            (getPose6 w.LLtoUTM uas frame 0 0 0 0 0 0).2.1
            (getPose6 w.LLtoUTM uas frame 0 0 0 0 0 0).2.2.1 c.target)
        else c.targetNode) ∧
      (updateSystemData w uas frame b p c).2.trailIndexMap = c.trailIndexMap ∧
      (updateSystemData w uas frame b p c).2.trailMap =
        (if p.displayTrails then c.trailMap else []) ∧
      (updateSystemData w uas frame b p c).2.trailNode =
        (if p.displayTrails then
          c.trailNode.map (fun d => updateTrails
            (getPose6 w.LLtoUTM uas frame 0 0 0 0 0 0).1
            (getPose6 w.LLtoUTM uas frame 0 0 0 0 0 0).2.1
            (getPose6 w.LLtoUTM uas frame 0 0 0 0 0 0).2.2.1 d c.trailMap c.trailIndexMap)
        else c.trailNode) ∧
      (updateSystemData w uas frame b p c).2.localGridNode = c.localGridNode ∧
      (updateSystemData w uas frame b p c).2.waypointGroupNode = c.waypointGroupNode ∧
      (updateSystemData w uas frame b p c).2.rgbImageNode = c.rgbImageNode ∧
      (updateSystemData w uas frame b p c).2.depthImageNode = c.depthImageNode ∧
      (updateSystemData w uas frame b p c).2.pointCloudNode = c.pointCloudNode := by
  unfold updateSystemData
  by_cases h1 : p.displayTarget = true <;>
    by_cases h2 : c.target.isNull = true <;>
    by_cases h3 : p.displayTrails = true <;>
    cases b <;>
    simp [h1, h2, h3, updateSensors_frame, updateSensors_nodes_kept]

/-- The maps after one round of the second loop of `update`. -/
theorem updateSystem_maps (w : World) (frame : MAV_FRAME) (s : Widget) (k : Int) :
    (updateSystem w frame s k).mSystemViewParamMap =
        QMap.insert s.mSystemViewParamMap k
          (updateSystemData w ((w.getUASForId k).map w.deref) frame s.pixhawkMessages
            (QMap.value s.mSystemViewParamMap k)
            (QMap.value (QMap.touch s.mSystemContainerMap k) k)).1 ∧
      (updateSystem w frame s k).mSystemContainerMap =
        QMap.insert (QMap.touch s.mSystemContainerMap k) k
          (updateSystemData w ((w.getUASForId k).map w.deref) frame s.pixhawkMessages
            (QMap.value s.mSystemViewParamMap k)
            (QMap.value (QMap.touch s.mSystemContainerMap k) k)).2 ∧
      (updateSystem w frame s k).pixhawkMessages = s.pixhawkMessages :=
  ⟨rfl, rfl, rfl⟩

theorem foldl_updateVisibility_maps (keys : List Int) :
    ∀ s : Widget,
      (keys.foldl updateVisibility s).mSystemViewParamMap = s.mSystemViewParamMap ∧
      (keys.foldl updateVisibility s).mSystemContainerMap =
        keys.foldl QMap.touch s.mSystemContainerMap ∧
      (keys.foldl updateVisibility s).pixhawkMessages = s.pixhawkMessages := by
  induction keys with
  | nil => intro s; exact ⟨rfl, rfl, rfl⟩
  | cons k t ih => intro s; exact ih (updateVisibility s k)

/-- An invariant of the two maps that each write of the tick keeps holds after
the tick: the first loop looks every key of the view parameters up in the
container map, and the round of a vehicle in the second loop stores its view
parameters and its container. -/
theorem update_maps_induction (w : World) (s : Widget)
    (P : QMap SystemViewParams → QMap SystemContainer → Prop)
    (hvis : ∀ c k, k ∈ QMap.keys s.mSystemViewParamMap → P s.mSystemViewParamMap c →
      P s.mSystemViewParamMap (QMap.touch c k))
    (hsys : ∀ vp c k, k ∈ QMap.keys s.mSystemViewParamMap → P vp c →
      P (QMap.insert vp k
          (updateSystemData w ((w.getUASForId k).map w.deref) s.mGlobalViewParams.frame
            s.pixhawkMessages (QMap.value vp k) (QMap.value (QMap.touch c k) k)).1)
        (QMap.insert (QMap.touch c k) k
          (updateSystemData w ((w.getUASForId k).map w.deref) s.mGlobalViewParams.frame
            s.pixhawkMessages (QMap.value vp k) (QMap.value (QMap.touch c k) k)).2))
    (h0 : P s.mSystemViewParamMap s.mSystemContainerMap) :
    P (update w s).mSystemViewParamMap (update w s).mSystemContainerMap := by
  have hv := foldl_updateVisibility_maps (QMap.keys s.mSystemViewParamMap)
    { s with
      m3DWidget := { s.m3DWidget with
        worldGridValue := s.mGlobalViewParams.displayWorldGrid
        imageryValue :=
          if s.mGlobalViewParams.imageryType = ImageryType.BLANK_MAP then false else true } }
  have hvp := hv.1
  have hvc := hv.2.1
  have hvb := hv.2.2
  simp only at hvp hvc hvb
  have h1 : P s.mSystemViewParamMap
      ((QMap.keys s.mSystemViewParamMap).foldl QMap.touch s.mSystemContainerMap) :=
    foldl_invariant_mem (fun c => P s.mSystemViewParamMap c) QMap.touch _
      (fun c k hk hc => hvis c k hk hc) _ h0
  have h2 : ∀ t : Widget,
      (P t.mSystemViewParamMap t.mSystemContainerMap ∧
        t.pixhawkMessages = s.pixhawkMessages) →
      (P ((QMap.keys s.mSystemViewParamMap).foldl
            (updateSystem w s.mGlobalViewParams.frame) t).mSystemViewParamMap
          ((QMap.keys s.mSystemViewParamMap).foldl
            (updateSystem w s.mGlobalViewParams.frame) t).mSystemContainerMap ∧
        ((QMap.keys s.mSystemViewParamMap).foldl
            (updateSystem w s.mGlobalViewParams.frame) t).pixhawkMessages =
          s.pixhawkMessages) := by
    apply foldl_invariant_mem
      (fun t : Widget => P t.mSystemViewParamMap t.mSystemContainerMap ∧
        t.pixhawkMessages = s.pixhawkMessages)
    intro t k hk ht
    have hm := updateSystem_maps w s.mGlobalViewParams.frame t k
    rw [hm.1, hm.2.1, hm.2.2, ht.2]
    exact ⟨hsys _ _ k hk ht.1, rfl⟩
  unfold update
  dsimp only
  rw [updateCamera_mSystemViewParamMap]
  simp only [hvp]
  apply (h2 _ _).1
  rw [updateCamera_mSystemViewParamMap, updateCamera_mSystemContainerMap,
    (updateCamera_fields _ _ _).1]
  refine ⟨?_, hvb⟩
  simp only [hvp, hvc]
  exact h1

theorem QMap.forall_mem_insert {V : Type} {I : V → Prop} {m : QMap V}
    (hm : ∀ e ∈ m, I e.2) (k : Int) {v : V} (hv : I v) : ∀ e ∈ QMap.insert m k v, I e.2 := by
  intro e he
  rcases QMap.mem_insert he with h | h
  · rw [h]
    exact hv
  · exact hm e h

theorem QMap.forall_mem_value {V : Type} [Inhabited V] {I : V → Prop} {m : QMap V}
    (hd : I default) (hm : ∀ e ∈ m, I e.2) (k : Int) : I (QMap.value m k) := by
  rcases QMap.value_eq_default_or_mem m k with h | h
  · rw [h]
    exact hd
  · exact hm _ h

/-- The maps after `initializeSystem`: the container stored for the vehicle
has the scene nodes set, an empty trail node, and the trails and trail indices
of the container it replaces. -/
theorem initializeSystem_maps (w : World) (systemId : Int) (color : QColor) (s : Widget) :
    ∃ (d : SystemContainer) (q : SystemViewParams),
      (initializeSystem w systemId color s).mSystemContainerMap =
        QMap.insert (QMap.touch s.mSystemContainerMap systemId) systemId d ∧
      (initializeSystem w systemId color s).mSystemViewParamMap =
        QMap.insert (QMap.touch s.mSystemViewParamMap systemId) systemId q ∧
      d.trailMap = (QMap.value (QMap.touch s.mSystemContainerMap systemId) systemId).trailMap ∧
      d.trailIndexMap =
        (QMap.value (QMap.touch s.mSystemContainerMap systemId) systemId).trailIndexMap ∧
      d.trailNode = some [] ∧ d.initialised := by
  unfold initializeSystem
  dsimp only
  refine ⟨_, _, rfl, rfl, ?_, ?_, ?_, ?_⟩
  · cases s.pixhawkMessages <;> rfl
  · cases s.pixhawkMessages <;> rfl
  · cases s.pixhawkMessages <;> rfl
  · cases s.pixhawkMessages <;> exact ⟨rfl, rfl, rfl, rfl, rfl, rfl, rfl⟩

/-- The maps after `systemCreated`: nothing changes for a tracked vehicle; for
a new one both maps get an entry under its id, and the container is
initialised, with an empty trail node and no trail. -/
theorem systemCreated_maps (w : World) (uas : UAS) (s : Widget) :
    (QMap.contains s.mSystemContainerMap uas.uasId = true ∧ systemCreated w uas s = s) ∨
    (QMap.contains s.mSystemContainerMap uas.uasId = false ∧
      ∃ (d : SystemContainer) (q : SystemViewParams),
        (systemCreated w uas s).mSystemContainerMap =
          QMap.insert s.mSystemContainerMap uas.uasId d ∧
        (systemCreated w uas s).mSystemViewParamMap =
          QMap.insert s.mSystemViewParamMap uas.uasId q ∧
        d.trailMap = [] ∧ d.trailIndexMap = [] ∧ d.trailNode = some [] ∧ d.initialised) := by
  by_cases h : QMap.contains s.mSystemContainerMap uas.uasId = true
  · left
    refine ⟨h, ?_⟩
    unfold systemCreated
    show (if QMap.contains s.mSystemContainerMap uas.uasId = true then s else _) = s
    rw [if_pos h]
  · right
    refine ⟨by simpa using h, ?_⟩
    obtain ⟨d, q, h1, h2, h3, h4, h5, h6⟩ := initializeSystem_maps w uas.uasId uas.getColor
      { s with
        mSystemViewParamMap :=
          QMap.insert s.mSystemViewParamMap uas.uasId (w.newSystemViewParams uas.uasId)
        mSystemContainerMap := QMap.insert s.mSystemContainerMap uas.uasId {}
        calls := s.calls ++ [Call.connectPosition uas, Call.connectAttitude uas] }
    simp only at h1 h2 h3 h4
    rw [QMap.touch_of_contains (QMap.contains_insert_self _ _ _), QMap.insert_insert] at h1 h2
    rw [QMap.touch_of_contains (QMap.contains_insert_self _ _ _), QMap.value_insert_self] at h3 h4
    refine ⟨d, q, ?_, ?_, h3, h4, h5, h6⟩
    · unfold systemCreated
      show (if QMap.contains s.mSystemContainerMap uas.uasId = true then s
        else _).mSystemContainerMap = _
      rw [if_neg h]
      exact h1
    · unfold systemCreated
      show (if QMap.contains s.mSystemContainerMap uas.uasId = true then s
        else _).mSystemViewParamMap = _
      rw [if_neg h]
      exact h2

/-- The maps after `localPositionChanged`. -/
theorem localPositionChanged_maps (uas : UAS) (component : Int) (x y z : double) (s : Widget) :
    (localPositionChanged uas component x y z s).mSystemViewParamMap = s.mSystemViewParamMap ∧
    ((QMap.contains s.mSystemContainerMap uas.uasId = false ∧
        (localPositionChanged uas component x y z s).mSystemContainerMap =
          s.mSystemContainerMap) ∨
      (QMap.contains s.mSystemContainerMap uas.uasId = true ∧
        (localPositionChanged uas component x y z s).mSystemContainerMap =
          QMap.insert s.mSystemContainerMap uas.uasId
            (updateTrailData uas component x y z
              (QMap.value s.mSystemContainerMap uas.uasId)))) := by
  unfold localPositionChanged
  by_cases h : QMap.contains s.mSystemContainerMap uas.uasId = true
  · refine ⟨?_, Or.inr ⟨h, ?_⟩⟩
    · show (if ¬ QMap.contains s.mSystemContainerMap uas.uasId = true then s
        else _).mSystemViewParamMap = _
      rw [if_neg (not_not.2 h)]
    · show (if ¬ QMap.contains s.mSystemContainerMap uas.uasId = true then s
        else _).mSystemContainerMap = _
      rw [if_neg (not_not.2 h)]
      rfl
  · refine ⟨?_, Or.inl ⟨by simpa using h, ?_⟩⟩
    · show (if ¬ QMap.contains s.mSystemContainerMap uas.uasId = true then s
        else _).mSystemViewParamMap = _
      rw [if_pos h]
    · show (if ¬ QMap.contains s.mSystemContainerMap uas.uasId = true then s
        else _).mSystemContainerMap = _
      rw [if_pos h]

/-- The handlers that write to no map. -/
theorem step_maps_of_other (e : Event) (s : Widget) :
    ((step s e).mSystemContainerMap = s.mSystemContainerMap ∧
      ((step s e).mSystemViewParamMap = s.mSystemViewParamMap ∨
        ∃ k p, QMap.contains s.mSystemViewParamMap k = true ∧
          (step s e).mSystemViewParamMap = QMap.modify s.mSystemViewParamMap k (fun _ => p))) ∨
    (∃ w uas, e = Event.systemCreated w uas) ∨
    (∃ uas component x y z, e = Event.localPositionChanged uas component x y z) ∨
    (∃ w, e = Event.update w) ∨
    (∃ systemId index, e = Event.modelChanged systemId index) ∨
    (∃ w event, e = Event.mousePressEvent w event) ∨
    (∃ w event, e = Event.mouseMoveEvent w event) := by
  cases e with
  | systemCreated w uas => exact Or.inr (Or.inl ⟨w, uas, rfl⟩)
  | localPositionChanged uas component x y z =>
    exact Or.inr (Or.inr (Or.inl ⟨uas, component, x, y, z, rfl⟩))
  | update w => exact Or.inr (Or.inr (Or.inr (Or.inl ⟨w, rfl⟩)))
  | editSystemViewParams systemId p =>
    left
    simp only [step]
    unfold editSystemViewParams
    by_cases h : QMap.contains s.mSystemViewParamMap systemId = true
    · rw [if_pos h]
      exact ⟨rfl, Or.inr ⟨systemId, p, h, rfl⟩⟩
    · rw [if_neg h]
      exact ⟨rfl, Or.inl rfl⟩
  | editGlobalViewParams p => exact Or.inl ⟨rfl, Or.inl rfl⟩
  | activeSystemChanged w uas => exact Or.inl ⟨rfl, Or.inl rfl⟩
  | followCameraChanged w systemId =>
    left
    simp only [step]
    unfold followCameraChanged
    dsimp only
    split
    · split_ifs <;> exact ⟨rfl, Or.inl rfl⟩
    · split_ifs <;> exact ⟨rfl, Or.inl rfl⟩
  | attitudeChanged uas component roll pitch yaw =>
    left
    simp only [step]
    unfold attitudeChanged
    dsimp only
    split_ifs <;> exact ⟨rfl, Or.inl rfl⟩
  | recenterActiveCamera w =>
    left
    simp only [step]
    unfold recenterActiveCamera
    split_ifs
    · split <;> exact ⟨rfl, Or.inl rfl⟩
    · exact ⟨rfl, Or.inl rfl⟩
  | setBirdEyeView => exact Or.inl ⟨rfl, Or.inl rfl⟩
  | modelChanged systemId index =>
    exact Or.inr (Or.inr (Or.inr (Or.inr (Or.inl ⟨systemId, index, rfl⟩))))
  | mousePressEvent w event =>
    exact Or.inr (Or.inr (Or.inr (Or.inr (Or.inr (Or.inl ⟨w, event, rfl⟩)))))
  | mouseMoveEvent w event =>
    exact Or.inr (Or.inr (Or.inr (Or.inr (Or.inr (Or.inr ⟨w, event, rfl⟩)))))
  | passive handler => exact Or.inl ⟨rfl, Or.inl rfl⟩

/-- A property of containers that a new container has, that `initializeSystem`
establishes, and that the writes of the handlers to a container keep, holds
for every container after the tick when it held before. -/
theorem update_forall_mem {I : SystemContainer → Prop} (hd : I default)
    (hsys : ∀ w uas frame b p c, I c → I (updateSystemData w uas frame b p c).2)
    (w : World) {s : Widget} (hs : ∀ e ∈ s.mSystemContainerMap, I e.2) :
    ∀ e ∈ (update w s).mSystemContainerMap, I e.2 := by
  apply update_maps_induction w s (fun _ c => ∀ e ∈ c, I e.2) ?_ ?_ hs
  · intro c k _ hc e he
    rcases QMap.mem_touch he with h | h
    · rw [h]
      exact hd
    · exact hc e h
  · intro vp c k _ hc
    have ht : ∀ e ∈ QMap.touch c k, I e.2 := by
      intro e he
      rcases QMap.mem_touch he with h | h
      · rw [h]
        exact hd
      · exact hc e h
    exact QMap.forall_mem_insert ht k (hsys _ _ _ _ _ _ (QMap.forall_mem_value hd ht k))

/-- A property of containers that a new container has, that `initializeSystem`
establishes, and that the writes of the handlers to a container keep, holds
for every container after an event when it held before. -/
theorem step_forall_mem {I : SystemContainer → Prop} (hd : I default)
    (ht : ∀ c t, I c → I { c with target := t })
    (hn : ∀ c n, I c → I { c with modelNode := n })
    (hcreate : ∀ d : SystemContainer, d.trailMap = [] → d.trailIndexMap = [] →
      d.trailNode = some [] → d.initialised → I d)
    (htrail : ∀ uas component x y z c, I c → I (updateTrailData uas component x y z c))
    (hsys : ∀ w uas frame b p c, I c → I (updateSystemData w uas frame b p c).2)
    (e : Event) {s : Widget} (hs : ∀ x ∈ s.mSystemContainerMap, I x.2) :
    ∀ x ∈ (step s e).mSystemContainerMap, I x.2 := by
  rcases step_maps_of_other e s with h | ⟨w, uas, rfl⟩ | ⟨uas, component, x, y, z, rfl⟩ |
    ⟨w, rfl⟩ | ⟨systemId, index, rfl⟩ | ⟨w, event, rfl⟩ | ⟨w, event, rfl⟩
  · rw [h.1]
    exact hs
  · show ∀ x ∈ (systemCreated w uas s).mSystemContainerMap, I x.2
    rcases systemCreated_maps w uas s with h | ⟨_, d, q, h1, _, h3, h4, h5, h6⟩
    · rw [h.2]
      exact hs
    · rw [h1]
      exact QMap.forall_mem_insert hs _ (hcreate d h3 h4 h5 h6)
  · show ∀ e ∈ (localPositionChanged uas component x y z s).mSystemContainerMap, I e.2
    rcases (localPositionChanged_maps uas component x y z s).2 with h | h
    · rw [h.2]
      exact hs
    · rw [h.2]
      exact QMap.forall_mem_insert hs _ (htrail _ _ _ _ _ _ (QMap.forall_mem_value hd hs _))
  · exact update_forall_mem hd hsys w hs
  · exact modelChanged_forall_mem hn systemId index hs
  · exact interacted_forall_mem hd ht (mousePressEvent_interacted w event s) hs
  · exact interacted_forall_mem hd ht (mouseMoveEvent_interacted w event s) hs

/-! ## Facts about the trail index -/

theorem SystemContainer.wellIndexed_default : (default : SystemContainer).wellIndexed :=
  ⟨List.Pairwise.nil, fun _ h => by cases h⟩

theorem updateTrailData_of_contains (uas : UAS) (component : Int) (x y z : double)
    {c : SystemContainer} (h : QMap.contains c.trailMap component = true) :
    updateTrailData uas component x y z c =
      { c with
        trailMap := QMap.modify c.trailMap component (fun trail => recordPosition trail x y z) } := by
  unfold updateTrailData
  rw [if_neg (not_not.2 h)]

theorem updateTrailData_of_not_contains (uas : UAS) (component : Int) (x y z : double)
    {c : SystemContainer} (h : ¬ QMap.contains c.trailMap component = true) :
    updateTrailData uas component x y z c =
      { c with
        trailMap := QMap.modify
          (QMap.modify (QMap.insert c.trailMap component QVector.empty) component
            (fun v => v.reserve 10000))
          component (fun trail => recordPosition trail x y z)
        trailIndexMap := QMap.insert c.trailIndexMap component
          ((QMap.size (QMap.modify (QMap.insert c.trailMap component QVector.empty) component
            (fun v => v.reserve 10000)) : Int) - 1)
        trailNode := (c.trailNode.map (fun d => d ++ [Drawable.mk DrawableKind.trail []])).map
          (fun d => d ++ [Drawable.mk (DrawableKind.link uas.getColor) []]) } := by
  unfold updateTrailData
  rw [if_pos h]

theorem updateTrailData_wellIndexed (uas : UAS) (component : Int) (x y z : double)
    {c : SystemContainer} (hc : c.wellIndexed) :
    (updateTrailData uas component x y z c).wellIndexed := by
  obtain ⟨ho, hd⟩ := hc
  by_cases h : QMap.contains c.trailMap component = true
  · rw [updateTrailData_of_contains uas component x y z h]
    refine ⟨QMap.ordered_modify ho _ _, ?_⟩
    intro d hd'
    have := hd d hd'
    refine ⟨?_, this.2⟩
    show 2 * (QMap.modify c.trailMap component _).length ≤ _
    rw [QMap.length_modify_of_contains ho h]
    exact this.1
  · rw [updateTrailData_of_not_contains uas component x y z h]
    have ho1 : QMap.ordered (QMap.insert c.trailMap component (QVector.empty : QVector Vec3d)) :=
      QMap.ordered_insert ho _ _
    have hc1 : QMap.contains (QMap.insert c.trailMap component (QVector.empty : QVector Vec3d))
        component = true := QMap.contains_insert_self _ _ _
    have ho2 : QMap.ordered (QMap.modify (QMap.insert c.trailMap component QVector.empty)
        component (fun v => v.reserve 10000)) := QMap.ordered_modify ho1 _ _
    have hc2 : QMap.contains (QMap.modify (QMap.insert c.trailMap component QVector.empty)
        component (fun v => v.reserve 10000)) component = true := QMap.contains_insert_self _ _ _
    have hl1 : (QMap.insert c.trailMap component (QVector.empty : QVector Vec3d)).length ≤
        c.trailMap.length + 1 := QMap.length_insert_le _ _ _
    have hp1 : 0 < (QMap.insert c.trailMap component (QVector.empty : QVector Vec3d)).length :=
      QMap.length_insert_pos _ _ _
    have hl2 : (QMap.modify (QMap.insert c.trailMap component QVector.empty)
        component (fun v => v.reserve 10000)).length =
        (QMap.insert c.trailMap component (QVector.empty : QVector Vec3d)).length :=
      QMap.length_modify_of_contains ho1 hc1 _
    refine ⟨QMap.ordered_modify ho2 _ _, ?_⟩
    intro d hd'
    simp only at hd'
    cases hn : c.trailNode with
    | none =>
      rw [hn] at hd'
      cases hd'
    | some d0 =>
      rw [hn] at hd'
      simp only [Option.map_some', Option.some.injEq] at hd'
      subst hd'
      have h0 := hd d0 hn
      simp only [List.length_append, List.length_singleton]
      refine ⟨?_, ?_⟩
      · show 2 * (QMap.modify _ component _).length ≤ _
        rw [QMap.length_modify_of_contains ho2 hc2, hl2]
        omega
      · intro e he
        rcases QMap.mem_insert he with h1 | h1
        · rw [h1]
          simp only [QMap.size]
          rw [hl2]
          constructor
          · omega
          · push_cast
            omega
        · have := h0.2 e h1
          push_cast
          omega

theorem updateSystemData_wellIndexed (w : World) (uas : Option UAS) (frame : MAV_FRAME)
    (b : Bool) (p : SystemViewParams) {c : SystemContainer} (hc : c.wellIndexed) :
    (updateSystemData w uas frame b p c).2.wellIndexed := by
  obtain ⟨ho, hd⟩ := hc
  have hr := updateSystemData_result w uas frame b p c
  unfold SystemContainer.wellIndexed
  rw [hr.2.2.2.2.1, hr.2.2.2.2.2.1, hr.2.2.2.1]
  by_cases h : p.displayTrails = true
  · simp only [h, if_true]
    refine ⟨ho, ?_⟩
    intro d hd'
    cases hn : c.trailNode with
    | none =>
      rw [hn] at hd'
      cases hd'
    | some d0 =>
      rw [hn] at hd'
      simp only [Option.map_some', Option.some.injEq] at hd'
      subst hd'
      rw [updateTrails_length]
      exact hd d0 hn
  · simp only [h]
    refine ⟨List.Pairwise.nil, ?_⟩
    intro d hd'
    have := hd d hd'
    refine ⟨by simp, this.2⟩

/-- Every handler keeps the trail index of every container well-formed. -/
theorem step_wellIndexed (e : Event) {s : Widget}
    (hs : ∀ x ∈ s.mSystemContainerMap, x.2.wellIndexed) :
    ∀ x ∈ (step s e).mSystemContainerMap, x.2.wellIndexed :=
  step_forall_mem SystemContainer.wellIndexed_default (fun _ _ h => h) (fun _ _ h => h)
    (fun d h1 h2 h3 _ => by
      refine ⟨by rw [h1]; exact List.Pairwise.nil, ?_⟩
      intro d' hd'
      rw [h3] at hd'
      cases hd'
      rw [h1, h2]
      exact ⟨by simp, fun e he => by cases he⟩)
    (fun uas component x y z _ h => updateTrailData_wellIndexed uas component x y z h)
    (fun w uas frame b p _ h => updateSystemData_wellIndexed w uas frame b p h) e hs

theorem run_wellIndexed (events : List Event) :
    ∀ x ∈ (run init events).mSystemContainerMap, x.2.wellIndexed :=
  foldl_invariant (fun s : Widget => ∀ x ∈ s.mSystemContainerMap, x.2.wellIndexed) step
    (fun _ e h => step_wellIndexed e h) events init (fun _ h => by cases h)

/-! ## Trail index: results -/

/-- C27: In every state reached from the constructed widget through its
handlers (position notifications, ticks, among them ticks that clear the
trails of a vehicle whose trails are hidden, and every other handler), for
every tracked vehicle with a trail node, every value `v` of the trail index
map satisfies `0 ≤ v` and `2 v + 1 <` the number of drawables of the trail
node, so the drawables `2 v` and `2 v + 1` that `updateTrails` writes exist. -/
theorem trail_index_in_range (events : List Event) (c : Int × SystemContainer)
    (hc : c ∈ (run init events).mSystemContainerMap) (drawables : List Drawable)
    (hd : c.2.trailNode = some drawables) (e : Int × Int) (he : e ∈ c.2.trailIndexMap) :
    0 ≤ e.2 ∧ 2 * e.2 + 1 < (drawables.length : Int) ∧
      (∃ d, drawables.get? (e.2 * 2).toNat = some d) ∧
      (∃ d, drawables.get? (e.2 * 2 + 1).toNat = some d) := by
  have h := ((run_wellIndexed events c hc).2 drawables hd).2 e he
  refine ⟨h.1, h.2, ?_, ?_⟩
  · have hlt : (e.2 * 2).toNat < drawables.length := by omega
    exact ⟨_, List.get?_eq_get hlt⟩
  · have hlt : (e.2 * 2 + 1).toNat < drawables.length := by omega
    exact ⟨_, List.get?_eq_get hlt⟩

/-- C28: After a vehicle is created, its components 7 and 8 report a
position, the trails are hidden, a tick runs and component 8 reports again,
the trail index map gives the two components the same value 0: the tick
cleared the trails but neither the trail index map nor the drawables, so the
component that registers again is given the index of the other one. -/
theorem components_share_trail_index :
    (QMap.value (run init demoShareEvents).mSystemContainerMap 3).trailIndexMap =
        [(7, 0), (8, 0)] ∧
      QMap.value (QMap.value (run init demoShareEvents).mSystemContainerMap 3).trailIndexMap 7 =
        QMap.value (QMap.value (run init demoShareEvents).mSystemContainerMap 3).trailIndexMap 8 ∧
      (QMap.value (run init demoShareEvents).mSystemContainerMap 3).trailNode.map List.length =
        some 6 := by
  decide!

/-- C27, at the examples: after the trails were cleared by a tick and
component 8 has registered again, its index 0 names the drawables 0 and 1 of
the six drawables of the trail node. -/
theorem trail_index_in_range_witness :
    (3, QMap.value (run init demoShareEvents).mSystemContainerMap 3) ∈
        (run init demoShareEvents).mSystemContainerMap ∧
      (QMap.value (run init demoShareEvents).mSystemContainerMap 3).trailNode =
        some ((QMap.value (run init demoShareEvents).mSystemContainerMap 3).trailNode.getD []) ∧
      ((8, 0) : Int × Int) ∈
        (QMap.value (run init demoShareEvents).mSystemContainerMap 3).trailIndexMap ∧
      ((0 : Int) ≤ 0 ∧
        2 * (0 : Int) + 1 <
          ((((QMap.value (run init demoShareEvents).mSystemContainerMap 3).trailNode.getD
            []).length : Nat) : Int) ∧
        (∃ d, ((QMap.value (run init demoShareEvents).mSystemContainerMap 3).trailNode.getD
          []).get? ((0 : Int) * 2).toNat = some d) ∧
        (∃ d, ((QMap.value (run init demoShareEvents).mSystemContainerMap 3).trailNode.getD
          []).get? ((0 : Int) * 2 + 1).toNat = some d)) :=
  ⟨by decide!, by decide!, by decide!,
    trail_index_in_range demoShareEvents
      (3, QMap.value (run init demoShareEvents).mSystemContainerMap 3) (by decide!)
      ((QMap.value (run init demoShareEvents).mSystemContainerMap 3).trailNode.getD [])
      (by decide!) (8, 0) (by decide!)⟩

/-! ## Facts about the keys of the two maps -/

theorem QMap.contains_insert_of_contains {V : Type} {m : QMap V} {k : Int}
    (h : QMap.contains m k = true) (v : V) (j : Int) :
    QMap.contains (QMap.insert m k v) j = QMap.contains m j := by
  by_cases hj : j = k
  · rw [hj, QMap.contains_insert_self, h]
  · exact QMap.contains_insert_of_ne m hj v

theorem QMap.contains_insert {V : Type} (m : QMap V) (k : Int) (v : V) (j : Int) :
    QMap.contains (QMap.insert m k v) j = (QMap.contains m j || decide (j = k)) := by
  by_cases hj : j = k
  · rw [hj, QMap.contains_insert_self]
    simp
  · rw [QMap.contains_insert_of_ne m hj v]
    simp [hj]

theorem SystemContainer.initialised_of_nodes {c d : SystemContainer} (hc : c.initialised)
    (h1 : d.localGridNode = c.localGridNode) (h2 : d.pointCloudNode = c.pointCloudNode)
    (h3 : d.targetNode.isSome = c.targetNode.isSome) (h4 : d.trailNode.isSome = c.trailNode.isSome)
    (h5 : d.waypointGroupNode = c.waypointGroupNode) (h6 : d.rgbImageNode = c.rgbImageNode)
    (h7 : d.depthImageNode = c.depthImageNode) : d.initialised := by
  unfold SystemContainer.initialised at hc ⊢
  rw [h1, h2, h3, h4, h5, h6, h7]
  exact hc

theorem updateTrailData_initialised (uas : UAS) (component : Int) (x y z : double)
    {c : SystemContainer} (hc : c.initialised) :
    (updateTrailData uas component x y z c).initialised := by
  by_cases h : QMap.contains c.trailMap component = true
  · rw [updateTrailData_of_contains uas component x y z h]
    exact hc
  · rw [updateTrailData_of_not_contains uas component x y z h]
    refine SystemContainer.initialised_of_nodes hc ?_ ?_ ?_ ?_ ?_ ?_ ?_ <;>
      first | rfl | (cases c.trailNode <;> rfl)

theorem updateSystemData_initialised (w : World) (uas : Option UAS) (frame : MAV_FRAME)
    (b : Bool) (p : SystemViewParams) {c : SystemContainer} (hc : c.initialised) :
    (updateSystemData w uas frame b p c).2.initialised := by
  have hr := updateSystemData_result w uas frame b p c
  apply SystemContainer.initialised_of_nodes hc hr.2.2.2.2.2.2.1 hr.2.2.2.2.2.2.2.2.2.2 ?_ ?_
    hr.2.2.2.2.2.2.2.1 hr.2.2.2.2.2.2.2.2.1 hr.2.2.2.2.2.2.2.2.2.1
  · rw [hr.2.2.1]
    split_ifs
    · cases c.targetNode <;> rfl
    · rfl
  · rw [hr.2.2.2.2.2.1]
    split_ifs
    · cases c.trailNode <;> rfl
    · rfl

theorem keptMaps_refl {c : QMap SystemContainer} (vp : QMap SystemViewParams)
    (hc : ∀ x ∈ c, x.2.initialised) : keptMaps c vp c vp :=
  ⟨fun _ => rfl, fun _ => rfl, hc⟩

/-- The tick adds no key to either map and keeps every container initialised,
when the two maps have the same keys. -/
theorem update_keptMaps (w : World) {s : Widget}
    (hk : ∀ k, QMap.contains s.mSystemContainerMap k = QMap.contains s.mSystemViewParamMap k)
    (hi : ∀ x ∈ s.mSystemContainerMap, x.2.initialised) :
    keptMaps s.mSystemContainerMap s.mSystemViewParamMap
      (update w s).mSystemContainerMap (update w s).mSystemViewParamMap := by
  have key := update_maps_induction w s
    (fun vp c => keptMaps s.mSystemContainerMap s.mSystemViewParamMap c vp) ?_ ?_
    (keptMaps_refl _ hi)
  · exact key
  · intro c k hk' hc
    have h1 : QMap.contains c k = true := by
      rw [hc.1, hk]
      exact QMap.contains_of_mem_keys hk'
    rw [QMap.touch_of_contains h1]
    exact hc
  · intro vp c k hk' hc
    have h1 : QMap.contains c k = true := by
      rw [hc.1, hk]
      exact QMap.contains_of_mem_keys hk'
    have h2 : QMap.contains vp k = true := by
      rw [hc.2.1]
      exact QMap.contains_of_mem_keys hk'
    rw [QMap.touch_of_contains h1]
    refine ⟨fun j => ?_, fun j => ?_, ?_⟩
    · rw [QMap.contains_insert_of_contains h1]
      exact hc.1 j
    · rw [QMap.contains_insert_of_contains h2]
      exact hc.2.1 j
    · exact QMap.forall_mem_insert hc.2.2 k
        (updateSystemData_initialised _ _ _ _ _ (hc.2.2 _ (QMap.mem_value_of_contains h1)))

theorem modelChanged_keptMaps (systemId index : Int) {s : Widget}
    (hi : ∀ x ∈ s.mSystemContainerMap, x.2.initialised) :
    keptMaps s.mSystemContainerMap s.mSystemViewParamMap
      (modelChanged systemId index s).mSystemContainerMap
      (modelChanged systemId index s).mSystemViewParamMap := by
  refine ⟨?_, ?_, modelChanged_forall_mem (fun _ _ h => h) systemId index hi⟩
  · intro j
    unfold modelChanged
    by_cases hc : QMap.contains s.mSystemContainerMap systemId = true
    · rw [if_neg (not_not.2 hc)]
      dsimp only
      split_ifs
      · exact QMap.contains_insert_of_contains hc _ j
      · rfl
    · rw [if_pos hc]
  · intro j
    unfold modelChanged
    dsimp only
    split_ifs <;> rfl

/-- The handlers of the pointer add no key to either map and keep every
container initialised, when the active vehicle is tracked under its id. -/
theorem interacted_keptMaps {w : World} {s t : Widget} (h : interacted w s t)
    (hi : ∀ x ∈ s.mSystemContainerMap, x.2.initialised)
    (ha : ∀ a, s.mActiveUAS = some a →
      QMap.contains s.mSystemContainerMap (w.deref a).uasId = true) :
    keptMaps s.mSystemContainerMap s.mSystemViewParamMap
      t.mSystemContainerMap t.mSystemViewParamMap := by
  have h1 := h.2.2.2.2.2.2.2.2.2.2.1
    (fun m => (∀ j, QMap.contains m j = QMap.contains s.mSystemContainerMap j) ∧
      ∀ x ∈ m, x.2.initialised) ?_ ⟨fun _ => rfl, hi⟩
  have h2 := h.2.2.2.2.2.2.2.2.2.2.2
    (fun m => ∀ j, QMap.contains m j = QMap.contains s.mSystemViewParamMap j) ?_ (fun _ => rfl)
  · exact ⟨h1.1, h2, h1.2⟩
  · intro a haa m hm hc j
    unfold QMap.modify
    rw [QMap.contains_insert_of_contains hc]
    exact hm j
  · intro a haa m m' hm he
    have hc : QMap.contains m (w.deref a).uasId = true := by
      rw [hm.1]
      exact ha a haa
    cases he with
    | touch =>
      rw [QMap.touch_of_contains hc]
      exact hm
    | target t =>
      refine ⟨fun j => ?_, ?_⟩
      · rw [QMap.contains_insert_of_contains hc]
        exact hm.1 j
      · exact QMap.forall_mem_insert hm.2 _ (hm.2 _ (QMap.mem_value_of_contains hc))

/-- An admissible event other than `systemCreated` adds no key to either map
and keeps every container initialised. -/
theorem step_keptMaps (e : Event) {s : Widget} (hs : s.consistent) (ha : e.admissible s)
    (he : ∀ w uas, e ≠ Event.systemCreated w uas) :
    keptMaps s.mSystemContainerMap s.mSystemViewParamMap
      (step s e).mSystemContainerMap (step s e).mSystemViewParamMap := by
  have hact : ∀ w : World, (∀ a, s.mActiveUAS = some a → (w.deref a).uasId = s.mActiveSystemId) →
      ∀ a, s.mActiveUAS = some a →
        QMap.contains s.mSystemContainerMap (w.deref a).uasId = true := by
    intro w hw a haa
    rw [hw a haa]
    exact hs.2.2 a haa
  rcases step_maps_of_other e s with h | ⟨w, uas, rfl⟩ | ⟨uas, component, x, y, z, rfl⟩ |
    ⟨w, rfl⟩ | ⟨systemId, index, rfl⟩ | ⟨w, event, rfl⟩ | ⟨w, event, rfl⟩
  · rw [h.1]
    refine ⟨fun _ => rfl, ?_, hs.2.1⟩
    rcases h.2 with h2 | ⟨k, p, hk, h2⟩
    · rw [h2]
      exact fun _ => rfl
    · rw [h2]
      intro j
      unfold QMap.modify
      exact QMap.contains_insert_of_contains hk _ j
  · exact absurd rfl (he w uas)
  · have h := localPositionChanged_maps uas component x y z s
    show keptMaps _ _ (localPositionChanged uas component x y z s).mSystemContainerMap
      (localPositionChanged uas component x y z s).mSystemViewParamMap
    rw [h.1]
    rcases h.2 with h2 | h2
    · rw [h2.2]
      exact keptMaps_refl _ hs.2.1
    · rw [h2.2]
      refine ⟨fun j => QMap.contains_insert_of_contains h2.1 _ j, fun _ => rfl, ?_⟩
      exact QMap.forall_mem_insert hs.2.1 _
        (updateTrailData_initialised _ _ _ _ _ (hs.2.1 _ (QMap.mem_value_of_contains h2.1)))
  · exact update_keptMaps w hs.1 hs.2.1
  · exact modelChanged_keptMaps systemId index hs.2.1
  · exact interacted_keptMaps (mousePressEvent_interacted w event s) hs.2.1 (hact w ha)
  · exact interacted_keptMaps (mouseMoveEvent_interacted w event s) hs.2.1 (hact w ha)

/-- An admissible event keeps the state consistent, and the keys of the
container map after it are the keys before it and, for `systemCreated`, the id
of the vehicle created. -/
theorem step_consistent (e : Event) {s : Widget} (hs : s.consistent) (ha : e.admissible s) :
    (step s e).consistent ∧
      ∀ k, QMap.contains (step s e).mSystemContainerMap k =
        (QMap.contains s.mSystemContainerMap k || decide (k ∈ createdIds [e])) := by
  by_cases he : ∃ w uas, e = Event.systemCreated w uas
  · obtain ⟨w, uas, rfl⟩ := he
    show (systemCreated w uas s).consistent ∧
      ∀ k, QMap.contains (systemCreated w uas s).mSystemContainerMap k = _
    have hids : ∀ k, decide (k ∈ createdIds [Event.systemCreated w uas]) = decide (k = uas.uasId) := by
      intro k
      simp [createdIds]
    rcases systemCreated_maps w uas s with h | ⟨hn, d, q, h1, h2, _, _, _, h6⟩
    · rw [h.2]
      refine ⟨hs, fun k => ?_⟩
      rw [hids]
      by_cases hk : k = uas.uasId
      · rw [hk, h.1]
        simp
      · simp [hk]
    · refine ⟨⟨fun k => ?_, ?_, ?_⟩, fun k => ?_⟩
      · rw [h1, h2, QMap.contains_insert, QMap.contains_insert, hs.1]
      · rw [h1]
        exact QMap.forall_mem_insert hs.2.1 _ h6
      · intro a haa
        have hc := step_controls (Event.systemCreated w uas) s
        rcases hc with hc | ⟨_, _, hc⟩ | ⟨_, _, hc⟩ | ⟨_, _, hc⟩
        · have hc1 : (systemCreated w uas s).mActiveUAS = s.mActiveUAS := hc.2.1
          have hc2 : (systemCreated w uas s).mActiveSystemId = s.mActiveSystemId := hc.2.2
          rw [hc2, h1, QMap.contains_insert, hs.2.2 a (hc1 ▸ haa)]
          rfl
        · cases hc
        · cases hc
        · cases hc
      · rw [h1, QMap.contains_insert, hids]
  · have he' : ∀ w uas, e ≠ Event.systemCreated w uas := fun w uas h => he ⟨w, uas, h⟩
    have hk := step_keptMaps e hs ha he'
    have hids : ∀ k, decide (k ∈ createdIds [e]) = false := by
      intro k
      cases e <;> first | exact absurd rfl (he' _ _) | simp [createdIds]
    refine ⟨⟨fun k => ?_, hk.2.2, ?_⟩, fun k => ?_⟩
    · rw [hk.1, hk.2.1]
      exact hs.1 k
    · intro a haa
      rw [hk.1]
      rcases step_controls e s with hc | ⟨w, uas, rfl⟩ | ⟨w, event, rfl⟩ | ⟨w, event, rfl⟩
      · rw [hc.2.2]
        rw [hc.2.1] at haa
        exact hs.2.2 a haa
      · exact ha
      · have hi := interacted_active (mousePressEvent_interacted w event s)
        have haa' : s.mActiveUAS = some a := hi.1 ▸ haa
        show QMap.contains s.mSystemContainerMap (mousePressEvent w event s).mActiveSystemId = true
        rw [hi.2]
        exact hs.2.2 a haa'
      · have hi := interacted_active (mouseMoveEvent_interacted w event s)
        have haa' : s.mActiveUAS = some a := hi.1 ▸ haa
        show QMap.contains s.mSystemContainerMap (mouseMoveEvent w event s).mActiveSystemId = true
        rw [hi.2]
        exact hs.2.2 a haa'
    · rw [hk.1, hids]
      simp

theorem createdIds_cons (e : Event) (rest : List Event) :
    createdIds (e :: rest) = createdIds [e] ++ createdIds rest := by
  cases e <;> rfl

theorem run_consistent (events : List Event) :
    ∀ s : Widget, s.consistent → admissibleRun s events →
      (run s events).consistent ∧
        ∀ k, QMap.contains (run s events).mSystemContainerMap k =
          (QMap.contains s.mSystemContainerMap k || decide (k ∈ createdIds events)) := by
  induction events with
  | nil =>
    intro s hs _
    refine ⟨hs, fun k => ?_⟩
    simp [run, createdIds]
  | cons e rest ih =>
    intro s hs ha
    have h1 := step_consistent e hs ha.1
    have h2 := ih (step s e) h1.1 ha.2
    refine ⟨h2.1, fun k => ?_⟩
    have : run s (e :: rest) = run (step s e) rest := rfl
    rw [this, h2.2, h1.2, createdIds_cons e rest]
    simp only [List.mem_append, Bool.decide_or, Bool.or_assoc]

theorem init_consistent : init.consistent := by
  refine ⟨fun _ => rfl, ?_, ?_⟩
  · intro x hx
    simp [init] at hx
  · intro a ha
    simp [init] at ha

/-! ## Tracked vehicles: results -/

/-- When `activeSystemChanged` is received only for a vehicle that
`systemCreated` has announced, and the active vehicle has the id it was
announced with whenever a handler of the pointer asks for it, then in every
state reached from the constructed widget the container map and the view
parameter map have the same keys, every container is initialised, and the
keys of the container map are exactly the ids `systemCreated` was called
with: no other handler adds an entry. -/
theorem tracked_vehicles_created_and_initialised (events : List Event)
    (h : admissibleRun init events) :
    (∀ k, QMap.contains (run init events).mSystemContainerMap k =
      QMap.contains (run init events).mSystemViewParamMap k) ∧
    (∀ x ∈ (run init events).mSystemContainerMap, x.2.initialised) ∧
    (∀ k, QMap.contains (run init events).mSystemContainerMap k = true ↔
      k ∈ createdIds events) := by
  have key := run_consistent events init init_consistent h
  refine ⟨key.1.1, key.1.2.1, fun k => ?_⟩
  rw [key.2 k]
  simp [init, QMap.contains, QMap.find?]

/-- At the examples: the vehicle is created before it becomes the active
one; after the shift-click the two maps have the same keys, the
container is initialised and its id is the one `systemCreated` was called
with. -/
theorem tracked_vehicles_created_and_initialised_witness :
    admissibleRun init demoSelectEvents ∧
    (∀ k, QMap.contains (run init demoSelectEvents).mSystemContainerMap k =
      QMap.contains (run init demoSelectEvents).mSystemViewParamMap k) ∧
    (∀ x ∈ (run init demoSelectEvents).mSystemContainerMap, x.2.initialised) ∧
    (∀ k, QMap.contains (run init demoSelectEvents).mSystemContainerMap k = true ↔
      k ∈ createdIds demoSelectEvents) :=
  have h : admissibleRun init demoSelectEvents :=
    ⟨trivial,
      (by decide! : QMap.contains
        (step init (Event.systemCreated demoWorldPointer demoUAS)).mSystemContainerMap
        (demoWorldPointer.deref 0).uasId = true),
      fun _ _ => rfl, trivial⟩
  ⟨h, tracked_vehicles_created_and_initialised demoSelectEvents h⟩

/-- C29: a vehicle that was never created becomes the active one and a
shift-click follows: `findWaypoint` looks the id of the active vehicle up with
`operator[]`, so the container map gets a key the view parameter map does not
have, with a container that `initializeSystem` never saw (its trail node is
null), although `systemCreated` was not called.  `selectTarget`,
`selectTargetHeading` and `setTarget` do the same when they run for that
active vehicle.  A later `systemCreated` for the vehicle finds the id in the
container map and returns at once: the vehicle is never initialised and gets
no view parameters. -/
theorem untracked_active_vehicle_gets_container :
    QMap.contains (run init demoUntrackedEvents).mSystemContainerMap 3 = true ∧
      QMap.contains (run init demoUntrackedEvents).mSystemViewParamMap 3 = false ∧
      (QMap.value (run init demoUntrackedEvents).mSystemContainerMap 3).trailNode = none ∧
      createdIds demoUntrackedEvents = [] ∧
      QMap.contains (activeSystemChanged demoWorldPointer 0 init).mSystemContainerMap 3
        = false ∧
      QMap.contains (findWaypoint demoWorldPointer ⟨0, 0⟩
        (activeSystemChanged demoWorldPointer 0 init)).1.mSystemContainerMap 3 = true ∧
      QMap.contains (selectTarget demoWorldPointer
        (activeSystemChanged demoWorldPointer 0 init)).mSystemContainerMap 3 = true ∧
      QMap.contains (selectTarget demoWorldPointer
        (activeSystemChanged demoWorldPointer 0 init)).mSystemViewParamMap 3 = false ∧
      QMap.contains (selectTargetHeading demoWorldPointer
        (activeSystemChanged demoWorldPointer 0 init)).mSystemContainerMap 3 = true ∧
      QMap.contains (selectTargetHeading demoWorldPointer
        (activeSystemChanged demoWorldPointer 0 init)).mSystemViewParamMap 3 = false ∧
      QMap.contains (setTarget demoWorldPointer
        (activeSystemChanged demoWorldPointer 0 init)).mSystemContainerMap 3 = true ∧
      QMap.contains (setTarget demoWorldPointer
        (activeSystemChanged demoWorldPointer 0 init)).mSystemViewParamMap 3 = false ∧
      systemCreated demoWorldPointer demoUAS (run init demoUntrackedEvents)
        = run init demoUntrackedEvents := by
  refine ⟨by decide!, by decide!, by decide!, by decide!, by decide!, by decide!, by decide!,
    by decide!, by decide!, by decide!, by decide!, by decide!, by decide!⟩

/-! ## Target marker: results -/

theorem updateTarget_idem (x y z : double) (t : QVector4D) (n : TargetNode) :
    updateTarget x y z t (updateTarget x y z t n) = updateTarget x y z t n := rfl

theorem toDouble_tenth : toDouble (1 / 10) = 3602879701896397 / 36028797018963968 := by
  decide!

theorem toDouble_three_tenths : toDouble (3 / 10) = 5404319552844595 / 18014398509481984 := by
  decide!

theorem toDouble_two_tenths : toDouble (2 / 10) = 3602879701896397 / 18014398509481984 := by
  decide!

/-- Below `2^51` a `double` is within `1/8` of the number it was rounded from. -/
theorem toDouble_ge (x : ℚ) (h0 : 0 ≤ x) (h : x < 2 ^ 51) : x - 1 / 8 ≤ toDouble x := by
  have hx : |x| < pow2 (50 + 1) := by
    rw [abs_of_nonneg h0, pow2_eq_zpow]
    norm_num
    exact h
  have := roundBinary_sub_le 53 (-1022) x 50 hx (by norm_num)
  have hp : pow2 (50 - (((53 : Nat) : Int) - 1)) = 1 / 4 := by
    rw [pow2_eq_zpow]
    norm_num
  rw [hp, abs_le] at this
  unfold toDouble
  linarith [this.1]

/-- As long as the loop of the link runs, below `2^50`, every round adds at
least `1/8` to `i`. -/
theorem linkAccumulated_ge (B : double) (hB : B ≤ 2 ^ 50) :
    ∀ k : Nat, (∀ j, j < k → linkAccumulated j < B) →
      toDouble (1 / 10) + (k : ℚ) / 8 ≤ linkAccumulated k := by
  intro k
  induction k with
  | zero =>
    intro _
    simp [linkAccumulated]
  | succ n ih =>
    intro h
    have h1 := ih (fun j hj => h j (by omega))
    have h2 := h n (by omega)
    have hpos : (0 : ℚ) < toDouble (1 / 10) := by
      rw [toDouble_tenth]
      norm_num
    have hn : (0 : ℚ) ≤ (n : ℚ) / 8 := by positivity
    have h3 : (0 : ℚ) ≤ linkAccumulated n + toDouble (3 / 10) := by
      rw [toDouble_three_tenths]
      linarith
    have h4 : linkAccumulated n + toDouble (3 / 10) < 2 ^ 51 := by
      rw [toDouble_three_tenths]
      have : (2 : ℚ) ^ 51 = 2 ^ 50 + 2 ^ 50 := by norm_num
      have h50 : (1 : ℚ) ≤ 2 ^ 50 := by norm_num
      simp only [double] at h2 hB
      linarith
    have h5 := toDouble_ge _ h3 h4
    show toDouble (1 / 10) + ((n + 1 : Nat) : ℚ) / 8 ≤
      dadd (linkAccumulated n) (toDouble (3 / 10))
    unfold dadd
    rw [toDouble_three_tenths] at h5 ⊢
    push_cast
    linarith

/-- The loop of the link stops within `linkFuel` rounds. -/
theorem linkAccumulated_stops (L : double) (hB : dsub L (toDouble (1 / 10)) ≤ 2 ^ 50) :
    ∃ n, n ≤ linkFuel L ∧ (∀ k, k < n → linkAccumulated k < dsub L (toDouble (1 / 10))) ∧
      ¬ linkAccumulated n < dsub L (toDouble (1 / 10)) := by
  have hex : ∃ n, ¬ linkAccumulated n < dsub L (toDouble (1 / 10)) ∧ n ≤ linkFuel L := by
    by_contra hc
    push_neg at hc
    have hall : ∀ k, k ≤ linkFuel L → linkAccumulated k < dsub L (toDouble (1 / 10)) := by
      intro k hk
      by_contra hk2
      exact absurd hk (not_le.2 (hc k (not_lt.1 hk2)))
    have h1 := linkAccumulated_ge _ hB (linkFuel L) (fun j hj => hall j (le_of_lt hj))
    have h2 := hall (linkFuel L) (le_refl _)
    have hpos : (0 : ℚ) < toDouble (1 / 10) := by
      rw [toDouble_tenth]
      norm_num
    have h3 : 8 * dsub L (toDouble (1 / 10)) < (linkFuel L : ℚ) := by
      unfold linkFuel
      have hc1 := Int.le_ceil (8 * dsub L (toDouble (1 / 10)))
      have hc2 : (⌈8 * dsub L (toDouble (1 / 10))⌉ : Int) ≤
          ((⌈8 * dsub L (toDouble (1 / 10))⌉.toNat : Nat) : Int) := Int.self_le_toNat _
      have hc3 : ((⌈8 * dsub L (toDouble (1 / 10))⌉ : Int) : ℚ) ≤
          ((⌈8 * dsub L (toDouble (1 / 10))⌉.toNat : Nat) : ℚ) := by exact_mod_cast hc2
      push_cast
      linarith
    simp only [double] at h1 h2 h3
    linarith
  classical
  refine ⟨Nat.find hex, (Nat.find_spec hex).2, ?_, (Nat.find_spec hex).1⟩
  intro k hk
  by_contra hk2
  exact Nat.find_min hex hk ⟨hk2, le_trans (le_of_lt hk) (Nat.find_spec hex).2⟩

/-- With enough rounds, the loop of the link entered at its round `j` yields
the samples of the rounds `j` to `n - 1`, where `n` is the first round whose
value of `i` is not below the bound. -/
theorem linkLoop_eq (u : QVector3D) (L : double) (n : Nat)
    (hlt : ∀ k, k < n → linkAccumulated k < dsub L (toDouble (1 / 10)))
    (hn : ¬ linkAccumulated n < dsub L (toDouble (1 / 10))) :
    ∀ (fuel j : Nat), j ≤ n → n ≤ j + fuel →
      linkLoop u L fuel (linkAccumulated j) =
        (List.range' j (n - j)).map (fun (k : Nat) => linkSample u (linkAccumulated k)) := by
  intro fuel
  induction fuel with
  | zero =>
    intro j hj1 hj2
    have : n - j = 0 := by omega
    rw [this]
    rfl
  | succ f ih =>
    intro j hj1 hj2
    unfold linkLoop
    by_cases h : j < n
    · rw [if_pos (hlt j h)]
      have hsplit : n - j = (n - (j + 1)) + 1 := by omega
      rw [hsplit, List.range'_succ, List.map_cons]
      dsimp only
      have := ih (j + 1) (by omega) (by omega)
      rw [← this]
      rfl
    · have hjn : j = n := by omega
      subst hjn
      rw [if_neg hn, Nat.sub_self]
      rfl

theorem linkLoop_eq_range (u : QVector3D) (L : double) (n : Nat)
    (hlt : ∀ k, k < n → linkAccumulated k < dsub L (toDouble (1 / 10)))
    (hn : ¬ linkAccumulated n < dsub L (toDouble (1 / 10))) (fuel : Nat) (hf : n ≤ fuel) :
    linkLoop u L fuel (toDouble (1 / 10)) =
      (List.range n).map (fun (k : Nat) => linkSample u (linkAccumulated k)) := by
  have := linkLoop_eq u L n hlt hn fuel 0 (Nat.zero_le _) (by omega)
  rw [Nat.sub_zero, ← List.range_eq_range'] at this
  exact this

/-- A length of at most `0.2` leaves no room for a sample: `length - 0.1` is
not above `0.1`. -/
theorem link_bound_of_le (L : double) (h : L ≤ toDouble (2 / 10)) :
    ¬ toDouble (1 / 10) < dsub L (toDouble (1 / 10)) := by
  have hx : L - toDouble (1 / 10) ≤ ((7205759403792794 : Int) : ℚ) * pow2 (-56) := by
    rw [toDouble_two_tenths] at h
    rw [toDouble_tenth, pow2_eq_zpow]
    norm_num
    simp only [double] at h
    linarith
  have hlt : L - toDouble (1 / 10) < pow2 (-56 + ((53 : Nat) : Int)) := by
    rw [toDouble_two_tenths] at h
    rw [toDouble_tenth, pow2_eq_zpow]
    norm_num
    simp only [double] at h
    linarith
  have := roundBinary_le 53 (-1022) _ 7205759403792794 (-56) hx (by norm_num) hlt (by norm_num)
  have hc : ((7205759403792794 : Int) : ℚ) * pow2 (-56) = toDouble (1 / 10) := by
    rw [toDouble_tenth, pow2_eq_zpow]
    norm_num
  rw [hc] at this
  exact not_lt.2 this

theorem even_after_dropLast {α : Type} (l : List α) :
    (if l.length % 2 = 1 then l.dropLast else l).length % 2 = 0 := by
  split_ifs with h
  · rw [List.length_dropLast]
    omega
  · omega

/-! ## Trail geometry: results -/

/-- C21 as stated fails: with the vehicle at the origin and the most recent
trail point at (3.5, 0, 0) the offset has the length 3.5 and the direction
(1, 0, 0).  Of the distances 0.1, 0.4, 0.7, ... eleven are less than 3.4, so
the link of the claim has ten vertices.  The loop of the code adds 0.3 to a
`double` eleven times and reaches 3.3999999999999995, which is less than
3.4: it runs a twelfth round, and the link has twelve vertices, the last one
at the single-precision 3.4. -/
theorem link_has_twelve_vertices :
    QVector3D.ofDoubles (dsub (7 / 2) 0) (dsub 0 0) (dsub 0 0) = ⟨7 / 2, 0, 0⟩ ∧
      (⟨7 / 2, 0, 0⟩ : QVector3D).length = 7 / 2 ∧
      (⟨7 / 2, 0, 0⟩ : QVector3D).normalize = ⟨1, 0, 0⟩ ∧
      (linkDistances (7 / 2)).length = 11 ∧
      linkAccumulated 11 = 3828059683264921 / 1125899906842624 ∧
      dsub (7 / 2) (toDouble (1 / 10)) = 7656119366529843 / 2251799813685248 ∧
      linkAccumulated 11 < dsub (7 / 2) (toDouble (1 / 10)) ∧
      (linkVertices 0 0 0 ⟨[⟨7 / 2, 0, 0⟩], 10000⟩).length = 12 ∧
      (linkVertices 0 0 0 ⟨[⟨7 / 2, 0, 0⟩], 10000⟩).getLast? =
        some ⟨0, 7130317 / 2097152, 0⟩ := by
  refine ⟨by decide!, by decide!, by decide!, ?_, by decide!, by decide!, by decide!,
    by decide!, by decide!⟩
  unfold linkDistances
  rw [List.length_map, List.length_range]
  have : ⌈((7 / 2 : double) - 2 / 10) / (3 / 10)⌉ = 11 := by
    rw [Int.ceil_eq_iff]
    simp only [double]
    norm_num
  rw [this]
  rfl

/-- C21, amended: the link `updateTrails` rebuilds for a trail and a vehicle
position has an even number of vertices, and an empty trail gives none.  With
`d` the offset from the vehicle to the most recent trail point, subtracted in
`double` and kept in single precision, `L` the root, taken in `double`, of
its sum of squares formed in single precision, and `u` the vector `d` with
each coordinate divided in `double` by the root of the sum of squares formed
in `double` and narrowed to single precision (`d` itself when that sum is
within `1e-12` of one or of zero): the loop counter takes the values
`0.1, 0.1 + 0.3, (0.1 + 0.3) + 0.3, ...`, each sum rounded to `double`; when
`L - 0.1`, rounded to `double`, is at most `2^50`, there is a first round `n`
whose value is not below it, the loop yields the samples `(v.y, v.x, -v.z)`
for `v = u * i`, multiplied in `double` and narrowed to single precision, of
exactly the rounds before `n` (more rounds of the model yield no more), and
the link is these samples without the last one when `n` is odd; `L ≤ 0.2`
gives no vertex.  After `updateTrails` the link drawable of an entry of the
trail index map holds the link of its trail, when no later entry has the
same index. -/
theorem link_samples_even (rx ry rz : double) (trail : QVector Vec3d) :
    (linkVertices rx ry rz trail).length % 2 = 0 ∧
    (trail.back? = none → linkVertices rx ry rz trail = []) ∧
    (∀ back, trail.back? = some back →
      ∀ (d : QVector3D),
        d = ⟨toFloat (dsub back.x rx), toFloat (dsub back.y ry), toFloat (dsub back.z rz)⟩ →
      ∀ (L : double),
        L = dsqrt (fadd (fadd (fmul d.x d.x) (fmul d.y d.y)) (fmul d.z d.z)) →
      ∀ (len : double), len = dadd (dadd (dmul d.x d.x) (dmul d.y d.y)) (dmul d.z d.z) →
      ∀ (u : QVector3D),
        u = (if fabs (dsub len 1) ≤ toDouble (1 / 1000000000000) ∨
              fabs len ≤ toDouble (1 / 1000000000000) then d
            else ⟨toFloat (ddiv d.x (dsqrt len)), toFloat (ddiv d.y (dsqrt len)),
              toFloat (ddiv d.z (dsqrt len))⟩) →
        (dsub L (toDouble (1 / 10)) ≤ 2 ^ 50 →
          ∃ n : Nat,
            (∀ k, k < n → linkAccumulated k < dsub L (toDouble (1 / 10))) ∧
            ¬ linkAccumulated n < dsub L (toDouble (1 / 10)) ∧
            (∀ fuel, linkFuel L ≤ fuel →
              linkLoop u L fuel (toDouble (1 / 10)) =
                (List.range n).map (fun (k : Nat) => linkSample u (linkAccumulated k))) ∧
            linkVertices rx ry rz trail =
              (if n % 2 = 1 then
                ((List.range n).map (fun (k : Nat) => linkSample u (linkAccumulated k))).dropLast
              else (List.range n).map (fun (k : Nat) => linkSample u (linkAccumulated k)))) ∧
        (∀ i, linkSample u i =
          ⟨toFloat (toFloat (dmul u.y i)), toFloat (toFloat (dmul u.x i)),
            toFloat (-toFloat (dmul u.z i))⟩) ∧
        (L ≤ toDouble (2 / 10) → linkVertices rx ry rz trail = [])) ∧
    (∀ (trailNode : List Drawable) (trailMap : QMap (QVector Vec3d)) (pre post : QMap Int)
        (e : Int × Int),
      (∀ e' ∈ pre ++ e :: post, 0 ≤ e'.2 ∧ 2 * e'.2 + 1 < (trailNode.length : Int)) →
      QMap.value trailMap e.1 = trail →
      ((updateTrails rx ry rz trailNode trailMap (pre ++ [e])).get?
            (e.2 * 2 + 1).toNat).map Drawable.vertices =
          some (linkVertices rx ry rz trail) ∧
        ((∀ e' ∈ post, e'.2 ≠ e.2) →
          ((updateTrails rx ry rz trailNode trailMap (pre ++ e :: post)).get?
              (e.2 * 2 + 1).toNat).map Drawable.vertices =
            some (linkVertices rx ry rz trail))) := by
  refine ⟨?_, ?_, ?_, ?_⟩
  · unfold linkVertices
    exact even_after_dropLast _
  · intro h
    unfold linkVertices
    rw [h]
    rfl
  · intro back hb d hd L hL len hlen u hu
    have hd' : d = QVector3D.ofDoubles (dsub back.x rx) (dsub back.y ry) (dsub back.z rz) := hd
    have hL' : L = d.length := hL
    have hu' : u = d.normalize := by
      rw [hu, hlen]
      unfold QVector3D.normalize qFuzzyIsNull
      simp only [decide_eq_true_eq]
    have hv : linkVertices rx ry rz trail =
        (if (linkLoop u L (linkFuel L) (toDouble (1 / 10))).length % 2 = 1 then
          (linkLoop u L (linkFuel L) (toDouble (1 / 10))).dropLast
        else linkLoop u L (linkFuel L) (toDouble (1 / 10))) := by
      unfold linkVertices
      rw [hb]
      dsimp only
      rw [← hd', ← hL', ← hu']
    refine ⟨?_, fun _ => rfl, ?_⟩
    · intro hB
      obtain ⟨n, hn, hlt, hstop⟩ := linkAccumulated_stops L hB
      have hloop := linkLoop_eq_range u L n hlt hstop
      refine ⟨n, hlt, hstop, fun fuel hf => hloop fuel (le_trans hn hf), ?_⟩
      rw [hv, hloop _ hn, List.length_map, List.length_range]
    · intro hle
      rw [hv]
      have h0 : linkLoop u L (linkFuel L) (toDouble (1 / 10)) = [] := by
        unfold linkFuel linkLoop
        rw [if_neg (link_bound_of_le L hle)]
      rw [h0]
      rfl
  · intro trailNode trailMap pre post e hr ht
    have hre := hr e (by simp)
    rw [← ht]
    constructor
    · exact (updateTrails_get?_last rx ry rz trailMap pre [] e trailNode hre
        (fun _ h => by cases h)).2
    · intro hp
      exact (updateTrails_get?_last rx ry rz trailMap pre post e trailNode hre hp).2

/-- C22 as stated fails: with the vehicle at the origin, the stored point
with y equal to the `double` 0.1 is given the vertex with x equal to the
single-precision 0.1, `13421773 / 134217728`, which is not `p.y - ry`; and
the stored point with y equal to 16777217 is given the vertex with x equal to
16777216. -/
theorem trail_vertex_single_precision :
    trailVertices 0 0 0 ⟨[⟨0, toDouble (1 / 10), 0⟩, ⟨0, 16777217, 0⟩], 10000⟩ =
        [⟨13421773 / 134217728, 0, 0⟩, ⟨16777216, 0, 0⟩] ∧
      (13421773 / 134217728 : double) ≠ toDouble (1 / 10) - 0 ∧
      (16777216 : double) ≠ 16777217 - 0 := by
  refine ⟨by decide!, by decide!, by decide!⟩

/-- C22, amended: the vertices `updateTrails` builds for the trail line
strip of a stored trail and a vehicle position `(rx, ry, rz)`: one vertex for
each stored point, in the stored order, the vertex of the point `p` being
`(p.y - ry, p.x - rx, -(p.z - rz))` with each difference taken in `double` and
the coordinate narrowed to single precision; a stored point equal to the
position of the vehicle gives the vertex at the origin.  The round of
`updateTrails` for an entry of the trail index map puts these vertices in the
trail drawable of the entry, and they are what the drawable holds after
`updateTrails` when no later entry of the map has the same index. -/
theorem trail_vertices_relative_to_vehicle (rx ry rz : double) (trail : QVector Vec3d) :
    (trailVertices rx ry rz trail).length = trail.elems.length ∧
    (∀ i p, trail.elems.get? i = some p →
      (trailVertices rx ry rz trail).get? i =
        some ⟨toFloat (dsub p.y ry), toFloat (dsub p.x rx), toFloat (-(dsub p.z rz))⟩) ∧
    (∀ i, trail.elems.get? i = some ⟨rx, ry, rz⟩ →
      (trailVertices rx ry rz trail).get? i = some ⟨0, 0, 0⟩) ∧
    (∀ (trailNode : List Drawable) (trailMap : QMap (QVector Vec3d)) (pre post : QMap Int)
        (e : Int × Int),
      (∀ e' ∈ pre ++ e :: post, 0 ≤ e'.2 ∧ 2 * e'.2 + 1 < (trailNode.length : Int)) →
      QMap.value trailMap e.1 = trail →
      ((updateTrails rx ry rz trailNode trailMap (pre ++ [e])).get?
            (e.2 * 2).toNat).map Drawable.vertices =
          some (trailVertices rx ry rz trail) ∧
        ((∀ e' ∈ post, e'.2 ≠ e.2) →
          ((updateTrails rx ry rz trailNode trailMap (pre ++ e :: post)).get?
              (e.2 * 2).toNat).map Drawable.vertices =
            some (trailVertices rx ry rz trail))) := by
  refine ⟨?_, ?_, ?_, ?_⟩
  · unfold trailVertices
    rw [List.length_map]
  · intro i p hi
    unfold trailVertices
    simp only [List.get?_eq_getElem?] at hi ⊢
    rw [List.getElem?_map, hi]
    rfl
  · intro i hi
    unfold trailVertices
    simp only [List.get?_eq_getElem?] at hi ⊢
    rw [List.getElem?_map, hi]
    simp only [Option.map_some', dsub_self, neg_zero, Vec3d.toVec3f, toFloat_zero]
  · intro trailNode trailMap pre post e hr ht
    have hre := hr e (by simp)
    rw [← ht]
    constructor
    · exact (updateTrails_get?_last rx ry rz trailMap pre [] e trailNode hre
        (fun _ h => by cases h)).1
    · intro hp
      exact (updateTrails_get?_last rx ry rz trailMap pre post e trailNode hre hp).1

/-- At the examples: with the vehicle at (1, 2, -5) and the stored trail
(1, 2, -5), (3, 5, 0) of component 7 at index 0, `updateTrails` leaves in the
trail drawable one vertex for each point, the first one at the origin, and in
the link drawable an even number of vertices: the offset (2, 3, 5) has the
length 6.16, and the twenty values 0.1, 0.4, ... up to 5.8 are below 6.06. -/
theorem updateTrails_at_examples :
    ((updateTrails 1 2 (-5)
        [⟨DrawableKind.trail, []⟩, ⟨DrawableKind.link ⟨0, 0, 0⟩, []⟩]
        [(7, ⟨[⟨1, 2, -5⟩, ⟨3, 5, 0⟩], 10000⟩)] [(7, 0)]).map Drawable.vertices).head? =
      some [⟨0, 0, 0⟩, ⟨3, 2, -5⟩] ∧
    ((updateTrails 1 2 (-5)
        [⟨DrawableKind.trail, []⟩, ⟨DrawableKind.link ⟨0, 0, 0⟩, []⟩]
        [(7, ⟨[⟨1, 2, -5⟩, ⟨3, 5, 0⟩], 10000⟩)] [(7, 0)]).map
          (fun d => d.vertices.length)) = [2, 20] := by
  decide!

/-- At the examples: when the components 7 and 8 have the same index 0, as
after the re-registration of component 8, the round of component 7 puts its
vertex in the trail drawable and the round of component 8 replaces it. -/
theorem updateTrails_shared_index :
    ((updateTrails 0 0 0 [⟨DrawableKind.trail, []⟩, ⟨DrawableKind.link ⟨0, 0, 0⟩, []⟩]
        [(7, ⟨[⟨1, 0, 0⟩], 10000⟩), (8, ⟨[⟨2, 0, 0⟩], 10000⟩)] [(7, 0)]).map
          Drawable.vertices).head? = some [⟨0, 1, 0⟩] ∧
    ((updateTrails 0 0 0 [⟨DrawableKind.trail, []⟩, ⟨DrawableKind.link ⟨0, 0, 0⟩, []⟩]
        [(7, ⟨[⟨1, 0, 0⟩], 10000⟩), (8, ⟨[⟨2, 0, 0⟩], 10000⟩)] [(7, 0), (8, 0)]).map
          Drawable.vertices).head? = some [⟨0, 2, 0⟩] := by
  decide!

end Pixhawk3DWidget
